import Mathlib

/-!
# Leon: the annotation reader and the type, enum, class and function registries

A shallow embedding of `Source/Parse.h` and `Source/Parse.cpp`, and of
`ConstructLuaAttributes` of `Source/Process.cpp`, followed by the properties
proved of it.

* A `std::string` is the list of its `char`s (`CppString`).
* A `std::istream` over a string is the list of the characters not yet read
  (`IStream`).  Once the underlying buffer is exhausted every later `get` or
  `peek` reports end of file, whether the stream is still `good()` or already
  carries `eofbit`/`failbit`; the unread characters are therefore the whole
  state that the code can observe.
* `int` results of `get`/`peek` are `Option Char` (`none` is `EOF`); a byte
  computed by the code is reduced modulo 256 when it is stored in a `char`.
* A thrown `std::runtime_error` is `Except.error` with its message.
* What libclang reports for a cursor (kind, spelling, semantic parents,
  evaluation result, children) is data carried by the cursor.
* A `long long` is an integer between `LLONG_MIN` and `LLONG_MAX`; the only
  arithmetic on the enumerator values is `+ 1`, whose result is taken on 64
  bits, two's complement (`toLongLong`): past `LLONG_MAX` it wraps around to
  `LLONG_MIN`, as the compiled program does (the overflow is undefined
  behaviour in the language).
* What libclang reports for a type handle (kind, qualifiers, spellings, the
  type one layer in, the declaration and its template arguments) is data
  carried by the type (`CXType`).
* The global registries are values passed in and returned; a function that
  throws returns `Except.error` and no registry, and nothing runs after it.
* `GetCXTypeName` and `RegisterType` call themselves on types that are not
  subterms of their argument: each is a body that takes its recursive call as
  a parameter, iterated with fuel; `GetCXTypeName.go_eq` and
  `RegisterType.fuel_suffices` show that the fuel never runs out.
* `RegisterClass` calls itself on the nested classes that its visitor meets:
  the traversal is a structural recursion over the cursor tree
  (`RegisterClass.visitCursor`, `RegisterClass.visitList`).
* The top-level `Visitor` answers `CXChildVisit_Continue` on every path and
  traverses by its own call of `clang_visitChildren`: it is a structural
  recursion over the cursor tree too (`Visitor`, `Visitor.visitChildren`).
* A Lua table with string keys and string values is a map from strings to
  strings; `lua_pushstring` reads its argument as a C string (`c_str`).
-/

namespace Leon
namespace Parse

/-! ## Strings and streams -/

/-- A `std::string`. -/
abbrev CppString := List Char

/-- A `std::istream` reading from a string: the characters still unread. -/
abbrev IStream := List Char

/-- The call `stream.get()`: the next character, which is consumed, or `EOF`. -/
def get : IStream → Option Char × IStream
  | [] => (none, [])
  | c :: rest => (some c, rest)

/-- The call `stream.peek()`: the next character, left in the stream, or `EOF`. -/
def peek : IStream → Option Char
  | [] => none
  | c :: _ => some c

/-- Conversion of an `int` to `char`, as in `value += 65`: the low eight bits. -/
def intToChar (n : Int) : Char := Char.ofNat (n % 256).toNat

/-- Conversion to `char` of the `int` returned by `get`/`peek`: a character is
itself, `EOF` (-1) is the byte 255. -/
def toChar : Option Char → Char
  | some c => c
  | none => intToChar (-1)

/-- The predicate `std::isspace` of the classic locale, which `operator>>` uses. -/
def isspace (c : Char) : Bool :=
  c == ' ' || c == '\t' || c == '\n' || c == Char.ofNat 11 || c == Char.ofNat 12 || c == '\r'

/-- Leading white space skipped by the sentry of `operator>>`. -/
def skipws : IStream → IStream
  | [] => []
  | c :: rest => if isspace c then skipws rest else c :: rest

/-- Extraction loop of `operator>>(istream&, string&)`: characters are appended
to the token until white space (left unread) or the end of the stream. -/
def extractLoop : IStream → CppString → CppString × IStream
  | [], token => (token, [])
  | c :: rest, token =>
    if isspace c then (token, c :: rest) else extractLoop rest (token ++ [c])

/-- The statement `src_stream >> token` on a fresh token: the token read and
the stream afterwards. -/
def extractToken (stream : IStream) : CppString × IStream :=
  extractLoop (skipws stream) []

/-! ## `ParseString` (Parse.h) -/

/-- The lambda `ctoi` of `ParseString`. -/
def ctoi (c : Char) : Int :=
  if '0' ≤ c ∧ c ≤ '9' then (c.toNat : Int) - ('0'.toNat : Int)
  else if 'a' ≤ c ∧ c ≤ 'f' then (c.toNat : Int) - ('a'.toNat : Int) + 10
  else if 'A' ≤ c ∧ c ≤ 'F' then (c.toNat : Int) - ('A'.toNat : Int) + 10
  else -1

/-- First loop of `ParseString`, "read until first quote": `none` when the
stream ends first (the function then returns `""`), otherwise the stream just
after the first double quote. -/
def skipToQuote : IStream → Option IStream
  | [] => none
  | c :: rest => if c = '"' then some rest else skipToQuote rest

/-- The digit loop of the `case 'x'` branch, on its local `char value` (held
here as the byte `0..255`): the local after the loop and the stream. -/
def hexDigits : IStream → Nat → Nat × IStream
  | [], value => (value, [])
  | c :: rest, value =>
    let e := ctoi (toChar (some c))
    if e < 0 ∨ e > 15 then (value, c :: rest)
    else hexDigits rest (((value <<< 4) ||| e.toNat) % 256)

/-- Outcome of one iteration of a `while (1)` loop: the function is left
(`return ""`, or `break` followed by `return value`) with a result, or the loop
goes round again with a new `value`. -/
inductive LoopStep where
  | done (result : CppString)
  | cont (value : CppString)
  deriving DecidableEq

/-- One iteration of the second loop of `ParseString`, "parse character by
character".  `value` is the outer `std::string value`.  The octal digits
`e0`, `e1`, `e2` are in `0..7` where they are combined, so the shifts and ors of
the source are taken on naturals.  The `case 'x'` branch declares its own
`char value`, and its `value += value` adds to that local: the outer string is
passed on as it is. -/
def parseStep (stream : IStream) (value : CppString) : LoopStep × IStream :=
  match get stream with
  | (none, stream) => (.done [], stream)
  | (some c, stream) =>
    if c = '"' then (.done value, stream)
    else if c = '\\' then
      match get stream with
      | (e0, stream) =>
        if e0 = some 'a' then (.cont (value ++ [Char.ofNat 7]), stream)
        else if e0 = some 'b' then (.cont (value ++ [Char.ofNat 8]), stream)
        else if e0 = some 'f' then (.cont (value ++ [Char.ofNat 12]), stream)
        else if e0 = some 'n' then (.cont (value ++ ['\n']), stream)
        else if e0 = some 'r' then (.cont (value ++ ['\r']), stream)
        else if e0 = some 't' then (.cont (value ++ ['\t']), stream)
        else if e0 = some 'v' then (.cont (value ++ [Char.ofNat 11]), stream)
        else if e0 = some '0' ∨ e0 = some '1' ∨ e0 = some '2' ∨ e0 = some '3'
            ∨ e0 = some '4' ∨ e0 = some '5' ∨ e0 = some '6' ∨ e0 = some '7' then
          let d0 : Int := ((toChar e0).toNat : Int) - ('0'.toNat : Int)
          let e1 := ctoi (toChar (peek stream))
          if e1 ≥ 0 ∧ e1 < 8 then
            let stream1 := (get stream).2
            let e2 := ctoi (toChar (peek stream1))
            if e2 ≥ 0 ∧ e2 < 8 then
              let stream2 := (get stream1).2
              (.cont (value ++
                [intToChar (((d0.toNat <<< 6) ||| (e1.toNat <<< 3) ||| e2.toNat : Nat))]), stream2)
            else
              (.cont (value ++ [intToChar (((d0.toNat <<< 3) ||| e1.toNat : Nat))]), stream1)
          else
            (.cont (value ++ [intToChar d0]), stream)
        else if e0 = some 'x' then
          match hexDigits stream 0 with
          | (local_value, stream) =>
            let _local_value := (local_value + local_value) % 256
            (.cont value, stream)
        else
          (.cont (value ++ [toChar e0]), stream)
    else
      (.cont (value ++ [c]), stream)

/-- Second loop of `ParseString`, one unit of fuel per iteration.  The result is
the returned string with the stream after the call; `none` only when the fuel
runs out. -/
def parseLoop : Nat → IStream → CppString → Option (CppString × IStream)
  | 0, _, _ => none
  | fuel + 1, stream, value =>
    match parseStep stream value with
    | (.done result, stream) => some (result, stream)
    | (.cont value, stream) => parseLoop fuel stream value

/-- The reader inside a quoted string: the second loop of `ParseString` started
with `value` already accumulated.  Every iteration consumes a character, so
`stream.length + 1` iterations always reach a `return`: `parseLoop_eq` shows
that any fuel above `stream.length` yields `some` of this result, so the
default is never taken. -/
def ParseStringQuoted (value : CppString) (stream : IStream) : CppString × IStream :=
  (parseLoop (stream.length + 1) stream value).getD ([], [])

/-- The function `ParseString(std::istream &stream)`: the returned string and
the stream after the call. -/
def ParseString (stream : IStream) : CppString × IStream :=
  match skipToQuote stream with
  | none => ([], [])
  | some rest => ParseStringQuoted [] rest

/-! ## `ParseAttribute` (Parse.cpp) -/

/-- The enumeration `LeonAttr::Type`. -/
inductive LeonAttrType where
  | Invalid
  | Flag
  | KeyValue
  deriving DecidableEq

/-- The structure `LeonAttr`. -/
structure LeonAttr where
  type : LeonAttrType := LeonAttrType.Invalid
  kv : CppString × CppString := ([], [])
  deriving DecidableEq

/-- The function `ParseAttribute(const std::string &src)`; `Except.error` carries
the message of the `std::runtime_error` thrown. -/
def ParseAttribute (src : CppString) : Except String LeonAttr :=
  let attr : LeonAttr := {}
  match extractToken src with
  | (token, src_stream) =>
    let attr : LeonAttr :=
      if token = "@leon".toList then { attr with type := LeonAttrType.Flag }
      else { attr with type := LeonAttrType.KeyValue }
    match attr.type with
    | LeonAttrType.KeyValue =>
      match ParseString src_stream with
      | (first, src_stream) =>
        match ParseString src_stream with
        | (second, _) =>
          let attr : LeonAttr := { attr with kv := (first, second) }
          if attr.kv.1.isEmpty || attr.kv.2.isEmpty then
            Except.error "LEON_KV malformed"
          else
            Except.ok attr
    | _ => Except.ok attr

/-- The macro `LEON_KV(key, value)` of `Leon.h`, applied to two string literals
spelled `"key"` and `"value"`: the annotation text `@leonkv "key" "value"`. -/
def LEON_KV (key value : CppString) : CppString :=
  "@leonkv ".toList ++ ('"' :: key ++ ['"']) ++ " ".toList ++ ('"' :: value ++ ['"'])

/-! ## libclang cursor kinds -/

/-- The cursor kinds (`enum CXCursorKind`) that the program tells apart,
`Other` standing for every remaining kind. -/
inductive CXCursorKind where
  | UnexposedDecl
  | StructDecl
  | ClassDecl
  | EnumDecl
  | FieldDecl
  | EnumConstantDecl
  | FunctionDecl
  | VarDecl
  | ParmDecl
  | CXXMethod
  | Namespace
  | ClassTemplate
  | ClassTemplatePartialSpecialization
  | TypeRef
  | CXXBaseSpecifier
  | InvalidFile
  | NoDeclFound
  | NotImplemented
  | InvalidCode
  | UnexposedExpr
  | DeclRefExpr
  | IntegerLiteral
  | UnaryOperator
  | BinaryOperator
  | UnexposedStmt
  | TranslationUnit
  | UnexposedAttr
  | AnnotateAttr
  | FriendDecl
  | Other
  deriving DecidableEq

/-- The library predicate `clang_isInvalid`. -/
def clang_isInvalid (kind : CXCursorKind) : Bool :=
  kind = CXCursorKind.InvalidFile || kind = CXCursorKind.NoDeclFound
    || kind = CXCursorKind.NotImplemented || kind = CXCursorKind.InvalidCode

/-- The library predicate `clang_isTranslationUnit`. -/
def clang_isTranslationUnit (kind : CXCursorKind) : Bool :=
  kind = CXCursorKind.TranslationUnit

/-- The library predicate `clang_isUnexposed`. -/
def clang_isUnexposed (kind : CXCursorKind) : Bool :=
  kind = CXCursorKind.UnexposedDecl || kind = CXCursorKind.UnexposedExpr
    || kind = CXCursorKind.UnexposedStmt || kind = CXCursorKind.UnexposedAttr

/-! ## libclang types -/

/-- The type kinds (`enum CXTypeKind`) that the program tells apart, with a few
more for the examples; `Other` stands for every remaining kind. -/
inductive CXTypeKind where
  | Invalid
  | Unexposed
  | Void
  | Bool
  | Int
  | UShort
  | Short
  | Pointer
  | BlockPointer
  | LValueReference
  | RValueReference
  | Record
  | Enum
  | Typedef
  | ObjCObjectPointer
  | FunctionProto
  | MemberPointer
  | Auto
  | Elaborated
  | Other
  deriving DecidableEq

/-- The kinds of template argument (`enum CXTemplateArgumentKind`). -/
inductive CXTemplateArgumentKind where
  | Null
  | Type
  | Declaration
  | NullPtr
  | Integral
  | Template
  | TemplateExpansion
  | Expression
  | Pack
  | Invalid
  deriving DecidableEq

/-- What the library reports for a type handle itself: its kind, its own
qualifiers (`clang_isConstQualifiedType` and the like), its spelling
(`clang_getTypeSpelling`) and the spelling of its unqualified form,
`clang_getNumArgTypes` and the kind of `clang_getResultType`. -/
structure CXTypeData where
  kind : CXTypeKind := CXTypeKind.Invalid
  isConstQualified : Bool := false
  isVolatileQualified : Bool := false
  isRestrictQualified : Bool := false
  spelling : CppString := []
  unqualifiedSpelling : CppString := []
  numArgTypes : Int := -1
  resultTypeKind : CXTypeKind := CXTypeKind.Invalid
  deriving DecidableEq

/-- What the library reports for the declaration cursor of a type. -/
structure CXTypeDeclData where
  kind : CXCursorKind := CXCursorKind.NoDeclFound
  spelling : CppString := []
  semanticParents : List (CXCursorKind × CppString) := []
  numTemplateArguments : Int := -1
  templateArgumentKinds : List CXTemplateArgumentKind := []
  templateArgumentValues : List Int := []
  deriving DecidableEq

/-- A `CXType` with what the library reports for it: the handle's own data;
the type one layer in, which `clang_getNonReferenceType` gives for a reference
and `clang_getPointeeType` for a pointer or a deduced `auto` (`none` when the
library answers with the invalid type); the data of the declaration cursor
given by `clang_getTypeDeclaration`; the types of that declaration's template
arguments, by position; and the type of that declaration cursor
(`clang_getCursorType`), `none` when it is this very type. -/
inductive CXType where
  | mk (data : CXTypeData) (pointee : Option CXType) (decl : CXTypeDeclData)
      (templateArgumentTypes : List CXType) (declType : Option CXType)

/-- The handle's own data. -/
def CXType.data : CXType → CXTypeData
  | CXType.mk data _ _ _ _ => data

/-- The field `cx_type.kind`. -/
def CXType.kind (cx_type : CXType) : CXTypeKind := cx_type.data.kind

/-- The type one layer in, when there is one. -/
def CXType.pointee : CXType → Option CXType
  | CXType.mk _ pointee _ _ _ => pointee

/-- The data of the declaration cursor of a type. -/
def CXType.decl : CXType → CXTypeDeclData
  | CXType.mk _ _ decl _ _ => decl

/-- The types of the template arguments of the declaration of a type. -/
def CXType.templateArgumentTypes : CXType → List CXType
  | CXType.mk _ _ _ types _ => types

/-- The type of the declaration cursor of a type, `none` for the type itself. -/
def CXType.declType : CXType → Option CXType
  | CXType.mk _ _ _ _ declType => declType

/-- The invalid type, of kind `CXType_Invalid`. -/
def invalidType : CXType := CXType.mk {} none {} [] none

/-- The call `clang_getNonReferenceType(cx_type)` on a reference type. -/
def clang_getNonReferenceType (cx_type : CXType) : CXType :=
  match cx_type.pointee with
  | some pointee => pointee
  | none => invalidType

/-- The call `clang_getPointeeType(cx_type)`. -/
def clang_getPointeeType (cx_type : CXType) : CXType :=
  match cx_type.pointee with
  | some pointee => pointee
  | none => invalidType

/-- The call `clang_getUnqualifiedType(cx_type)`: the same handle when the type
has no qualifier of its own, and otherwise the type without its own `const`,
`volatile` and `restrict`, spelled without them. -/
def clang_getUnqualifiedType : CXType → CXType
  | CXType.mk data pointee decl types declType =>
    if data.isConstQualified = false ∧ data.isVolatileQualified = false
        ∧ data.isRestrictQualified = false then
      CXType.mk data pointee decl types declType
    else
      CXType.mk { data with isConstQualified := false, isVolatileQualified := false,
                            isRestrictQualified := false,
                            spelling := data.unqualifiedSpelling } pointee decl types declType

/-- The access specifiers (`enum CX_CXXAccessSpecifier`). -/
inductive CX_CXXAccessSpecifier where
  | CX_CXXInvalidAccessSpecifier
  | CX_CXXPublic
  | CX_CXXProtected
  | CX_CXXPrivate
  deriving DecidableEq

/-- The storage classes (`enum CX_StorageClass`). -/
inductive CX_StorageClass where
  | CX_SC_Invalid
  | CX_SC_None
  | CX_SC_Extern
  | CX_SC_Static
  | CX_SC_PrivateExtern
  | CX_SC_OpenCLWorkGroupLocal
  | CX_SC_Auto
  | CX_SC_Register
  deriving DecidableEq

/-- What the library reports for a cursor besides its kind, spelling, parents,
evaluation and children: `clang_getCXXAccessSpecifier`,
`clang_Cursor_getStorageClass`, `clang_getCursorType`,
`clang_getCursorResultType`, `clang_CXXMethod_isConst`, `_isVirtual`,
`_isPureVirtual`, the template arguments (number, or -1, and kind, type and
value by position), and whether the location of the cursor is in the main file
(`clang_Location_isFromMainFile` of `clang_getCursorLocation`). -/
structure CXCursorInfo where
  access : CX_CXXAccessSpecifier := CX_CXXAccessSpecifier.CX_CXXInvalidAccessSpecifier
  storageClass : CX_StorageClass := CX_StorageClass.CX_SC_Invalid
  type : CXType := invalidType
  resultType : CXType := invalidType
  isConst : Bool := false
  isVirtual : Bool := false
  isPureVirtual : Bool := false
  numTemplateArguments : Int := -1
  templateArgumentKinds : List CXTemplateArgumentKind := []
  templateArgumentTypes : List CXType := []
  templateArgumentValues : List Int := []
  isFromMainFile : Bool := true

/-- The loop of `GetCXTypeRoot`: references and pointers (and a deduced `auto`)
are peeled until a type of another kind, or a pointer without pointee. -/
def GetCXTypeRoot : CXType → CXType
  | CXType.mk data pointee decl targs dtype =>
    if data.kind = CXTypeKind.LValueReference ∨ data.kind = CXTypeKind.RValueReference then
      match pointee with
      | some p => GetCXTypeRoot p
      | none => invalidType
    else if data.kind = CXTypeKind.Pointer ∨ data.kind = CXTypeKind.BlockPointer
        ∨ data.kind = CXTypeKind.ObjCObjectPointer ∨ data.kind = CXTypeKind.MemberPointer
        ∨ data.kind = CXTypeKind.Auto then
      match pointee with
      | some p =>
        if p.kind = CXTypeKind.Invalid then CXType.mk data pointee decl targs dtype
        else GetCXTypeRoot p
      | none => CXType.mk data pointee decl targs dtype
    else
      CXType.mk data pointee decl targs dtype

/-! ## libclang cursors: the tree -/

/-- The kinds of evaluation result (`enum CXEvalResultKind`). -/
inductive CXEvalResultKind where
  | UnExposed
  | Int
  | Float
  | ObjCStrLiteral
  | StrLiteral
  | CFStr
  | Other
  deriving DecidableEq

/-- The value of an integer as a `long long`: its residue on 64 bits, two's
complement.  An arithmetic result that does not fit wraps around. -/
def toLongLong (x : Int) : Int :=
  (x + 9223372036854775808) % 18446744073709551616 - 9223372036854775808

/-- A non-null `CXEvalResult`: what `clang_EvalResult_getKind` reports for it
and the integer that it holds. -/
structure CXEvalResult where
  kind : CXEvalResultKind
  asLongLong : Int
  deriving DecidableEq

/-- The call `clang_EvalResult_getAsLongLong(result)`: the integer of the
result as a `long long`. -/
def clang_EvalResult_getAsLongLong (result : CXEvalResult) : Int :=
  toLongLong result.asLongLong

/-- A `CXCursor` with what the library reports for it: its kind, its spelling,
the chain of its semantic parents (kind and spelling, innermost first; past
the end of the chain the library returns the null cursor), the result of
`clang_Cursor_Evaluate` (`none` is `nullptr`), the other answers of the
library (`info`) and its children in the order in which `clang_visitChildren`
presents them. -/
inductive CXCursor where
  | mk (kind : CXCursorKind) (spelling : CppString)
      (semanticParents : List (CXCursorKind × CppString))
      (evaluate : Option CXEvalResult) (info : CXCursorInfo) (children : List CXCursor)

/-- The field `cursor.kind`. -/
def CXCursor.kind : CXCursor → CXCursorKind
  | CXCursor.mk kind _ _ _ _ _ => kind

/-- The call `GetCXString(clang_getCursorSpelling(cursor))`. -/
def CXCursor.spelling : CXCursor → CppString
  | CXCursor.mk _ spelling _ _ _ _ => spelling

/-- The chain obtained by repeated `clang_getCursorSemanticParent`. -/
def CXCursor.semanticParents : CXCursor → List (CXCursorKind × CppString)
  | CXCursor.mk _ _ parents _ _ _ => parents

/-- The call `clang_Cursor_Evaluate(cursor)`. -/
def CXCursor.evaluate : CXCursor → Option CXEvalResult
  | CXCursor.mk _ _ _ evaluate _ _ => evaluate

/-- The children that `clang_visitChildren` presents. -/
def CXCursor.children : CXCursor → List CXCursor
  | CXCursor.mk _ _ _ _ _ children => children

/-- The other answers of the library about a cursor. -/
def CXCursor.info : CXCursor → CXCursorInfo
  | CXCursor.mk _ _ _ _ info _ => info

/-- The answer of a visitor (`enum CXChildVisitResult`). -/
inductive CXChildVisitResult where
  | Break
  | Continue
  | Recurse
  deriving DecidableEq

mutual
/-- The library visits one cursor: the visitor is called on it and, when it
answers `Recurse`, on the cursor's children.  The boolean tells whether the
traversal was broken off; an exception thrown by the visitor ends it. -/
def visitCursor {σ : Type} (visitor : CXCursor → σ → Except String (CXChildVisitResult × σ)) :
    CXCursor → σ → Except String (Bool × σ)
  | CXCursor.mk kind spelling parents evaluate info children, client =>
    match visitor (CXCursor.mk kind spelling parents evaluate info children) client with
    | Except.error e => Except.error e
    | Except.ok (CXChildVisitResult.Break, client) => Except.ok (true, client)
    | Except.ok (CXChildVisitResult.Continue, client) => Except.ok (false, client)
    | Except.ok (CXChildVisitResult.Recurse, client) => visitChildrenList visitor children client
/-- The library visits a list of sibling cursors in order. -/
def visitChildrenList {σ : Type}
    (visitor : CXCursor → σ → Except String (CXChildVisitResult × σ)) :
    List CXCursor → σ → Except String (Bool × σ)
  | [], client => Except.ok (false, client)
  | cursor :: siblings, client =>
    match visitCursor visitor cursor client with
    | Except.error e => Except.error e
    | Except.ok (true, client) => Except.ok (true, client)
    | Except.ok (false, client) => visitChildrenList visitor siblings client
end

/-- The call `clang_visitChildren(parent, visitor, &client)`: the client data
after the traversal. -/
def clang_visitChildren {σ : Type} (parent : CXCursor)
    (visitor : CXCursor → σ → Except String (CXChildVisitResult × σ)) (client : σ) :
    Except String σ :=
  match visitChildrenList visitor parent.children client with
  | Except.error e => Except.error e
  | Except.ok (_, client) => Except.ok client

/-! ## Registries -/

/-- A `std::unordered_map<std::string, β>`, as the list of its entries. -/
structure UnorderedMap (β : Type) where
  entries : List (CppString × β)

/-- The empty map. -/
def UnorderedMap.empty {β : Type} : UnorderedMap β := { entries := [] }

/-- The lookup `map.find(key)`: the mapped value, or `none` for `end()`. -/
def UnorderedMap.find {β : Type} (map : UnorderedMap β) (key : CppString) : Option β :=
  match map.entries.find? (fun entry => entry.1 = key) with
  | some entry => some entry.2
  | none => none

/-- The assignment `map[key] = value`: the entry is created or overwritten. -/
def UnorderedMap.assign {β : Type} (map : UnorderedMap β) (key : CppString) (value : β) :
    UnorderedMap β :=
  { entries := (key, value) :: map.entries.filter (fun entry => entry.1 ≠ key) }

/-- A write through a reference to the entry of `key`, as in
`auto &node = map[key]; node.field = value`: the entry is replaced by `f` of
it. -/
def UnorderedMap.modify {β : Type} (map : UnorderedMap β) (key : CppString) (f : β → β) :
    UnorderedMap β :=
  match map.find key with
  | some value => map.assign key (f value)
  | none => map

/-- The result of a fuelled function: `none` when the fuel ran out, otherwise
what the function returned or threw. -/
abbrev Fuelled (α : Type) := Option (Except String α)

/-- Sequencing: the rest of the function runs when the call returned. -/
def Fuelled.andThen {α β : Type} (call : Fuelled α) (rest : α → Fuelled β) : Fuelled β :=
  match call with
  | none => none
  | some (Except.error e) => some (Except.error e)
  | some (Except.ok result) => rest result

/-! ## Attributes of a cursor and cursor names (Parse.cpp) -/

/-- The visitor lambda of `ParseCXCursorAttributes`. -/
def attributeVisitor (cursor : CXCursor) (attrs : List LeonAttr) :
    Except String (CXChildVisitResult × List LeonAttr) :=
  if cursor.kind = CXCursorKind.AnnotateAttr then
    match ParseAttribute cursor.spelling with
    | Except.error e => Except.error e
    | Except.ok attr =>
      if attr.type ≠ LeonAttrType.Invalid then
        Except.ok (CXChildVisitResult.Continue, attrs ++ [attr])
      else
        Except.ok (CXChildVisitResult.Continue, attrs)
  else
    Except.ok (CXChildVisitResult.Continue, attrs)

/-- The function `ParseCXCursorAttributes(CXCursor cursor)`. -/
def ParseCXCursorAttributes (cursor : CXCursor) : Except String (List LeonAttr) :=
  clang_visitChildren cursor attributeVisitor []

/-- The loop of `GetCXCursorName` over the semantic parents. -/
def GetCXCursorName.loop : List (CXCursorKind × CppString) → CppString → CppString
  | [], name => name
  | (kind, spelling) :: parents, name =>
    if clang_isInvalid kind || clang_isTranslationUnit kind then name
    else if clang_isUnexposed kind then GetCXCursorName.loop parents name
    else GetCXCursorName.loop parents (spelling ++ "::".toList ++ name)

/-- The function `GetCXCursorName(CXCursor cx_cursor)`. -/
def GetCXCursorName (cx_cursor : CXCursor) : CppString :=
  GetCXCursorName.loop cx_cursor.semanticParents cx_cursor.spelling

/-! ## The type canonicalizer (Parse.cpp) -/

/-- The call `clang_getTypeDeclaration(cx_type)`: the declaration cursor, with
its template arguments and, as its type, the declared type. -/
def clang_getTypeDeclaration (cx_type : CXType) : CXCursor :=
  CXCursor.mk cx_type.decl.kind cx_type.decl.spelling cx_type.decl.semanticParents none
    { type := match cx_type.declType with
        | some declType => declType
        | none => cx_type
      numTemplateArguments := cx_type.decl.numTemplateArguments
      templateArgumentKinds := cx_type.decl.templateArgumentKinds
      templateArgumentTypes := cx_type.templateArgumentTypes
      templateArgumentValues := cx_type.decl.templateArgumentValues } []

/-- The call `clang_getCursorType(cursor)`. -/
def clang_getCursorType (cursor : CXCursor) : CXType := cursor.info.type

/-- The call `clang_getCursorResultType(cursor)`. -/
def clang_getCursorResultType (cursor : CXCursor) : CXType := cursor.info.resultType

/-- The call `clang_Cursor_getNumTemplateArguments(cursor)`. -/
def clang_Cursor_getNumTemplateArguments (cursor : CXCursor) : Int :=
  cursor.info.numTemplateArguments

/-- The call `clang_Cursor_getTemplateArgumentKind(cursor, t)`. -/
def clang_Cursor_getTemplateArgumentKind (cursor : CXCursor) (t : Nat) :
    CXTemplateArgumentKind :=
  cursor.info.templateArgumentKinds.getD t CXTemplateArgumentKind.Invalid

/-- The call `clang_Cursor_getTemplateArgumentType(cursor, t)`. -/
def clang_Cursor_getTemplateArgumentType (cursor : CXCursor) (t : Nat) : CXType :=
  cursor.info.templateArgumentTypes.getD t invalidType

/-- The call `clang_Cursor_getTemplateArgumentValue(cursor, t)`. -/
def clang_Cursor_getTemplateArgumentValue (cursor : CXCursor) (t : Nat) : Int :=
  cursor.info.templateArgumentValues.getD t 0

/-- The call `GetCXString(clang_getTypeSpelling(cx_type))`. -/
def clang_getTypeSpelling (cx_type : CXType) : CppString := cx_type.data.spelling

/-- The call `std::to_string(value)` on a `long long`. -/
def to_string (value : Int) : CppString := (toString value).toList

/-- The function `CheckCXType(CXType cx_type)`. -/
def CheckCXType (cx_type : CXType) : Except String Unit :=
  if cx_type.data.numArgTypes > 0 ∨ cx_type.data.resultTypeKind ≠ CXTypeKind.Invalid then
    Except.error
      ("Function types currently unsupported: " ++ String.mk (clang_getTypeSpelling cx_type))
  else
    Except.ok ()

/-- The function `GetQualString(CXType cx_type)`. -/
def GetQualString (cx_type : CXType) : CppString :=
  let out : CppString := []
  let out := if cx_type.data.isConstQualified then out ++ "const".toList else out
  let out :=
    if cx_type.data.isVolatileQualified then
      (if !out.isEmpty then out ++ [' '] else out) ++ "volatile".toList
    else out
  let out :=
    if cx_type.data.isRestrictQualified then
      (if !out.isEmpty then out ++ [' '] else out) ++ "restrict".toList
    else out
  out

/-- The last loop of `GetCXTypeName`, "apply qualifications", on `cx_type` and
the `rqual` built so far. -/
def GetCXTypeName.rqualLoop : CXType → CppString → CppString
  | CXType.mk data pointee decl types declType, rqual =>
    if data.kind = CXTypeKind.LValueReference then
      let rqual := " ".toList ++ ("&".toList ++
        GetQualString (CXType.mk data pointee decl types declType)) ++ rqual
      match pointee with
      | some p => GetCXTypeName.rqualLoop p rqual
      | none => rqual
    else if data.kind = CXTypeKind.RValueReference then
      let rqual := " ".toList ++ ("&&".toList ++
        GetQualString (CXType.mk data pointee decl types declType)) ++ rqual
      match pointee with
      | some p => GetCXTypeName.rqualLoop p rqual
      | none => rqual
    else if data.kind = CXTypeKind.Pointer ∨ data.kind = CXTypeKind.BlockPointer
        ∨ data.kind = CXTypeKind.ObjCObjectPointer ∨ data.kind = CXTypeKind.MemberPointer then
      match pointee with
      | some p =>
        if p.kind = CXTypeKind.Invalid then rqual
        else
          GetCXTypeName.rqualLoop p (" ".toList ++ ("*".toList ++
            GetQualString (CXType.mk data pointee decl types declType)) ++ rqual)
      | none => rqual
    else
      rqual

/-- The loop `for (t = 0; t < template_num; t++)` of `GetCXTypeName`, with
`remaining` iterations to go from index `t`; `nameOf` is the recursive call of
`GetCXTypeName`. -/
def GetCXTypeName.templateLoop (nameOf : CXType → Option (Except String CppString))
    (cursor : CXCursor) : Nat → Nat → CppString → Option (Except String CppString)
  | 0, _, global_name => some (Except.ok global_name)
  | remaining + 1, t, global_name =>
    let global_name := if t ≠ 0 then global_name ++ ", ".toList else global_name
    match clang_Cursor_getTemplateArgumentKind cursor t with
    | CXTemplateArgumentKind.Type =>
      match nameOf (clang_Cursor_getTemplateArgumentType cursor t) with
      | none => none
      | some (Except.error e) => some (Except.error e)
      | some (Except.ok name) =>
        GetCXTypeName.templateLoop nameOf cursor remaining (t + 1) (global_name ++ name)
    | CXTemplateArgumentKind.NullPtr =>
      GetCXTypeName.templateLoop nameOf cursor remaining (t + 1)
        (global_name ++ "nullptr".toList)
    | CXTemplateArgumentKind.Integral =>
      GetCXTypeName.templateLoop nameOf cursor remaining (t + 1)
        (global_name ++ to_string (clang_Cursor_getTemplateArgumentValue cursor t))
    | CXTemplateArgumentKind.Null =>
      some (Except.error ("CXTemplateArgumentKind_Null: " ++ String.mk global_name))
    | CXTemplateArgumentKind.Declaration =>
      some (Except.error ("CXTemplateArgumentKind_Declaration: " ++ String.mk global_name))
    | CXTemplateArgumentKind.Template =>
      some (Except.error ("CXTemplateArgumentKind_Template: " ++ String.mk global_name))
    | CXTemplateArgumentKind.TemplateExpansion =>
      some (Except.error ("CXTemplateArgumentKind_TemplateExpansion: " ++ String.mk global_name))
    | CXTemplateArgumentKind.Expression =>
      some (Except.error ("CXTemplateArgumentKind_Expression: " ++ String.mk global_name))
    | CXTemplateArgumentKind.Pack =>
      some (Except.error ("CXTemplateArgumentKind_Pack: " ++ String.mk global_name))
    | CXTemplateArgumentKind.Invalid =>
      some (Except.error
        ("Could not deduce template argument type: " ++ String.mk global_name))

/-- The part of `GetCXTypeName` that builds `global_name` from the root: the
name of its declaration, or the spelling of the unqualified root, followed by
the template arguments.  `nameOf` is the recursive call of `GetCXTypeName`;
`none` only when that call runs out of fuel. -/
def GetCXTypeName.globalName (nameOf : CXType → Option (Except String CppString))
    (root : CXType) : Option (Except String CppString) :=
  let cursor := clang_getTypeDeclaration root
  let global_name : CppString :=
    if !clang_isInvalid cursor.kind then GetCXCursorName cursor
    else clang_getTypeSpelling (clang_getUnqualifiedType root)
  if !clang_isInvalid cursor.kind then
    let template_num := clang_Cursor_getNumTemplateArguments cursor
    if template_num ≥ 0 then
      match GetCXTypeName.templateLoop nameOf cursor template_num.toNat 0
          (global_name ++ ['<']) with
      | none => none
      | some (Except.error e) => some (Except.error e)
      | some (Except.ok global_name) => some (Except.ok (global_name ++ ['>']))
    else some (Except.ok global_name)
  else some (Except.ok global_name)

/-- The body of `GetCXTypeName(CXType cx_type)`, `nameOf` being its recursive
call. -/
def GetCXTypeName.body (nameOf : CXType → Option (Except String CppString))
    (cx_type : CXType) : Option (Except String CppString) :=
  let root := GetCXTypeRoot cx_type
  match CheckCXType root with
  | Except.error e => some (Except.error e)
  | Except.ok _ =>
    match GetCXTypeName.globalName nameOf root with
    | none => none
    | some (Except.error e) => some (Except.error e)
    | some (Except.ok global_name) =>
      let lqual := GetQualString root
      let lqual := if !lqual.isEmpty then lqual ++ [' '] else lqual
      let rqual := GetCXTypeName.rqualLoop cx_type []
      some (Except.ok (lqual ++ global_name ++ rqual))

/-- The function `GetCXTypeName(CXType cx_type)` with one unit of fuel per
nested call; `none` only when the fuel runs out. -/
def GetCXTypeName.go : Nat → CXType → Option (Except String CppString)
  | 0, _ => none
  | fuel + 1, cx_type => GetCXTypeName.body (fun argument => GetCXTypeName.go fuel argument) cx_type

mutual
/-- The number of type handles in the description of a type. -/
def CXType.size : CXType → Nat
  | CXType.mk _ pointee _ types declType =>
    1 + CXType.sizeOption pointee + CXType.sizeList types + CXType.sizeOption declType
/-- The number of type handles in an optional type. -/
def CXType.sizeOption : Option CXType → Nat
  | none => 0
  | some cx_type => CXType.size cx_type
/-- The number of type handles in a list of types. -/
def CXType.sizeList : List CXType → Nat
  | [] => 0
  | cx_type :: rest => CXType.size cx_type + CXType.sizeList rest
end

/-- The function `GetCXTypeName(CXType cx_type)`.  A nested call is made on a
template argument of the root, a smaller type, so `cx_type.size + 1` units of
fuel always suffice (`GetCXTypeName.go_eq`); the default is never taken. -/
def GetCXTypeName (cx_type : CXType) : Except String CppString :=
  (GetCXTypeName.go (cx_type.size + 1) cx_type).getD (Except.error "")

/-! ## The type registry (Parse.cpp) -/

/-- The enumeration `TypeNode::Type`. -/
inductive TypeNodeType where
  | Invalid
  | Type
  | LValueReference
  | RValueReference
  | Pointer
  | BlockPointer
  | ObjCObjectPointer
  | MemberPointer
  deriving DecidableEq

/-- The enumeration `TypeNode::TemplateArg::TemplateArgType`. -/
inductive TemplateArgType where
  | Invalid
  | Type
  | Nullptr
  | Integral
  deriving DecidableEq

/-- The structure `TypeNode::TemplateArg`. -/
structure TemplateArg where
  arg_type : TemplateArgType := TemplateArgType.Invalid
  type : CppString := []
  integral : Int := 0
  deriving DecidableEq

/-- The structure `TypeNode`. -/
structure TypeNode where
  type : TypeNodeType := TypeNodeType.Invalid
  name : CppString := []
  q_const : Bool := false
  q_volatile : Bool := false
  q_restrict : Bool := false
  root : CppString := []
  unqualified_root : CppString := []
  unqualified : CppString := []
  pointee : CppString := []
  is_template : Bool := false
  template_args : List TemplateArg := []
  deriving DecidableEq

/-- The `switch (cx_type.kind)` of `RegisterType`. -/
def RegisterType.nodeType (kind : CXTypeKind) : TypeNodeType :=
  match kind with
  | CXTypeKind.LValueReference => TypeNodeType.LValueReference
  | CXTypeKind.RValueReference => TypeNodeType.RValueReference
  | CXTypeKind.Pointer => TypeNodeType.Pointer
  | CXTypeKind.BlockPointer => TypeNodeType.BlockPointer
  | CXTypeKind.ObjCObjectPointer => TypeNodeType.ObjCObjectPointer
  | CXTypeKind.MemberPointer => TypeNodeType.MemberPointer
  | _ => TypeNodeType.Type

/-- A statement `node.field = RegisterType(cx_type);` of `RegisterType`, where
`node` refers to the entry of `name`: the call, then the write `set` of the
returned key into the entry.  `register` is the recursive call. -/
def RegisterType.assignField
    (register : UnorderedMap TypeNode → CXType → Fuelled (CppString × UnorderedMap TypeNode))
    (name : CppString) (set : TypeNode → CppString → TypeNode)
    (type_nodes : UnorderedMap TypeNode) (cx_type : CXType) : Fuelled (UnorderedMap TypeNode) :=
  (register type_nodes cx_type).andThen fun result =>
    some (Except.ok (result.2.modify name (fun node => set node result.1)))

/-- The loop `for (t = 0; t < template_num; t++)` of `RegisterType`, with
`remaining` iterations to go from index `t`. -/
def RegisterType.templateLoop
    (register : UnorderedMap TypeNode → CXType → Fuelled (CppString × UnorderedMap TypeNode))
    (cursor : CXCursor) (name : CppString) :
    Nat → Nat → UnorderedMap TypeNode → Fuelled (UnorderedMap TypeNode)
  | 0, _, type_nodes => some (Except.ok type_nodes)
  | remaining + 1, t, type_nodes =>
    let emplace_back (arg : TemplateArg) (type_nodes : UnorderedMap TypeNode) :=
      type_nodes.modify name
        (fun node => { node with template_args := node.template_args ++ [arg] })
    match clang_Cursor_getTemplateArgumentKind cursor t with
    | CXTemplateArgumentKind.Type =>
      (register type_nodes (clang_Cursor_getTemplateArgumentType cursor t)).andThen
        fun result =>
          RegisterType.templateLoop register cursor name remaining (t + 1)
            (emplace_back { arg_type := TemplateArgType.Type, type := result.1 } result.2)
    | CXTemplateArgumentKind.NullPtr =>
      RegisterType.templateLoop register cursor name remaining (t + 1)
        (emplace_back { arg_type := TemplateArgType.Nullptr } type_nodes)
    | CXTemplateArgumentKind.Integral =>
      RegisterType.templateLoop register cursor name remaining (t + 1)
        (emplace_back
          { arg_type := TemplateArgType.Integral,
            integral := clang_Cursor_getTemplateArgumentValue cursor t } type_nodes)
    | CXTemplateArgumentKind.Null =>
      some (Except.error ("CXTemplateArgumentKind_Null: " ++ String.mk name))
    | CXTemplateArgumentKind.Declaration =>
      some (Except.error ("CXTemplateArgumentKind_Declaration: " ++ String.mk name))
    | CXTemplateArgumentKind.Template =>
      some (Except.error ("CXTemplateArgumentKind_Template: " ++ String.mk name))
    | CXTemplateArgumentKind.TemplateExpansion =>
      some (Except.error ("CXTemplateArgumentKind_TemplateExpansion: " ++ String.mk name))
    | CXTemplateArgumentKind.Expression =>
      some (Except.error ("CXTemplateArgumentKind_Expression: " ++ String.mk name))
    | CXTemplateArgumentKind.Pack =>
      some (Except.error ("CXTemplateArgumentKind_Pack: " ++ String.mk name))
    | CXTemplateArgumentKind.Invalid =>
      some (Except.error ("Could not deduce template argument type: " ++ String.mk name))

/-- The part of `RegisterType` that registers a new type: `name` is not yet a
key of `type_nodes`. -/
def RegisterType.registerNew
    (register : UnorderedMap TypeNode → CXType → Fuelled (CppString × UnorderedMap TypeNode))
    (type_nodes : UnorderedMap TypeNode) (cx_type : CXType) (name : CppString) :
    Fuelled (CppString × UnorderedMap TypeNode) :=
  let type_nodes := type_nodes.assign name {}
  let type_nodes := type_nodes.modify name (fun node =>
    { node with
      name := name
      type := RegisterType.nodeType cx_type.kind
      q_const := cx_type.data.isConstQualified
      q_volatile := cx_type.data.isVolatileQualified
      q_restrict := cx_type.data.isRestrictQualified })
  let root := GetCXTypeRoot cx_type
  (RegisterType.assignField register name (fun node key => { node with root := key })
    type_nodes root).andThen fun type_nodes =>
  let cursor := clang_getTypeDeclaration root
  (RegisterType.assignField register name (fun node key => { node with unqualified := key })
    type_nodes (clang_getUnqualifiedType cx_type)).andThen fun type_nodes =>
  (if !clang_isInvalid cursor.kind then
    RegisterType.assignField register name
      (fun node key => { node with unqualified_root := key }) type_nodes
      (clang_getCursorType cursor)
  else
    RegisterType.assignField register name
      (fun node key => { node with unqualified_root := key }) type_nodes
      (clang_getUnqualifiedType cx_type)).andThen fun type_nodes =>
  (if cx_type.kind = CXTypeKind.LValueReference ∨ cx_type.kind = CXTypeKind.RValueReference then
    RegisterType.assignField register name (fun node key => { node with pointee := key })
      type_nodes (clang_getNonReferenceType cx_type)
  else if cx_type.kind = CXTypeKind.Pointer ∨ cx_type.kind = CXTypeKind.BlockPointer
      ∨ cx_type.kind = CXTypeKind.ObjCObjectPointer
      ∨ cx_type.kind = CXTypeKind.MemberPointer then
    let cx_try := clang_getPointeeType cx_type
    if cx_try.kind ≠ CXTypeKind.Invalid then
      RegisterType.assignField register name (fun node key => { node with pointee := key })
        type_nodes cx_try
    else some (Except.ok type_nodes)
  else some (Except.ok type_nodes)).andThen fun type_nodes =>
  (if !clang_isInvalid cursor.kind then
    let template_num := clang_Cursor_getNumTemplateArguments cursor
    if template_num ≥ 0 then
      RegisterType.templateLoop register cursor name template_num.toNat 0
        (type_nodes.modify name (fun node => { node with is_template := true }))
    else some (Except.ok type_nodes)
  else some (Except.ok type_nodes)).andThen fun type_nodes =>
  some (Except.ok (name, type_nodes))

/-- The body of `RegisterType(CXType cx_type)` on the registry `type_nodes`,
`register` being its recursive call: the returned key and the registry
afterwards. -/
def RegisterType.body
    (register : UnorderedMap TypeNode → CXType → Fuelled (CppString × UnorderedMap TypeNode))
    (type_nodes : UnorderedMap TypeNode) (cx_type : CXType) :
    Fuelled (CppString × UnorderedMap TypeNode) :=
  match GetCXTypeName cx_type with
  | Except.error e => some (Except.error e)
  | Except.ok name =>
    match type_nodes.find name with
    | some _ => some (Except.ok (name, type_nodes))
    | none => RegisterType.registerNew register type_nodes cx_type name

/-- The function `RegisterType` with one unit of fuel per nested call; `none`
only when the fuel runs out. -/
def RegisterType.go :
    Nat → UnorderedMap TypeNode → CXType → Fuelled (CppString × UnorderedMap TypeNode)
  | 0, _, _ => none
  | fuel + 1, type_nodes, cx_type =>
    RegisterType.body (fun type_nodes argument => RegisterType.go fuel type_nodes argument)
      type_nodes cx_type

/-- The number of qualifiers that a type carries itself. -/
def CXType.qualifierCount (cx_type : CXType) : Nat :=
  (if cx_type.data.isConstQualified then 1 else 0)
    + (if cx_type.data.isVolatileQualified then 1 else 0)
    + (if cx_type.data.isRestrictQualified then 1 else 0)

/-- Fuel that lets `RegisterType` return: a nested call is made on a smaller
type, on a type with the same handles and fewer qualifiers, or on a type whose
name is registered by then. -/
def RegisterType.fuel (cx_type : CXType) : Nat :=
  4 * cx_type.size + cx_type.qualifierCount + 3

/-- The function `RegisterType(CXType cx_type)` on the registry `type_nodes`:
the returned key and the registry afterwards.  `RegisterType.fuel_suffices` shows
that the fuel suffices, so the default is never taken. -/
def RegisterType (type_nodes : UnorderedMap TypeNode) (cx_type : CXType) :
    Except String (CppString × UnorderedMap TypeNode) :=
  (RegisterType.go (RegisterType.fuel cx_type) type_nodes cx_type).getD (Except.error "")

/-! ## The enum registry (Parse.cpp) -/

/-- The structure `EnumNode`. -/
structure EnumNode where
  name : CppString := []
  attrs : List LeonAttr := []
  elems : UnorderedMap Int := UnorderedMap.empty

/-- The `VisitorClient` of `RegisterEnum`.  The counter `current_value` is a
`long long`: every value written to it is taken by `toLongLong`. -/
structure EnumVisitorClient where
  node : EnumNode := {}
  last_elem : CppString := []
  current_value : Int := 0

/-- The visitor lambda of `RegisterEnum`.  The increments `current_value++` and
`value + 1` are `long long` additions. -/
def enumVisitor (cursor : CXCursor) (client : EnumVisitorClient) :
    Except String (CXChildVisitResult × EnumVisitorClient) :=
  if cursor.kind = CXCursorKind.EnumConstantDecl then
    let name := cursor.spelling
    let client := { client with last_elem := name }
    let client := { client with
      node := { client.node with elems := client.node.elems.assign name client.current_value }
      current_value := toLongLong (client.current_value + 1) }
    Except.ok (CXChildVisitResult.Recurse, client)
  else
    match cursor.evaluate with
    | some result =>
      match result.kind with
      | CXEvalResultKind.Int =>
        let value := clang_EvalResult_getAsLongLong result
        let client := { client with
          node := { client.node with elems := client.node.elems.assign client.last_elem value } }
        let client := { client with current_value := toLongLong (value + 1) }
        Except.ok (CXChildVisitResult.Continue, client)
      | _ => Except.error "Unexpected EvalResult kind for enum element"
    | none => Except.ok (CXChildVisitResult.Continue, client)

/-- The function `RegisterEnum(CXCursor cursor)` on the registry `enum_nodes`:
the returned string and the registry afterwards. -/
def RegisterEnum (enum_nodes : UnorderedMap EnumNode) (cursor : CXCursor) :
    Except String (CppString × UnorderedMap EnumNode) :=
  let name := GetCXCursorName cursor
  match enum_nodes.find name with
  | some _ => Except.ok (name, enum_nodes)
  | none =>
    match ParseCXCursorAttributes cursor with
    | Except.error e => Except.error e
    | Except.ok attrs =>
      let client : EnumVisitorClient := { node := { attrs := attrs } }
      if client.node.attrs.length ≠ 0 then
        let client := { client with node := { client.node with name := name } }
        match clang_visitChildren cursor enumVisitor client with
        | Except.error e => Except.error e
        | Except.ok client => Except.ok ([], enum_nodes.assign name client.node)
      else
        Except.ok ([], enum_nodes)

/-! ## Reference notions used to state the properties -/

/-- The first white-space-delimited token of a text. -/
def firstToken (s : CppString) : CppString :=
  (s.dropWhile isspace).takeWhile (fun c => !isspace c)

/-- What follows the first white-space-delimited token of a text. -/
def afterFirstToken (s : CppString) : CppString :=
  (s.dropWhile isspace).dropWhile (fun c => !isspace c)

/-- Whether a text, read from just after an opening double quote, holds an
unescaped double quote: a backslash escapes the character that follows it. -/
def reachesClosingQuote : CppString → Bool
  | [] => false
  | [c] => decide (c = '"')
  | c :: d :: rest =>
    if c = '"' then true
    else if c = '\\' then reachesClosingQuote rest
    else reachesClosingQuote (d :: rest)

/-- Whether a stream holds an opening double quote and, after it, an unescaped
closing double quote. -/
def hasQuotedString (stream : CppString) : Bool :=
  match stream.dropWhile (fun c => c != '"') with
  | [] => false
  | _ :: body => reachesClosingQuote body

/-- Whether a character is one of the octal digits `0`..`7`. -/
def isOctalDigit (c : Char) : Bool := decide ('0' ≤ c) && decide (c ≤ '7')

/-- The number written by a run of octal digits. -/
def octalValue (digits : List Char) : Nat :=
  digits.foldl (fun acc d => 8 * acc + (d.toNat - '0'.toNat)) 0

/-- The enumerators of an enum cursor, in declaration order. -/
def enumerators (cursor : CXCursor) : List CXCursor :=
  cursor.children.filter (fun child => child.kind = CXCursorKind.EnumConstantDecl)

/-- Whether an enumerator has an initializer: a child cursor that evaluates. -/
def hasInitializer (enumerator : CXCursor) : Bool :=
  enumerator.children.any (fun child => child.evaluate.isSome)

/-- The shape of an enum declaration as the library presents it: the
enumerators have pairwise distinct names; the other children of the enum
(attributes, a reference to the underlying type) do not evaluate; the children
of an enumerator are not enumerators, and one that evaluates (the initializer)
evaluates to an integer. -/
def WellFormedEnum (cursor : CXCursor) : Prop :=
  ((enumerators cursor).map CXCursor.spelling).Nodup ∧
  (∀ child ∈ cursor.children,
    child.kind ≠ CXCursorKind.EnumConstantDecl → child.evaluate = none) ∧
  (∀ enumerator ∈ enumerators cursor, ∀ child ∈ enumerator.children,
    child.kind ≠ CXCursorKind.EnumConstantDecl ∧
      ∀ result ∈ child.evaluate, result.kind = CXEvalResultKind.Int)

instance (cursor : CXCursor) : Decidable (WellFormedEnum cursor) := by
  unfold WellFormedEnum
  infer_instance

/-- The largest `long long` (`LLONG_MAX`). -/
def LLONG_MAX : Int := 9223372036854775807

/-- The smallest `long long` (`LLONG_MIN`). -/
def LLONG_MIN : Int := -9223372036854775808

/-- Whether an integer is a `long long`. -/
def isLongLong (x : Int) : Prop := LLONG_MIN ≤ x ∧ x ≤ LLONG_MAX

/-- The successor rule between an enumerator and the one declared just after
it, on the recorded values `elems`: when the second has no initializer its
value is the value of the first plus one, as a `long long`. -/
def SuccessorRule (elems : UnorderedMap Int) (first second : CXCursor) : Prop :=
  hasInitializer second = false →
    ∃ value, elems.find first.spelling = some value ∧
      elems.find second.spelling = some (toLongLong (value + 1))

/-- What the visitor keeps of its client data: the counter and the recorded
values are `long long`s. -/
def EnumValuesInRange (client : EnumVisitorClient) : Prop :=
  isLongLong client.current_value ∧
    ∀ key value, client.node.elems.find key = some value → isLongLong value

/-- What holds of the visitor's client data once the enumerators `seen` and
their children have been visited. -/
def EnumInvariant (seen : List CXCursor) (client : EnumVisitorClient) : Prop :=
  (seen = [] → client.current_value = 0) ∧
  (∀ enumerator ∈ seen.getLast?, client.last_elem = enumerator.spelling ∧
    ∃ value, client.node.elems.find enumerator.spelling = some value ∧
      client.current_value = toLongLong (value + 1)) ∧
  (∀ enumerator ∈ seen.head?, hasInitializer enumerator = false →
    client.node.elems.find enumerator.spelling = some 0) ∧
  List.Chain' (SuccessorRule client.node.elems) seen

/-- The cursor of `enum class LEON_KV("enum", "AppleEnum") AppleEnum { John = 0,
Michael }` of `Tests/General/Source/AppleComponent.h`, declared in class
`AppleComponent` of namespace `MyCoolGame::Component`. -/
def AppleEnum_cursor : CXCursor :=
  CXCursor.mk CXCursorKind.EnumDecl "AppleEnum".toList
    [(CXCursorKind.ClassDecl, "AppleComponent".toList),
      (CXCursorKind.Namespace, "Component".toList),
      (CXCursorKind.Namespace, "MyCoolGame".toList),
      (CXCursorKind.TranslationUnit, "AppleComponent.h".toList)]
    none {}
    [CXCursor.mk CXCursorKind.AnnotateAttr "@leonkv \"enum\" \"AppleEnum\"".toList [] none {} [],
      CXCursor.mk CXCursorKind.EnumConstantDecl "John".toList [] none {}
        [CXCursor.mk CXCursorKind.IntegerLiteral [] []
          (some { kind := CXEvalResultKind.Int, asLongLong := 0 }) {} []],
      CXCursor.mk CXCursorKind.EnumConstantDecl "Michael".toList [] none {} []]

/-- The qualifier words of a type, in the order `const`, `volatile`,
`restrict`. -/
def qualifierWords (cx_type : CXType) : List CppString :=
  (if cx_type.data.isConstQualified then ["const".toList] else []) ++
    (if cx_type.data.isVolatileQualified then ["volatile".toList] else []) ++
    (if cx_type.data.isRestrictQualified then ["restrict".toList] else [])

/-- The qualifier words of a type separated by single spaces. -/
def qualifierString (cx_type : CXType) : CppString :=
  " ".toList.intercalate (qualifierWords cx_type)

/-- The left qualifiers of a canonical name: the qualifiers of the root
followed by one space, empty when the root has none. -/
def leftQualifiers (root : CXType) : CppString :=
  if qualifierWords root = [] then [] else qualifierString root ++ [' ']

/-- The sigil of a reference or pointer layer. -/
def layerSigil (kind : CXTypeKind) : CppString :=
  if kind = CXTypeKind.LValueReference then "&".toList
  else if kind = CXTypeKind.RValueReference then "&&".toList
  else "*".toList

/-- The reference and pointer layers of a type, outermost first: a reference,
or a plain, block, Objective-C object or member pointer that has a pointee. -/
def typeLayers : CXType → List CXType
  | CXType.mk data pointee decl types declType =>
    if data.kind = CXTypeKind.LValueReference ∨ data.kind = CXTypeKind.RValueReference then
      CXType.mk data pointee decl types declType ::
        (match pointee with
        | some p => typeLayers p
        | none => [])
    else if data.kind = CXTypeKind.Pointer ∨ data.kind = CXTypeKind.BlockPointer
        ∨ data.kind = CXTypeKind.ObjCObjectPointer ∨ data.kind = CXTypeKind.MemberPointer then
      match pointee with
      | some p =>
        if p.kind = CXTypeKind.Invalid then []
        else CXType.mk data pointee decl types declType :: typeLayers p
      | none => []
    else []

/-- The right qualifiers of a canonical name: from the innermost layer to the
outermost, one space, the sigil of the layer and the layer's own qualifiers. -/
def rightQualifiers (cx_type : CXType) : CppString :=
  ((typeLayers cx_type).reverse.map
    (fun layer => " ".toList ++ (layerSigil layer.kind ++ qualifierString layer))).flatten

/-- The type `const volatile int`. -/
def type_const_volatile_int : CXType :=
  CXType.mk { kind := CXTypeKind.Int, isConstQualified := true, isVolatileQualified := true,
              spelling := "const volatile int".toList, unqualifiedSpelling := "int".toList }
    none {} [] none

/-- The type `const volatile int *const`. -/
def type_const_volatile_int_ptr_const : CXType :=
  CXType.mk { kind := CXTypeKind.Pointer, isConstQualified := true,
              spelling := "const volatile int *const".toList,
              unqualifiedSpelling := "const volatile int *".toList }
    (some type_const_volatile_int) {} [] none

/-- The type `const volatile int *const &` of parameter `coretype2` of
`AppleComponent::Test`. -/
def type_const_volatile_int_ptr_const_ref : CXType :=
  CXType.mk { kind := CXTypeKind.LValueReference,
              spelling := "const volatile int *const &".toList,
              unqualifiedSpelling := "const volatile int *const &".toList }
    (some type_const_volatile_int_ptr_const) {} [] none

/-- The keys that a type node refers to: its `root`, `unqualified`,
`unqualified_root` and `pointee` fields and the types of its `Type` template
arguments. -/
def TypeNode.references (node : TypeNode) : List CppString :=
  [node.root, node.unqualified, node.unqualified_root, node.pointee] ++
    (node.template_args.filter (fun arg => arg.arg_type = TemplateArgType.Type)).map
      (fun arg => arg.type)

/-- Closure of the type registry under reference: every non-empty key that a
node refers to is a key of the registry. -/
def RegistryClosed (type_nodes : UnorderedMap TypeNode) : Prop :=
  ∀ key node, type_nodes.find key = some node →
    ∀ ref ∈ node.references, ref ≠ [] → (type_nodes.find ref).isSome = true

/-- What a call of `RegisterType` that returns guarantees: the key is the
canonical name of the type, the entries present before are unchanged, the key
is registered, and a closed registry stays closed. -/
def RegisterTypeSpec
    (register : UnorderedMap TypeNode → CXType → Fuelled (CppString × UnorderedMap TypeNode)) :
    Prop :=
  ∀ type_nodes cx_type key type_nodes2,
    register type_nodes cx_type = some (Except.ok (key, type_nodes2)) →
      GetCXTypeName cx_type = Except.ok key ∧
      (∀ other node, type_nodes.find other = some node → type_nodes2.find other = some node) ∧
      (type_nodes2.find key).isSome = true ∧
      (RegistryClosed type_nodes → RegistryClosed type_nodes2)

/-- The type registry after `RegisterType` on the type of parameter
`coretype2`, starting from the empty registry. -/
def registry_after_coretype2 : UnorderedMap TypeNode :=
  match RegisterType UnorderedMap.empty type_const_volatile_int_ptr_const_ref with
  | Except.ok result => result.2
  | Except.error _ => UnorderedMap.empty

/-- The value of the initializer of an enumerator: what the last child cursor
that evaluates, evaluates to. -/
def initializerValue (enumerator : CXCursor) : Option Int :=
  (enumerator.children.filterMap
    (fun child => child.evaluate.map
      (fun result => clang_EvalResult_getAsLongLong result))).getLast?

/-- The cursor of `enum LEON_KV("enum", "MyEnum") MyEnum { SpongeBob = 0,
Patrick = 1, Plankton = 10, Mario = Plankton + Patrick, Luigi = Mario + 1000,
Kiryu, Majima }` of `Tests/General/Source/AppleComponent.h`, declared in
namespace `MyCoolGame`. -/
def MyEnum_cursor : CXCursor :=
  CXCursor.mk CXCursorKind.EnumDecl "MyEnum".toList
    [(CXCursorKind.Namespace, "MyCoolGame".toList),
      (CXCursorKind.TranslationUnit, "AppleComponent.h".toList)]
    none {}
    [CXCursor.mk CXCursorKind.AnnotateAttr "@leonkv \"enum\" \"MyEnum\"".toList [] none {} [],
      CXCursor.mk CXCursorKind.EnumConstantDecl "SpongeBob".toList [] none {}
        [CXCursor.mk CXCursorKind.IntegerLiteral [] []
          (some { kind := CXEvalResultKind.Int, asLongLong := 0 }) {} []],
      CXCursor.mk CXCursorKind.EnumConstantDecl "Patrick".toList [] none {}
        [CXCursor.mk CXCursorKind.IntegerLiteral [] []
          (some { kind := CXEvalResultKind.Int, asLongLong := 1 }) {} []],
      CXCursor.mk CXCursorKind.EnumConstantDecl "Plankton".toList [] none {}
        [CXCursor.mk CXCursorKind.IntegerLiteral [] []
          (some { kind := CXEvalResultKind.Int, asLongLong := 10 }) {} []],
      CXCursor.mk CXCursorKind.EnumConstantDecl "Mario".toList [] none {}
        [CXCursor.mk CXCursorKind.BinaryOperator [] []
          (some { kind := CXEvalResultKind.Int, asLongLong := 11 }) {}
          [CXCursor.mk CXCursorKind.DeclRefExpr "Plankton".toList []
              (some { kind := CXEvalResultKind.Int, asLongLong := 10 }) {} [],
            CXCursor.mk CXCursorKind.DeclRefExpr "Patrick".toList []
              (some { kind := CXEvalResultKind.Int, asLongLong := 1 }) {} []]],
      CXCursor.mk CXCursorKind.EnumConstantDecl "Luigi".toList [] none {}
        [CXCursor.mk CXCursorKind.BinaryOperator [] []
          (some { kind := CXEvalResultKind.Int, asLongLong := 1011 }) {}
          [CXCursor.mk CXCursorKind.DeclRefExpr "Mario".toList []
              (some { kind := CXEvalResultKind.Int, asLongLong := 11 }) {} [],
            CXCursor.mk CXCursorKind.IntegerLiteral [] []
              (some { kind := CXEvalResultKind.Int, asLongLong := 1000 }) {} []]],
      CXCursor.mk CXCursorKind.EnumConstantDecl "Kiryu".toList [] none {} [],
      CXCursor.mk CXCursorKind.EnumConstantDecl "Majima".toList [] none {} []]

/-- What holds of the recorded values once the enumerators `seen` and their
children have been visited: an enumerator with an initializer has the value of
the initializer. -/
def InitializerInvariant (seen : List CXCursor) (client : EnumVisitorClient) : Prop :=
  ∀ enumerator ∈ seen, ∀ value, initializerValue enumerator = some value →
    client.node.elems.find enumerator.spelling = some value

/-- The cursor of `enum LEON Wide : unsigned long long { Top =
0x7FFFFFFFFFFFFFFE, Next, After }` in namespace `MyCoolGame`: the enumerator
`Next` has the value `LLONG_MAX` and `After` the value 2^63. -/
def Wide_cursor : CXCursor :=
  CXCursor.mk CXCursorKind.EnumDecl "Wide".toList
    [(CXCursorKind.Namespace, "MyCoolGame".toList),
      (CXCursorKind.TranslationUnit, "AppleComponent.h".toList)]
    none {}
    [CXCursor.mk CXCursorKind.AnnotateAttr "@leon".toList [] none {} [],
      CXCursor.mk CXCursorKind.EnumConstantDecl "Top".toList [] none {}
        [CXCursor.mk CXCursorKind.IntegerLiteral [] []
          (some { kind := CXEvalResultKind.Int, asLongLong := 9223372036854775806 }) {} []],
      CXCursor.mk CXCursorKind.EnumConstantDecl "Next".toList [] none {} [],
      CXCursor.mk CXCursorKind.EnumConstantDecl "After".toList [] none {} []]

/-- The cursor of `enum LEON Huge : unsigned long long { Top =
0x7FFFFFFFFFFFFFFF, Next }` in namespace `MyCoolGame`: the initializer of `Top`
evaluates to `LLONG_MAX` and `Next` has the value 2^63. -/
def Huge_cursor : CXCursor :=
  CXCursor.mk CXCursorKind.EnumDecl "Huge".toList
    [(CXCursorKind.Namespace, "MyCoolGame".toList),
      (CXCursorKind.TranslationUnit, "AppleComponent.h".toList)]
    none {}
    [CXCursor.mk CXCursorKind.AnnotateAttr "@leon".toList [] none {} [],
      CXCursor.mk CXCursorKind.EnumConstantDecl "Top".toList [] none {}
        [CXCursor.mk CXCursorKind.IntegerLiteral [] []
          (some { kind := CXEvalResultKind.Int, asLongLong := 9223372036854775807 }) {} []],
      CXCursor.mk CXCursorKind.EnumConstantDecl "Next".toList [] none {} []]

/-- The cursor of the opaque declaration `enum LEON Later : int;` in namespace
`MyCoolGame`. -/
def Later_declaration_cursor : CXCursor :=
  CXCursor.mk CXCursorKind.EnumDecl "Later".toList
    [(CXCursorKind.Namespace, "MyCoolGame".toList),
      (CXCursorKind.TranslationUnit, "AppleComponent.h".toList)]
    none {}
    [CXCursor.mk CXCursorKind.AnnotateAttr "@leon".toList [] none {} []]

/-- The cursor of the definition `enum LEON Later : int { First, Second = 5 }`
that follows the opaque declaration. -/
def Later_definition_cursor : CXCursor :=
  CXCursor.mk CXCursorKind.EnumDecl "Later".toList
    [(CXCursorKind.Namespace, "MyCoolGame".toList),
      (CXCursorKind.TranslationUnit, "AppleComponent.h".toList)]
    none {}
    [CXCursor.mk CXCursorKind.AnnotateAttr "@leon".toList [] none {} [],
      CXCursor.mk CXCursorKind.EnumConstantDecl "First".toList [] none {} [],
      CXCursor.mk CXCursorKind.EnumConstantDecl "Second".toList [] none {}
        [CXCursor.mk CXCursorKind.IntegerLiteral [] []
          (some { kind := CXEvalResultKind.Int, asLongLong := 5 }) {} []]]

/-! ## The class registry (Parse.cpp) -/

/-- The enumeration `ClassNode::Visibility`. -/
inductive Visibility where
  | Invalid
  | Public
  | Protected
  | Private
  deriving DecidableEq

/-- The enumeration `ClassNode::ClassType`. -/
inductive ClassType where
  | Invalid
  | Struct
  | Class
  deriving DecidableEq

/-- The structure `ClassNode::Base`. -/
structure Base where
  base_class : CppString := []
  visibility : Visibility := Visibility.Invalid
  deriving DecidableEq

/-- The enumeration `ClassNode::Member::MemberType`. -/
inductive MemberType where
  | Invalid
  | Member
  | Static
  deriving DecidableEq

/-- The structure `ClassNode::Member`. -/
structure Member where
  name : CppString := []
  member_type : MemberType := MemberType.Invalid
  attrs : List LeonAttr := []
  visibility : Visibility := Visibility.Invalid
  type : CppString := []
  deriving DecidableEq

/-- The enumeration `ClassNode::Method::MethodType`. -/
inductive MethodType where
  | Invalid
  | Method
  | Static
  | Friend
  deriving DecidableEq

/-- The structure `ClassNode::Method::Arg` (and `FunctionNode::Arg`, which has
the same fields). -/
structure Arg where
  type : CppString := []
  name : CppString := []
  attrs : List LeonAttr := []
  deriving DecidableEq

/-- The structure `ClassNode::Method`. -/
structure Method where
  name : CppString := []
  method_type : MethodType := MethodType.Invalid
  q_const : Bool := false
  q_virtual : Bool := false
  q_pure : Bool := false
  attrs : List LeonAttr := []
  visibility : Visibility := Visibility.Invalid
  return_type : CppString := []
  args : List Arg := []
  deriving DecidableEq

/-- The structure `ClassNode`. -/
structure ClassNode where
  name : CppString := []
  class_type : ClassType := ClassType.Invalid
  attrs : List LeonAttr := []
  q_abstract : Bool := false
  bases : List Base := []
  members : List Member := []
  methods : List Method := []
  deriving DecidableEq

/-- The structure `FunctionNode`. -/
structure FunctionNode where
  name : CppString := []
  attrs : List LeonAttr := []
  return_type : CppString := []
  args : List Arg := []
  deriving DecidableEq

/-- The four global registries `type_nodes`, `enum_nodes`, `class_nodes` and
`function_nodes`. -/
structure Registries where
  type_nodes : UnorderedMap TypeNode := UnorderedMap.empty
  enum_nodes : UnorderedMap EnumNode := UnorderedMap.empty
  class_nodes : UnorderedMap ClassNode := UnorderedMap.empty
  function_nodes : UnorderedMap FunctionNode := UnorderedMap.empty

/-- The `VisitorClient` of `RegisterClass`.  The pointer `current_method` is
`none` for `nullptr` and otherwise the position in `node.methods` of the method
it points to; `current_arg` is only written and is left out. -/
structure ClassVisitorClient where
  node : ClassNode := {}
  friend_decl : Nat := 0
  current_method : Option Nat := none

/-- The call `clang_getCXXAccessSpecifier(cursor)`. -/
def clang_getCXXAccessSpecifier (cursor : CXCursor) : CX_CXXAccessSpecifier :=
  cursor.info.access

/-- The call `clang_Cursor_getStorageClass(cursor)`. -/
def clang_Cursor_getStorageClass (cursor : CXCursor) : CX_StorageClass :=
  cursor.info.storageClass

/-- The call `clang_CXXMethod_isConst(cursor)`. -/
def clang_CXXMethod_isConst (cursor : CXCursor) : Bool := cursor.info.isConst

/-- The call `clang_CXXMethod_isVirtual(cursor)`. -/
def clang_CXXMethod_isVirtual (cursor : CXCursor) : Bool := cursor.info.isVirtual

/-- The call `clang_CXXMethod_isPureVirtual(cursor)`. -/
def clang_CXXMethod_isPureVirtual (cursor : CXCursor) : Bool := cursor.info.isPureVirtual

/-- The `switch (access)` of the class visitor, which throws `message` in its
default case. -/
def classVisitor.visibility (access : CX_CXXAccessSpecifier) (message : String) :
    Except String Visibility :=
  match access with
  | CX_CXXAccessSpecifier.CX_CXXPublic => Except.ok Visibility.Public
  | CX_CXXAccessSpecifier.CX_CXXProtected => Except.ok Visibility.Protected
  | CX_CXXAccessSpecifier.CX_CXXPrivate => Except.ok Visibility.Private
  | CX_CXXAccessSpecifier.CX_CXXInvalidAccessSpecifier => Except.error message

/-- The write `current_method->args.emplace_back()` followed by the writes to
the new argument: `arg` is appended to the arguments of the method at
position `index`. -/
def appendArg : List Method → Nat → Arg → List Method
  | [], _, _ => []
  | method :: methods, 0, arg => { method with args := method.args ++ [arg] } :: methods
  | method :: methods, index + 1, arg => method :: appendArg methods index arg

/-- The branch `CXCursor_CXXBaseSpecifier` of the class visitor. -/
def classVisitor.base (cursor : CXCursor) (client : ClassVisitorClient) (regs : Registries) :
    Except String (CXChildVisitResult × ClassVisitorClient × Registries) :=
  match classVisitor.visibility (clang_getCXXAccessSpecifier cursor)
      "Unexpected access specifier for base specifier" with
  | Except.error e => Except.error e
  | Except.ok visibility =>
    let type := clang_getCursorType cursor
    if type.kind = CXTypeKind.Invalid then
      Except.error "Type not found for base specifier"
    else
      let decl := clang_getTypeDeclaration type
      if clang_isInvalid decl.kind then
        Except.error "Type not found for base specifier"
      else
        let base : Base := { base_class := GetCXCursorName decl, visibility := visibility }
        Except.ok (CXChildVisitResult.Continue,
          { client with node := { client.node with bases := client.node.bases ++ [base] } },
          regs)

/-- The branches `CXCursor_FieldDecl` (`member_type` is `Member`) and
`CXCursor_VarDecl` (`member_type` is `Static`) of the class visitor. -/
def classVisitor.member (member_type : MemberType) (message : String) (cursor : CXCursor)
    (client : ClassVisitorClient) (regs : Registries) :
    Except String (CXChildVisitResult × ClassVisitorClient × Registries) :=
  let access := clang_getCXXAccessSpecifier cursor
  match ParseCXCursorAttributes cursor with
  | Except.error e => Except.error e
  | Except.ok attrs =>
    if attrs.length ≠ 0 then
      match classVisitor.visibility access message with
      | Except.error e => Except.error e
      | Except.ok visibility =>
        match RegisterType regs.type_nodes (clang_getCursorType cursor) with
        | Except.error e => Except.error e
        | Except.ok (type, type_nodes) =>
          let member : Member :=
            { name := cursor.spelling, member_type := member_type, attrs := attrs,
              visibility := visibility, type := type }
          Except.ok (CXChildVisitResult.Continue,
            { client with node := { client.node with members := client.node.members ++ [member] } },
            { regs with type_nodes := type_nodes })
    else
      Except.ok (CXChildVisitResult.Continue, client, regs)

/-- The end of the branches `CXCursor_FunctionDecl` and `CXCursor_CXXMethod`:
the return type is registered, the method is appended and becomes the current
method. -/
def classVisitor.emplaceMethod (cursor : CXCursor) (method : Method)
    (client : ClassVisitorClient) (regs : Registries) :
    Except String (CXChildVisitResult × ClassVisitorClient × Registries) :=
  match RegisterType regs.type_nodes (clang_getCursorResultType cursor) with
  | Except.error e => Except.error e
  | Except.ok (return_type, type_nodes) =>
    let method := { method with return_type := return_type }
    Except.ok (CXChildVisitResult.Recurse,
      { client with
        node := { client.node with methods := client.node.methods ++ [method] }
        current_method := some client.node.methods.length },
      { regs with type_nodes := type_nodes })

/-- The branch `CXCursor_FunctionDecl` of the class visitor. -/
def classVisitor.function (cursor : CXCursor) (client : ClassVisitorClient) (regs : Registries) :
    Except String (CXChildVisitResult × ClassVisitorClient × Registries) :=
  let access := clang_getCXXAccessSpecifier cursor
  match ParseCXCursorAttributes cursor with
  | Except.error e => Except.error e
  | Except.ok attrs =>
    if attrs.length ≠ 0 then
      match classVisitor.visibility access "Unexpected access specifier for function" with
      | Except.error e => Except.error e
      | Except.ok visibility =>
        if client.friend_decl ≠ 0 then
          classVisitor.emplaceMethod cursor
            { name := cursor.spelling, attrs := attrs, visibility := visibility,
              method_type := MethodType.Friend } client regs
        else
          Except.error "FunctionDecl in class without FriendDecl"
    else
      Except.ok (CXChildVisitResult.Continue, { client with current_method := none }, regs)

/-- The `switch (storage)` of the branch `CXCursor_CXXMethod`. -/
def classVisitor.methodType (storage : CX_StorageClass) : Except String MethodType :=
  match storage with
  | CX_StorageClass.CX_SC_None => Except.ok MethodType.Method
  | CX_StorageClass.CX_SC_Static => Except.ok MethodType.Static
  | CX_StorageClass.CX_SC_Extern => Except.error "Invalid CXXMethod storage class"
  | CX_StorageClass.CX_SC_PrivateExtern => Except.error "Invalid CXXMethod storage class"
  | CX_StorageClass.CX_SC_OpenCLWorkGroupLocal => Except.error "Invalid CXXMethod storage class"
  | CX_StorageClass.CX_SC_Auto => Except.error "Invalid CXXMethod storage class"
  | CX_StorageClass.CX_SC_Register => Except.error "Invalid CXXMethod storage class"
  | CX_StorageClass.CX_SC_Invalid => Except.error "Unexpected storage class for method"

/-- The branch `CXCursor_CXXMethod` of the class visitor. -/
def classVisitor.method (cursor : CXCursor) (client : ClassVisitorClient) (regs : Registries) :
    Except String (CXChildVisitResult × ClassVisitorClient × Registries) :=
  let access := clang_getCXXAccessSpecifier cursor
  let storage := clang_Cursor_getStorageClass cursor
  match ParseCXCursorAttributes cursor with
  | Except.error e => Except.error e
  | Except.ok attrs =>
    if attrs.length ≠ 0 then
      match classVisitor.visibility access "Unexpected access specifier for method" with
      | Except.error e => Except.error e
      | Except.ok visibility =>
        match classVisitor.methodType storage with
        | Except.error e => Except.error e
        | Except.ok method_type =>
          classVisitor.emplaceMethod cursor
            { name := cursor.spelling, attrs := attrs, visibility := visibility,
              method_type := method_type,
              q_const := clang_CXXMethod_isConst cursor,
              q_virtual := clang_CXXMethod_isVirtual cursor,
              q_pure := clang_CXXMethod_isPureVirtual cursor } client regs
    else
      Except.ok (CXChildVisitResult.Continue, { client with current_method := none }, regs)

/-- The branch `CXCursor_ParmDecl` of the class visitor. -/
def classVisitor.parameter (cursor : CXCursor) (client : ClassVisitorClient) (regs : Registries) :
    Except String (CXChildVisitResult × ClassVisitorClient × Registries) :=
  match client.current_method with
  | none => Except.error "ParmDecl without CXXMethod or FunctionDecl"
  | some index =>
    match RegisterType regs.type_nodes (clang_getCursorType cursor) with
    | Except.error e => Except.error e
    | Except.ok (type, type_nodes) =>
      match ParseCXCursorAttributes cursor with
      | Except.error e => Except.error e
      | Except.ok attrs =>
        let arg : Arg := { name := cursor.spelling, type := type, attrs := attrs }
        Except.ok (CXChildVisitResult.Continue,
          { client with
            node := { client.node with methods := appendArg client.node.methods index arg } },
          { regs with type_nodes := type_nodes })

/-- The statement `if (client.friend_decl) client.friend_decl--;` that opens
the class visitor. -/
def classVisitor.friendTick (client : ClassVisitorClient) : ClassVisitorClient :=
  if client.friend_decl ≠ 0 then { client with friend_decl := client.friend_decl - 1 }
  else client

/-- The visitor lambda of `RegisterClass` on the client data and the
registries.  `registerClass` is the call `RegisterClass(cursor)` on the cursor
that is visited. -/
def classVisitor (registerClass : Registries → Except String (CppString × Registries))
    (cursor : CXCursor) (state : ClassVisitorClient × Registries) :
    Except String (CXChildVisitResult × ClassVisitorClient × Registries) :=
  let client := classVisitor.friendTick state.1
  let regs := state.2
  if cursor.kind = CXCursorKind.CXXBaseSpecifier then
    classVisitor.base cursor client regs
  else if cursor.kind = CXCursorKind.ClassDecl ∨ cursor.kind = CXCursorKind.StructDecl then
    match registerClass regs with
    | Except.error e => Except.error e
    | Except.ok (_, regs) => Except.ok (CXChildVisitResult.Continue, client, regs)
  else if cursor.kind = CXCursorKind.EnumDecl then
    match RegisterEnum regs.enum_nodes cursor with
    | Except.error e => Except.error e
    | Except.ok (_, enum_nodes) =>
      Except.ok (CXChildVisitResult.Continue, client, { regs with enum_nodes := enum_nodes })
  else if cursor.kind = CXCursorKind.FieldDecl then
    classVisitor.member MemberType.Member "Unexpected access specifier for member"
      cursor client regs
  else if cursor.kind = CXCursorKind.VarDecl then
    classVisitor.member MemberType.Static "Unexpected access specifier for variable"
      cursor client regs
  else if cursor.kind = CXCursorKind.FunctionDecl then
    classVisitor.function cursor client regs
  else if cursor.kind = CXCursorKind.CXXMethod then
    classVisitor.method cursor client regs
  else if cursor.kind = CXCursorKind.ParmDecl then
    classVisitor.parameter cursor client regs
  else if cursor.kind = CXCursorKind.FriendDecl then
    Except.ok (CXChildVisitResult.Recurse, { client with friend_decl := 2 }, regs)
  else
    Except.ok (CXChildVisitResult.Recurse, client, regs)

/-- The function `RegisterClass(CXCursor cursor)` with its call
`clang_visitChildren(cursor, visitor, &client)` as the parameter
`visitChildren`: the returned name and the registries afterwards. -/
def RegisterClass.run
    (visitChildren : ClassVisitorClient × Registries →
      Except String (Bool × ClassVisitorClient × Registries))
    (cursor : CXCursor) (regs : Registries) : Except String (CppString × Registries) :=
  let name := GetCXCursorName cursor
  match regs.class_nodes.find name with
  | some _ => Except.ok (name, regs)
  | none =>
    match ParseCXCursorAttributes cursor with
    | Except.error e => Except.error e
    | Except.ok attrs =>
      let client : ClassVisitorClient := { node := { attrs := attrs } }
      if client.node.attrs.length ≠ 0 then
        let client := { client with node := { client.node with name := name } }
        let class_type : Except String ClassType :=
          if cursor.kind = CXCursorKind.ClassDecl then Except.ok ClassType.Class
          else if cursor.kind = CXCursorKind.StructDecl then Except.ok ClassType.Struct
          else Except.error "Unexpected cursor kind for RegisterClass"
        match class_type with
        | Except.error e => Except.error e
        | Except.ok class_type =>
          let client := { client with node := { client.node with class_type := class_type } }
          match visitChildren (client, regs) with
          | Except.error e => Except.error e
          | Except.ok (_, client, regs) =>
            let node := { client.node with
              q_abstract := client.node.methods.any (fun method => method.q_pure) }
            Except.ok (name, { regs with class_nodes := regs.class_nodes.assign name node })
      else
        Except.ok (name, regs)

mutual
/-- The library visits one cursor with the visitor of `RegisterClass`; on a
nested class or struct the visitor calls `RegisterClass` on that cursor, which
visits its children with a client of its own. -/
def RegisterClass.visitCursor :
    CXCursor → ClassVisitorClient × Registries →
      Except String (Bool × ClassVisitorClient × Registries)
  | CXCursor.mk kind spelling parents evaluate info children, state =>
    match classVisitor
        (RegisterClass.run (fun inner => RegisterClass.visitList children inner)
          (CXCursor.mk kind spelling parents evaluate info children))
        (CXCursor.mk kind spelling parents evaluate info children) state with
    | Except.error e => Except.error e
    | Except.ok (CXChildVisitResult.Break, state) => Except.ok (true, state)
    | Except.ok (CXChildVisitResult.Continue, state) => Except.ok (false, state)
    | Except.ok (CXChildVisitResult.Recurse, state) => RegisterClass.visitList children state
/-- The library visits a list of sibling cursors with the visitor of
`RegisterClass`. -/
def RegisterClass.visitList :
    List CXCursor → ClassVisitorClient × Registries →
      Except String (Bool × ClassVisitorClient × Registries)
  | [], state => Except.ok (false, state)
  | cursor :: siblings, state =>
    match RegisterClass.visitCursor cursor state with
    | Except.error e => Except.error e
    | Except.ok (true, state) => Except.ok (true, state)
    | Except.ok (false, state) => RegisterClass.visitList siblings state
end

/-- The function `RegisterClass(CXCursor cursor)` on the registries: the
returned name and the registries afterwards. -/
def RegisterClass (regs : Registries) (cursor : CXCursor) :
    Except String (CppString × Registries) :=
  RegisterClass.run (fun state => RegisterClass.visitList cursor.children state) cursor regs

/-! ## The function registry (Parse.cpp) -/

/-- The visitor lambda of `RegisterFunction` on the node of the client data and
the type registry. -/
def functionVisitor (cursor : CXCursor) (state : FunctionNode × UnorderedMap TypeNode) :
    Except String (CXChildVisitResult × FunctionNode × UnorderedMap TypeNode) :=
  if cursor.kind = CXCursorKind.ParmDecl then
    match RegisterType state.2 (clang_getCursorType cursor) with
    | Except.error e => Except.error e
    | Except.ok (type, type_nodes) =>
      match ParseCXCursorAttributes cursor with
      | Except.error e => Except.error e
      | Except.ok attrs =>
        let arg : Arg := { name := cursor.spelling, type := type, attrs := attrs }
        Except.ok (CXChildVisitResult.Continue,
          { state.1 with args := state.1.args ++ [arg] }, type_nodes)
  else
    Except.ok (CXChildVisitResult.Recurse, state)

/-- The function `RegisterFunction(CXCursor cursor)` on the registries: the
returned name and the registries afterwards.  The check for an earlier
registration looks into `class_nodes`, as in the source. -/
def RegisterFunction (regs : Registries) (cursor : CXCursor) :
    Except String (CppString × Registries) :=
  let name := GetCXCursorName cursor
  match regs.class_nodes.find name with
  | some _ => Except.ok (name, regs)
  | none =>
    match ParseCXCursorAttributes cursor with
    | Except.error e => Except.error e
    | Except.ok attrs =>
      let node : FunctionNode := { attrs := attrs }
      if node.attrs.length ≠ 0 then
        let node := { node with name := name }
        match RegisterType regs.type_nodes (clang_getCursorResultType cursor) with
        | Except.error e => Except.error e
        | Except.ok (return_type, type_nodes) =>
          let node := { node with return_type := return_type }
          match clang_visitChildren cursor functionVisitor (node, type_nodes) with
          | Except.error e => Except.error e
          | Except.ok (node, type_nodes) =>
            Except.ok (name,
              { regs with
                type_nodes := type_nodes
                function_nodes := regs.function_nodes.assign name node })
      else
        Except.ok (name, regs)

/-! ## The calls of the top-level visitor (Parse.cpp) -/

/-- A call that the top-level `Visitor` makes on a declaration of the main
file: `RegisterClass`, `RegisterEnum` or `RegisterFunction`. -/
inductive RegisterCall where
  | registerClass (cursor : CXCursor)
  | registerEnum (cursor : CXCursor)
  | registerFunction (cursor : CXCursor)

/-- The cursor of a call. -/
def RegisterCall.cursor : RegisterCall → CXCursor
  | RegisterCall.registerClass cursor => cursor
  | RegisterCall.registerEnum cursor => cursor
  | RegisterCall.registerFunction cursor => cursor

/-- One call on the registries: the registries afterwards. -/
def RegisterCall.run (regs : Registries) : RegisterCall → Except String Registries
  | RegisterCall.registerClass cursor =>
    match RegisterClass regs cursor with
    | Except.error e => Except.error e
    | Except.ok (_, regs) => Except.ok regs
  | RegisterCall.registerEnum cursor =>
    match RegisterEnum regs.enum_nodes cursor with
    | Except.error e => Except.error e
    | Except.ok (_, enum_nodes) => Except.ok { regs with enum_nodes := enum_nodes }
  | RegisterCall.registerFunction cursor =>
    match RegisterFunction regs cursor with
    | Except.error e => Except.error e
    | Except.ok (_, regs) => Except.ok regs

/-- A sequence of calls, one after the other; an exception ends it. -/
def runCalls : List RegisterCall → Registries → Except String Registries
  | [], regs => Except.ok regs
  | call :: calls, regs =>
    match call.run regs with
    | Except.error e => Except.error e
    | Except.ok regs => runCalls calls regs
/-! ## Reference notions for the class and function registries -/

/-- A class node with attributes: the node, its members and its methods each
have a non-empty attribute list. -/
def ClassNodeAttributed (node : ClassNode) : Prop :=
  node.attrs ≠ [] ∧ (∀ member ∈ node.members, member.attrs ≠ []) ∧
    (∀ method ∈ node.methods, method.attrs ≠ [])

/-- The abstract flag of a class node: it is set exactly when a recorded method
is pure. -/
def AbstractFlag (node : ClassNode) : Prop :=
  node.q_abstract = true ↔ ∃ method ∈ node.methods, method.q_pure = true

/-- Attribute necessity: every node of the enum, class and function registries
has a non-empty attribute list, and so has every recorded member and method of
a class. -/
def AttributesPresent (regs : Registries) : Prop :=
  (∀ key node, regs.enum_nodes.find key = some node → node.attrs ≠ []) ∧
  (∀ key node, regs.class_nodes.find key = some node → ClassNodeAttributed node) ∧
  (∀ key node, regs.function_nodes.find key = some node → node.attrs ≠ [])

/-- What a step of the program does to the enum, class and function
registries: an entry found afterwards was there before, or it is a node with
attributes (and, for a class, with the abstract flag of its methods). -/
def RegistriesStep (regs regs2 : Registries) : Prop :=
  (∀ key node, regs2.enum_nodes.find key = some node →
    regs.enum_nodes.find key = some node ∨ node.attrs ≠ []) ∧
  (∀ key node, regs2.class_nodes.find key = some node →
    regs.class_nodes.find key = some node ∨ (ClassNodeAttributed node ∧ AbstractFlag node)) ∧
  (∀ key node, regs2.function_nodes.find key = some node →
    regs.function_nodes.find key = some node ∨ node.attrs ≠ [])

/-- The type `void`. -/
def type_void : CXType :=
  CXType.mk { kind := CXTypeKind.Void, spelling := "void".toList,
              unqualifiedSpelling := "void".toList } none {} [] none

/-- The cursor of `class LEON WeirdClass { virtual void LEON Overrides() = 0;
}` of `Tests/General/Source/AppleComponent.h`, declared in namespace
`MyCoolGame`. -/
def WeirdClass_cursor : CXCursor :=
  CXCursor.mk CXCursorKind.ClassDecl "WeirdClass".toList
    [(CXCursorKind.Namespace, "MyCoolGame".toList),
      (CXCursorKind.TranslationUnit, "AppleComponent.h".toList)]
    none {}
    [CXCursor.mk CXCursorKind.AnnotateAttr "@leon".toList [] none {} [],
      CXCursor.mk CXCursorKind.CXXMethod "Overrides".toList
        [(CXCursorKind.ClassDecl, "WeirdClass".toList),
          (CXCursorKind.Namespace, "MyCoolGame".toList),
          (CXCursorKind.TranslationUnit, "AppleComponent.h".toList)]
        none
        { access := CX_CXXAccessSpecifier.CX_CXXPrivate
          storageClass := CX_StorageClass.CX_SC_None
          resultType := type_void
          isVirtual := true
          isPureVirtual := true }
        [CXCursor.mk CXCursorKind.AnnotateAttr "@leon".toList [] none {} []]]

/-- The cursor of `class WeirdUnknownClass { }` of
`Tests/General/Source/AppleComponent.h`, which has no annotation. -/
def WeirdUnknownClass_cursor : CXCursor :=
  CXCursor.mk CXCursorKind.ClassDecl "WeirdUnknownClass".toList
    [(CXCursorKind.Namespace, "MyCoolGame".toList),
      (CXCursorKind.TranslationUnit, "AppleComponent.h".toList)]
    none {} []

/-- The visibility that the class visitor records for a valid access
specifier. -/
def accessVisibility (access : CX_CXXAccessSpecifier) : Visibility :=
  match access with
  | CX_CXXAccessSpecifier.CX_CXXPublic => Visibility.Public
  | CX_CXXAccessSpecifier.CX_CXXProtected => Visibility.Protected
  | CX_CXXAccessSpecifier.CX_CXXPrivate => Visibility.Private
  | CX_CXXAccessSpecifier.CX_CXXInvalidAccessSpecifier => Visibility.Invalid

/-- The type registry that holds the type `void` only. -/
def type_nodes_void : UnorderedMap TypeNode :=
  { entries := [("void".toList,
      { type := TypeNodeType.Type
        name := "void".toList
        root := "void".toList
        unqualified_root := "void".toList
        unqualified := "void".toList })] }

/-- The cursor of the method `static void LEON Static() { }` of class
`AppleComponent` of `Tests/General/Source/AppleComponent.h`. -/
def Static_cursor : CXCursor :=
  CXCursor.mk CXCursorKind.CXXMethod "Static".toList
    [(CXCursorKind.ClassDecl, "AppleComponent".toList),
      (CXCursorKind.Namespace, "Component".toList),
      (CXCursorKind.Namespace, "MyCoolGame".toList),
      (CXCursorKind.TranslationUnit, "AppleComponent.h".toList)]
    none
    { access := CX_CXXAccessSpecifier.CX_CXXPublic
      storageClass := CX_StorageClass.CX_SC_Static
      resultType := type_void }
    [CXCursor.mk CXCursorKind.AnnotateAttr "@leon".toList [] none {} [],
      CXCursor.mk CXCursorKind.Other [] [] none {} []]

/-- The cursor of the friend function `friend void LEON Friend() { }` of class
`AppleComponent` of `Tests/General/Source/AppleComponent.h`, the child of a
`FriendDecl` cursor. -/
def Friend_cursor : CXCursor :=
  CXCursor.mk CXCursorKind.FunctionDecl "Friend".toList
    [(CXCursorKind.Namespace, "Component".toList),
      (CXCursorKind.Namespace, "MyCoolGame".toList),
      (CXCursorKind.TranslationUnit, "AppleComponent.h".toList)]
    none
    { access := CX_CXXAccessSpecifier.CX_CXXPublic
      storageClass := CX_StorageClass.CX_SC_None
      resultType := type_void }
    [CXCursor.mk CXCursorKind.AnnotateAttr "@leon".toList [] none {} [],
      CXCursor.mk CXCursorKind.Other [] [] none {} []]

/-- The cursor of a class whose only declaration is that friend function:
`class LEON FriendHost { friend void LEON Friend() { } }` in namespace
`MyCoolGame::Component`. -/
def FriendHost_cursor : CXCursor :=
  CXCursor.mk CXCursorKind.ClassDecl "FriendHost".toList
    [(CXCursorKind.Namespace, "Component".toList),
      (CXCursorKind.Namespace, "MyCoolGame".toList),
      (CXCursorKind.TranslationUnit, "AppleComponent.h".toList)]
    none {}
    [CXCursor.mk CXCursorKind.AnnotateAttr "@leon".toList [] none {} [],
      CXCursor.mk CXCursorKind.FriendDecl [] [] none {} [Friend_cursor]]

/-- The type `MyCoolGame::WeirdUnknownClass`, declared by the class of that
name. -/
def type_WeirdUnknownClass : CXType :=
  CXType.mk { kind := CXTypeKind.Record, spelling := "MyCoolGame::WeirdUnknownClass".toList,
              unqualifiedSpelling := "MyCoolGame::WeirdUnknownClass".toList } none
    { kind := CXCursorKind.ClassDecl, spelling := "WeirdUnknownClass".toList,
      semanticParents := [(CXCursorKind.Namespace, "MyCoolGame".toList),
        (CXCursorKind.TranslationUnit, "AppleComponent.h".toList)] } [] none

/-- The cursor of a class that holds a class template with a base and has no
base itself: `class LEON Outer { template<class T> struct Inner : public
WeirdUnknownClass { }; }` in namespace `MyCoolGame`.  The library presents the
base specifier of the template as a child of the `ClassTemplate` cursor. -/
def Outer_cursor : CXCursor :=
  CXCursor.mk CXCursorKind.ClassDecl "Outer".toList
    [(CXCursorKind.Namespace, "MyCoolGame".toList),
      (CXCursorKind.TranslationUnit, "AppleComponent.h".toList)]
    none {}
    [CXCursor.mk CXCursorKind.AnnotateAttr "@leon".toList [] none {} [],
      CXCursor.mk CXCursorKind.ClassTemplate "Inner".toList
        [(CXCursorKind.ClassDecl, "Outer".toList),
          (CXCursorKind.Namespace, "MyCoolGame".toList),
          (CXCursorKind.TranslationUnit, "AppleComponent.h".toList)]
        none { access := CX_CXXAccessSpecifier.CX_CXXPrivate }
        [CXCursor.mk CXCursorKind.Other "T".toList [] none {} [],
          CXCursor.mk CXCursorKind.CXXBaseSpecifier "MyCoolGame::WeirdUnknownClass".toList []
            none
            { access := CX_CXXAccessSpecifier.CX_CXXPublic, type := type_WeirdUnknownClass }
            [CXCursor.mk CXCursorKind.TypeRef "class MyCoolGame::WeirdUnknownClass".toList []
              none {} []]]]
/-- The registries after `RegisterClass` on `WeirdClass`, starting from empty
registries. -/
def registries_WeirdClass : Registries :=
  { type_nodes := type_nodes_void
    class_nodes :=
      { entries := [("MyCoolGame::WeirdClass".toList,
          { name := "MyCoolGame::WeirdClass".toList
            class_type := ClassType.Class
            attrs := [{ type := LeonAttrType.Flag }]
            q_abstract := true
            methods :=
              [{ name := "Overrides".toList
                 method_type := MethodType.Method
                 q_virtual := true
                 q_pure := true
                 attrs := [{ type := LeonAttrType.Flag }]
                 visibility := Visibility.Private
                 return_type := "void".toList }] })] } }

/-- The registries after the calls on `WeirdClass`, `WeirdUnknownClass` and
`AppleEnum`, starting from empty registries. -/
def registries_after_calls : Registries :=
  { registries_WeirdClass with
    enum_nodes :=
      { entries := [("MyCoolGame::Component::AppleComponent::AppleEnum".toList,
          { name := "MyCoolGame::Component::AppleComponent::AppleEnum".toList
            attrs := [{ type := LeonAttrType.KeyValue, kv := ("enum".toList, "AppleEnum".toList) }]
            elems := { entries := [("Michael".toList, 1), ("John".toList, 0)] } })] } }
/-- The registries after `RegisterClass` on `FriendHost`, starting from empty
registries: the class has one method, the friend function, without
arguments. -/
def registries_FriendHost : Registries :=
  { type_nodes := type_nodes_void
    class_nodes :=
      { entries := [("MyCoolGame::Component::FriendHost".toList,
          { name := "MyCoolGame::Component::FriendHost".toList
            class_type := ClassType.Class
            attrs := [{ type := LeonAttrType.Flag }]
            q_abstract := false
            methods :=
              [{ name := "Friend".toList
                 method_type := MethodType.Friend
                 attrs := [{ type := LeonAttrType.Flag }]
                 visibility := Visibility.Public
                 return_type := "void".toList
                 args := [] }] })] } }

/-- The registries after `RegisterClass` on `Outer`, starting from empty
registries: the base of the class template `Inner` is recorded as a base of
`Outer`. -/
def registries_Outer : Registries :=
  { class_nodes :=
      { entries := [("MyCoolGame::Outer".toList,
          { name := "MyCoolGame::Outer".toList
            class_type := ClassType.Class
            attrs := [{ type := LeonAttrType.Flag }]
            q_abstract := false
            bases := [{ base_class := "MyCoolGame::WeirdUnknownClass".toList,
                        visibility := Visibility.Public }] })] } }

/-- The base that the class visitor records for a base specifier. -/
def baseOf (cursor : CXCursor) : Base :=
  { base_class := GetCXCursorName (clang_getTypeDeclaration (clang_getCursorType cursor))
    visibility := accessVisibility (clang_getCXXAccessSpecifier cursor) }

mutual
/-- The base specifiers that the visitor of one `RegisterClass` call is called
on, at or below a cursor, in the order of the visit: the visitor does not
descend into classes, structs, enums, fields, variables, parameters, and
functions and methods without attributes. -/
def visitedBaseSpecifiers : CXCursor → List CXCursor
  | CXCursor.mk kind spelling parents evaluate info children =>
    if kind = CXCursorKind.CXXBaseSpecifier then
      [CXCursor.mk kind spelling parents evaluate info children]
    else if kind = CXCursorKind.ClassDecl ∨ kind = CXCursorKind.StructDecl
        ∨ kind = CXCursorKind.EnumDecl ∨ kind = CXCursorKind.FieldDecl
        ∨ kind = CXCursorKind.VarDecl ∨ kind = CXCursorKind.ParmDecl then []
    else if kind = CXCursorKind.FunctionDecl ∨ kind = CXCursorKind.CXXMethod then
      match ParseCXCursorAttributes (CXCursor.mk kind spelling parents evaluate info children) with
      | Except.ok (_ :: _) => visitedBaseSpecifiersList children
      | _ => []
    else visitedBaseSpecifiersList children
/-- The base specifiers that the visitor is called on in a list of sibling
cursors. -/
def visitedBaseSpecifiersList : List CXCursor → List CXCursor
  | [] => []
  | cursor :: siblings => visitedBaseSpecifiers cursor ++ visitedBaseSpecifiersList siblings
end

/-- The type `MyCoolGame::WeirdClass`, declared by the class of that name. -/
def type_WeirdClass : CXType :=
  CXType.mk { kind := CXTypeKind.Record, spelling := "MyCoolGame::WeirdClass".toList,
              unqualifiedSpelling := "MyCoolGame::WeirdClass".toList } none
    { kind := CXCursorKind.ClassDecl, spelling := "WeirdClass".toList,
      semanticParents := [(CXCursorKind.Namespace, "MyCoolGame".toList),
        (CXCursorKind.TranslationUnit, "AppleComponent.h".toList)] } [] none

/-- The cursor of `class LEON_KV("type", "engine") AppleComponent : public
WeirdClass, public WeirdUnknownClass` of
`Tests/General/Source/AppleComponent.h` with its attribute and its two base
specifiers; the declarations in the body of the class are left out. -/
def AppleComponent_bases_cursor : CXCursor :=
  CXCursor.mk CXCursorKind.ClassDecl "AppleComponent".toList
    [(CXCursorKind.Namespace, "Component".toList),
      (CXCursorKind.Namespace, "MyCoolGame".toList),
      (CXCursorKind.TranslationUnit, "AppleComponent.h".toList)]
    none {}
    [CXCursor.mk CXCursorKind.AnnotateAttr "@leonkv \"type\" \"engine\"".toList [] none {} [],
      CXCursor.mk CXCursorKind.CXXBaseSpecifier "MyCoolGame::WeirdClass".toList [] none
        { access := CX_CXXAccessSpecifier.CX_CXXPublic, type := type_WeirdClass }
        [CXCursor.mk CXCursorKind.TypeRef "class MyCoolGame::WeirdClass".toList [] none {} []],
      CXCursor.mk CXCursorKind.CXXBaseSpecifier "MyCoolGame::WeirdUnknownClass".toList [] none
        { access := CX_CXXAccessSpecifier.CX_CXXPublic, type := type_WeirdUnknownClass }
        [CXCursor.mk CXCursorKind.TypeRef "class MyCoolGame::WeirdUnknownClass".toList []
          none {} []]]

/-- The registries after `RegisterClass` on `AppleComponent_bases_cursor`,
starting from the registries that hold `WeirdClass`. -/
def registries_AppleComponent_bases : Registries :=
  { registries_WeirdClass with
    class_nodes :=
      { entries := [("MyCoolGame::Component::AppleComponent".toList,
          { name := "MyCoolGame::Component::AppleComponent".toList
            class_type := ClassType.Class
            attrs := [{ type := LeonAttrType.KeyValue, kv := ("type".toList, "engine".toList) }]
            q_abstract := false
            bases := [{ base_class := "MyCoolGame::WeirdClass".toList,
                        visibility := Visibility.Public },
                      { base_class := "MyCoolGame::WeirdUnknownClass".toList,
                        visibility := Visibility.Public }] })] ++
        registries_WeirdClass.class_nodes.entries } }

/-- The chain of semantic parents of a cursor, innermost first, up to the
translation unit or the null cursor, where the walk of `GetCXCursorName`
ends. -/
def semanticParentChain (cursor : CXCursor) : List (CXCursorKind × CppString) :=
  cursor.semanticParents.takeWhile
    (fun parent => !(clang_isInvalid parent.1 || clang_isTranslationUnit parent.1))

/-- The qualification that a chain of parents contributes to a name: for each
exposed parent, outermost first, its spelling followed by `::`. -/
def qualifiedPrefix (parents : List (CXCursorKind × CppString)) : CppString :=
  ((parents.filter (fun parent => !clang_isUnexposed parent.1)).reverse.map
    (fun parent => parent.2 ++ "::".toList)).flatten

/-- The function type `void (int)`. -/
def type_void_of_int : CXType :=
  CXType.mk { kind := CXTypeKind.FunctionProto, spelling := "void (int)".toList,
              unqualifiedSpelling := "void (int)".toList,
              numArgTypes := 1, resultTypeKind := CXTypeKind.Void } none {} [] none

/-- The type `void (*)(int)` of a parameter that is a pointer to a function. -/
def type_pointer_to_function : CXType :=
  CXType.mk { kind := CXTypeKind.Pointer, spelling := "void (*)(int)".toList,
              unqualifiedSpelling := "void (*)(int)".toList }
    (some type_void_of_int) {} [] none

/-- The text of the template argument at position `t` of a declaration: the
canonical name of a `Type` argument, `nullptr` for a `NullPtr` argument, the
decimal value of an `Integral` argument; `none` for an argument of another
kind or a `Type` argument without a canonical name. -/
def templateArgumentText (cursor : CXCursor) (t : Nat) : Option CppString :=
  match clang_Cursor_getTemplateArgumentKind cursor t with
  | CXTemplateArgumentKind.Type =>
    match GetCXTypeName (clang_Cursor_getTemplateArgumentType cursor t) with
    | Except.ok name => some name
    | Except.error _ => none
  | CXTemplateArgumentKind.NullPtr => some "nullptr".toList
  | CXTemplateArgumentKind.Integral =>
    some (to_string (clang_Cursor_getTemplateArgumentValue cursor t))
  | _ => none

/-- The type `int`. -/
def type_int : CXType :=
  CXType.mk { kind := CXTypeKind.Int, spelling := "int".toList,
              unqualifiedSpelling := "int".toList } none {} [] none

/-- The type `MyCoolGame::Array<int, nullptr, -4>`, a specialization of a class
template `Array` of namespace `MyCoolGame` with a type argument, a null
pointer argument and an integral argument. -/
def type_Array_int_nullptr_minus4 : CXType :=
  CXType.mk { kind := CXTypeKind.Record,
              spelling := "MyCoolGame::Array<int, nullptr, -4>".toList,
              unqualifiedSpelling := "MyCoolGame::Array<int, nullptr, -4>".toList } none
    { kind := CXCursorKind.ClassDecl, spelling := "Array".toList,
      semanticParents := [(CXCursorKind.Namespace, "MyCoolGame".toList),
        (CXCursorKind.TranslationUnit, "AppleComponent.h".toList)],
      numTemplateArguments := 3,
      templateArgumentKinds := [CXTemplateArgumentKind.Type, CXTemplateArgumentKind.NullPtr,
        CXTemplateArgumentKind.Integral],
      templateArgumentValues := [0, 0, -4] }
    [type_int, invalidType, invalidType] none

/-- The cursor of a class in which the friend function is the second cursor
visited after the `FriendDecl` cursor: the `FriendDecl` cursor has another
child before the `FunctionDecl` cursor. -/
def FriendSecond_cursor : CXCursor :=
  CXCursor.mk CXCursorKind.ClassDecl "FriendSecond".toList
    [(CXCursorKind.Namespace, "Component".toList),
      (CXCursorKind.Namespace, "MyCoolGame".toList),
      (CXCursorKind.TranslationUnit, "AppleComponent.h".toList)]
    none {}
    [CXCursor.mk CXCursorKind.AnnotateAttr "@leon".toList [] none {} [],
      CXCursor.mk CXCursorKind.FriendDecl [] [] none {}
        [CXCursor.mk CXCursorKind.Other [] [] none {} [], Friend_cursor]]

/-- The cursor of a declaration `void LEON Twice(int first);` in namespace
`MyCoolGame`. -/
def Twice_declaration_cursor : CXCursor :=
  CXCursor.mk CXCursorKind.FunctionDecl "Twice".toList
    [(CXCursorKind.Namespace, "MyCoolGame".toList),
      (CXCursorKind.TranslationUnit, "AppleComponent.h".toList)]
    none { resultType := type_void }
    [CXCursor.mk CXCursorKind.AnnotateAttr "@leon".toList [] none {} [],
      CXCursor.mk CXCursorKind.ParmDecl "first".toList [] none { type := type_int } []]

/-- The cursor of the definition `void LEON Twice(int second) { }` of the same
function, which names its parameter differently. -/
def Twice_definition_cursor : CXCursor :=
  CXCursor.mk CXCursorKind.FunctionDecl "Twice".toList
    [(CXCursorKind.Namespace, "MyCoolGame".toList),
      (CXCursorKind.TranslationUnit, "AppleComponent.h".toList)]
    none { resultType := type_void }
    [CXCursor.mk CXCursorKind.AnnotateAttr "@leon".toList [] none {} [],
      CXCursor.mk CXCursorKind.ParmDecl "second".toList [] none { type := type_int } [],
      CXCursor.mk CXCursorKind.Other [] [] none {} []]

/-- The cursor of `class LEON Shadow { }` in namespace `MyCoolGame`. -/
def Shadow_class_cursor : CXCursor :=
  CXCursor.mk CXCursorKind.ClassDecl "Shadow".toList
    [(CXCursorKind.Namespace, "MyCoolGame".toList),
      (CXCursorKind.TranslationUnit, "AppleComponent.h".toList)]
    none {}
    [CXCursor.mk CXCursorKind.AnnotateAttr "@leon".toList [] none {} []]

/-- The cursor of a function `void LEON Shadow();` of the same namespace, which
hides the name of the class. -/
def Shadow_function_cursor : CXCursor :=
  CXCursor.mk CXCursorKind.FunctionDecl "Shadow".toList
    [(CXCursorKind.Namespace, "MyCoolGame".toList),
      (CXCursorKind.TranslationUnit, "AppleComponent.h".toList)]
    none { resultType := type_void }
    [CXCursor.mk CXCursorKind.AnnotateAttr "@leon".toList [] none {} []]

/-- The cursor of `class LEON Widget { public: void LEON Resize(int width);
Widget(int height); }` in namespace `MyCoolGame`: an annotated method followed
by a constructor, whose cursor kind the class visitor does not tell apart. -/
def Widget_cursor : CXCursor :=
  CXCursor.mk CXCursorKind.ClassDecl "Widget".toList
    [(CXCursorKind.Namespace, "MyCoolGame".toList),
      (CXCursorKind.TranslationUnit, "AppleComponent.h".toList)]
    none {}
    [CXCursor.mk CXCursorKind.AnnotateAttr "@leon".toList [] none {} [],
      CXCursor.mk CXCursorKind.CXXMethod "Resize".toList
        [(CXCursorKind.ClassDecl, "Widget".toList),
          (CXCursorKind.Namespace, "MyCoolGame".toList),
          (CXCursorKind.TranslationUnit, "AppleComponent.h".toList)]
        none
        { access := CX_CXXAccessSpecifier.CX_CXXPublic
          storageClass := CX_StorageClass.CX_SC_None
          resultType := type_void }
        [CXCursor.mk CXCursorKind.AnnotateAttr "@leon".toList [] none {} [],
          CXCursor.mk CXCursorKind.ParmDecl "width".toList [] none { type := type_int } []],
      CXCursor.mk CXCursorKind.Other "Widget".toList
        [(CXCursorKind.ClassDecl, "Widget".toList),
          (CXCursorKind.Namespace, "MyCoolGame".toList),
          (CXCursorKind.TranslationUnit, "AppleComponent.h".toList)]
        none { access := CX_CXXAccessSpecifier.CX_CXXPublic }
        [CXCursor.mk CXCursorKind.ParmDecl "height".toList [] none { type := type_int } []]]
mutual
/-- The `ParmDecl` cursors that the visitor of `RegisterFunction` is called on,
at or below a cursor, in the order of the visit: the visitor descends into
every cursor but a `ParmDecl`. -/
def visitedParmDecls : CXCursor → List CXCursor
  | CXCursor.mk kind spelling parents evaluate info children =>
    if kind = CXCursorKind.ParmDecl then
      [CXCursor.mk kind spelling parents evaluate info children]
    else visitedParmDeclsList children
/-- The `ParmDecl` cursors that the visitor is called on in a list of sibling
cursors. -/
def visitedParmDeclsList : List CXCursor → List CXCursor
  | [] => []
  | cursor :: siblings => visitedParmDecls cursor ++ visitedParmDeclsList siblings
end

/-- The type `MyCoolGame::Structure::InnerStruct`, declared by the struct of
that name in `Tests/General/Source/AppleComponent.h`. -/
def type_InnerStruct : CXType :=
  CXType.mk { kind := CXTypeKind.Record, spelling := "MyCoolGame::Structure::InnerStruct".toList,
              unqualifiedSpelling := "MyCoolGame::Structure::InnerStruct".toList } none
    { kind := CXCursorKind.StructDecl, spelling := "InnerStruct".toList,
      semanticParents := [(CXCursorKind.StructDecl, "Structure".toList),
        (CXCursorKind.Namespace, "MyCoolGame".toList),
        (CXCursorKind.TranslationUnit, "AppleComponent.h".toList)] } [] none

/-- The type `const Structure::InnerStruct`. -/
def type_const_InnerStruct : CXType :=
  CXType.mk { kind := CXTypeKind.Record, isConstQualified := true,
              spelling := "const Structure::InnerStruct".toList,
              unqualifiedSpelling := "Structure::InnerStruct".toList } none
    { kind := CXCursorKind.StructDecl, spelling := "InnerStruct".toList,
      semanticParents := [(CXCursorKind.StructDecl, "Structure".toList),
        (CXCursorKind.Namespace, "MyCoolGame".toList),
        (CXCursorKind.TranslationUnit, "AppleComponent.h".toList)] } []
    (some type_InnerStruct)

/-- The type `const Structure::InnerStruct &` of the parameter `inner`. -/
def type_const_InnerStruct_ref : CXType :=
  CXType.mk { kind := CXTypeKind.LValueReference,
              spelling := "const Structure::InnerStruct &".toList,
              unqualifiedSpelling := "const Structure::InnerStruct &".toList }
    (some type_const_InnerStruct) {} [] none

/-- The cursor of `inline void LEON Function(const Structure::InnerStruct
&inner) { }` of `Tests/General/Source/AppleComponent.h`: its attribute, its
parameter (with the reference to the type below it) and its body. -/
def Function_cursor : CXCursor :=
  CXCursor.mk CXCursorKind.FunctionDecl "Function".toList
    [(CXCursorKind.Namespace, "MyCoolGame".toList),
      (CXCursorKind.TranslationUnit, "AppleComponent.h".toList)]
    none { resultType := type_void }
    [CXCursor.mk CXCursorKind.AnnotateAttr "@leon".toList [] none {} [],
      CXCursor.mk CXCursorKind.ParmDecl "inner".toList [] none
        { type := type_const_InnerStruct_ref }
        [CXCursor.mk CXCursorKind.Other "struct MyCoolGame::Structure::InnerStruct".toList
          [] none {} []],
      CXCursor.mk CXCursorKind.Other [] [] none {} []]

/-! ## The top-level visitor (Parse.cpp) -/

/-- The test `clang_Location_isFromMainFile(clang_getCursorLocation(cursor))`. -/
def clang_Location_isFromMainFile (cursor : CXCursor) : Bool := cursor.info.isFromMainFile

mutual
/-- The function `Visitor(CXCursor cursor, CXCursor parent, CXClientData
clientData)` on the registries: the registries after the call, which includes
its own traversal of the children of a cursor that is none of the declarations
it handles.  The function answers `CXChildVisit_Continue` on every path, so
the library never descends by itself; the level that the client data carries
is used for nothing but an indentation string. -/
def Visitor : CXCursor → Registries → Except String Registries
  | CXCursor.mk kind spelling parents evaluate info children, regs =>
    if clang_Location_isFromMainFile
        (CXCursor.mk kind spelling parents evaluate info children) = false then
      Except.ok regs
    else if kind = CXCursorKind.ClassTemplate then Except.ok regs
    else if kind = CXCursorKind.ClassTemplatePartialSpecialization then Except.ok regs
    else if kind = CXCursorKind.ClassDecl ∨ kind = CXCursorKind.StructDecl then
      match RegisterClass regs (CXCursor.mk kind spelling parents evaluate info children) with
      | Except.error e => Except.error e
      | Except.ok (_, regs) => Except.ok regs
    else if kind = CXCursorKind.EnumDecl then
      match RegisterEnum regs.enum_nodes
          (CXCursor.mk kind spelling parents evaluate info children) with
      | Except.error e => Except.error e
      | Except.ok (_, enum_nodes) => Except.ok { regs with enum_nodes := enum_nodes }
    else if kind = CXCursorKind.FunctionDecl then
      match RegisterFunction regs (CXCursor.mk kind spelling parents evaluate info children) with
      | Except.error e => Except.error e
      | Except.ok (_, regs) => Except.ok regs
    else Visitor.visitChildren children regs
/-- The call `clang_visitChildren(cursor, Visitor, &level)` on the children of
a cursor, in order; an exception ends it. -/
def Visitor.visitChildren : List CXCursor → Registries → Except String Registries
  | [], regs => Except.ok regs
  | cursor :: siblings, regs =>
    match Visitor cursor regs with
    | Except.error e => Except.error e
    | Except.ok regs => Visitor.visitChildren siblings regs
end

/-- The cursor of a struct `Inner` with the attribute `LEON` and a field,
nested in the class `Plain` of namespace `MyCoolGame`. -/
def Plain_Inner_cursor : CXCursor :=
  CXCursor.mk CXCursorKind.StructDecl "Inner".toList
    [(CXCursorKind.ClassDecl, "Plain".toList),
      (CXCursorKind.Namespace, "MyCoolGame".toList),
      (CXCursorKind.TranslationUnit, "AppleComponent.h".toList)]
    none { access := CX_CXXAccessSpecifier.CX_CXXPublic }
    [CXCursor.mk CXCursorKind.AnnotateAttr "@leon".toList [] none {} []]

/-- The cursor of an enum `Kind` with the attribute `LEON`, nested in the class
`Plain`. -/
def Plain_Kind_cursor : CXCursor :=
  CXCursor.mk CXCursorKind.EnumDecl "Kind".toList
    [(CXCursorKind.ClassDecl, "Plain".toList),
      (CXCursorKind.Namespace, "MyCoolGame".toList),
      (CXCursorKind.TranslationUnit, "AppleComponent.h".toList)]
    none { access := CX_CXXAccessSpecifier.CX_CXXPublic }
    [CXCursor.mk CXCursorKind.AnnotateAttr "@leon".toList [] none {} [],
      CXCursor.mk CXCursorKind.EnumConstantDecl "First".toList [] none {} []]

/-- The C string behind `s.c_str()` as a function that takes a `const char *`
reads it: the characters before the first zero byte. -/
def c_str (s : CppString) : CppString := s.takeWhile (fun c => c ≠ Char.ofNat 0)

/-- The function `ConstructLuaAttributes(lua_State *T, const
std::vector<LeonAttr> &attrs)`: the table that it leaves on the stack, a Lua
table with string keys and string values.  The calls `lua_pushstring` take the
key and the value as C strings, and `lua_settable` creates or overwrites the
entry of the key. -/
def ConstructLuaAttributes (attrs : List LeonAttr) : UnorderedMap CppString :=
  attrs.foldl
    (fun table i =>
      if i.type = LeonAttrType.KeyValue then table.assign (c_str i.kv.1) (c_str i.kv.2)
      else table)
    UnorderedMap.empty

/-- The spec's attribute table: the `KeyValue` attributes as key → value, a
later attribute overriding an earlier one with the same key. -/
def specAttributeTable (attrs : List LeonAttr) (key : CppString) : Option CppString :=
  ((attrs.filter (fun i => i.type = LeonAttrType.KeyValue ∧ i.kv.1 = key)).getLast?).map
    (fun i => i.kv.2)

/-! ## Proofs: streams and `ParseString` -/

@[simp] theorem get_nil : get [] = (none, []) := rfl

@[simp] theorem get_cons (c : Char) (rest : IStream) : get (c :: rest) = (some c, rest) := rfl

@[simp] theorem peek_nil : peek [] = none := rfl

@[simp] theorem peek_cons (c : Char) (rest : IStream) : peek (c :: rest) = some c := rfl

theorem hexDigits_length (stream : IStream) (value : Nat) :
    (hexDigits stream value).2.length ≤ stream.length := by
  induction stream generalizing value with
  | nil => simp [hexDigits]
  | cons c rest ih =>
    simp only [hexDigits]
    split
    · simp
    · exact Nat.le_trans (ih _) (by simp)

theorem get_snd_length (stream : IStream) : (get stream).2.length ≤ stream.length := by
  cases stream <;> simp

theorem ite_snd_length_le (p : Prop) [Decidable p] (a b : LoopStep × IStream) (n : Nat)
    (ha : a.2.length ≤ n) (hb : b.2.length ≤ n) : (if p then a else b).2.length ≤ n := by
  by_cases h : p
  · rw [if_pos h]; exact ha
  · rw [if_neg h]; exact hb

theorem parseStep_snd_length (c : Char) (rest : IStream) (value : CppString) :
    (parseStep (c :: rest) value).2.length ≤ rest.length := by
  have h1 := get_snd_length rest
  have h2 := get_snd_length (get rest).2
  have h3 := get_snd_length (get (get rest).2).2
  have h4 := hexDigits_length (get rest).2 0
  unfold parseStep
  simp only [get_cons]
  repeat' apply ite_snd_length_le
  all_goals (dsimp only; omega)

/-- Every iteration that goes round again has consumed a character. -/
theorem parseStep_cont_length (stream : IStream) (value value2 : CppString) (stream2 : IStream)
    (h : parseStep stream value = (LoopStep.cont value2, stream2)) :
    stream2.length < stream.length := by
  cases stream with
  | nil => simp [parseStep] at h
  | cons c rest =>
    have := parseStep_snd_length c rest value
    rw [h] at this
    simp only [List.length_cons]
    exact Nat.lt_succ_of_le this

theorem parseLoop_fuel (fuel : Nat) :
    ∀ (stream : IStream) (value : CppString) (fuel2 : Nat),
      stream.length < fuel → stream.length < fuel2 →
      parseLoop fuel stream value = parseLoop fuel2 stream value := by
  induction fuel with
  | zero => intro stream value fuel2 h; omega
  | succ n ih =>
    intro stream value fuel2 h h2
    cases fuel2 with
    | zero => omega
    | succ m =>
      simp only [parseLoop]
      rcases hstep : parseStep stream value with ⟨step, stream2⟩
      cases step with
      | done result => rfl
      | cont value2 =>
        have hlen := parseStep_cont_length stream value value2 stream2 hstep
        exact ih stream2 value2 m (by omega) (by omega)

theorem parseLoop_isSome (fuel : Nat) :
    ∀ (stream : IStream) (value : CppString),
      stream.length < fuel → (parseLoop fuel stream value).isSome = true := by
  induction fuel with
  | zero => intro stream value h; omega
  | succ n ih =>
    intro stream value h
    simp only [parseLoop]
    rcases hstep : parseStep stream value with ⟨step, stream2⟩
    cases step with
    | done result => rfl
    | cont value2 =>
      have hlen := parseStep_cont_length stream value value2 stream2 hstep
      exact ih stream2 value2 (by omega)

/-- With enough fuel the loop returns, and what it returns is
`ParseStringQuoted`. -/
theorem parseLoop_eq (fuel : Nat) (stream : IStream) (value : CppString)
    (h : stream.length < fuel) :
    parseLoop fuel stream value = some (ParseStringQuoted value stream) := by
  have h1 := parseLoop_isSome (stream.length + 1) stream value (by omega)
  have h2 := parseLoop_fuel fuel stream value (stream.length + 1) h (by omega)
  unfold ParseStringQuoted
  rw [h2]
  cases hr : parseLoop (stream.length + 1) stream value with
  | none => rw [hr] at h1; simp at h1
  | some r => rfl

/-- One iteration of the reader inside a quoted string. -/
theorem ParseStringQuoted_step (value : CppString) (stream : IStream) :
    ParseStringQuoted value stream =
      match parseStep stream value with
      | (LoopStep.done result, stream2) => (result, stream2)
      | (LoopStep.cont value2, stream2) => ParseStringQuoted value2 stream2 := by
  rcases hstep : parseStep stream value with ⟨step, stream2⟩
  cases step with
  | done result =>
    simp only [ParseStringQuoted, parseLoop, hstep, Option.getD_some]
  | cont value2 =>
    have hlen := parseStep_cont_length stream value value2 stream2 hstep
    have := parseLoop_eq stream.length stream2 value2 hlen
    simp only [ParseStringQuoted, parseLoop, hstep] at this ⊢
    rw [this]
    simp

theorem char_le_iff (a b : Char) : a ≤ b ↔ a.toNat ≤ b.toNat := by
  rw [Char.le_def]; simp [Char.toNat, UInt32.le_def, BitVec.le_def, UInt32.toNat]

theorem isOctalDigit_iff (c : Char) :
    isOctalDigit c = true ↔
      (c = '0' ∨ c = '1' ∨ c = '2' ∨ c = '3' ∨ c = '4' ∨ c = '5' ∨ c = '6' ∨ c = '7') := by
  constructor
  · intro h
    simp only [isOctalDigit, Bool.and_eq_true, decide_eq_true_eq, char_le_iff] at h
    have h0 : '0'.toNat = 48 := rfl
    have h7 : '7'.toNat = 55 := rfl
    rw [h0, h7] at h
    obtain ⟨hlo, hhi⟩ := h
    have hc := Char.ofNat_toNat c
    generalize c.toNat = n at hlo hhi hc
    subst hc
    interval_cases n <;> decide
  · intro h
    rcases h with h | h | h | h | h | h | h | h <;> subst h <;> decide

theorem ctoi_eq (c : Char) :
    ctoi c =
      if 48 ≤ c.toNat ∧ c.toNat ≤ 57 then (c.toNat : Int) - 48
      else if 97 ≤ c.toNat ∧ c.toNat ≤ 102 then (c.toNat : Int) - 97 + 10
      else if 65 ≤ c.toNat ∧ c.toNat ≤ 70 then (c.toNat : Int) - 65 + 10
      else -1 := by
  simp only [ctoi, char_le_iff]
  rfl

theorem ctoi_octal (c : Char) (h : isOctalDigit c = true) :
    ctoi c ≥ 0 ∧ ctoi c < 8 ∧ (ctoi c).toNat = c.toNat - '0'.toNat := by
  rcases (isOctalDigit_iff c).mp h with h | h | h | h | h | h | h | h <;> subst h <;> decide

theorem ctoi_not_octal (c : Char) (h : isOctalDigit c = false) :
    ¬ (ctoi c ≥ 0 ∧ ctoi c < 8) := by
  have h2 : ¬ (48 ≤ c.toNat ∧ c.toNat ≤ 55) := by
    intro hh
    have : isOctalDigit c = true := by
      simp only [isOctalDigit, Bool.and_eq_true, decide_eq_true_eq, char_le_iff]
      exact hh
    rw [h] at this
    exact Bool.false_ne_true this
  rw [ctoi_eq]
  split_ifs <;> omega
theorem ParseStringQuoted_nil (value : CppString) : ParseStringQuoted value [] = ([], []) := by
  rw [ParseStringQuoted_step]; rfl

theorem ParseStringQuoted_quote (value : CppString) (rest : IStream) :
    ParseStringQuoted value ('"' :: rest) = (value, rest) := by
  rw [ParseStringQuoted_step]; rfl

theorem ParseStringQuoted_plain (value : CppString) (c : Char) (rest : IStream)
    (hq : c ≠ '"') (hb : c ≠ '\\') :
    ParseStringQuoted value (c :: rest) = ParseStringQuoted (value ++ [c]) rest := by
  rw [ParseStringQuoted_step]
  simp only [parseStep, get_cons, if_neg hq, if_neg hb]

theorem ParseStringQuoted_backslash_eof (value : CppString) :
    ParseStringQuoted value ['\\'] = ([], []) := by
  rw [ParseStringQuoted_step]
  have : parseStep ['\\'] value = (LoopStep.cont (value ++ [toChar none]), []) := by
    rfl
  rw [this]
  exact ParseStringQuoted_nil _

theorem peek_not_octal (rest : IStream)
    (h : ∀ c r, rest = c :: r → isOctalDigit c = false) :
    ¬ (ctoi (toChar (peek rest)) ≥ 0 ∧ ctoi (toChar (peek rest)) < 8) := by
  cases rest with
  | nil => decide
  | cons c r => exact ctoi_not_octal c (h c r rfl)

/-- The `case '0'` .. `case '7'` branch of one iteration. -/
theorem parseStep_octal (value : CppString) (d0 : Char) (rest : IStream)
    (h0 : isOctalDigit d0 = true) :
    parseStep ('\\' :: d0 :: rest) value =
      if ctoi (toChar (peek rest)) ≥ 0 ∧ ctoi (toChar (peek rest)) < 8 then
        if ctoi (toChar (peek (get rest).2)) ≥ 0 ∧ ctoi (toChar (peek (get rest).2)) < 8 then
          (LoopStep.cont (value ++
            [intToChar ((((d0.toNat - '0'.toNat) <<< 6) ||| ((ctoi (toChar (peek rest))).toNat <<< 3)
              ||| (ctoi (toChar (peek (get rest).2))).toNat : Nat))]), (get (get rest).2).2)
        else
          (LoopStep.cont (value ++
            [intToChar ((((d0.toNat - '0'.toNat) <<< 3) ||| (ctoi (toChar (peek rest))).toNat : Nat))]),
            (get rest).2)
      else
        (LoopStep.cont (value ++ [intToChar ((d0.toNat - '0'.toNat : Nat))]), rest) := by
  rcases (isOctalDigit_iff d0).mp h0 with h | h | h | h | h | h | h | h <;> subst h <;> rfl

theorem octal_bits (a b c : Nat) (ha : a < 8) (hb : b < 8) (hc : c < 8) :
    ((a <<< 6) ||| (b <<< 3) ||| c) = 8 * (8 * a + b) + c ∧ ((a <<< 3) ||| b) = 8 * a + b := by
  interval_cases a <;> interval_cases b <;> interval_cases c <;> decide

theorem intToChar_natCast (n : Nat) : intToChar (n : Int) = Char.ofNat (n % 256) := by
  unfold intToChar
  congr 1

@[simp] theorem toChar_some (c : Char) : toChar (some c) = c := rfl

theorem ParseStringQuoted_octal (value : CppString) (digits : List Char) (rest : IStream)
    (hne : digits ≠ []) (hlen : digits.length ≤ 3)
    (hdig : ∀ d ∈ digits, isOctalDigit d = true)
    (hmax : digits.length = 3 ∨ ∀ c r, rest = c :: r → isOctalDigit c = false) :
    ParseStringQuoted value ('\\' :: (digits ++ rest)) =
      ParseStringQuoted (value ++ [Char.ofNat (octalValue digits % 256)]) rest := by
  match digits, hne, hlen, hdig, hmax with
  | [d0], _, _, hdig, hmax =>
    have h0 := hdig d0 (by simp)
    have hr : ∀ c r, rest = c :: r → isOctalDigit c = false := by
      rcases hmax with h | h
      · simp at h
      · exact h
    have hstep : parseStep ('\\' :: d0 :: rest) value =
        (LoopStep.cont (value ++ [Char.ofNat (octalValue [d0] % 256)]), rest) := by
      rw [parseStep_octal value d0 rest h0, if_neg (peek_not_octal rest hr), intToChar_natCast]
      simp [octalValue]
    rw [ParseStringQuoted_step]
    simp only [List.cons_append, List.nil_append, hstep]
  | [d0, d1], _, _, hdig, hmax =>
    have h0 := hdig d0 (by simp)
    have h1 := hdig d1 (by simp)
    have hr : ∀ c r, rest = c :: r → isOctalDigit c = false := by
      rcases hmax with h | h
      · simp at h
      · exact h
    obtain ⟨a0, a1, a2⟩ := ctoi_octal d0 h0
    obtain ⟨b0, b1, b2⟩ := ctoi_octal d1 h1
    have hb : (d0.toNat - '0'.toNat) < 8 := by omega
    have hb1 : (d1.toNat - '0'.toNat) < 8 := by omega
    have hstep : parseStep ('\\' :: d0 :: d1 :: rest) value =
        (LoopStep.cont (value ++ [Char.ofNat (octalValue [d0, d1] % 256)]), rest) := by
      rw [parseStep_octal value d0 (d1 :: rest) h0]
      simp only [peek_cons, toChar_some, get_cons]
      rw [if_pos ⟨b0, b1⟩, if_neg (peek_not_octal rest hr), intToChar_natCast, b2,
        (octal_bits _ _ 0 hb hb1 (by omega)).2]
      simp [octalValue]
    rw [ParseStringQuoted_step]
    simp only [List.cons_append, List.nil_append, hstep]
  | [d0, d1, d2], _, _, hdig, _ =>
    have h0 := hdig d0 (by simp)
    have h1 := hdig d1 (by simp)
    have h2 := hdig d2 (by simp)
    obtain ⟨a0, a1, a2⟩ := ctoi_octal d0 h0
    obtain ⟨b0, b1, b2⟩ := ctoi_octal d1 h1
    obtain ⟨c0, c1, c2⟩ := ctoi_octal d2 h2
    have hb : (d0.toNat - '0'.toNat) < 8 := by omega
    have hb1 : (d1.toNat - '0'.toNat) < 8 := by omega
    have hb2 : (d2.toNat - '0'.toNat) < 8 := by omega
    have hstep : parseStep ('\\' :: d0 :: d1 :: d2 :: rest) value =
        (LoopStep.cont (value ++ [Char.ofNat (octalValue [d0, d1, d2] % 256)]), rest) := by
      rw [parseStep_octal value d0 (d1 :: d2 :: rest) h0]
      simp only [peek_cons, toChar_some, get_cons]
      rw [if_pos ⟨b0, b1⟩, if_pos ⟨c0, c1⟩, intToChar_natCast, b2, c2,
        (octal_bits _ _ _ hb hb1 hb2).1]
      simp [octalValue]
    rw [ParseStringQuoted_step]
    simp only [List.cons_append, List.nil_append, hstep]
  | _ :: _ :: _ :: _ :: _, _, hlen, _, _ => simp at hlen

theorem ite_ind {α : Type} (P : α → Prop) (p : Prop) [Decidable p] (a b : α)
    (ha : p → P a) (hb : ¬ p → P b) : P (if p then a else b) := by
  by_cases h : p
  · rw [if_pos h]; exact ha h
  · rw [if_neg h]; exact hb h

theorem ctoi_nonneg_ne (c : Char) (h : ctoi c ≥ 0) : c ≠ '"' ∧ c ≠ '\\' := by
  constructor
  · intro hc; subst hc; revert h; decide
  · intro hc; subst hc; revert h; decide

theorem reachesClosingQuote_cons_plain (c : Char) (rest : CppString) (hq : c ≠ '"')
    (hb : c ≠ '\\') : reachesClosingQuote (c :: rest) = reachesClosingQuote rest := by
  cases rest with
  | nil => simp only [reachesClosingQuote, decide_eq_false hq]
  | cons d rest => simp only [reachesClosingQuote, if_neg hq, if_neg hb]

theorem reachesClosingQuote_quote (rest : CppString) :
    reachesClosingQuote ('"' :: rest) = true := by
  cases rest <;> simp [reachesClosingQuote]

theorem reachesClosingQuote_backslash (e : Char) (rest : CppString) :
    reachesClosingQuote ('\\' :: e :: rest) = reachesClosingQuote rest := by
  rw [reachesClosingQuote, if_neg (by decide), if_pos rfl]

theorem reachesClosingQuote_get (rest : IStream)
    (h : ctoi (toChar (peek rest)) ≥ 0 ∧ ctoi (toChar (peek rest)) < 8) :
    reachesClosingQuote (get rest).2 = reachesClosingQuote rest := by
  cases rest with
  | nil => rfl
  | cons c r =>
    have := ctoi_nonneg_ne c h.1
    rw [reachesClosingQuote_cons_plain c r this.1 this.2]
    rfl

theorem reachesClosingQuote_hexDigits (rest : IStream) (value : Nat) :
    reachesClosingQuote (hexDigits rest value).2 = reachesClosingQuote rest := by
  induction rest generalizing value with
  | nil => rfl
  | cons c r ih =>
    simp only [hexDigits, toChar_some]
    by_cases h : ctoi c < 0 ∨ ctoi c > 15
    · rw [if_pos h]
    · rw [if_neg h, ih]
      have := ctoi_nonneg_ne c (by omega)
      rw [reachesClosingQuote_cons_plain c r this.1 this.2]

/-- An iteration that starts with a backslash and an escape character leaves a
stream with the same unescaped quotes as the text after the escape character. -/
theorem parseStep_escape_reaches (e : Char) (rest : IStream) (value : CppString) :
    reachesClosingQuote (parseStep ('\\' :: e :: rest) value).2 = reachesClosingQuote rest := by
  have h1 := reachesClosingQuote_get rest
  have h2 := reachesClosingQuote_get (get rest).2
  have h3 := reachesClosingQuote_hexDigits rest 0
  unfold parseStep
  simp only [get_cons]
  rw [if_neg (by decide), if_pos trivial]
  repeat' (apply ite_ind (fun (x : LoopStep × IStream) =>
    reachesClosingQuote x.2 = reachesClosingQuote rest) <;> intro _)
  all_goals dsimp only
  all_goals first | rfl | exact h3 | (rw [h1]; assumption) | (rw [h2, h1] <;> assumption)

/-- A text without an unescaped closing quote makes the reader return `""`,
with the stream exhausted. -/
theorem ParseStringQuoted_unterminated (n : Nat) :
    ∀ (stream : IStream) (value : CppString), stream.length ≤ n →
      reachesClosingQuote stream = false → ParseStringQuoted value stream = ([], []) := by
  induction n with
  | zero =>
    intro stream value hlen _
    cases stream with
    | nil => exact ParseStringQuoted_nil value
    | cons c r => simp at hlen
  | succ n ih =>
    intro stream value hlen hr
    cases stream with
    | nil => exact ParseStringQuoted_nil value
    | cons c rest =>
      by_cases hq : c = '"'
      · subst hq; rw [reachesClosingQuote_quote] at hr; exact absurd hr (by decide)
      · by_cases hb : c = '\\'
        · subst hb
          cases rest with
          | nil => exact ParseStringQuoted_backslash_eof value
          | cons e rest2 =>
            have hr2 : reachesClosingQuote rest2 = false := by
              rw [reachesClosingQuote_backslash] at hr; exact hr
            have hreach := parseStep_escape_reaches e rest2 value
            rw [ParseStringQuoted_step]
            rcases hstep : parseStep ('\\' :: e :: rest2) value with ⟨step, stream2⟩
            rw [hstep] at hreach
            cases step with
            | done result =>
              exfalso
              revert hstep
              unfold parseStep
              simp only [get_cons]
              rw [if_neg (by decide), if_pos trivial]
              repeat' (apply ite_ind (fun (x : LoopStep × IStream) =>
                x = (LoopStep.done result, stream2) → False) <;> intro _)
              all_goals intros
              all_goals simp_all
            | cont value2 =>
              have hl := parseStep_cont_length _ _ _ _ hstep
              simp only [List.length_cons] at hl hlen
              exact ih stream2 value2 (by omega) (by rw [hreach]; exact hr2)
        · rw [ParseStringQuoted_plain value c rest hq hb]
          rw [reachesClosingQuote_cons_plain c rest hq hb] at hr
          simp only [List.length_cons] at hlen
          exact ih rest _ (by omega) hr

theorem ParseStringQuoted_hex (value : CppString) (rest : IStream) :
    ParseStringQuoted value ('\\' :: 'x' :: rest) =
      ParseStringQuoted value (hexDigits rest 0).2 := by
  rw [ParseStringQuoted_step]; rfl

theorem ParseStringQuoted_default (value : CppString) (c : Char) (rest : IStream)
    (h : c ∉ ['a', 'b', 'f', 'n', 'r', 't', 'v', 'x', '0', '1', '2', '3', '4', '5', '6', '7']) :
    ParseStringQuoted value ('\\' :: c :: rest) = ParseStringQuoted (value ++ [c]) rest := by
  simp only [List.mem_cons, List.mem_singleton, not_or, List.mem_nil_iff, not_false_eq_true,
    and_true] at h
  obtain ⟨ha, hb, hf, hn, hr, ht, hv, hx, h0, h1, h2, h3, h4, h5, h6, h7⟩ := h
  rw [ParseStringQuoted_step]
  have hstep : parseStep ('\\' :: c :: rest) value = (LoopStep.cont (value ++ [c]), rest) := by
    unfold parseStep
    simp only [get_cons, Option.some.injEq]
    rw [if_neg (by decide), if_pos trivial, if_neg ha, if_neg hb, if_neg hf, if_neg hn, if_neg hr,
      if_neg ht, if_neg hv, if_neg (by tauto), if_neg hx, toChar_some]
  simp only [hstep]

theorem ParseStringQuoted_plain_run (text : CppString) :
    ∀ (value : CppString) (rest : IStream), '"' ∉ text → '\\' ∉ text →
      ParseStringQuoted value (text ++ rest) = ParseStringQuoted (value ++ text) rest := by
  induction text with
  | nil => intro value rest _ _; simp
  | cons c text ih =>
    intro value rest hq hb
    simp only [List.mem_cons, not_or] at hq hb
    rw [List.cons_append, ParseStringQuoted_plain value c _ (Ne.symm hq.1) (Ne.symm hb.1),
      ih _ _ hq.2 hb.2]
    simp

theorem skipToQuote_append (pre : CppString) (rest : IStream) (h : '"' ∉ pre) :
    skipToQuote (pre ++ '"' :: rest) = some rest := by
  induction pre with
  | nil => simp [skipToQuote]
  | cons c pre ih =>
    simp only [List.mem_cons, not_or] at h
    simp only [List.cons_append, skipToQuote, if_neg (Ne.symm h.1)]
    exact ih h.2

theorem skipToQuote_eq_dropWhile (stream : IStream) :
    skipToQuote stream =
      match stream.dropWhile (fun c => c != '"') with
      | [] => none
      | _ :: body => some body := by
  induction stream with
  | nil => rfl
  | cons c rest ih =>
    by_cases h : c = '"'
    · subst h; rfl
    · simp only [skipToQuote, if_neg h, ih]
      simp [List.dropWhile_cons, h]

theorem ParseString_of_quote (pre : CppString) (body : IStream) (h : '"' ∉ pre) :
    ParseString (pre ++ '"' :: body) = ParseStringQuoted [] body := by
  simp only [ParseString, skipToQuote_append pre body h]

theorem ParseString_plain (pre text : CppString) (rest : IStream) (hp : '"' ∉ pre)
    (hq : '"' ∉ text) (hb : '\\' ∉ text) :
    ParseString (pre ++ '"' :: (text ++ '"' :: rest)) = (text, rest) := by
  rw [ParseString_of_quote pre _ hp, ParseStringQuoted_plain_run text [] _ hq hb,
    ParseStringQuoted_quote]
  simp

theorem skipws_eq (stream : IStream) : skipws stream = stream.dropWhile isspace := by
  induction stream with
  | nil => rfl
  | cons c rest ih =>
    by_cases h : isspace c = true
    · simp only [skipws, if_pos h, ih, List.dropWhile_cons_of_pos h]
    · simp only [skipws, if_neg h, List.dropWhile_cons_of_neg h]

theorem extractLoop_eq (stream : IStream) :
    ∀ token : CppString, extractLoop stream token =
      (token ++ stream.takeWhile (fun c => !isspace c),
        stream.dropWhile (fun c => !isspace c)) := by
  induction stream with
  | nil => intro token; simp [extractLoop]
  | cons c rest ih =>
    intro token
    by_cases h : isspace c = true
    · simp [extractLoop, h]
    · simp [extractLoop, h, ih]

theorem extractToken_eq (stream : IStream) :
    extractToken stream = (firstToken stream, afterFirstToken stream) := by
  simp [extractToken, firstToken, afterFirstToken, skipws_eq, extractLoop_eq]

theorem ParseAttribute_eq (src : CppString) :
    ParseAttribute src =
      if firstToken src = "@leon".toList then
        Except.ok { type := LeonAttrType.Flag, kv := ([], []) }
      else if (ParseString (extractToken src).2).1 = [] ∨
          (ParseString (ParseString (extractToken src).2).2).1 = [] then
        Except.error "LEON_KV malformed"
      else
        Except.ok { type := LeonAttrType.KeyValue,
                    kv := ((ParseString (extractToken src).2).1,
                      (ParseString (ParseString (extractToken src).2).2).1) } := by
  unfold ParseAttribute
  simp only [extractToken_eq]
  by_cases h : firstToken src = "@leon".toList
  · simp only [if_pos h]
  · simp only [if_neg h]
    by_cases h1 : (ParseString (afterFirstToken src)).1 = []
    · simp [h1]
    · by_cases h2 : (ParseString (ParseString (afterFirstToken src)).2).1 = []
      · simp [h2]
      · simp [h1, h2]

/-- C1: `ParseAttribute` returns an attribute of type `Flag` exactly when the
first white-space-delimited token of the annotation text is `@leon`, and a
`Flag` attribute it returns has neither key nor value populated. -/
theorem ParseAttribute_flag_iff_leon_token (src : CppString) :
    ((∃ attr, ParseAttribute src = Except.ok attr ∧ attr.type = LeonAttrType.Flag) ↔
        firstToken src = "@leon".toList) ∧
      (∀ attr, ParseAttribute src = Except.ok attr ∧ attr.type = LeonAttrType.Flag →
        attr.kv = ([], [])) := by
  rw [ParseAttribute_eq]
  by_cases h : firstToken src = "@leon".toList
  · simp only [if_pos h]
    refine ⟨⟨fun _ => h, fun _ => ⟨_, rfl, rfl⟩⟩, ?_⟩
    rintro attr ⟨h1, -⟩
    cases h1
    rfl
  · simp only [if_neg h]
    split_ifs with h1
    · refine ⟨⟨?_, fun h2 => absurd h2 h⟩, ?_⟩
      · rintro ⟨attr, h2, -⟩
        cases h2
      · rintro attr ⟨h2, -⟩
        cases h2
    · refine ⟨⟨?_, fun h2 => absurd h2 h⟩, ?_⟩
      · rintro ⟨attr, h2, h3⟩
        cases h2
        cases h3
      · rintro attr ⟨h2, h3⟩
        cases h2
        cases h3

theorem extractToken_LEON_KV (key value : CppString) :
    extractToken (LEON_KV key value) =
      ("@leonkv".toList, ' ' :: '"' :: (key ++ '"' :: ' ' :: '"' :: (value ++ '"' :: []))) := by
  have : LEON_KV key value =
      '@' :: 'l' :: 'e' :: 'o' :: 'n' :: 'k' :: 'v' :: ' ' :: '"' ::
        (key ++ '"' :: ' ' :: '"' :: (value ++ '"' :: [])) := by
    simp [LEON_KV]
  rw [this]
  rfl

/-- C2: on the annotation text `@leonkv "k" "v"`, with `k` and `v` non-empty and
free of double quotes and backslashes, `ParseAttribute` returns the `KeyValue`
attribute whose key is `k` and whose value is `v`. -/
theorem ParseAttribute_LEON_KV (key value : CppString)
    (hk : key ≠ []) (hv : value ≠ [])
    (hkq : '"' ∉ key) (hkb : '\\' ∉ key) (hvq : '"' ∉ value) (hvb : '\\' ∉ value) :
    ParseAttribute (LEON_KV key value) =
      Except.ok { type := LeonAttrType.KeyValue, kv := (key, value) } := by
  have htok : firstToken (LEON_KV key value) = "@leonkv".toList := by
    have := extractToken_LEON_KV key value
    rw [extractToken_eq] at this
    exact congrArg Prod.fst this
  have h1 : ParseString (' ' :: '"' :: (key ++ '"' :: ' ' :: '"' :: (value ++ '"' :: []))) =
      (key, ' ' :: '"' :: (value ++ '"' :: [])) :=
    ParseString_plain [' '] key _ (by decide) hkq hkb
  have h2 : ParseString (' ' :: '"' :: (value ++ '"' :: [])) = (value, []) :=
    ParseString_plain [' '] value [] (by decide) hvq hvb
  rw [ParseAttribute_eq, htok, if_neg (by decide), extractToken_LEON_KV]
  simp only [h1, h2]
  rw [if_neg (by simp [hk, hv])]

theorem ParseAttribute_LEON_KV_witness :
    ("enum".toList ≠ [] ∧ "MyEnum".toList ≠ [] ∧
      '"' ∉ "enum".toList ∧ '\\' ∉ "enum".toList ∧
      '"' ∉ "MyEnum".toList ∧ '\\' ∉ "MyEnum".toList) ∧
    ParseAttribute "@leonkv \"enum\" \"MyEnum\"".toList =
      Except.ok { type := LeonAttrType.KeyValue, kv := ("enum".toList, "MyEnum".toList) } :=
  ⟨by decide,
    ParseAttribute_LEON_KV "enum".toList "MyEnum".toList (by decide) (by decide) (by decide)
      (by decide) (by decide) (by decide)⟩

/-- C3: when the first token of the annotation text is not `@leon`,
`ParseAttribute` fails with `LEON_KV malformed` exactly when the first or the
second string read by `ParseString` is empty; and a `KeyValue` attribute that it
returns has a non-empty key and a non-empty value. -/
theorem ParseAttribute_malformed_iff (src : CppString) :
    (firstToken src ≠ "@leon".toList →
      (ParseAttribute src = Except.error "LEON_KV malformed" ↔
        ((ParseString (extractToken src).2).1 = [] ∨
          (ParseString (ParseString (extractToken src).2).2).1 = []))) ∧
    (∀ attr, ParseAttribute src = Except.ok attr ∧ attr.type = LeonAttrType.KeyValue →
      attr.kv.1 ≠ [] ∧ attr.kv.2 ≠ []) := by
  rw [ParseAttribute_eq]
  by_cases h : firstToken src = "@leon".toList
  · simp only [if_pos h]
    refine ⟨fun h2 => absurd h h2, ?_⟩
    rintro attr ⟨h1, h2⟩
    cases h1
    cases h2
  · simp only [if_neg h]
    split_ifs with h1
    · refine ⟨fun _ => ⟨fun _ => h1, fun _ => rfl⟩, ?_⟩
      rintro attr ⟨h2, -⟩
      cases h2
    · refine ⟨fun _ => ⟨fun h2 => ?_, fun h2 => absurd h2 h1⟩, ?_⟩
      · cases h2
      · rintro attr ⟨h2, -⟩
        cases h2
        exact not_or.mp h1

theorem ParseAttribute_malformed_iff_witness :
    firstToken "@leonkv \"enum\"".toList ≠ "@leon".toList ∧
      (ParseAttribute "@leonkv \"enum\"".toList = Except.error "LEON_KV malformed" ↔
        ((ParseString (extractToken "@leonkv \"enum\"".toList).2).1 = [] ∨
          (ParseString (ParseString (extractToken "@leonkv \"enum\"".toList).2).2).1 = [])) :=
  ⟨by decide, (ParseAttribute_malformed_iff "@leonkv \"enum\"".toList).1 (by decide)⟩

/-- C4: when the stream ends before an unescaped closing double quote is read
(no opening quote at all, no closing quote, or an end inside an escape
sequence), `ParseString` returns the empty string; in the second loop this is
the `return ""` reached with any fuel above the length of the stream. -/
theorem ParseString_unterminated (stream : IStream) (h : hasQuotedString stream = false) :
    ParseString stream = ([], []) ∧
      ∀ body, skipToQuote stream = some body →
        ∀ fuel, body.length < fuel → parseLoop fuel body [] = some ([], []) := by
  unfold hasQuotedString at h
  unfold ParseString
  rw [skipToQuote_eq_dropWhile]
  cases hd : stream.dropWhile (fun c => c != '"') with
  | nil =>
    refine ⟨rfl, ?_⟩
    intro body hbody
    cases hbody
  | cons c body =>
    rw [hd] at h
    have hq := ParseStringQuoted_unterminated body.length body [] (Nat.le_refl _) h
    refine ⟨hq, ?_⟩
    intro body2 hbody fuel hfuel
    cases hbody
    rw [parseLoop_eq fuel body [] hfuel, hq]

theorem ParseString_unterminated_witness :
    (hasQuotedString " enum".toList = false ∧ ParseString " enum".toList = ([], [])) ∧
      (hasQuotedString " \"enum".toList = false ∧ ParseString " \"enum".toList = ([], [])) ∧
      (hasQuotedString " \"enum\\".toList = false ∧
        ParseString " \"enum\\".toList = ([], [])) ∧
      (hasQuotedString " \"enum\\\"".toList = false ∧
        ParseString " \"enum\\\"".toList = ([], [])) ∧
      (hasQuotedString " \"enum\\x4".toList = false ∧
        ParseString " \"enum\\x4".toList = ([], [])) ∧
      (hasQuotedString " \"enum\\10".toList = false ∧
        ParseString " \"enum\\10".toList = ([], [])) :=
  ⟨⟨by decide, (ParseString_unterminated _ (by decide)).1⟩,
    ⟨by decide, (ParseString_unterminated _ (by decide)).1⟩,
    ⟨by decide, (ParseString_unterminated _ (by decide)).1⟩,
    ⟨by decide, (ParseString_unterminated _ (by decide)).1⟩,
    ⟨by decide, (ParseString_unterminated _ (by decide)).1⟩,
    ⟨by decide, (ParseString_unterminated _ (by decide)).1⟩⟩

/-- C5: on a stream `p ++ '"' ++ s ++ '"' ++ r`, where `p` has no double quote
and `s` has neither a double quote nor a backslash, `ParseString` returns exactly
`s` and leaves exactly `r` unread. -/
theorem ParseString_reads_quoted (p s r : CppString) (hp : '"' ∉ p) (hq : '"' ∉ s)
    (hb : '\\' ∉ s) :
    ParseString (p ++ '"' :: (s ++ '"' :: r)) = (s, r) :=
  ParseString_plain p s r hp hq hb

theorem ParseString_reads_quoted_witness :
    ('"' ∉ " ".toList ∧ '"' ∉ "enum".toList ∧ '\\' ∉ "enum".toList ∧
      '"' ∉ "MyEnum".toList ∧ '\\' ∉ "MyEnum".toList) ∧
    ParseString " \"enum\" \"MyEnum\"".toList = ("enum".toList, " \"MyEnum\"".toList) ∧
    ParseString " \"MyEnum\"".toList = ("MyEnum".toList, []) :=
  ⟨by decide,
    ParseString_reads_quoted " ".toList "enum".toList " \"MyEnum\"".toList
      (by decide) (by decide) (by decide),
    ParseString_reads_quoted " ".toList "MyEnum".toList [] (by decide) (by decide) (by decide)⟩

/-- C6: inside a quoted string the two-character escapes `\a`, `\b`, `\f`, `\n`,
`\r`, `\t`, `\v` are replaced by the single bytes 7, 8, 12, 10, 13, 9, 11, and
reading continues after the escape; so the text `"\a\b\f\n\r\t\v"` is read as
these seven bytes. -/
theorem ParseStringQuoted_simple_escapes (value : CppString) (rest : IStream) :
    ParseStringQuoted value ('\\' :: 'a' :: rest) =
        ParseStringQuoted (value ++ [Char.ofNat 7]) rest ∧
      ParseStringQuoted value ('\\' :: 'b' :: rest) =
        ParseStringQuoted (value ++ [Char.ofNat 8]) rest ∧
      ParseStringQuoted value ('\\' :: 'f' :: rest) =
        ParseStringQuoted (value ++ [Char.ofNat 12]) rest ∧
      ParseStringQuoted value ('\\' :: 'n' :: rest) =
        ParseStringQuoted (value ++ [Char.ofNat 10]) rest ∧
      ParseStringQuoted value ('\\' :: 'r' :: rest) =
        ParseStringQuoted (value ++ [Char.ofNat 13]) rest ∧
      ParseStringQuoted value ('\\' :: 't' :: rest) =
        ParseStringQuoted (value ++ [Char.ofNat 9]) rest ∧
      ParseStringQuoted value ('\\' :: 'v' :: rest) =
        ParseStringQuoted (value ++ [Char.ofNat 11]) rest ∧
      ParseString " \"\\a\\b\\f\\n\\r\\t\\v\" rest".toList =
        ([7, 8, 12, 10, 13, 9, 11].map Char.ofNat, " rest".toList) := by
  refine ⟨?_, ?_, ?_, ?_, ?_, ?_, ?_, by decide⟩ <;> (rw [ParseStringQuoted_step]; rfl)

/-- C7: inside a quoted string a backslash followed by an octal digit consumes
the longest run of at most three octal digits and appends the one byte whose
value is the octal number read, modulo 256; what follows the run (a fourth
digit, or an `8` or `9`) is left in the stream, where a digit is read as an
ordinary character. -/
theorem ParseStringQuoted_octal_escape (value : CppString) (digits : List Char)
    (rest : IStream) (hne : digits ≠ []) (hlen : digits.length ≤ 3)
    (hdig : ∀ d ∈ digits, isOctalDigit d = true)
    (hmax : digits.length = 3 ∨ ∀ c ∈ rest.head?, isOctalDigit c = false) :
    ParseStringQuoted value ('\\' :: (digits ++ rest)) =
        ParseStringQuoted (value ++ [Char.ofNat (octalValue digits % 256)]) rest ∧
      (∀ c ∈ rest.head?, c.isDigit = true →
        ParseStringQuoted value ('\\' :: (digits ++ rest)) =
          ParseStringQuoted (value ++ [Char.ofNat (octalValue digits % 256), c]) rest.tail) := by
  have hmain := ParseStringQuoted_octal value digits rest hne hlen hdig (by
    rcases hmax with h | h
    · exact Or.inl h
    · refine Or.inr ?_
      intro c r hr
      exact h c (by rw [hr]; rfl))
  refine ⟨hmain, ?_⟩
  intro c hc hd
  cases rest with
  | nil => simp at hc
  | cons c2 r =>
    simp only [List.head?_cons, Option.mem_def, Option.some.injEq] at hc
    subst hc
    have hq : c2 ≠ '"' := by intro h; subst h; revert hd; decide
    have hb : c2 ≠ '\\' := by intro h; subst h; revert hd; decide
    rw [hmain, ParseStringQuoted_plain _ c2 r hq hb]
    simp

theorem ParseStringQuoted_octal_escape_witness :
    (['1', '0', '1'] ≠ [] ∧ ['1', '0', '1'].length ≤ 3 ∧
      (∀ d ∈ ['1', '0', '1'], isOctalDigit d = true) ∧ ['1', '0', '1'].length = 3) ∧
    (ParseStringQuoted [] "\\101\" rest".toList = ParseStringQuoted ['A'] "\" rest".toList ∧
      ParseStringQuoted [] "\\1014\" rest".toList =
        ParseStringQuoted ['A', '4'] "\" rest".toList) ∧
    ParseString "\"\\101\" \"\\1014\"".toList = (['A'], " \"\\1014\"".toList) ∧
    ParseString " \"\\1014\"".toList = (['A', '4'], []) :=
  ⟨by decide,
    ⟨(ParseStringQuoted_octal_escape [] ['1', '0', '1'] "\" rest".toList (by decide) (by decide)
        (by decide) (Or.inl rfl)).1,
      (ParseStringQuoted_octal_escape [] ['1', '0', '1'] "4\" rest".toList (by decide) (by decide)
        (by decide) (Or.inl rfl)).2 '4' rfl rfl⟩, by decide, by decide⟩

/-- C8, as the code runs: the `\x` branch reads the hexadecimal digits into a
local `char` and adds to that local, so nothing is appended to the string; the
text `"\x41"` is read as the empty string, not as `"A"`. -/
theorem ParseString_hex_escape_appends_nothing :
    ParseString "\"\\x41\"".toList = ([], []) ∧
      (∀ (value : CppString) (rest : IStream),
        ParseStringQuoted value ('\\' :: 'x' :: rest) =
          ParseStringQuoted value (hexDigits rest 0).2) :=
  ⟨by decide, ParseStringQuoted_hex⟩

/-- C9: inside a quoted string a backslash followed by a character `c` that is
not one of `a b f n r t v x` nor an octal digit appends `c` itself; an escaped
double quote is appended without ending the string, and an escaped backslash
appends one backslash. -/
theorem ParseStringQuoted_other_escape (value : CppString) (c : Char) (rest : IStream)
    (h : c ∉ ['a', 'b', 'f', 'n', 'r', 't', 'v', 'x', '0', '1', '2', '3', '4', '5', '6', '7']) :
    ParseStringQuoted value ('\\' :: c :: rest) = ParseStringQuoted (value ++ [c]) rest ∧
      ParseStringQuoted value ('\\' :: '"' :: rest) = ParseStringQuoted (value ++ ['"']) rest ∧
      ParseStringQuoted value ('\\' :: '\\' :: rest) = ParseStringQuoted (value ++ ['\\']) rest :=
  ⟨ParseStringQuoted_default value c rest h,
    ParseStringQuoted_default value '"' rest (by decide),
    ParseStringQuoted_default value '\\' rest (by decide)⟩

theorem ParseStringQuoted_other_escape_witness :
    'q' ∉ ['a', 'b', 'f', 'n', 'r', 't', 'v', 'x', '0', '1', '2', '3', '4', '5', '6', '7'] ∧
    (ParseStringQuoted [] "\\q\"".toList = ParseStringQuoted ['q'] "\"".toList ∧
      ParseStringQuoted [] "\\\"\"".toList = ParseStringQuoted ['"'] "\"".toList ∧
      ParseStringQuoted [] "\\\\\"".toList = ParseStringQuoted ['\\'] "\"".toList) ∧
    ParseString "\"a\\\"b\\\\c\\q\" rest".toList = ("a\"b\\cq".toList, " rest".toList) :=
  ⟨by decide, ParseStringQuoted_other_escape [] 'q' "\"".toList (by decide), by decide⟩

/-! ## Proofs: the enum registry -/

theorem UnorderedMap.find_assign_self {β : Type} (map : UnorderedMap β) (key : CppString)
    (value : β) : (map.assign key value).find key = some value := by
  simp [UnorderedMap.find, UnorderedMap.assign]

theorem UnorderedMap.find_assign_ne {β : Type} (map : UnorderedMap β) (key other : CppString)
    (value : β) (h : other ≠ key) : (map.assign key value).find other = map.find other := by
  have hfilter : ∀ entries : List (CppString × β),
      (entries.filter (fun entry => entry.1 ≠ key)).find? (fun entry => entry.1 = other) =
        entries.find? (fun entry => entry.1 = other) := by
    intro entries
    induction entries with
    | nil => rfl
    | cons entry entries ih =>
      by_cases h1 : entry.1 = key
      · have h2 : ¬ entry.1 = other := fun h3 => h (h3.symm.trans h1)
        rw [List.filter_cons_of_neg (by simpa using h1),
          List.find?_cons_of_neg _ (by simpa using h2), ih]
      · by_cases h2 : entry.1 = other
        · rw [List.filter_cons_of_pos (by simpa using h1),
            List.find?_cons_of_pos _ (by simpa using h2),
            List.find?_cons_of_pos _ (by simpa using h2)]
        · rw [List.filter_cons_of_pos (by simpa using h1),
            List.find?_cons_of_neg _ (by simpa using h2),
            List.find?_cons_of_neg _ (by simpa using h2), ih]
  have hne : ¬ key = other := fun h3 => h h3.symm
  simp only [UnorderedMap.find, UnorderedMap.assign, List.find?_cons, decide_eq_false hne]
  rw [hfilter]

theorem visitCursor_continue {σ : Type}
    (visitor : CXCursor → σ → Except String (CXChildVisitResult × σ)) (cursor : CXCursor)
    (client client2 : σ) (h : visitor cursor client = Except.ok (CXChildVisitResult.Continue, client2)) :
    visitCursor visitor cursor client = Except.ok (false, client2) := by
  cases cursor with
  | mk kind spelling parents evaluate info children =>
    simp only [visitCursor, h]

theorem visitCursor_recurse {σ : Type}
    (visitor : CXCursor → σ → Except String (CXChildVisitResult × σ)) (cursor : CXCursor)
    (client client2 : σ) (h : visitor cursor client = Except.ok (CXChildVisitResult.Recurse, client2)) :
    visitCursor visitor cursor client = visitChildrenList visitor cursor.children client2 := by
  cases cursor with
  | mk kind spelling parents evaluate info children =>
    simp only [visitCursor, h, CXCursor.children]

theorem visitChildrenList_cons_continue {σ : Type}
    (visitor : CXCursor → σ → Except String (CXChildVisitResult × σ)) (cursor : CXCursor)
    (siblings : List CXCursor) (client client2 : σ)
    (h : visitCursor visitor cursor client = Except.ok (false, client2)) :
    visitChildrenList visitor (cursor :: siblings) client =
      visitChildrenList visitor siblings client2 := by
  simp only [visitChildrenList, h]

/-- Induction over a cursor tree: a property of cursors together with a
property of lists of sibling cursors. -/
theorem CXCursor.tree_induction (P : CXCursor → Prop) (Q : List CXCursor → Prop)
    (hmk : ∀ kind spelling parents evaluate info children,
      Q children → P (CXCursor.mk kind spelling parents evaluate info children))
    (hnil : Q [])
    (hcons : ∀ cursor siblings, P cursor → Q siblings → Q (cursor :: siblings)) :
    (∀ cursor, P cursor) ∧ (∀ children, Q children) :=
  ⟨fun cursor => @CXCursor.rec P Q hmk hnil hcons cursor,
    fun children => @CXCursor.rec_1 P Q hmk hnil hcons children⟩

/-- A property of the client data that every call of the visitor keeps is kept
by the traversal. -/
theorem visitChildrenList_preserves {σ : Type}
    (visitor : CXCursor → σ → Except String (CXChildVisitResult × σ)) (J : σ → Prop)
    (hstep : ∀ cursor client result client2, J client →
      visitor cursor client = Except.ok (result, client2) → J client2) :
    ∀ children client stopped client2, J client →
      visitChildrenList visitor children client = Except.ok (stopped, client2) → J client2 := by
  refine (CXCursor.tree_induction
    (fun cursor => ∀ client stopped client2, J client →
      visitCursor visitor cursor client = Except.ok (stopped, client2) → J client2)
    (fun children => ∀ client stopped client2, J client →
      visitChildrenList visitor children client = Except.ok (stopped, client2) → J client2)
    ?_ ?_ ?_).2
  · intro kind spelling parents evaluate info children ih client stopped client2 hJ h
    simp only [visitCursor] at h
    cases hv : visitor (CXCursor.mk kind spelling parents evaluate info children) client with
    | error e => rw [hv] at h; simp at h
    | ok result =>
      obtain ⟨answer, client1⟩ := result
      have hJ1 := hstep _ _ _ _ hJ hv
      rw [hv] at h
      cases answer with
      | Break =>
        simp only [Except.ok.injEq, Prod.mk.injEq] at h
        rw [← h.2]; exact hJ1
      | Continue =>
        simp only [Except.ok.injEq, Prod.mk.injEq] at h
        rw [← h.2]; exact hJ1
      | Recurse =>
        exact ih client1 stopped client2 hJ1 h
  · intro client stopped client2 hJ h
    simp only [visitChildrenList, Except.ok.injEq, Prod.mk.injEq] at h
    rw [← h.2]; exact hJ
  · intro cursor siblings ihc ihs client stopped client2 hJ h
    simp only [visitChildrenList] at h
    cases hv : visitCursor visitor cursor client with
    | error e => rw [hv] at h; simp at h
    | ok result =>
      obtain ⟨flag, client1⟩ := result
      have hJ1 := ihc client flag client1 hJ hv
      rw [hv] at h
      cases flag with
      | true =>
        simp only [Except.ok.injEq, Prod.mk.injEq] at h
        rw [← h.2]; exact hJ1
      | false =>
        exact ihs client1 stopped client2 hJ1 h

/-- The function `RegisterEnum` on a cursor whose name is a key of the enum
registry returns the name and the registry as it was. -/
theorem RegisterEnum_of_registered (enum_nodes : UnorderedMap EnumNode) (cursor : CXCursor)
    (node : EnumNode) (h : enum_nodes.find (GetCXCursorName cursor) = some node) :
    RegisterEnum enum_nodes cursor = Except.ok (GetCXCursorName cursor, enum_nodes) := by
  unfold RegisterEnum
  simp only [h]

theorem toLongLong_isLongLong (x : Int) : isLongLong (toLongLong x) := by
  unfold isLongLong toLongLong LLONG_MIN LLONG_MAX
  omega

theorem toLongLong_of_isLongLong (x : Int) (h : isLongLong x) : toLongLong x = x := by
  unfold isLongLong LLONG_MIN LLONG_MAX at h
  unfold toLongLong
  omega

/-- The increment of a `long long` below `LLONG_MAX` is the integer plus one. -/
theorem toLongLong_succ_of_lt (value : Int) (h : isLongLong value) (hlt : value < LLONG_MAX) :
    toLongLong (value + 1) = value + 1 := by
  unfold isLongLong LLONG_MIN LLONG_MAX at h
  unfold LLONG_MAX at hlt
  unfold toLongLong
  omega

/-- The increment of `LLONG_MAX` is `LLONG_MIN`. -/
theorem toLongLong_succ_LLONG_MAX : toLongLong (LLONG_MAX + 1) = LLONG_MIN := by
  unfold toLongLong LLONG_MAX LLONG_MIN
  omega

theorem UnorderedMap.find_assign_cases {β : Type} (map : UnorderedMap β) (key other : CppString)
    (value found : β) (h : (map.assign key value).find other = some found) :
    (other = key ∧ found = value) ∨ map.find other = some found := by
  by_cases hkey : other = key
  · subst hkey
    rw [UnorderedMap.find_assign_self] at h
    exact Or.inl ⟨rfl, (Option.some.inj h).symm⟩
  · rw [UnorderedMap.find_assign_ne _ _ _ _ hkey] at h
    exact Or.inr h

/-- One call of the enum visitor keeps the counter and the recorded values in
the range of a `long long`. -/
theorem enumVisitor_range (cursor : CXCursor) (client client2 : EnumVisitorClient)
    (result : CXChildVisitResult) (hrange : EnumValuesInRange client)
    (h : enumVisitor cursor client = Except.ok (result, client2)) :
    EnumValuesInRange client2 := by
  unfold enumVisitor at h
  split_ifs at h with hkind
  · simp only [Except.ok.injEq, Prod.mk.injEq] at h
    rw [← h.2]
    refine ⟨toLongLong_isLongLong _, ?_⟩
    intro key value hfind
    rcases UnorderedMap.find_assign_cases _ _ _ _ _ hfind with hself | hold
    · rw [hself.2]; exact hrange.1
    · exact hrange.2 key value hold
  · cases hev : cursor.evaluate with
    | none =>
      rw [hev] at h
      simp only [Except.ok.injEq, Prod.mk.injEq] at h
      rw [← h.2]; exact hrange
    | some evaluated =>
      rw [hev] at h
      simp only [] at h
      have hstep : EnumValuesInRange
          { client with
            node := { client.node with
              elems := client.node.elems.assign client.last_elem
                (clang_EvalResult_getAsLongLong evaluated) }
            current_value := toLongLong (clang_EvalResult_getAsLongLong evaluated + 1) } := by
        refine ⟨toLongLong_isLongLong _, ?_⟩
        intro key value hfind
        rcases UnorderedMap.find_assign_cases _ _ _ _ _ hfind with hself | hold
        · rw [hself.2]; exact toLongLong_isLongLong _
        · exact hrange.2 key value hold
      cases hk : evaluated.kind <;> rw [hk] at h <;> simp only [] at h <;>
        first
          | (simp only [reduceCtorEq] at h)
          | (simp only [Except.ok.injEq, Prod.mk.injEq] at h; rw [← h.2]; exact hstep)

/-- The children of one enumerator: each initializer overwrites the value of
the last enumerator and resets the counter; the other entries are untouched. -/
theorem enumVisitor_enumerator_children (children : List CXCursor) :
    ∀ client : EnumVisitorClient,
      (∀ child ∈ children, child.kind ≠ CXCursorKind.EnumConstantDecl ∧
        ∀ result ∈ child.evaluate, result.kind = CXEvalResultKind.Int) →
      ∃ client2, visitChildrenList enumVisitor children client = Except.ok (false, client2) ∧
        client2.last_elem = client.last_elem ∧
        client2.node.name = client.node.name ∧
        client2.node.attrs = client.node.attrs ∧
        (∀ key, key ≠ client.last_elem →
          client2.node.elems.find key = client.node.elems.find key) ∧
        (children.any (fun child => child.evaluate.isSome) = false → client2 = client) ∧
        ((∃ value, client.node.elems.find client.last_elem = some value ∧
            client.current_value = toLongLong (value + 1)) →
          ∃ value, client2.node.elems.find client.last_elem = some value ∧
            client2.current_value = toLongLong (value + 1)) := by
  induction children with
  | nil =>
    intro client _
    exact ⟨client, rfl, rfl, rfl, rfl, fun _ _ => rfl, fun _ => rfl, fun h => h⟩
  | cons child children ih =>
    intro client hwf
    have hchild := hwf child (List.mem_cons_self _ _)
    have hrest : ∀ c ∈ children, c.kind ≠ CXCursorKind.EnumConstantDecl ∧
        ∀ result ∈ c.evaluate, result.kind = CXEvalResultKind.Int :=
      fun c hc => hwf c (List.mem_cons_of_mem _ hc)
    cases hev : child.evaluate with
    | none =>
      have hvis : enumVisitor child client = Except.ok (CXChildVisitResult.Continue, client) := by
        simp only [enumVisitor, if_neg hchild.1, hev]
      obtain ⟨client2, h1, h2, h3, h4, h5, h6, h7⟩ := ih client hrest
      refine ⟨client2, ?_, h2, h3, h4, h5, ?_, h7⟩
      · rw [visitChildrenList_cons_continue _ _ _ _ _ (visitCursor_continue _ _ _ _ hvis)]
        exact h1
      · intro hany
        apply h6
        simp only [List.any_cons, hev, Option.isSome_none, Bool.false_or] at hany
        exact hany
    | some result =>
      have hkind : result.kind = CXEvalResultKind.Int := hchild.2 result (by rw [hev]; rfl)
      let client1 : EnumVisitorClient :=
        { client with
          node := { client.node with
            elems := client.node.elems.assign client.last_elem
              (clang_EvalResult_getAsLongLong result) }
          current_value := toLongLong (clang_EvalResult_getAsLongLong result + 1) }
      have hvis : enumVisitor child client =
          Except.ok (CXChildVisitResult.Continue, client1) := by
        simp only [enumVisitor, if_neg hchild.1, hev, hkind]
      obtain ⟨client2, h1, h2, h3, h4, h5, -, h7⟩ := ih client1 hrest
      refine ⟨client2, ?_, h2, h3, h4, ?_, ?_, ?_⟩
      · rw [visitChildrenList_cons_continue _ _ _ _ _ (visitCursor_continue _ _ _ _ hvis)]
        exact h1
      · intro key hkey
        rw [h5 key hkey]
        exact UnorderedMap.find_assign_ne _ _ _ _ hkey
      · intro hany
        simp [List.any_cons, hev] at hany
      · intro _
        apply h7
        exact ⟨clang_EvalResult_getAsLongLong result, UnorderedMap.find_assign_self _ _ _, rfl⟩

theorem SuccessorRule_congr (elems elems2 : UnorderedMap Int) (seen : List CXCursor)
    (hagree : ∀ e ∈ seen, elems2.find e.spelling = elems.find e.spelling)
    (h : List.Chain' (SuccessorRule elems) seen) : List.Chain' (SuccessorRule elems2) seen := by
  rw [List.Chain'.iff_mem] at h
  refine List.Chain'.imp ?_ h
  rintro a b ⟨ha, hb, hab⟩ hinit
  obtain ⟨value, h1, h2⟩ := hab hinit
  exact ⟨value, by rw [hagree a ha, h1], by rw [hagree b hb, h2]⟩

/-- Visiting one enumerator and its children keeps the invariant. -/
theorem enumVisitor_enumerator (enumerator : CXCursor) (seen : List CXCursor)
    (client : EnumVisitorClient)
    (hkind : enumerator.kind = CXCursorKind.EnumConstantDecl)
    (hchildren : ∀ child ∈ enumerator.children,
      child.kind ≠ CXCursorKind.EnumConstantDecl ∧
        ∀ result ∈ child.evaluate, result.kind = CXEvalResultKind.Int)
    (hfresh : ∀ e ∈ seen, e.spelling ≠ enumerator.spelling)
    (hinv : EnumInvariant seen client) :
    ∃ client2, visitCursor enumVisitor enumerator client = Except.ok (false, client2) ∧
      client2.node.name = client.node.name ∧ client2.node.attrs = client.node.attrs ∧
      EnumInvariant (seen ++ [enumerator]) client2 := by
  obtain ⟨hzero, hlast, hhead, hchain⟩ := hinv
  let client1 : EnumVisitorClient :=
    { node := { client.node with
        elems := client.node.elems.assign enumerator.spelling client.current_value }
      last_elem := enumerator.spelling
      current_value := toLongLong (client.current_value + 1) }
  have hvis : enumVisitor enumerator client =
      Except.ok (CXChildVisitResult.Recurse, client1) := by
    simp only [enumVisitor, if_pos hkind]
  obtain ⟨client2, h1, h2, h3, h4, h5, h6, h7⟩ :=
    enumVisitor_enumerator_children enumerator.children client1 hchildren
  have hself1 : client1.node.elems.find enumerator.spelling = some client.current_value :=
    UnorderedMap.find_assign_self _ _ _
  have hother : ∀ e ∈ seen, client2.node.elems.find e.spelling =
      client.node.elems.find e.spelling := by
    intro e he
    rw [h5 e.spelling (hfresh e he)]
    exact UnorderedMap.find_assign_ne _ _ _ _ (hfresh e he)
  have hself2 : ∃ value, client2.node.elems.find enumerator.spelling = some value ∧
      client2.current_value = toLongLong (value + 1) :=
    h7 ⟨client.current_value, hself1, rfl⟩
  refine ⟨client2, ?_, h3, h4, ?_, ?_, ?_, ?_⟩
  · rw [visitCursor_recurse _ _ _ _ hvis]
    exact h1
  · intro h
    simp at h
  · intro e he
    rw [Option.mem_def, List.getLast?_append, List.getLast?_singleton] at he
    have he2 : enumerator = e := by
      cases hs : seen.getLast? <;> rw [hs] at he <;> exact Option.some.inj he
    subst he2
    exact ⟨h2, hself2⟩
  · intro e he hinit
    cases seen with
    | nil =>
      simp only [List.nil_append, List.head?_cons, Option.mem_def, Option.some.injEq] at he
      subst he
      have := h6 hinit
      rw [this, hself1, hzero rfl]
    | cons e0 rest =>
      simp only [List.cons_append, List.head?_cons, Option.mem_def, Option.some.injEq] at he
      subst he
      rw [hother _ (List.mem_cons_self _ _)]
      exact hhead _ rfl hinit
  · rw [List.chain'_append]
    refine ⟨SuccessorRule_congr _ _ seen hother hchain, List.chain'_singleton _, ?_⟩
    intro x hx y hy hinit
    simp only [List.head?_cons, Option.mem_def, Option.some.injEq] at hy
    subst hy
    obtain ⟨-, value, hfind, hcounter⟩ := hlast x hx
    have hxmem : x ∈ seen := List.mem_of_mem_getLast? hx
    refine ⟨value, ?_, ?_⟩
    · rw [hother x hxmem]
      exact hfind
    · rw [h6 hinit, hself1, hcounter]

/-- Visiting the children of a well-formed enum: the traversal succeeds and the
invariant holds of all its enumerators. -/
theorem enumVisitor_enum_children (children : List CXCursor) :
    ∀ (seen : List CXCursor) (client : EnumVisitorClient),
      (∀ child ∈ children,
        child.kind ≠ CXCursorKind.EnumConstantDecl → child.evaluate = none) →
      (∀ enumerator ∈ children.filter (fun child => child.kind = CXCursorKind.EnumConstantDecl),
        ∀ child ∈ enumerator.children, child.kind ≠ CXCursorKind.EnumConstantDecl ∧
          ∀ result ∈ child.evaluate, result.kind = CXEvalResultKind.Int) →
      ((seen ++ children.filter (fun child => child.kind = CXCursorKind.EnumConstantDecl)).map
        CXCursor.spelling).Nodup →
      EnumInvariant seen client →
      ∃ client2, visitChildrenList enumVisitor children client = Except.ok (false, client2) ∧
        client2.node.name = client.node.name ∧ client2.node.attrs = client.node.attrs ∧
        EnumInvariant
          (seen ++ children.filter (fun child => child.kind = CXCursorKind.EnumConstantDecl))
          client2 := by
  induction children with
  | nil =>
    intro seen client _ _ _ hinv
    refine ⟨client, rfl, rfl, rfl, ?_⟩
    simpa using hinv
  | cons child children ih =>
    intro seen client hother henum hnodup hinv
    by_cases hkind : child.kind = CXCursorKind.EnumConstantDecl
    · have hfilter : (child :: children).filter
          (fun c => c.kind = CXCursorKind.EnumConstantDecl) =
          child :: children.filter (fun c => c.kind = CXCursorKind.EnumConstantDecl) :=
        List.filter_cons_of_pos (by simpa using hkind)
      rw [hfilter] at henum hnodup ⊢
      have hfresh : ∀ e ∈ seen, e.spelling ≠ child.spelling := by
        intro e he heq
        rw [List.map_append, List.map_cons, List.nodup_append] at hnodup
        exact hnodup.2.2 (List.mem_map_of_mem _ he) (by rw [heq]; exact List.mem_cons_self _ _)
      obtain ⟨client1, h1, h2, h3, h4⟩ := enumVisitor_enumerator child seen client hkind
        (henum child (List.mem_cons_self _ _)) hfresh hinv
      obtain ⟨client2, k1, k2, k3, k4⟩ := ih (seen ++ [child]) client1
        (fun c hc => hother c (List.mem_cons_of_mem _ hc))
        (fun e he => henum e (List.mem_cons_of_mem _ he))
        (by simpa using hnodup) h4
      refine ⟨client2, ?_, k2.trans h2, k3.trans h3, by simpa using k4⟩
      rw [visitChildrenList_cons_continue _ _ _ _ _ h1]
      exact k1
    · have hfilter : (child :: children).filter
          (fun c => c.kind = CXCursorKind.EnumConstantDecl) =
          children.filter (fun c => c.kind = CXCursorKind.EnumConstantDecl) :=
        List.filter_cons_of_neg (by simpa using hkind)
      rw [hfilter] at henum hnodup ⊢
      have hev := hother child (List.mem_cons_self _ _) hkind
      have hvis : enumVisitor child client = Except.ok (CXChildVisitResult.Continue, client) := by
        simp only [enumVisitor, if_neg hkind, hev]
      obtain ⟨client2, k1, k2, k3, k4⟩ := ih seen client
        (fun c hc => hother c (List.mem_cons_of_mem _ hc)) henum hnodup hinv
      refine ⟨client2, ?_, k2, k3, k4⟩
      rw [visitChildrenList_cons_continue _ _ _ _ _ (visitCursor_continue _ _ _ _ hvis)]
      exact k1

/-- The registration of an annotated, well-formed enum whose name is not a key
of the registry: the call succeeds and stores the node of the client data at
the end of the traversal, of which the invariant holds. -/
theorem RegisterEnum_new (enum_nodes : UnorderedMap EnumNode) (cursor : CXCursor)
    (attrs : List LeonAttr)
    (hnew : enum_nodes.find (GetCXCursorName cursor) = none)
    (hattrs : ParseCXCursorAttributes cursor = Except.ok attrs) (hne : attrs ≠ [])
    (hwf : WellFormedEnum cursor) :
    ∃ client2 : EnumVisitorClient,
      visitChildrenList enumVisitor cursor.children
        { node := { name := GetCXCursorName cursor, attrs := attrs } } =
          Except.ok (false, client2) ∧
      RegisterEnum enum_nodes cursor =
        Except.ok ([], enum_nodes.assign (GetCXCursorName cursor) client2.node) ∧
      EnumInvariant (enumerators cursor) client2 ∧ EnumValuesInRange client2 := by
  obtain ⟨hnodup, hother, henum⟩ := hwf
  let client : EnumVisitorClient :=
    { node := { name := GetCXCursorName cursor, attrs := attrs } }
  have hinv : EnumInvariant [] client := by
    refine ⟨fun _ => rfl, ?_, ?_, List.chain'_nil⟩
    · intro e he; simp at he
    · intro e he; simp at he
  obtain ⟨client2, h1, -, -, hinv2⟩ :=
    enumVisitor_enum_children cursor.children [] client hother henum
      (by simpa [enumerators] using hnodup) hinv
  have hrange0 : EnumValuesInRange client := by
    refine ⟨?_, ?_⟩
    · show isLongLong 0
      unfold isLongLong LLONG_MIN LLONG_MAX
      omega
    · intro key value hfind
      have hnone : (UnorderedMap.empty : UnorderedMap Int).find key = none := rfl
      have hsome : (UnorderedMap.empty : UnorderedMap Int).find key = some value := hfind
      rw [hnone] at hsome
      cases hsome
  have hrange : EnumValuesInRange client2 :=
    visitChildrenList_preserves enumVisitor EnumValuesInRange
      (fun c s r s2 hJ hv => enumVisitor_range c s s2 r hJ hv) _ _ _ _ hrange0 h1
  have hlen : attrs.length ≠ 0 := by
    intro h
    exact hne (List.length_eq_zero.mp h)
  refine ⟨client2, h1, ?_, by simpa [enumerators] using hinv2, hrange⟩
  simp only [RegisterEnum, hnew, hattrs, clang_visitChildren]
  rw [if_pos hlen]
  have h2 : visitChildrenList enumVisitor cursor.children
      { node := { name := GetCXCursorName cursor, attrs := attrs, elems := UnorderedMap.empty },
        last_elem := [], current_value := 0 } = Except.ok (false, client2) := h1
  rw [h2]

/-- A recorded `long long` successor, by cases: the value plus one below
`LLONG_MAX`, and `LLONG_MIN` after `LLONG_MAX`. -/
theorem successor_value_cases (elems : UnorderedMap Int) (key : CppString) (value : Int)
    (hrange : isLongLong value)
    (h : elems.find key = some (toLongLong (value + 1))) :
    (value < LLONG_MAX → elems.find key = some (value + 1)) ∧
    (value = LLONG_MAX → elems.find key = some LLONG_MIN) := by
  refine ⟨fun hlt => ?_, fun heq => ?_⟩
  · rw [h, toLongLong_succ_of_lt value hrange hlt]
  · rw [h, heq, toLongLong_succ_LLONG_MAX]

/-- C10, as the code has it: `RegisterEnum` on an annotated enum of the shape
the library presents.  When the name of the enum is a key of the registry the
call returns the name and records nothing.  Otherwise it succeeds and stores a
node in which the first enumerator, when it has no initializer, has the value
0, and every enumerator without an initializer has the value of the enumerator
declared immediately before it plus one, taken as a `long long`: the value plus
one below `LLONG_MAX`, and `LLONG_MIN` after `LLONG_MAX`. -/
theorem RegisterEnum_implicit_values (enum_nodes : UnorderedMap EnumNode) (cursor : CXCursor)
    (attrs : List LeonAttr)
    (hattrs : ParseCXCursorAttributes cursor = Except.ok attrs) (hne : attrs ≠ [])
    (hwf : WellFormedEnum cursor) :
    (∀ found, enum_nodes.find (GetCXCursorName cursor) = some found →
      RegisterEnum enum_nodes cursor = Except.ok (GetCXCursorName cursor, enum_nodes)) ∧
    (enum_nodes.find (GetCXCursorName cursor) = none →
      ∃ node : EnumNode,
        RegisterEnum enum_nodes cursor =
          Except.ok ([], enum_nodes.assign (GetCXCursorName cursor) node) ∧
        (enum_nodes.assign (GetCXCursorName cursor) node).find (GetCXCursorName cursor) =
          some node ∧
        (∀ first ∈ (enumerators cursor).head?, hasInitializer first = false →
          node.elems.find first.spelling = some 0) ∧
        (∀ (i : Nat) (previous next : CXCursor),
          (enumerators cursor)[i]? = some previous → (enumerators cursor)[i + 1]? = some next →
          hasInitializer next = false →
          ∃ value, node.elems.find previous.spelling = some value ∧ isLongLong value ∧
            node.elems.find next.spelling = some (toLongLong (value + 1)) ∧
            (value < LLONG_MAX → node.elems.find next.spelling = some (value + 1)) ∧
            (value = LLONG_MAX → node.elems.find next.spelling = some LLONG_MIN))) := by
  refine ⟨fun found hfound => RegisterEnum_of_registered enum_nodes cursor found hfound, ?_⟩
  intro hnew
  obtain ⟨client2, -, hreg, ⟨-, -, hhead, hchain⟩, hrange⟩ :=
    RegisterEnum_new enum_nodes cursor attrs hnew hattrs hne hwf
  refine ⟨client2.node, hreg, UnorderedMap.find_assign_self _ _ _, ?_, ?_⟩
  · intro first hfirst hinit
    exact hhead first hfirst hinit
  · intro i previous next hprev hnext hinit
    rw [List.chain'_iff_get] at hchain
    obtain ⟨hi, hp⟩ := List.getElem?_eq_some.mp hprev
    obtain ⟨hj, hn⟩ := List.getElem?_eq_some.mp hnext
    have := hchain i (by omega)
    simp only [List.get_eq_getElem] at this
    rw [hp, hn] at this
    obtain ⟨value, hv1, hv2⟩ := this hinit
    have hin := hrange.2 _ _ hv1
    exact ⟨value, hv1, hin, hv2, successor_value_cases _ _ _ hin hv2⟩

theorem RegisterEnum_implicit_values_witness :
    (ParseCXCursorAttributes AppleEnum_cursor =
        Except.ok [{ type := LeonAttrType.KeyValue, kv := ("enum".toList, "AppleEnum".toList) }] ∧
      WellFormedEnum AppleEnum_cursor ∧
      UnorderedMap.empty.find (GetCXCursorName AppleEnum_cursor) = (none : Option EnumNode)) ∧
    RegisterEnum UnorderedMap.empty AppleEnum_cursor =
      Except.ok ([],
        UnorderedMap.empty.assign "MyCoolGame::Component::AppleComponent::AppleEnum".toList
          { name := "MyCoolGame::Component::AppleComponent::AppleEnum".toList
            attrs := [{ type := LeonAttrType.KeyValue, kv := ("enum".toList, "AppleEnum".toList) }]
            elems := { entries := [("Michael".toList, 1), ("John".toList, 0)] } }) ∧
    ∃ node : EnumNode,
      RegisterEnum UnorderedMap.empty AppleEnum_cursor =
        Except.ok ([], UnorderedMap.empty.assign (GetCXCursorName AppleEnum_cursor) node) ∧
      (UnorderedMap.empty.assign (GetCXCursorName AppleEnum_cursor) node).find
        (GetCXCursorName AppleEnum_cursor) = some node ∧
      (∀ first ∈ (enumerators AppleEnum_cursor).head?, hasInitializer first = false →
        node.elems.find first.spelling = some 0) ∧
      (∀ (i : Nat) (previous next : CXCursor),
        (enumerators AppleEnum_cursor)[i]? = some previous →
        (enumerators AppleEnum_cursor)[i + 1]? = some next →
        hasInitializer next = false →
        ∃ value, node.elems.find previous.spelling = some value ∧ isLongLong value ∧
          node.elems.find next.spelling = some (toLongLong (value + 1)) ∧
          (value < LLONG_MAX → node.elems.find next.spelling = some (value + 1)) ∧
          (value = LLONG_MAX → node.elems.find next.spelling = some LLONG_MIN)) :=
  ⟨⟨rfl, by decide, rfl⟩, rfl,
    (RegisterEnum_implicit_values UnorderedMap.empty AppleEnum_cursor
      [{ type := LeonAttrType.KeyValue, kv := ("enum".toList, "AppleEnum".toList) }]
      rfl (by decide) (by decide)).2 rfl⟩

/-- The enum `Wide`: the enumerator `After`, without an initializer, follows
`Next`, whose recorded value is `LLONG_MAX`; its recorded value is `LLONG_MIN`,
not `LLONG_MAX + 1`. -/
theorem RegisterEnum_implicit_value_wraps :
    RegisterEnum UnorderedMap.empty Wide_cursor =
      Except.ok ([],
        UnorderedMap.empty.assign "MyCoolGame::Wide".toList
          { name := "MyCoolGame::Wide".toList
            attrs := [{ type := LeonAttrType.Flag }]
            elems := { entries := [("After".toList, -9223372036854775808),
              ("Next".toList, 9223372036854775807),
              ("Top".toList, 9223372036854775806)] } }) ∧
    (enumerators Wide_cursor).map (fun enumerator =>
        (enumerator.spelling, hasInitializer enumerator)) =
      [("Top".toList, true), ("Next".toList, false), ("After".toList, false)] ∧
    (-9223372036854775808 : Int) ≠ 9223372036854775807 + 1 :=
  ⟨rfl, rfl, by decide⟩

/-- The enum `Later`, declared without enumerators and then defined: the call
on the definition finds the key and records none of its enumerators. -/
theorem RegisterEnum_after_opaque_declaration :
    ∃ enum_nodes,
      RegisterEnum UnorderedMap.empty Later_declaration_cursor = Except.ok ([], enum_nodes) ∧
      RegisterEnum enum_nodes Later_definition_cursor =
        Except.ok ("MyCoolGame::Later".toList, enum_nodes) ∧
      (enum_nodes.find "MyCoolGame::Later".toList).map (fun node => node.elems.entries) =
        some [] :=
  ⟨_, rfl, rfl, rfl⟩

/-! ## Proofs: the type canonicalizer -/

theorem CXType.size_mk (data : CXTypeData) (pointee : Option CXType) (decl : CXTypeDeclData)
    (types : List CXType) (declType : Option CXType) :
    (CXType.mk data pointee decl types declType).size =
      1 + CXType.sizeOption pointee + CXType.sizeList types + CXType.sizeOption declType := by
  simp [CXType.size]

theorem CXType.size_pos (cx_type : CXType) : 0 < cx_type.size := by
  cases cx_type with
  | mk data pointee decl types declType => rw [CXType.size_mk]; omega

theorem CXType.sizeList_getD (types : List CXType) (t : Nat) (h : t < types.length) :
    (types.getD t invalidType).size ≤ CXType.sizeList types := by
  induction types generalizing t with
  | nil => simp at h
  | cons head rest ih =>
    cases t with
    | zero => simp [CXType.sizeList]
    | succ t =>
      have := ih t (by simpa using h)
      simp only [List.getD_cons_succ, CXType.sizeList]
      omega

/-- Induction along the chain of pointees. -/
theorem CXType.pointee_induction (P : CXType → Prop)
    (step : ∀ data pointee decl types declType,
      (∀ p, pointee = some p → P p) → P (CXType.mk data pointee decl types declType)) :
    ∀ cx_type, P cx_type := by
  have h : ∀ n, ∀ cx_type : CXType, cx_type.size ≤ n → P cx_type := by
    intro n
    induction n with
    | zero =>
      intro cx_type hsize
      have := CXType.size_pos cx_type
      omega
    | succ n ih =>
      intro cx_type hsize
      cases cx_type with
      | mk data pointee decl types declType =>
        apply step
        intro p hp
        subst hp
        apply ih
        rw [CXType.size_mk] at hsize
        simp only [CXType.sizeOption] at hsize
        omega
  intro cx_type
  exact h cx_type.size cx_type (Nat.le_refl _)

theorem GetCXTypeRoot_size (cx_type : CXType) : (GetCXTypeRoot cx_type).size ≤ cx_type.size := by
  refine CXType.pointee_induction (fun t => (GetCXTypeRoot t).size ≤ t.size) ?_ cx_type
  intro data pointee decl types declType ih
  have hinv : invalidType.size ≤ (CXType.mk data pointee decl types declType).size := by
    have := CXType.size_pos (CXType.mk data pointee decl types declType)
    have h1 : invalidType.size = 1 := by decide
    omega
  unfold GetCXTypeRoot
  cases pointee with
  | none =>
    simp only []
    split_ifs <;> first | exact hinv | exact Nat.le_refl _
  | some p =>
    have hp := ih p rfl
    have hlt : p.size ≤ (CXType.mk data (some p) decl types declType).size := by
      rw [CXType.size_mk]; simp only [CXType.sizeOption]; omega
    simp only []
    split_ifs <;> first | exact Nat.le_trans hp hlt | exact Nat.le_refl _

theorem GetCXTypeName.templateLoop_congr
    (f g : CXType → Option (Except String CppString)) (cursor : CXCursor)
    (h : ∀ t, f (clang_Cursor_getTemplateArgumentType cursor t) =
      g (clang_Cursor_getTemplateArgumentType cursor t)) (remaining : Nat) :
    ∀ (t : Nat) (global_name : CppString),
      GetCXTypeName.templateLoop f cursor remaining t global_name =
        GetCXTypeName.templateLoop g cursor remaining t global_name := by
  induction remaining with
  | zero => intro t global_name; rfl
  | succ n ih =>
    intro t global_name
    simp only [GetCXTypeName.templateLoop]
    cases clang_Cursor_getTemplateArgumentKind cursor t <;> simp only [h t, ih]

theorem GetCXTypeName.body_congr (f g : CXType → Option (Except String CppString))
    (cx_type : CXType)
    (h : ∀ t, f (clang_Cursor_getTemplateArgumentType
        (clang_getTypeDeclaration (GetCXTypeRoot cx_type)) t) =
      g (clang_Cursor_getTemplateArgumentType
        (clang_getTypeDeclaration (GetCXTypeRoot cx_type)) t)) :
    GetCXTypeName.body f cx_type = GetCXTypeName.body g cx_type := by
  simp only [GetCXTypeName.body, GetCXTypeName.globalName,
    GetCXTypeName.templateLoop_congr f g _ h]

theorem GetCXTypeName.go_invalidType (fuel : Nat) :
    GetCXTypeName.go (fuel + 1) invalidType = some (Except.ok []) := rfl

theorem GetCXTypeName_invalidType : GetCXTypeName invalidType = Except.ok [] := rfl

/-- A template argument type of the declaration of a type is the invalid type
or a smaller type. -/
theorem templateArgumentType_size (cx_type : CXType) (t : Nat) :
    clang_Cursor_getTemplateArgumentType (clang_getTypeDeclaration cx_type) t = invalidType ∨
      (clang_Cursor_getTemplateArgumentType (clang_getTypeDeclaration cx_type) t).size <
        cx_type.size := by
  cases cx_type with
  | mk data pointee decl types declType =>
    simp only [clang_Cursor_getTemplateArgumentType, clang_getTypeDeclaration, CXCursor.info,
      CXType.templateArgumentTypes]
    by_cases h : t < types.length
    · right
      have := CXType.sizeList_getD types t h
      rw [CXType.size_mk]
      omega
    · left
      exact List.getD_eq_default _ _ (by omega)

theorem GetCXTypeName.go_fuel (fuel : Nat) :
    ∀ (cx_type : CXType) (fuel2 : Nat), cx_type.size < fuel → cx_type.size < fuel2 →
      GetCXTypeName.go fuel cx_type = GetCXTypeName.go fuel2 cx_type := by
  induction fuel with
  | zero => intro cx_type fuel2 h; omega
  | succ n ih =>
    intro cx_type fuel2 h h2
    cases fuel2 with
    | zero => omega
    | succ m =>
      simp only [GetCXTypeName.go]
      apply GetCXTypeName.body_congr
      intro t
      have hroot := GetCXTypeRoot_size cx_type
      have hpos := CXType.size_pos (GetCXTypeRoot cx_type)
      rcases templateArgumentType_size (GetCXTypeRoot cx_type) t with harg | harg
      · rw [harg]
        obtain ⟨n2, rfl⟩ : ∃ n2, n = n2 + 1 := ⟨n - 1, by omega⟩
        obtain ⟨m2, rfl⟩ : ∃ m2, m = m2 + 1 := ⟨m - 1, by omega⟩
        rw [GetCXTypeName.go_invalidType, GetCXTypeName.go_invalidType]
      · exact ih _ m (by omega) (by omega)

theorem GetCXTypeName.templateLoop_isSome
    (f : CXType → Option (Except String CppString)) (cursor : CXCursor)
    (h : ∀ t, (f (clang_Cursor_getTemplateArgumentType cursor t)).isSome = true)
    (remaining : Nat) :
    ∀ (t : Nat) (global_name : CppString),
      (GetCXTypeName.templateLoop f cursor remaining t global_name).isSome = true := by
  induction remaining with
  | zero => intro t global_name; rfl
  | succ n ih =>
    intro t global_name
    simp only [GetCXTypeName.templateLoop]
    cases clang_Cursor_getTemplateArgumentKind cursor t <;> simp only [ih, Option.isSome_some]
    have := h t
    cases hf : f (clang_Cursor_getTemplateArgumentType cursor t) with
    | none => rw [hf] at this; simp at this
    | some r =>
      cases r with
      | error e => rfl
      | ok name => simp only [ih]

theorem GetCXTypeName.globalName_isSome (f : CXType → Option (Except String CppString))
    (root : CXType)
    (h : ∀ t, (f (clang_Cursor_getTemplateArgumentType
        (clang_getTypeDeclaration root) t)).isSome = true) :
    (GetCXTypeName.globalName f root).isSome = true := by
  have hl := GetCXTypeName.templateLoop_isSome f _ h
  simp only [GetCXTypeName.globalName]
  split_ifs
  · generalize hL : GetCXTypeName.templateLoop f _ _ 0 _ = L
    have hs : L.isSome = true := by rw [← hL]; exact hl _ _ _
    cases L with
    | none => simp at hs
    | some r => cases r <;> rfl
  · rfl
  · rfl

theorem GetCXTypeName.body_isSome (f : CXType → Option (Except String CppString))
    (cx_type : CXType)
    (h : ∀ t, (f (clang_Cursor_getTemplateArgumentType
        (clang_getTypeDeclaration (GetCXTypeRoot cx_type)) t)).isSome = true) :
    (GetCXTypeName.body f cx_type).isSome = true := by
  have hg := GetCXTypeName.globalName_isSome f _ h
  simp only [GetCXTypeName.body]
  cases CheckCXType (GetCXTypeRoot cx_type) with
  | error e => rfl
  | ok u =>
    simp only []
    cases hG : GetCXTypeName.globalName f (GetCXTypeRoot cx_type) with
    | none => rw [hG] at hg; simp at hg
    | some r => cases r <;> rfl

theorem GetCXTypeName.go_isSome (fuel : Nat) :
    ∀ (cx_type : CXType), cx_type.size < fuel →
      (GetCXTypeName.go fuel cx_type).isSome = true := by
  induction fuel with
  | zero => intro cx_type h; omega
  | succ n ih =>
    intro cx_type h
    simp only [GetCXTypeName.go]
    apply GetCXTypeName.body_isSome
    intro t
    have hroot := GetCXTypeRoot_size cx_type
    have hpos := CXType.size_pos (GetCXTypeRoot cx_type)
    rcases templateArgumentType_size (GetCXTypeRoot cx_type) t with harg | harg
    · rw [harg]
      obtain ⟨n2, rfl⟩ : ∃ n2, n = n2 + 1 := ⟨n - 1, by omega⟩
      rw [GetCXTypeName.go_invalidType]
      rfl
    · exact ih _ (by omega)

/-- With enough fuel `GetCXTypeName.go` returns, and what it returns is
`GetCXTypeName`. -/
theorem GetCXTypeName.go_eq (fuel : Nat) (cx_type : CXType) (h : cx_type.size < fuel) :
    GetCXTypeName.go fuel cx_type = some (GetCXTypeName cx_type) := by
  have h1 := GetCXTypeName.go_isSome (cx_type.size + 1) cx_type (by omega)
  have h2 := GetCXTypeName.go_fuel fuel cx_type (cx_type.size + 1) h (by omega)
  unfold GetCXTypeName
  rw [h2]
  cases hr : GetCXTypeName.go (cx_type.size + 1) cx_type with
  | none => rw [hr] at h1; simp at h1
  | some r => rfl

/-- The function `GetCXTypeName` satisfies the equation of its source: its body
with the nested calls made by `GetCXTypeName` itself. -/
theorem GetCXTypeName_eq (cx_type : CXType) :
    some (GetCXTypeName cx_type) =
      GetCXTypeName.body (fun argument => some (GetCXTypeName argument)) cx_type := by
  rw [← GetCXTypeName.go_eq (cx_type.size + 1) cx_type (by omega)]
  simp only [GetCXTypeName.go]
  apply GetCXTypeName.body_congr
  intro t
  have hroot := GetCXTypeRoot_size cx_type
  have hpos := CXType.size_pos cx_type
  rcases templateArgumentType_size (GetCXTypeRoot cx_type) t with harg | harg
  · rw [harg, GetCXTypeName_invalidType]
    obtain ⟨n2, hn2⟩ : ∃ n2, cx_type.size = n2 + 1 := ⟨cx_type.size - 1, by omega⟩
    rw [hn2, GetCXTypeName.go_invalidType]
  · exact GetCXTypeName.go_eq _ _ (by omega)

theorem GetQualString_eq (cx_type : CXType) : GetQualString cx_type = qualifierString cx_type := by
  cases cx_type with
  | mk data pointee decl types declType =>
    rcases data with ⟨kind, c, v, r, sp, usp, nargs, res⟩
    cases c <;> cases v <;> cases r <;> rfl

theorem lqual_eq (root : CXType) :
    (if (!(GetQualString root).isEmpty) = true then GetQualString root ++ [' ']
      else GetQualString root) = leftQualifiers root := by
  cases root with
  | mk data pointee decl types declType =>
    rcases data with ⟨kind, c, v, r, sp, usp, nargs, res⟩
    cases c <;> cases v <;> cases r <;> rfl

theorem rightQualifiers_cons (layer : CXType) (rest : List CXType) :
    ((layer :: rest).reverse.map
      (fun layer => " ".toList ++ (layerSigil layer.kind ++ qualifierString layer))).flatten =
    (rest.reverse.map
      (fun layer => " ".toList ++ (layerSigil layer.kind ++ qualifierString layer))).flatten ++
      (" ".toList ++ (layerSigil layer.kind ++ qualifierString layer)) := by
  simp

/-- The loop that builds `rqual` prepends, layer by layer, what
`rightQualifiers` lists from the innermost layer outwards. -/
theorem GetCXTypeName.rqualLoop_eq (cx_type : CXType) :
    ∀ rqual, GetCXTypeName.rqualLoop cx_type rqual = rightQualifiers cx_type ++ rqual := by
  refine CXType.pointee_induction
    (fun t => ∀ rqual, GetCXTypeName.rqualLoop t rqual = rightQualifiers t ++ rqual) ?_ cx_type
  intro data pointee decl types declType ih rqual
  unfold GetCXTypeName.rqualLoop rightQualifiers typeLayers
  simp only [GetQualString_eq]
  by_cases h1 : data.kind = CXTypeKind.LValueReference
  · simp only [h1, true_or, if_true]
    cases pointee with
    | none => simp [layerSigil, CXType.kind, CXType.data, h1]
    | some p =>
      simp only [ih p rfl, rightQualifiers_cons]
      simp [layerSigil, CXType.kind, CXType.data, h1, rightQualifiers]
  · by_cases h2 : data.kind = CXTypeKind.RValueReference
    · simp only [h2, or_true, if_true, reduceCtorEq, if_false]
      cases pointee with
      | none => simp [layerSigil, CXType.kind, CXType.data, h2]
      | some p =>
        simp only [ih p rfl, rightQualifiers_cons]
        simp [layerSigil, CXType.kind, CXType.data, h2, rightQualifiers]
    · simp only [h1, h2, or_self, if_false]
      by_cases h3 : data.kind = CXTypeKind.Pointer ∨ data.kind = CXTypeKind.BlockPointer
          ∨ data.kind = CXTypeKind.ObjCObjectPointer ∨ data.kind = CXTypeKind.MemberPointer
      · simp only [if_pos h3]
        cases pointee with
        | none => simp
        | some p =>
          by_cases h4 : p.kind = CXTypeKind.Invalid
          · simp [h4]
          · simp only [if_neg h4, ih p rfl, rightQualifiers_cons]
            simp [layerSigil, CXType.kind, CXType.data, h1, h2, rightQualifiers]
      · simp [if_neg h3]

/-- C17: the canonical name that `GetCXTypeName` returns is `lqual ++ name ++
rqual`: the qualifiers of the root in the order `const volatile restrict`,
separated by single spaces and followed by one space (nothing when the root has
none); the name built for the root; and, from the innermost reference or
pointer layer to the outermost, one space, the sigil of the layer and the
layer's own qualifiers. -/
theorem GetCXTypeName_canonical_form (cx_type : CXType) (name : CppString)
    (h : GetCXTypeName cx_type = Except.ok name) :
    ∃ global_name,
      GetCXTypeName.globalName (fun argument => some (GetCXTypeName argument))
        (GetCXTypeRoot cx_type) = some (Except.ok global_name) ∧
      name = leftQualifiers (GetCXTypeRoot cx_type) ++ global_name ++ rightQualifiers cx_type := by
  have heq := GetCXTypeName_eq cx_type
  rw [h] at heq
  simp only [GetCXTypeName.body] at heq
  cases hc : CheckCXType (GetCXTypeRoot cx_type) with
  | error e => rw [hc] at heq; simp at heq
  | ok u =>
    rw [hc] at heq
    simp only [] at heq
    cases hg : GetCXTypeName.globalName (fun argument => some (GetCXTypeName argument))
        (GetCXTypeRoot cx_type) with
    | none => rw [hg] at heq; simp at heq
    | some r =>
      rw [hg] at heq
      cases r with
      | error e => simp at heq
      | ok global_name =>
        refine ⟨global_name, rfl, ?_⟩
        simp only [Option.some.injEq, Except.ok.injEq] at heq
        rw [heq, lqual_eq, GetCXTypeName.rqualLoop_eq]
        simp

theorem GetCXTypeName_canonical_form_witness :
    GetCXTypeName type_const_volatile_int_ptr_const_ref =
        Except.ok "const volatile int *const &".toList ∧
      leftQualifiers (GetCXTypeRoot type_const_volatile_int_ptr_const_ref) =
        "const volatile ".toList ∧
      rightQualifiers type_const_volatile_int_ptr_const_ref = " *const &".toList ∧
      ∃ global_name,
        GetCXTypeName.globalName (fun argument => some (GetCXTypeName argument))
          (GetCXTypeRoot type_const_volatile_int_ptr_const_ref) =
            some (Except.ok global_name) ∧
        "const volatile int *const &".toList =
          leftQualifiers (GetCXTypeRoot type_const_volatile_int_ptr_const_ref) ++ global_name ++
            rightQualifiers type_const_volatile_int_ptr_const_ref :=
  ⟨rfl, by decide, by decide,
    GetCXTypeName_canonical_form type_const_volatile_int_ptr_const_ref
      "const volatile int *const &".toList rfl⟩

/-! ## Proofs: the type registry -/

theorem UnorderedMap.find_modify_self {β : Type} (map : UnorderedMap β) (key : CppString)
    (f : β → β) (value : β) (h : map.find key = some value) :
    (map.modify key f).find key = some (f value) := by
  simp only [UnorderedMap.modify, h, UnorderedMap.find_assign_self]

theorem UnorderedMap.find_modify_ne {β : Type} (map : UnorderedMap β) (key other : CppString)
    (f : β → β) (h : other ≠ key) : (map.modify key f).find other = map.find other := by
  unfold UnorderedMap.modify
  cases map.find key with
  | none => rfl
  | some value => exact UnorderedMap.find_assign_ne _ _ _ _ h

theorem UnorderedMap.find_modify_isSome {β : Type} (map : UnorderedMap β)
    (key other : CppString) (f : β → β) :
    ((map.modify key f).find other).isSome = (map.find other).isSome := by
  by_cases h : other = key
  · subst h
    cases hf : map.find other with
    | none => simp [UnorderedMap.modify, hf]
    | some value => rw [UnorderedMap.find_modify_self _ _ _ _ hf]; rfl
  · rw [UnorderedMap.find_modify_ne _ _ _ _ h]

theorem UnorderedMap.find_empty {β : Type} (key : CppString) :
    (UnorderedMap.empty : UnorderedMap β).find key = none := rfl

theorem Fuelled.andThen_eq_ok {α β : Type} (call : Fuelled α) (rest : α → Fuelled β)
    (result : β) (h : call.andThen rest = some (Except.ok result)) :
    ∃ a, call = some (Except.ok a) ∧ rest a = some (Except.ok result) := by
  cases call with
  | none => simp [Fuelled.andThen] at h
  | some r =>
    cases r with
    | error e => simp [Fuelled.andThen] at h
    | ok a => exact ⟨a, rfl, h⟩

theorem Fuelled.andThen_isSome {α β : Type} (call : Fuelled α) (rest : α → Fuelled β)
    (h1 : call.isSome = true)
    (h2 : ∀ a, call = some (Except.ok a) → (rest a).isSome = true) :
    (call.andThen rest).isSome = true := by
  cases call with
  | none => simp at h1
  | some r =>
    cases r with
    | error e => rfl
    | ok a => exact h2 a rfl

/-- One statement `node.field = RegisterType(cx_type)`: the entry of `name`
becomes `set node key` with `key` the canonical name of `cx_type`, the other
entries present before stay, and closure is kept when `set` stores the key in
one of the reference fields. -/
theorem RegisterType.assignField_spec
    (register : UnorderedMap TypeNode → CXType → Fuelled (CppString × UnorderedMap TypeNode))
    (hreg : RegisterTypeSpec register) (name : CppString)
    (set : TypeNode → CppString → TypeNode)
    (hset : ∀ node key, ∀ ref ∈ (set node key).references, ref ∈ node.references ∨ ref = key)
    (type_nodes type_nodes2 : UnorderedMap TypeNode) (cx_type : CXType) (node : TypeNode)
    (hnode : type_nodes.find name = some node)
    (h : RegisterType.assignField register name set type_nodes cx_type =
      some (Except.ok type_nodes2)) :
    ∃ key, GetCXTypeName cx_type = Except.ok key ∧
      type_nodes2.find name = some (set node key) ∧
      (∀ other n, other ≠ name → type_nodes.find other = some n →
        type_nodes2.find other = some n) ∧
      (∀ other, (type_nodes.find other).isSome = true →
        (type_nodes2.find other).isSome = true) ∧
      (RegistryClosed type_nodes → RegistryClosed type_nodes2) := by
  unfold RegisterType.assignField at h
  obtain ⟨⟨key, regm⟩, hcall, hrest⟩ := Fuelled.andThen_eq_ok _ _ _ h
  simp only [Option.some.injEq, Except.ok.injEq] at hrest
  obtain ⟨hname, hframe, hkey, hclosed⟩ := hreg _ _ _ _ hcall
  have hnodem : regm.find name = some node := hframe _ _ hnode
  subst hrest
  have hsome : ∀ other, (type_nodes.find other).isSome = true →
      ((regm.modify name fun node => set node key).find other).isSome = true := by
    intro other ho
    rw [UnorderedMap.find_modify_isSome]
    cases hf : type_nodes.find other with
    | none => rw [hf] at ho; simp at ho
    | some n => rw [hframe _ _ hf]; rfl
  refine ⟨key, hname, UnorderedMap.find_modify_self _ _ _ _ hnodem, ?_, hsome, ?_⟩
  · intro other n hne hn
    rw [UnorderedMap.find_modify_ne _ _ _ _ hne]
    exact hframe _ _ hn
  · intro hc
    have hcm := hclosed hc
    intro k n hk ref href hne
    rw [UnorderedMap.find_modify_isSome]
    by_cases hkn : k = name
    · subst hkn
      rw [UnorderedMap.find_modify_self _ _ _ _ hnodem] at hk
      cases hk
      rcases hset node key ref href with h1 | h1
      · exact hcm _ _ hnodem ref h1 hne
      · rw [h1]; exact hkey
    · rw [UnorderedMap.find_modify_ne _ _ _ _ hkn] at hk
      exact hcm _ _ hk ref href hne

theorem RegistryClosed.modify (type_nodes : UnorderedMap TypeNode) (name : CppString)
    (f : TypeNode → TypeNode) (node : TypeNode) (hnode : type_nodes.find name = some node)
    (hf : ∀ ref ∈ (f node).references, ref ≠ [] →
      ref ∈ node.references ∨ (type_nodes.find ref).isSome = true)
    (hc : RegistryClosed type_nodes) : RegistryClosed (type_nodes.modify name f) := by
  intro k n hk ref href hne
  rw [UnorderedMap.find_modify_isSome]
  by_cases hkn : k = name
  · subst hkn
    rw [UnorderedMap.find_modify_self _ _ _ _ hnode] at hk
    cases hk
    rcases hf ref href hne with h1 | h1
    · exact hc _ _ hnode ref h1 hne
    · exact h1
  · rw [UnorderedMap.find_modify_ne _ _ _ _ hkn] at hk
    exact hc _ _ hk ref href hne

theorem TypeNode.references_template_args (node : TypeNode) (arg : TemplateArg) :
    ∀ ref ∈ ({ node with template_args := node.template_args ++ [arg] } : TypeNode).references,
      ref ∈ node.references ∨ (arg.arg_type = TemplateArgType.Type ∧ ref = arg.type) := by
  intro ref href
  simp only [TypeNode.references, List.filter_append, List.map_append, List.mem_append,
    List.mem_cons, List.mem_map, List.mem_filter, decide_eq_true_eq, List.mem_singleton,
    List.not_mem_nil, or_false] at href ⊢
  rcases href with h | h | h
  · exact Or.inl (Or.inl h)
  · exact Or.inl (Or.inr h)
  · obtain ⟨a, ⟨ha, hty⟩, hr⟩ := h
    right
    subst ha
    exact ⟨hty, hr.symm⟩

/-- The template loop of `RegisterType`: arguments are appended to the entry of
`name`, the other entries present before stay, closure is kept. -/
theorem RegisterType.templateLoop_spec
    (register : UnorderedMap TypeNode → CXType → Fuelled (CppString × UnorderedMap TypeNode))
    (hreg : RegisterTypeSpec register) (cursor : CXCursor) (name : CppString)
    (remaining : Nat) :
    ∀ (t : Nat) (type_nodes type_nodes2 : UnorderedMap TypeNode) (node : TypeNode),
      type_nodes.find name = some node →
      RegisterType.templateLoop register cursor name remaining t type_nodes =
        some (Except.ok type_nodes2) →
      (∃ args, type_nodes2.find name =
        some { node with template_args := node.template_args ++ args }) ∧
      (∀ other n, other ≠ name → type_nodes.find other = some n →
        type_nodes2.find other = some n) ∧
      (∀ other, (type_nodes.find other).isSome = true →
        (type_nodes2.find other).isSome = true) ∧
      (RegistryClosed type_nodes → RegistryClosed type_nodes2) := by
  induction remaining with
  | zero =>
    intro t type_nodes type_nodes2 node hnode h
    simp only [RegisterType.templateLoop, Option.some.injEq, Except.ok.injEq] at h
    subst h
    exact ⟨⟨[], by simp [hnode]⟩, fun _ _ _ h => h, fun _ h => h, fun h => h⟩
  | succ n ih =>
    intro t type_nodes type_nodes2 node hnode h
    simp only [RegisterType.templateLoop] at h
    -- the three kinds that go on share the last step
    have hstep : ∀ (arg : TemplateArg) (regm : UnorderedMap TypeNode),
        regm.find name = some node →
        (∀ other n, type_nodes.find other = some n → regm.find other = some n) →
        (RegistryClosed type_nodes → RegistryClosed regm) →
        (arg.arg_type = TemplateArgType.Type → (regm.find arg.type).isSome = true) →
        RegisterType.templateLoop register cursor name n (t + 1)
          (regm.modify name
            (fun node => { node with template_args := node.template_args ++ [arg] })) =
          some (Except.ok type_nodes2) →
        (∃ args, type_nodes2.find name =
          some { node with template_args := node.template_args ++ args }) ∧
        (∀ other n, other ≠ name → type_nodes.find other = some n →
          type_nodes2.find other = some n) ∧
        (∀ other, (type_nodes.find other).isSome = true →
          (type_nodes2.find other).isSome = true) ∧
        (RegistryClosed type_nodes → RegistryClosed type_nodes2) := by
      intro arg regm hnm hframe hcl harg hloop
      obtain ⟨⟨args, hargs⟩, h2, h3, h4⟩ := ih (t + 1) _ type_nodes2 _
        (UnorderedMap.find_modify_self _ _ _ _ hnm) hloop
      refine ⟨⟨arg :: args, by simpa using hargs⟩, ?_, ?_, ?_⟩
      · intro other k hne hk
        apply h2 other k hne
        rw [UnorderedMap.find_modify_ne _ _ _ _ hne]
        exact hframe _ _ hk
      · intro other ho
        apply h3
        rw [UnorderedMap.find_modify_isSome]
        cases hf : type_nodes.find other with
        | none => rw [hf] at ho; simp at ho
        | some k => rw [hframe _ _ hf]; rfl
      · intro hc
        apply h4
        apply RegistryClosed.modify _ _ _ node hnm _ (hcl hc)
        intro ref href _
        rcases TypeNode.references_template_args node arg ref href with h1 | ⟨h1, h2⟩
        · exact Or.inl h1
        · right; rw [h2]; exact harg h1
    cases hk : clang_Cursor_getTemplateArgumentKind cursor t <;> rw [hk] at h <;>
      first
      | (simp only [reduceCtorEq, Option.some.injEq] at h; done)
      | skip
    · -- Type
      obtain ⟨⟨key, regm⟩, hcall, hrest⟩ := Fuelled.andThen_eq_ok _ _ _ h
      obtain ⟨-, hframe, hkey, hclosed⟩ := hreg _ _ _ _ hcall
      exact hstep _ regm (hframe _ _ hnode) hframe hclosed (fun _ => hkey) hrest
    · -- NullPtr
      exact hstep _ type_nodes hnode (fun _ _ h => h) (fun h => h)
        (fun h => by simp at h) h
    · -- Integral
      exact hstep _ type_nodes hnode (fun _ _ h => h) (fun h => h)
        (fun h => by simp at h) h

theorem UnorderedMap.find_assign_isSome {β : Type} (map : UnorderedMap β)
    (key other : CppString) (value : β) (h : (map.find other).isSome = true) :
    ((map.assign key value).find other).isSome = true := by
  by_cases hk : other = key
  · subst hk; rw [UnorderedMap.find_assign_self]; rfl
  · rw [UnorderedMap.find_assign_ne _ _ _ _ hk]; exact h

theorem TypeNode.references_set_root (node : TypeNode) (key : CppString) :
    ∀ ref ∈ ({ node with root := key } : TypeNode).references,
      ref ∈ node.references ∨ ref = key := by
  intro ref href
  simp only [TypeNode.references, List.mem_append, List.mem_cons] at href ⊢
  tauto

theorem TypeNode.references_set_unqualified (node : TypeNode) (key : CppString) :
    ∀ ref ∈ ({ node with unqualified := key } : TypeNode).references,
      ref ∈ node.references ∨ ref = key := by
  intro ref href
  simp only [TypeNode.references, List.mem_append, List.mem_cons] at href ⊢
  tauto

theorem TypeNode.references_set_unqualified_root (node : TypeNode) (key : CppString) :
    ∀ ref ∈ ({ node with unqualified_root := key } : TypeNode).references,
      ref ∈ node.references ∨ ref = key := by
  intro ref href
  simp only [TypeNode.references, List.mem_append, List.mem_cons] at href ⊢
  tauto

theorem TypeNode.references_set_pointee (node : TypeNode) (key : CppString) :
    ∀ ref ∈ ({ node with pointee := key } : TypeNode).references,
      ref ∈ node.references ∨ ref = key := by
  intro ref href
  simp only [TypeNode.references, List.mem_append, List.mem_cons] at href ⊢
  tauto

/-- One statement `node.field = RegisterType(cx_type)` inside the registration
of the new type `name`, which was no key of `original`: the entry of `name` is
updated, the entries of `original` stay, closure is kept. -/
theorem RegisterType.assignField_stage
    (register : UnorderedMap TypeNode → CXType → Fuelled (CppString × UnorderedMap TypeNode))
    (hreg : RegisterTypeSpec register) (name : CppString)
    (set : TypeNode → CppString → TypeNode)
    (hset : ∀ node key, ∀ ref ∈ (set node key).references, ref ∈ node.references ∨ ref = key)
    (original type_nodes type_nodes2 : UnorderedMap TypeNode) (cx_type : CXType)
    (node : TypeNode) (hnew : original.find name = none)
    (hstage : type_nodes.find name = some node ∧
      (∀ other n, original.find other = some n → type_nodes.find other = some n) ∧
      (RegistryClosed original → RegistryClosed type_nodes))
    (h : RegisterType.assignField register name set type_nodes cx_type =
      some (Except.ok type_nodes2)) :
    ∃ key, GetCXTypeName cx_type = Except.ok key ∧
      type_nodes2.find name = some (set node key) ∧
      (∀ other n, original.find other = some n → type_nodes2.find other = some n) ∧
      (RegistryClosed original → RegistryClosed type_nodes2) := by
  obtain ⟨hnode, hframe, hclosed⟩ := hstage
  obtain ⟨key, h1, h2, h3, -, h5⟩ :=
    RegisterType.assignField_spec register hreg name set hset _ _ _ node hnode h
  refine ⟨key, h1, h2, ?_, fun hc => h5 (hclosed hc)⟩
  intro other n hn
  have hne : other ≠ name := by
    intro he; subst he; rw [hnew] at hn; cases hn
  exact h3 other n hne (hframe _ _ hn)

/-- What the registration of a new type leaves in the registry. -/
theorem RegisterType.registerNew_spec
    (register : UnorderedMap TypeNode → CXType → Fuelled (CppString × UnorderedMap TypeNode))
    (hreg : RegisterTypeSpec register)
    (type_nodes type_nodes2 : UnorderedMap TypeNode) (cx_type : CXType) (name key : CppString)
    (hnew : type_nodes.find name = none)
    (h : RegisterType.registerNew register type_nodes cx_type name =
      some (Except.ok (key, type_nodes2))) :
    key = name ∧
    (∀ other n, type_nodes.find other = some n → type_nodes2.find other = some n) ∧
    (RegistryClosed type_nodes → RegistryClosed type_nodes2) ∧
    ∃ k1 k2 k3 pointee is_template args,
      GetCXTypeName (GetCXTypeRoot cx_type) = Except.ok k1 ∧
      GetCXTypeName (clang_getUnqualifiedType cx_type) = Except.ok k2 ∧
      GetCXTypeName
        (if (!clang_isInvalid (clang_getTypeDeclaration (GetCXTypeRoot cx_type)).kind) = true then
          clang_getCursorType (clang_getTypeDeclaration (GetCXTypeRoot cx_type))
        else clang_getUnqualifiedType cx_type) = Except.ok k3 ∧
      (if cx_type.kind = CXTypeKind.LValueReference ∨ cx_type.kind = CXTypeKind.RValueReference
        then GetCXTypeName (clang_getNonReferenceType cx_type) = Except.ok pointee
        else if (cx_type.kind = CXTypeKind.Pointer ∨ cx_type.kind = CXTypeKind.BlockPointer
            ∨ cx_type.kind = CXTypeKind.ObjCObjectPointer
            ∨ cx_type.kind = CXTypeKind.MemberPointer)
            ∧ (clang_getPointeeType cx_type).kind ≠ CXTypeKind.Invalid
        then GetCXTypeName (clang_getPointeeType cx_type) = Except.ok pointee
        else pointee = []) ∧
      type_nodes2.find name = some
        { name := name
          type := RegisterType.nodeType cx_type.kind
          q_const := cx_type.data.isConstQualified
          q_volatile := cx_type.data.isVolatileQualified
          q_restrict := cx_type.data.isRestrictQualified
          root := k1
          unqualified := k2
          unqualified_root := k3
          pointee := pointee
          is_template := is_template
          template_args := args } := by
  unfold RegisterType.registerNew at h
  simp only [] at h
  -- the placeholder
  have hfind0 : (type_nodes.assign name {}).find name = some ({} : TypeNode) :=
    UnorderedMap.find_assign_self _ _ _
  have hne : ∀ other n, type_nodes.find other = some n → other ≠ name := by
    intro other n hn he; subst he; rw [hnew] at hn; cases hn
  generalize hreg0 : ((type_nodes.assign name {}).modify name fun node =>
      { node with
        name := name
        type := RegisterType.nodeType cx_type.kind
        q_const := cx_type.data.isConstQualified
        q_volatile := cx_type.data.isVolatileQualified
        q_restrict := cx_type.data.isRestrictQualified }) = reg0 at h
  have hstage0 : reg0.find name = some
      ({ name := name, type := RegisterType.nodeType cx_type.kind,
         q_const := cx_type.data.isConstQualified,
         q_volatile := cx_type.data.isVolatileQualified,
         q_restrict := cx_type.data.isRestrictQualified } : TypeNode) ∧
      (∀ other n, type_nodes.find other = some n → reg0.find other = some n) ∧
      (RegistryClosed type_nodes → RegistryClosed reg0) := by
    subst hreg0
    refine ⟨UnorderedMap.find_modify_self _ _ _ _ hfind0, ?_, ?_⟩
    · intro other n hn
      rw [UnorderedMap.find_modify_ne _ _ _ _ (hne _ _ hn),
        UnorderedMap.find_assign_ne _ _ _ _ (hne _ _ hn)]
      exact hn
    · intro hc k n hk ref href hnonempty
      rw [UnorderedMap.find_modify_isSome]
      by_cases hkn : k = name
      · subst hkn
        rw [UnorderedMap.find_modify_self _ _ _ _ hfind0] at hk
        cases hk
        simp [TypeNode.references] at href
        exact absurd href hnonempty
      · rw [UnorderedMap.find_modify_ne _ _ _ _ hkn,
          UnorderedMap.find_assign_ne _ _ _ _ hkn] at hk
        exact UnorderedMap.find_assign_isSome _ _ _ _ (hc _ _ hk ref href hnonempty)
  -- node.root
  obtain ⟨reg1, hcall1, h⟩ := Fuelled.andThen_eq_ok _ _ _ h
  obtain ⟨k1, hk1, hn1, hf1, hc1⟩ := RegisterType.assignField_stage register hreg name _
    TypeNode.references_set_root
    type_nodes reg0 reg1 _ _ hnew hstage0 hcall1
  -- node.unqualified
  obtain ⟨reg2, hcall2, h⟩ := Fuelled.andThen_eq_ok _ _ _ h
  obtain ⟨k2, hk2, hn2, hf2, hc2⟩ := RegisterType.assignField_stage register hreg name _
    TypeNode.references_set_unqualified
    type_nodes reg1 reg2 _ _ hnew ⟨hn1, hf1, hc1⟩ hcall2
  -- node.unqualified_root
  obtain ⟨reg3, hcall3, h⟩ := Fuelled.andThen_eq_ok _ _ _ h
  have hstage3 : ∃ k3, GetCXTypeName
        (if (!clang_isInvalid (clang_getTypeDeclaration (GetCXTypeRoot cx_type)).kind) = true then
          clang_getCursorType (clang_getTypeDeclaration (GetCXTypeRoot cx_type))
        else clang_getUnqualifiedType cx_type) = Except.ok k3 ∧
      reg3.find name = some
        ({ name := name, type := RegisterType.nodeType cx_type.kind,
           q_const := cx_type.data.isConstQualified,
           q_volatile := cx_type.data.isVolatileQualified,
           q_restrict := cx_type.data.isRestrictQualified,
           root := k1, unqualified := k2, unqualified_root := k3 } : TypeNode) ∧
      (∀ other n, type_nodes.find other = some n → reg3.find other = some n) ∧
      (RegistryClosed type_nodes → RegistryClosed reg3) := by
    by_cases hd : (!clang_isInvalid (clang_getTypeDeclaration (GetCXTypeRoot cx_type)).kind) = true
    · rw [if_pos hd] at hcall3 ⊢
      exact RegisterType.assignField_stage register hreg name _
        TypeNode.references_set_unqualified_root
        type_nodes reg2 reg3 _ _ hnew ⟨hn2, hf2, hc2⟩ hcall3
    · rw [if_neg hd] at hcall3 ⊢
      exact RegisterType.assignField_stage register hreg name _
        TypeNode.references_set_unqualified_root
        type_nodes reg2 reg3 _ _ hnew ⟨hn2, hf2, hc2⟩ hcall3
  obtain ⟨k3, hk3, hn3, hf3, hc3⟩ := hstage3
  -- node.pointee
  obtain ⟨reg4, hcall4, h⟩ := Fuelled.andThen_eq_ok _ _ _ h
  have hstage4 : ∃ pointee,
      (if cx_type.kind = CXTypeKind.LValueReference ∨ cx_type.kind = CXTypeKind.RValueReference
        then GetCXTypeName (clang_getNonReferenceType cx_type) = Except.ok pointee
        else if (cx_type.kind = CXTypeKind.Pointer ∨ cx_type.kind = CXTypeKind.BlockPointer
            ∨ cx_type.kind = CXTypeKind.ObjCObjectPointer
            ∨ cx_type.kind = CXTypeKind.MemberPointer)
            ∧ (clang_getPointeeType cx_type).kind ≠ CXTypeKind.Invalid
        then GetCXTypeName (clang_getPointeeType cx_type) = Except.ok pointee
        else pointee = []) ∧
      reg4.find name = some
        ({ name := name, type := RegisterType.nodeType cx_type.kind,
           q_const := cx_type.data.isConstQualified,
           q_volatile := cx_type.data.isVolatileQualified,
           q_restrict := cx_type.data.isRestrictQualified,
           root := k1, unqualified := k2, unqualified_root := k3,
           pointee := pointee } : TypeNode) ∧
      (∀ other n, type_nodes.find other = some n → reg4.find other = some n) ∧
      (RegistryClosed type_nodes → RegistryClosed reg4) := by
    by_cases hr : cx_type.kind = CXTypeKind.LValueReference ∨
        cx_type.kind = CXTypeKind.RValueReference
    · simp only [if_pos hr] at hcall4 ⊢
      exact RegisterType.assignField_stage register hreg name _
        TypeNode.references_set_pointee
        type_nodes reg3 reg4 _ _ hnew ⟨hn3, hf3, hc3⟩ hcall4
    · simp only [if_neg hr] at hcall4 ⊢
      by_cases hp : cx_type.kind = CXTypeKind.Pointer ∨ cx_type.kind = CXTypeKind.BlockPointer
          ∨ cx_type.kind = CXTypeKind.ObjCObjectPointer
          ∨ cx_type.kind = CXTypeKind.MemberPointer
      · rw [if_pos hp] at hcall4
        by_cases hi : (clang_getPointeeType cx_type).kind ≠ CXTypeKind.Invalid
        · simp only [if_pos hi] at hcall4
          simp only [if_pos (show _ ∧ _ from ⟨hp, hi⟩)]
          exact RegisterType.assignField_stage register hreg name _
            TypeNode.references_set_pointee
            type_nodes reg3 reg4 _ _ hnew ⟨hn3, hf3, hc3⟩ hcall4
        · simp only [if_neg hi, Option.some.injEq, Except.ok.injEq] at hcall4
          subst hcall4
          exact ⟨[], by rw [if_neg (fun hh => hi hh.2)], hn3, hf3, hc3⟩
      · simp only [if_neg hp, Option.some.injEq, Except.ok.injEq] at hcall4
        subst hcall4
        exact ⟨[], by rw [if_neg (fun hh => hp hh.1)], hn3, hf3, hc3⟩
  obtain ⟨pointee, hk4, hn4, hf4, hc4⟩ := hstage4
  -- the template arguments
  obtain ⟨reg5, hcall5, h⟩ := Fuelled.andThen_eq_ok _ _ _ h
  simp only [Option.some.injEq, Except.ok.injEq, Prod.mk.injEq] at h
  obtain ⟨hkey, hreg5⟩ := h
  subst hreg5
  have hstage5 : ∃ is_template args,
      reg5.find name = some
        ({ name := name, type := RegisterType.nodeType cx_type.kind,
           q_const := cx_type.data.isConstQualified,
           q_volatile := cx_type.data.isVolatileQualified,
           q_restrict := cx_type.data.isRestrictQualified,
           root := k1, unqualified := k2, unqualified_root := k3,
           pointee := pointee, is_template := is_template,
           template_args := args } : TypeNode) ∧
      (∀ other n, type_nodes.find other = some n → reg5.find other = some n) ∧
      (RegistryClosed type_nodes → RegistryClosed reg5) := by
    by_cases hd : (!clang_isInvalid (clang_getTypeDeclaration (GetCXTypeRoot cx_type)).kind) = true
    · rw [if_pos hd] at hcall5
      by_cases ht : clang_Cursor_getNumTemplateArguments
          (clang_getTypeDeclaration (GetCXTypeRoot cx_type)) ≥ 0
      · simp only [if_pos ht] at hcall5
        obtain ⟨⟨args, hargs⟩, g2, -, g4⟩ := RegisterType.templateLoop_spec register hreg _ name _
          0 _ reg5 _ (UnorderedMap.find_modify_self _ _ _ _ hn4) hcall5
        refine ⟨true, args, by simpa using hargs, ?_, ?_⟩
        · intro other n hn
          apply g2 other n (hne _ _ hn)
          rw [UnorderedMap.find_modify_ne _ _ _ _ (hne _ _ hn)]
          exact hf4 _ _ hn
        · intro hc
          apply g4
          apply RegistryClosed.modify _ _ _ _ hn4 _ (hc4 hc)
          intro ref href _
          left
          simpa [TypeNode.references] using href
      · simp only [if_neg ht, Option.some.injEq, Except.ok.injEq] at hcall5
        subst hcall5
        exact ⟨false, [], hn4, hf4, hc4⟩
    · simp only [if_neg hd, Option.some.injEq, Except.ok.injEq] at hcall5
      subst hcall5
      exact ⟨false, [], hn4, hf4, hc4⟩
  obtain ⟨is_template, args, hn5, hf5, hc5⟩ := hstage5
  exact ⟨hkey.symm, hf5, hc5, k1, k2, k3, pointee, is_template, args, hk1, hk2, hk3, hk4, hn5⟩

theorem RegisterType.go_succ (fuel : Nat) (type_nodes : UnorderedMap TypeNode)
    (cx_type : CXType) :
    RegisterType.go (fuel + 1) type_nodes cx_type =
      RegisterType.body (RegisterType.go fuel) type_nodes cx_type := rfl

/-- Every fuelled `RegisterType` meets the specification of a call. -/
theorem RegisterType.go_spec (fuel : Nat) : RegisterTypeSpec (RegisterType.go fuel) := by
  induction fuel with
  | zero =>
    intro type_nodes cx_type key type_nodes2 h
    simp [RegisterType.go] at h
  | succ fuel ih =>
    intro type_nodes cx_type key type_nodes2 h
    rw [RegisterType.go_succ] at h
    unfold RegisterType.body at h
    cases hname : GetCXTypeName cx_type with
    | error e => rw [hname] at h; simp at h
    | ok name =>
      rw [hname] at h
      simp only [] at h
      cases hfind : type_nodes.find name with
      | some node =>
        rw [hfind] at h
        simp only [Option.some.injEq, Except.ok.injEq, Prod.mk.injEq] at h
        obtain ⟨hkey, hreg⟩ := h
        subst hkey; subst hreg
        exact ⟨rfl, fun _ _ hn => hn, by rw [hfind]; rfl, fun hc => hc⟩
      | none =>
        rw [hfind] at h
        simp only [] at h
        obtain ⟨hkey, hframe, hclosed, k1, k2, k3, pointee, is_template, args, -, -, -, -, hnode⟩ :=
          RegisterType.registerNew_spec _ ih type_nodes type_nodes2 cx_type name key hfind h
        subst hkey
        exact ⟨rfl, hframe, by rw [hnode]; rfl, hclosed⟩

/-- A call of `RegisterType` that returns `Except.ok` did not run out of
fuel, and it returned the canonical name of the type. -/
theorem RegisterType_eq_ok (type_nodes type_nodes2 : UnorderedMap TypeNode) (cx_type : CXType)
    (key : CppString) (h : RegisterType type_nodes cx_type = Except.ok (key, type_nodes2)) :
    RegisterType.go (RegisterType.fuel cx_type) type_nodes cx_type =
      some (Except.ok (key, type_nodes2)) := by
  unfold RegisterType at h
  cases hgo : RegisterType.go (RegisterType.fuel cx_type) type_nodes cx_type with
  | none => rw [hgo] at h; simp at h
  | some result => rw [hgo] at h; simpa using h

/-- The node that a returning call of `RegisterType` creates for a type whose
name was no key of the registry. -/
theorem RegisterType_new_node (type_nodes type_nodes2 : UnorderedMap TypeNode)
    (cx_type : CXType) (key : CppString)
    (h : RegisterType type_nodes cx_type = Except.ok (key, type_nodes2))
    (hnew : type_nodes.find key = none) :
    GetCXTypeName cx_type = Except.ok key ∧
    ∃ k1 k2 k3 pointee is_template args,
      GetCXTypeName (GetCXTypeRoot cx_type) = Except.ok k1 ∧
      GetCXTypeName (clang_getUnqualifiedType cx_type) = Except.ok k2 ∧
      GetCXTypeName
        (if (!clang_isInvalid (clang_getTypeDeclaration (GetCXTypeRoot cx_type)).kind) = true then
          clang_getCursorType (clang_getTypeDeclaration (GetCXTypeRoot cx_type))
        else clang_getUnqualifiedType cx_type) = Except.ok k3 ∧
      (if cx_type.kind = CXTypeKind.LValueReference ∨ cx_type.kind = CXTypeKind.RValueReference
        then GetCXTypeName (clang_getNonReferenceType cx_type) = Except.ok pointee
        else if (cx_type.kind = CXTypeKind.Pointer ∨ cx_type.kind = CXTypeKind.BlockPointer
            ∨ cx_type.kind = CXTypeKind.ObjCObjectPointer
            ∨ cx_type.kind = CXTypeKind.MemberPointer)
            ∧ (clang_getPointeeType cx_type).kind ≠ CXTypeKind.Invalid
        then GetCXTypeName (clang_getPointeeType cx_type) = Except.ok pointee
        else pointee = []) ∧
      type_nodes2.find key = some
        { name := key
          type := RegisterType.nodeType cx_type.kind
          q_const := cx_type.data.isConstQualified
          q_volatile := cx_type.data.isVolatileQualified
          q_restrict := cx_type.data.isRestrictQualified
          root := k1
          unqualified := k2
          unqualified_root := k3
          pointee := pointee
          is_template := is_template
          template_args := args } := by
  have hgo := RegisterType_eq_ok _ _ _ _ h
  have hname := (RegisterType.go_spec _ _ _ _ _ hgo).1
  refine ⟨hname, ?_⟩
  obtain ⟨fuel, hfuel⟩ : ∃ fuel, RegisterType.fuel cx_type = fuel + 1 :=
    ⟨RegisterType.fuel cx_type - 1, by unfold RegisterType.fuel; omega⟩
  rw [hfuel, RegisterType.go_succ] at hgo
  unfold RegisterType.body at hgo
  rw [hname] at hgo
  simp only [] at hgo
  rw [hnew] at hgo
  simp only [] at hgo
  exact (RegisterType.registerNew_spec _ (RegisterType.go_spec _) type_nodes type_nodes2
    cx_type key key hnew hgo).2.2.2

theorem CXType.qualifierCount_le (cx_type : CXType) : cx_type.qualifierCount ≤ 3 := by
  unfold CXType.qualifierCount
  split_ifs <;> omega

/-- The root of a type is the type itself, the invalid type or a smaller
type. -/
theorem GetCXTypeRoot_cases (cx_type : CXType) :
    GetCXTypeRoot cx_type = cx_type ∨ GetCXTypeRoot cx_type = invalidType ∨
      (GetCXTypeRoot cx_type).size < cx_type.size := by
  cases cx_type with
  | mk data pointee decl types declType =>
    unfold GetCXTypeRoot
    cases pointee with
    | none =>
      simp only []
      split_ifs <;> simp
    | some p =>
      have hp : (GetCXTypeRoot p).size < (CXType.mk data (some p) decl types declType).size := by
        have := GetCXTypeRoot_size p
        rw [CXType.size_mk]
        simp only [CXType.sizeOption]
        omega
      simp only []
      split_ifs
      · exact Or.inr (Or.inr hp)
      · exact Or.inl rfl
      · exact Or.inr (Or.inr hp)
      · exact Or.inl rfl

/-- The unqualified type is the type itself, or a type of the same size
without qualifiers of its own. -/
theorem clang_getUnqualifiedType_cases (cx_type : CXType) :
    clang_getUnqualifiedType cx_type = cx_type ∨
      ((clang_getUnqualifiedType cx_type).size = cx_type.size ∧
        (clang_getUnqualifiedType cx_type).qualifierCount < cx_type.qualifierCount) := by
  cases cx_type with
  | mk data pointee decl types declType =>
    simp only [clang_getUnqualifiedType]
    split_ifs with h
    · exact Or.inl rfl
    · right
      refine ⟨by simp only [CXType.size_mk], ?_⟩
      simp only [CXType.qualifierCount, CXType.data]
      rcases Bool.eq_false_or_eq_true data.isConstQualified with hc | hc <;>
        rcases Bool.eq_false_or_eq_true data.isVolatileQualified with hv | hv <;>
        rcases Bool.eq_false_or_eq_true data.isRestrictQualified with hr | hr <;>
        simp [hc, hv, hr] at h ⊢

/-- The type of the declaration of a type is the type itself or a smaller
type. -/
theorem clang_getTypeDeclaration_type_cases (cx_type : CXType) :
    clang_getCursorType (clang_getTypeDeclaration cx_type) = cx_type ∨
      (clang_getCursorType (clang_getTypeDeclaration cx_type)).size < cx_type.size := by
  cases cx_type with
  | mk data pointee decl types declType =>
    cases declType with
    | none => exact Or.inl rfl
    | some d =>
      right
      simp only [clang_getCursorType, clang_getTypeDeclaration, CXCursor.info, CXType.declType]
      rw [CXType.size_mk]
      simp only [CXType.sizeOption]
      omega

/-- The pointee of a type is the invalid type or a smaller type. -/
theorem clang_getPointeeType_cases (cx_type : CXType) :
    clang_getPointeeType cx_type = invalidType ∨
      (clang_getPointeeType cx_type).size < cx_type.size := by
  cases cx_type with
  | mk data pointee decl types declType =>
    cases pointee with
    | none => exact Or.inl rfl
    | some p =>
      right
      simp only [clang_getPointeeType, CXType.pointee]
      rw [CXType.size_mk]
      simp only [CXType.sizeOption]
      omega

theorem RegisterType.fuel_lt_of_size_lt (argument cx_type : CXType)
    (h : argument.size < cx_type.size) :
    RegisterType.fuel argument < RegisterType.fuel cx_type := by
  have := CXType.qualifierCount_le argument
  unfold RegisterType.fuel
  omega

/-- One statement `node.field = RegisterType(cx_type)` returns when the call
does, and the entry of `name` stays. -/
theorem RegisterType.assignField_isSome
    (register : UnorderedMap TypeNode → CXType → Fuelled (CppString × UnorderedMap TypeNode))
    (hreg : RegisterTypeSpec register) (name : CppString)
    (set : TypeNode → CppString → TypeNode)
    (type_nodes : UnorderedMap TypeNode) (cx_type : CXType)
    (hname : (type_nodes.find name).isSome = true)
    (hcall : (register type_nodes cx_type).isSome = true) :
    (RegisterType.assignField register name set type_nodes cx_type).isSome = true ∧
    ∀ type_nodes2, RegisterType.assignField register name set type_nodes cx_type =
        some (Except.ok type_nodes2) → (type_nodes2.find name).isSome = true := by
  unfold RegisterType.assignField
  refine ⟨Fuelled.andThen_isSome _ _ hcall (fun _ _ => rfl), ?_⟩
  intro type_nodes2 h
  obtain ⟨⟨key, regm⟩, hcall2, hrest⟩ := Fuelled.andThen_eq_ok _ _ _ h
  simp only [Option.some.injEq, Except.ok.injEq] at hrest
  subst hrest
  rw [UnorderedMap.find_modify_isSome]
  obtain ⟨node, hnode⟩ := Option.isSome_iff_exists.mp hname
  rw [(hreg _ _ _ _ hcall2).2.1 _ _ hnode]
  rfl

/-- The template argument loop returns when its nested calls do. -/
theorem RegisterType.templateLoop_returns
    (register : UnorderedMap TypeNode → CXType → Fuelled (CppString × UnorderedMap TypeNode))
    (hreg : RegisterTypeSpec register) (cursor : CXCursor) (name : CppString)
    (hcall : ∀ type_nodes t, (type_nodes.find name).isSome = true →
      (register type_nodes (clang_Cursor_getTemplateArgumentType cursor t)).isSome = true)
    (remaining : Nat) :
    ∀ (t : Nat) (type_nodes : UnorderedMap TypeNode), (type_nodes.find name).isSome = true →
      (RegisterType.templateLoop register cursor name remaining t type_nodes).isSome = true := by
  induction remaining with
  | zero => intro t type_nodes _; rfl
  | succ n ih =>
    intro t type_nodes hname
    unfold RegisterType.templateLoop
    cases hk : clang_Cursor_getTemplateArgumentKind cursor t <;> simp only []
    all_goals first
      | rfl
      | (apply ih; rw [UnorderedMap.find_modify_isSome]; exact hname)
      | skip
    refine Fuelled.andThen_isSome _ _ (hcall _ _ hname) ?_
    intro result hres
    apply ih
    rw [UnorderedMap.find_modify_isSome]
    obtain ⟨node, hnode⟩ := Option.isSome_iff_exists.mp hname
    rw [(hreg _ _ _ _ hres).2.1 _ _ hnode]
    rfl

/-- The registration of a new type returns when every nested call does: a
nested call is made on the type itself, on the invalid type, or on a type that
needs less fuel, and the entry of `name` is in the registry by then. -/
theorem RegisterType.registerNew_isSome
    (register : UnorderedMap TypeNode → CXType → Fuelled (CppString × UnorderedMap TypeNode))
    (hreg : RegisterTypeSpec register)
    (type_nodes : UnorderedMap TypeNode) (cx_type : CXType) (name : CppString)
    (hcall : ∀ registry argument, (registry.find name).isSome = true →
      (argument = cx_type ∨ argument = invalidType ∨
        RegisterType.fuel argument < RegisterType.fuel cx_type) →
      (register registry argument).isSome = true) :
    (RegisterType.registerNew register type_nodes cx_type name).isSome = true := by
  have hsize := GetCXTypeRoot_size cx_type
  have hroot : GetCXTypeRoot cx_type = cx_type ∨ GetCXTypeRoot cx_type = invalidType ∨
      RegisterType.fuel (GetCXTypeRoot cx_type) < RegisterType.fuel cx_type := by
    rcases GetCXTypeRoot_cases cx_type with h | h | h
    · exact Or.inl h
    · exact Or.inr (Or.inl h)
    · exact Or.inr (Or.inr (RegisterType.fuel_lt_of_size_lt _ _ h))
  have hunq : clang_getUnqualifiedType cx_type = cx_type ∨
      clang_getUnqualifiedType cx_type = invalidType ∨
      RegisterType.fuel (clang_getUnqualifiedType cx_type) < RegisterType.fuel cx_type := by
    rcases clang_getUnqualifiedType_cases cx_type with h | ⟨h1, h2⟩
    · exact Or.inl h
    · right; right; unfold RegisterType.fuel; omega
  have hdecl : clang_getCursorType (clang_getTypeDeclaration (GetCXTypeRoot cx_type)) = cx_type ∨
      clang_getCursorType (clang_getTypeDeclaration (GetCXTypeRoot cx_type)) = invalidType ∨
      RegisterType.fuel (clang_getCursorType (clang_getTypeDeclaration (GetCXTypeRoot cx_type)))
        < RegisterType.fuel cx_type := by
    rcases clang_getTypeDeclaration_type_cases (GetCXTypeRoot cx_type) with h | h
    · rw [h]; exact hroot
    · exact Or.inr (Or.inr (RegisterType.fuel_lt_of_size_lt _ _ (by omega)))
  have hptr : clang_getPointeeType cx_type = cx_type ∨
      clang_getPointeeType cx_type = invalidType ∨
      RegisterType.fuel (clang_getPointeeType cx_type) < RegisterType.fuel cx_type := by
    rcases clang_getPointeeType_cases cx_type with h | h
    · exact Or.inr (Or.inl h)
    · exact Or.inr (Or.inr (RegisterType.fuel_lt_of_size_lt _ _ h))
  have hnonref : clang_getNonReferenceType cx_type = clang_getPointeeType cx_type := rfl
  have htarg : ∀ t,
      clang_Cursor_getTemplateArgumentType (clang_getTypeDeclaration (GetCXTypeRoot cx_type)) t
        = cx_type ∨
      clang_Cursor_getTemplateArgumentType (clang_getTypeDeclaration (GetCXTypeRoot cx_type)) t
        = invalidType ∨
      RegisterType.fuel (clang_Cursor_getTemplateArgumentType
        (clang_getTypeDeclaration (GetCXTypeRoot cx_type)) t) < RegisterType.fuel cx_type := by
    intro t
    rcases templateArgumentType_size (GetCXTypeRoot cx_type) t with h | h
    · exact Or.inr (Or.inl h)
    · exact Or.inr (Or.inr (RegisterType.fuel_lt_of_size_lt _ _ (by omega)))
  have stage : ∀ (set : TypeNode → CppString → TypeNode) registry argument,
      (registry.find name).isSome = true →
      (argument = cx_type ∨ argument = invalidType ∨
        RegisterType.fuel argument < RegisterType.fuel cx_type) →
      (RegisterType.assignField register name set registry argument).isSome = true ∧
      ∀ registry2, RegisterType.assignField register name set registry argument =
        some (Except.ok registry2) → (registry2.find name).isSome = true :=
    fun set registry argument hname harg =>
      RegisterType.assignField_isSome register hreg name set registry argument hname
        (hcall _ _ hname harg)
  unfold RegisterType.registerNew
  simp only []
  have h0 : (((type_nodes.assign name {}).modify name fun node =>
      { node with
        name := name
        type := RegisterType.nodeType cx_type.kind
        q_const := cx_type.data.isConstQualified
        q_volatile := cx_type.data.isVolatileQualified
        q_restrict := cx_type.data.isRestrictQualified }).find name).isSome = true := by
    rw [UnorderedMap.find_modify_isSome, UnorderedMap.find_assign_self]; rfl
  refine Fuelled.andThen_isSome _ _ (stage _ _ _ h0 hroot).1 ?_
  intro reg1 hreg1
  have h1 := (stage _ _ _ h0 hroot).2 reg1 hreg1
  refine Fuelled.andThen_isSome _ _ (stage _ _ _ h1 hunq).1 ?_
  intro reg2 hreg2
  have h2 := (stage _ _ _ h1 hunq).2 reg2 hreg2
  refine Fuelled.andThen_isSome _ _ ?_ ?_
  · split_ifs
    · exact (stage _ _ _ h2 hdecl).1
    · exact (stage _ _ _ h2 hunq).1
  intro reg3 hreg3
  have h3 : (reg3.find name).isSome = true := by
    split_ifs at hreg3
    · exact (stage _ _ _ h2 hdecl).2 reg3 hreg3
    · exact (stage _ _ _ h2 hunq).2 reg3 hreg3
  refine Fuelled.andThen_isSome _ _ ?_ ?_
  · split_ifs
    · rw [hnonref]; exact (stage _ _ _ h3 hptr).1
    · exact (stage _ _ _ h3 hptr).1
    · rfl
    · rfl
  intro reg4 hreg4
  have h4 : (reg4.find name).isSome = true := by
    split_ifs at hreg4
    · rw [hnonref] at hreg4; exact (stage _ _ _ h3 hptr).2 reg4 hreg4
    · exact (stage _ _ _ h3 hptr).2 reg4 hreg4
    · simp only [Option.some.injEq, Except.ok.injEq] at hreg4; rw [← hreg4]; exact h3
    · simp only [Option.some.injEq, Except.ok.injEq] at hreg4; rw [← hreg4]; exact h3
  refine Fuelled.andThen_isSome _ _ ?_ (fun _ _ => rfl)
  split_ifs
  · apply RegisterType.templateLoop_returns register hreg
    · intro registry t hname
      exact hcall _ _ hname (htarg t)
    · rw [UnorderedMap.find_modify_isSome]; exact h4
  · rfl
  · rfl

/-- Fuel suffices: `RegisterType.go` returns with the fuel of the type, with
two units on the invalid type, and with one unit when the name of the type is
a key of the registry or the type has no name. -/
theorem RegisterType.go_isSome_of (fuel : Nat) :
    ∀ (type_nodes : UnorderedMap TypeNode) (cx_type : CXType),
      (RegisterType.fuel cx_type ≤ fuel ∨ (2 ≤ fuel ∧ cx_type = invalidType) ∨
        (1 ≤ fuel ∧ ∀ name, GetCXTypeName cx_type = Except.ok name →
          (type_nodes.find name).isSome = true)) →
      (RegisterType.go fuel type_nodes cx_type).isSome = true := by
  induction fuel with
  | zero =>
    intro type_nodes cx_type h
    unfold RegisterType.fuel at h
    omega
  | succ fuel ih =>
    intro type_nodes cx_type h
    rw [RegisterType.go_succ]
    unfold RegisterType.body
    cases hname : GetCXTypeName cx_type with
    | error e => rfl
    | ok name =>
      simp only []
      cases hfind : type_nodes.find name with
      | some node => rfl
      | none =>
        simp only []
        apply RegisterType.registerNew_isSome _ (RegisterType.go_spec fuel)
        intro registry argument hreg harg
        apply ih
        have hpos := CXType.size_pos argument
        rcases h with h | ⟨h2, hinv⟩ | ⟨_, h⟩
        · rcases harg with ha | ha | ha
          · right; right
            refine ⟨by unfold RegisterType.fuel at h; omega, ?_⟩
            intro key hkey
            rw [ha, hname] at hkey
            cases hkey
            exact hreg
          · right; left
            exact ⟨by unfold RegisterType.fuel at h; omega, ha⟩
          · left; omega
        · have hargument : argument = cx_type := by
            rcases harg with ha | ha | ha
            · exact ha
            · rw [ha, hinv]
            · rw [hinv] at ha
              have h4 : RegisterType.fuel invalidType = 7 := by decide
              unfold RegisterType.fuel at ha h4
              omega
          right; right
          refine ⟨by omega, ?_⟩
          intro key hkey
          rw [hargument, hname] at hkey
          cases hkey
          exact hreg
        · have := h name hname
          rw [hfind] at this
          cases this

/-- The function `RegisterType` is the fuelled function at the fuel of the
type: the fuel never runs out. -/
theorem RegisterType.fuel_suffices (type_nodes : UnorderedMap TypeNode) (cx_type : CXType) :
    RegisterType.go (RegisterType.fuel cx_type) type_nodes cx_type =
      some (RegisterType type_nodes cx_type) := by
  have h := RegisterType.go_isSome_of (RegisterType.fuel cx_type) type_nodes cx_type
    (Or.inl (Nat.le_refl _))
  unfold RegisterType
  cases hgo : RegisterType.go (RegisterType.fuel cx_type) type_nodes cx_type with
  | none => rw [hgo] at h; cases h
  | some result => rfl

theorem RegistryClosed.empty : RegistryClosed UnorderedMap.empty := by
  intro key node h
  rw [UnorderedMap.find_empty] at h
  cases h

/-- C20: when the type registry is closed under reference before a call of
`RegisterType` and the call returns a key, the registry afterwards is closed
under reference: every non-empty key in the `root`, `unqualified`,
`unqualified_root` and `pointee` fields and in the `Type` template arguments
of a node is a key of the registry. -/
theorem RegisterType_preserves_closure (type_nodes type_nodes2 : UnorderedMap TypeNode)
    (cx_type : CXType) (key : CppString)
    (hclosed : RegistryClosed type_nodes)
    (h : RegisterType type_nodes cx_type = Except.ok (key, type_nodes2)) :
    RegistryClosed type_nodes2 :=
  (RegisterType.go_spec _ _ _ _ _ (RegisterType_eq_ok _ _ _ _ h)).2.2.2 hclosed

theorem RegisterType_preserves_closure_witness :
    RegistryClosed UnorderedMap.empty ∧
    RegisterType UnorderedMap.empty type_const_volatile_int_ptr_const_ref =
      Except.ok ("const volatile int *const &".toList, registry_after_coretype2) ∧
    RegistryClosed registry_after_coretype2 :=
  ⟨RegistryClosed.empty, rfl,
    RegisterType_preserves_closure UnorderedMap.empty registry_after_coretype2
      type_const_volatile_int_ptr_const_ref "const volatile int *const &".toList
      RegistryClosed.empty rfl⟩

/-- C18: on the type `const volatile int *const &`, whose root `const volatile
int` has no declaration, `RegisterType` stores in `unqualified_root` the key of
the unqualified type itself, `const volatile int *const &`, and not the key
`int` of the unqualified root. -/
theorem RegisterType_unqualified_root_of_reference :
    RegisterType UnorderedMap.empty type_const_volatile_int_ptr_const_ref =
      Except.ok ("const volatile int *const &".toList, registry_after_coretype2) ∧
    clang_isInvalid
      (clang_getTypeDeclaration (GetCXTypeRoot type_const_volatile_int_ptr_const_ref)).kind
        = true ∧
    GetCXTypeName (clang_getUnqualifiedType
      (GetCXTypeRoot type_const_volatile_int_ptr_const_ref)) = Except.ok "int".toList ∧
    (registry_after_coretype2.find "const volatile int *const &".toList).map
      (fun node => node.unqualified_root) = some "const volatile int *const &".toList :=
  ⟨rfl, rfl, rfl, by decide⟩

/-- The root of a type has no reference or pointer layer left. -/
theorem typeLayers_GetCXTypeRoot (cx_type : CXType) :
    typeLayers (GetCXTypeRoot cx_type) = [] := by
  refine CXType.pointee_induction (fun t => typeLayers (GetCXTypeRoot t) = []) ?_ cx_type
  intro data pointee decl types declType ih
  unfold GetCXTypeRoot
  cases pointee with
  | none =>
    simp only []
    split_ifs with h1 h2
    · rfl
    · unfold typeLayers
      rw [if_neg h1]
      split_ifs <;> rfl
    · unfold typeLayers
      rw [if_neg h1]
      split_ifs with h3
      · rfl
      · rfl
  | some p =>
    simp only []
    split_ifs with h1 h2 h3
    · exact ih p rfl
    · unfold typeLayers
      rw [if_neg h1]
      split_ifs with h4
      · simp only [if_pos h3]
      · rfl
    · exact ih p rfl
    · unfold typeLayers
      rw [if_neg h1]
      split_ifs with h4
      · exact absurd (by tauto) h2
      · rfl

/-- The `switch (cx_type.kind)` of `RegisterType` names the kind of the handle
for the six reference and pointer kinds and gives `Type` otherwise. -/
theorem RegisterType.nodeType_iff (kind : CXTypeKind) :
    (RegisterType.nodeType kind = TypeNodeType.LValueReference ↔
      kind = CXTypeKind.LValueReference) ∧
    (RegisterType.nodeType kind = TypeNodeType.RValueReference ↔
      kind = CXTypeKind.RValueReference) ∧
    (RegisterType.nodeType kind = TypeNodeType.Pointer ↔ kind = CXTypeKind.Pointer) ∧
    (RegisterType.nodeType kind = TypeNodeType.BlockPointer ↔
      kind = CXTypeKind.BlockPointer) ∧
    (RegisterType.nodeType kind = TypeNodeType.ObjCObjectPointer ↔
      kind = CXTypeKind.ObjCObjectPointer) ∧
    (RegisterType.nodeType kind = TypeNodeType.MemberPointer ↔
      kind = CXTypeKind.MemberPointer) ∧
    (RegisterType.nodeType kind = TypeNodeType.Type ↔
      ¬(kind = CXTypeKind.LValueReference ∨ kind = CXTypeKind.RValueReference
        ∨ kind = CXTypeKind.Pointer ∨ kind = CXTypeKind.BlockPointer
        ∨ kind = CXTypeKind.ObjCObjectPointer ∨ kind = CXTypeKind.MemberPointer)) := by
  cases kind <;> simp [RegisterType.nodeType]

/-- C19: the node that `RegisterType` creates for a type has the kind of the
handle (one of the two reference and four pointer kinds, `Type` for every
other handle kind); its `pointee` is the canonical name of the non-reference
type of a reference and of the pointee of a pointer that has one, and it is
empty when the kind is `Type`; its `root` is the canonical name of
`GetCXTypeRoot` of the type, which has no reference or pointer layer left. -/
theorem RegisterType_node_kind_pointee_root (type_nodes type_nodes2 : UnorderedMap TypeNode)
    (cx_type : CXType) (key : CppString)
    (h : RegisterType type_nodes cx_type = Except.ok (key, type_nodes2))
    (hnew : type_nodes.find key = none) :
    ∃ node, type_nodes2.find key = some node ∧
      (node.type = TypeNodeType.LValueReference ↔ cx_type.kind = CXTypeKind.LValueReference) ∧
      (node.type = TypeNodeType.RValueReference ↔ cx_type.kind = CXTypeKind.RValueReference) ∧
      (node.type = TypeNodeType.Pointer ↔ cx_type.kind = CXTypeKind.Pointer) ∧
      (node.type = TypeNodeType.BlockPointer ↔ cx_type.kind = CXTypeKind.BlockPointer) ∧
      (node.type = TypeNodeType.ObjCObjectPointer ↔
        cx_type.kind = CXTypeKind.ObjCObjectPointer) ∧
      (node.type = TypeNodeType.MemberPointer ↔ cx_type.kind = CXTypeKind.MemberPointer) ∧
      (node.type = TypeNodeType.Type ↔
        ¬(cx_type.kind = CXTypeKind.LValueReference ∨ cx_type.kind = CXTypeKind.RValueReference
          ∨ cx_type.kind = CXTypeKind.Pointer ∨ cx_type.kind = CXTypeKind.BlockPointer
          ∨ cx_type.kind = CXTypeKind.ObjCObjectPointer
          ∨ cx_type.kind = CXTypeKind.MemberPointer)) ∧
      (cx_type.kind = CXTypeKind.LValueReference ∨ cx_type.kind = CXTypeKind.RValueReference →
        GetCXTypeName (clang_getNonReferenceType cx_type) = Except.ok node.pointee) ∧
      (cx_type.kind = CXTypeKind.Pointer ∨ cx_type.kind = CXTypeKind.BlockPointer
          ∨ cx_type.kind = CXTypeKind.ObjCObjectPointer
          ∨ cx_type.kind = CXTypeKind.MemberPointer →
        (clang_getPointeeType cx_type).kind ≠ CXTypeKind.Invalid →
        GetCXTypeName (clang_getPointeeType cx_type) = Except.ok node.pointee) ∧
      (node.type = TypeNodeType.Type → node.pointee = []) ∧
      GetCXTypeName (GetCXTypeRoot cx_type) = Except.ok node.root ∧
      typeLayers (GetCXTypeRoot cx_type) = [] := by
  obtain ⟨-, k1, k2, k3, pointee, is_template, args, hk1, -, -, hpointee, hnode⟩ :=
    RegisterType_new_node type_nodes type_nodes2 cx_type key h hnew
  obtain ⟨g1, g2, g3, g4, g5, g6, g7⟩ := RegisterType.nodeType_iff cx_type.kind
  refine ⟨_, hnode, g1, g2, g3, g4, g5, g6, g7, ?_, ?_, ?_, hk1,
    typeLayers_GetCXTypeRoot cx_type⟩
  · intro hr
    simpa only [if_pos hr] using hpointee
  · intro hp hi
    have hr : ¬(cx_type.kind = CXTypeKind.LValueReference ∨
        cx_type.kind = CXTypeKind.RValueReference) := by
      rcases hp with hp | hp | hp | hp <;> rw [hp] <;> decide
    simpa only [if_neg hr, if_pos (show _ ∧ _ from ⟨hp, hi⟩)] using hpointee
  · intro ht
    have hk := g7.mp ht
    have hr : ¬(cx_type.kind = CXTypeKind.LValueReference ∨
        cx_type.kind = CXTypeKind.RValueReference) :=
      fun hh => hk (hh.elim Or.inl (fun hrv => Or.inr (Or.inl hrv)))
    have hp : ¬((cx_type.kind = CXTypeKind.Pointer ∨ cx_type.kind = CXTypeKind.BlockPointer
          ∨ cx_type.kind = CXTypeKind.ObjCObjectPointer
          ∨ cx_type.kind = CXTypeKind.MemberPointer) ∧
          (clang_getPointeeType cx_type).kind ≠ CXTypeKind.Invalid) :=
      fun hh => hk (Or.inr (Or.inr hh.1))
    simpa only [if_neg hr, if_neg hp] using hpointee

theorem RegisterType_node_kind_pointee_root_witness :
    RegisterType UnorderedMap.empty type_const_volatile_int_ptr_const_ref =
      Except.ok ("const volatile int *const &".toList, registry_after_coretype2) ∧
    (UnorderedMap.empty : UnorderedMap TypeNode).find "const volatile int *const &".toList
      = none ∧
    registry_after_coretype2.find "const volatile int *const &".toList = some
      { type := TypeNodeType.LValueReference
        name := "const volatile int *const &".toList
        root := "const volatile int".toList
        unqualified_root := "const volatile int *const &".toList
        unqualified := "const volatile int *const &".toList
        pointee := "const volatile int *const".toList } ∧
    ∃ node, registry_after_coretype2.find "const volatile int *const &".toList = some node ∧
      (node.type = TypeNodeType.LValueReference ↔
        type_const_volatile_int_ptr_const_ref.kind = CXTypeKind.LValueReference) ∧
      (node.type = TypeNodeType.RValueReference ↔
        type_const_volatile_int_ptr_const_ref.kind = CXTypeKind.RValueReference) ∧
      (node.type = TypeNodeType.Pointer ↔
        type_const_volatile_int_ptr_const_ref.kind = CXTypeKind.Pointer) ∧
      (node.type = TypeNodeType.BlockPointer ↔
        type_const_volatile_int_ptr_const_ref.kind = CXTypeKind.BlockPointer) ∧
      (node.type = TypeNodeType.ObjCObjectPointer ↔
        type_const_volatile_int_ptr_const_ref.kind = CXTypeKind.ObjCObjectPointer) ∧
      (node.type = TypeNodeType.MemberPointer ↔
        type_const_volatile_int_ptr_const_ref.kind = CXTypeKind.MemberPointer) ∧
      (node.type = TypeNodeType.Type ↔
        ¬(type_const_volatile_int_ptr_const_ref.kind = CXTypeKind.LValueReference
          ∨ type_const_volatile_int_ptr_const_ref.kind = CXTypeKind.RValueReference
          ∨ type_const_volatile_int_ptr_const_ref.kind = CXTypeKind.Pointer
          ∨ type_const_volatile_int_ptr_const_ref.kind = CXTypeKind.BlockPointer
          ∨ type_const_volatile_int_ptr_const_ref.kind = CXTypeKind.ObjCObjectPointer
          ∨ type_const_volatile_int_ptr_const_ref.kind = CXTypeKind.MemberPointer)) ∧
      (type_const_volatile_int_ptr_const_ref.kind = CXTypeKind.LValueReference
          ∨ type_const_volatile_int_ptr_const_ref.kind = CXTypeKind.RValueReference →
        GetCXTypeName (clang_getNonReferenceType type_const_volatile_int_ptr_const_ref) =
          Except.ok node.pointee) ∧
      (type_const_volatile_int_ptr_const_ref.kind = CXTypeKind.Pointer
          ∨ type_const_volatile_int_ptr_const_ref.kind = CXTypeKind.BlockPointer
          ∨ type_const_volatile_int_ptr_const_ref.kind = CXTypeKind.ObjCObjectPointer
          ∨ type_const_volatile_int_ptr_const_ref.kind = CXTypeKind.MemberPointer →
        (clang_getPointeeType type_const_volatile_int_ptr_const_ref).kind ≠ CXTypeKind.Invalid →
        GetCXTypeName (clang_getPointeeType type_const_volatile_int_ptr_const_ref) =
          Except.ok node.pointee) ∧
      (node.type = TypeNodeType.Type → node.pointee = []) ∧
      GetCXTypeName (GetCXTypeRoot type_const_volatile_int_ptr_const_ref) =
        Except.ok node.root ∧
      typeLayers (GetCXTypeRoot type_const_volatile_int_ptr_const_ref) = [] :=
  ⟨rfl, rfl, by decide,
    RegisterType_node_kind_pointee_root UnorderedMap.empty registry_after_coretype2
      type_const_volatile_int_ptr_const_ref "const volatile int *const &".toList rfl rfl⟩

/-! ## Proofs: the enum registry, initializers -/

/-- The children of one enumerator: the value of the last child that
evaluates is the recorded value of the enumerator afterwards. -/
theorem enumVisitor_initializer (children : List CXCursor) :
    ∀ client : EnumVisitorClient,
      (∀ child ∈ children, child.kind ≠ CXCursorKind.EnumConstantDecl ∧
        ∀ result ∈ child.evaluate, result.kind = CXEvalResultKind.Int) →
      ∃ client2, visitChildrenList enumVisitor children client = Except.ok (false, client2) ∧
        client2.last_elem = client.last_elem ∧
        (∀ key, key ≠ client.last_elem →
          client2.node.elems.find key = client.node.elems.find key) ∧
        (children.filterMap
          (fun child => child.evaluate.map
            (fun result => clang_EvalResult_getAsLongLong result)) = [] →
            client2 = client) ∧
        (∀ value, (children.filterMap
          (fun child => child.evaluate.map
            (fun result => clang_EvalResult_getAsLongLong result))).getLast?
            = some value →
          client2.node.elems.find client.last_elem = some value) := by
  induction children with
  | nil =>
    intro client _
    exact ⟨client, rfl, rfl, fun _ _ => rfl, fun _ => rfl, fun v h => by simp at h⟩
  | cons child children ih =>
    intro client hwf
    have hchild := hwf child (List.mem_cons_self _ _)
    have hrest : ∀ c ∈ children, c.kind ≠ CXCursorKind.EnumConstantDecl ∧
        ∀ result ∈ c.evaluate, result.kind = CXEvalResultKind.Int :=
      fun c hc => hwf c (List.mem_cons_of_mem _ hc)
    cases hev : child.evaluate with
    | none =>
      have hvis : enumVisitor child client = Except.ok (CXChildVisitResult.Continue, client) := by
        simp only [enumVisitor, if_neg hchild.1, hev]
      obtain ⟨client2, h1, h2, h3, h4, h5⟩ := ih client hrest
      refine ⟨client2, ?_, h2, h3, ?_, ?_⟩
      · rw [visitChildrenList_cons_continue _ _ _ _ _ (visitCursor_continue _ _ _ _ hvis)]
        exact h1
      · intro hnil
        apply h4
        simpa [List.filterMap_cons, hev] using hnil
      · intro value hvalue
        apply h5
        simpa [List.filterMap_cons, hev] using hvalue
    | some result =>
      have hkind : result.kind = CXEvalResultKind.Int := hchild.2 result (by rw [hev]; rfl)
      let client1 : EnumVisitorClient :=
        { client with
          node := { client.node with
            elems := client.node.elems.assign client.last_elem
              (clang_EvalResult_getAsLongLong result) }
          current_value := toLongLong (clang_EvalResult_getAsLongLong result + 1) }
      have hvis : enumVisitor child client =
          Except.ok (CXChildVisitResult.Continue, client1) := by
        simp only [enumVisitor, if_neg hchild.1, hev, hkind]
      obtain ⟨client2, h1, h2, h3, h4, h5⟩ := ih client1 hrest
      refine ⟨client2, ?_, h2, ?_, ?_, ?_⟩
      · rw [visitChildrenList_cons_continue _ _ _ _ _ (visitCursor_continue _ _ _ _ hvis)]
        exact h1
      · intro key hkey
        rw [h3 key hkey]
        exact UnorderedMap.find_assign_ne _ _ _ _ hkey
      · intro hnil
        simp [List.filterMap_cons, hev] at hnil
      · intro value hvalue
        simp only [List.filterMap_cons, hev, Option.map_some'] at hvalue
        cases hrestvalues : children.filterMap
            (fun child => child.evaluate.map
            (fun result => clang_EvalResult_getAsLongLong result)) with
        | nil =>
          rw [hrestvalues] at hvalue
          simp only [List.getLast?_singleton, Option.some.injEq] at hvalue
          rw [h4 hrestvalues, ← hvalue]
          exact UnorderedMap.find_assign_self _ _ _
        | cons v vs =>
          rw [hrestvalues] at hvalue
          apply h5
          rw [hrestvalues]
          rw [List.getLast?_cons_cons] at hvalue
          exact hvalue

/-- Visiting one enumerator and its children keeps the initializer
invariant. -/
theorem enumVisitor_enumerator_initializer (enumerator : CXCursor) (seen : List CXCursor)
    (client : EnumVisitorClient)
    (hkind : enumerator.kind = CXCursorKind.EnumConstantDecl)
    (hchildren : ∀ child ∈ enumerator.children,
      child.kind ≠ CXCursorKind.EnumConstantDecl ∧
        ∀ result ∈ child.evaluate, result.kind = CXEvalResultKind.Int)
    (hfresh : ∀ e ∈ seen, e.spelling ≠ enumerator.spelling)
    (hinv : InitializerInvariant seen client) :
    ∃ client2, visitCursor enumVisitor enumerator client = Except.ok (false, client2) ∧
      InitializerInvariant (seen ++ [enumerator]) client2 := by
  let client1 : EnumVisitorClient :=
    { node := { client.node with
        elems := client.node.elems.assign enumerator.spelling client.current_value }
      last_elem := enumerator.spelling
      current_value := toLongLong (client.current_value + 1) }
  have hvis : enumVisitor enumerator client =
      Except.ok (CXChildVisitResult.Recurse, client1) := by
    simp only [enumVisitor, if_pos hkind]
  obtain ⟨client2, h1, -, h3, -, h5⟩ :=
    enumVisitor_initializer enumerator.children client1 hchildren
  refine ⟨client2, ?_, ?_⟩
  · rw [visitCursor_recurse _ _ _ _ hvis]
    exact h1
  · intro e he value hvalue
    rw [List.mem_append, List.mem_singleton] at he
    rcases he with he | he
    · rw [h3 e.spelling (hfresh e he)]
      show (client.node.elems.assign enumerator.spelling client.current_value).find e.spelling
        = some value
      rw [UnorderedMap.find_assign_ne _ _ _ _ (hfresh e he)]
      exact hinv e he value hvalue
    · subst he
      exact h5 value hvalue

/-- Visiting the children of a well-formed enum keeps the initializer
invariant. -/
theorem enumVisitor_enum_children_initializer (children : List CXCursor) :
    ∀ (seen : List CXCursor) (client client2 : EnumVisitorClient),
      (∀ child ∈ children,
        child.kind ≠ CXCursorKind.EnumConstantDecl → child.evaluate = none) →
      (∀ enumerator ∈ children.filter (fun child => child.kind = CXCursorKind.EnumConstantDecl),
        ∀ child ∈ enumerator.children, child.kind ≠ CXCursorKind.EnumConstantDecl ∧
          ∀ result ∈ child.evaluate, result.kind = CXEvalResultKind.Int) →
      ((seen ++ children.filter (fun child => child.kind = CXCursorKind.EnumConstantDecl)).map
        CXCursor.spelling).Nodup →
      InitializerInvariant seen client →
      visitChildrenList enumVisitor children client = Except.ok (false, client2) →
      InitializerInvariant
        (seen ++ children.filter (fun child => child.kind = CXCursorKind.EnumConstantDecl))
        client2 := by
  induction children with
  | nil =>
    intro seen client client2 _ _ _ hinv hvisit
    simp only [visitChildrenList, Except.ok.injEq, Prod.mk.injEq, true_and] at hvisit
    subst hvisit
    simpa using hinv
  | cons child children ih =>
    intro seen client client2 hother henum hnodup hinv hvisit
    by_cases hkind : child.kind = CXCursorKind.EnumConstantDecl
    · have hfilter : (child :: children).filter
          (fun c => c.kind = CXCursorKind.EnumConstantDecl) =
          child :: children.filter (fun c => c.kind = CXCursorKind.EnumConstantDecl) :=
        List.filter_cons_of_pos (by simpa using hkind)
      rw [hfilter] at henum hnodup ⊢
      have hfresh : ∀ e ∈ seen, e.spelling ≠ child.spelling := by
        intro e he heq
        rw [List.map_append, List.map_cons, List.nodup_append] at hnodup
        exact hnodup.2.2 (List.mem_map_of_mem _ he) (by rw [heq]; exact List.mem_cons_self _ _)
      obtain ⟨client1, h1, h2⟩ := enumVisitor_enumerator_initializer child seen client hkind
        (henum child (List.mem_cons_self _ _)) hfresh hinv
      rw [visitChildrenList_cons_continue _ _ _ _ _ h1] at hvisit
      have := ih (seen ++ [child]) client1 client2
        (fun c hc => hother c (List.mem_cons_of_mem _ hc))
        (fun e he => henum e (List.mem_cons_of_mem _ he))
        (by simpa using hnodup) h2 hvisit
      simpa using this
    · have hfilter : (child :: children).filter
          (fun c => c.kind = CXCursorKind.EnumConstantDecl) =
          children.filter (fun c => c.kind = CXCursorKind.EnumConstantDecl) :=
        List.filter_cons_of_neg (by simpa using hkind)
      rw [hfilter] at henum hnodup ⊢
      have hev := hother child (List.mem_cons_self _ _) hkind
      have hvis : enumVisitor child client = Except.ok (CXChildVisitResult.Continue, client) := by
        simp only [enumVisitor, if_neg hkind, hev]
      rw [visitChildrenList_cons_continue _ _ _ _ _ (visitCursor_continue _ _ _ _ hvis)] at hvisit
      exact ih seen client client2
        (fun c hc => hother c (List.mem_cons_of_mem _ hc)) henum hnodup hinv hvisit

/-- The traversal of the children of `MyEnum`, enumerator by enumerator. -/
theorem MyEnum_cursor_visit :
    visitChildrenList enumVisitor MyEnum_cursor.children
      { node :=
          { name := "MyCoolGame::MyEnum".toList
            attrs := [{ type := LeonAttrType.KeyValue, kv := ("enum".toList, "MyEnum".toList) }] } } =
    Except.ok (false,
      { node :=
          { name := "MyCoolGame::MyEnum".toList
            attrs := [{ type := LeonAttrType.KeyValue, kv := ("enum".toList, "MyEnum".toList) }]
            elems := { entries := [("Majima".toList, 1013),
                  ("Kiryu".toList, 1012),
                  ("Luigi".toList, 1011),
                  ("Mario".toList, 11),
                  ("Plankton".toList, 10),
                  ("Patrick".toList, 1),
                  ("SpongeBob".toList, 0)] } }
        last_elem := "Majima".toList
        current_value := 1014 }) := by
  unfold MyEnum_cursor
  simp only [CXCursor.children]
  refine (visitChildrenList_cons_continue _ _ _ _
      ({ node :=
           { name := "MyCoolGame::MyEnum".toList
             attrs := [{ type := LeonAttrType.KeyValue, kv := ("enum".toList, "MyEnum".toList) }]
             elems := { entries := [] } }
         last_elem := []
         current_value := 0 } : EnumVisitorClient) ?_).trans ?_
  · rfl
  refine (visitChildrenList_cons_continue _ _ _ _
      ({ node :=
           { name := "MyCoolGame::MyEnum".toList
             attrs := [{ type := LeonAttrType.KeyValue, kv := ("enum".toList, "MyEnum".toList) }]
             elems := { entries := [("SpongeBob".toList, 0)] } }
         last_elem := "SpongeBob".toList
         current_value := 1 } : EnumVisitorClient) ?_).trans ?_
  · rfl
  refine (visitChildrenList_cons_continue _ _ _ _
      ({ node :=
           { name := "MyCoolGame::MyEnum".toList
             attrs := [{ type := LeonAttrType.KeyValue, kv := ("enum".toList, "MyEnum".toList) }]
             elems := { entries := [("Patrick".toList, 1),
                   ("SpongeBob".toList, 0)] } }
         last_elem := "Patrick".toList
         current_value := 2 } : EnumVisitorClient) ?_).trans ?_
  · rfl
  refine (visitChildrenList_cons_continue _ _ _ _
      ({ node :=
           { name := "MyCoolGame::MyEnum".toList
             attrs := [{ type := LeonAttrType.KeyValue, kv := ("enum".toList, "MyEnum".toList) }]
             elems := { entries := [("Plankton".toList, 10),
                   ("Patrick".toList, 1),
                   ("SpongeBob".toList, 0)] } }
         last_elem := "Plankton".toList
         current_value := 11 } : EnumVisitorClient) ?_).trans ?_
  · rfl
  refine (visitChildrenList_cons_continue _ _ _ _
      ({ node :=
           { name := "MyCoolGame::MyEnum".toList
             attrs := [{ type := LeonAttrType.KeyValue, kv := ("enum".toList, "MyEnum".toList) }]
             elems := { entries := [("Mario".toList, 11),
                   ("Plankton".toList, 10),
                   ("Patrick".toList, 1),
                   ("SpongeBob".toList, 0)] } }
         last_elem := "Mario".toList
         current_value := 12 } : EnumVisitorClient) ?_).trans ?_
  · rfl
  refine (visitChildrenList_cons_continue _ _ _ _
      ({ node :=
           { name := "MyCoolGame::MyEnum".toList
             attrs := [{ type := LeonAttrType.KeyValue, kv := ("enum".toList, "MyEnum".toList) }]
             elems := { entries := [("Luigi".toList, 1011),
                   ("Mario".toList, 11),
                   ("Plankton".toList, 10),
                   ("Patrick".toList, 1),
                   ("SpongeBob".toList, 0)] } }
         last_elem := "Luigi".toList
         current_value := 1012 } : EnumVisitorClient) ?_).trans ?_
  · rfl
  refine (visitChildrenList_cons_continue _ _ _ _
      ({ node :=
           { name := "MyCoolGame::MyEnum".toList
             attrs := [{ type := LeonAttrType.KeyValue, kv := ("enum".toList, "MyEnum".toList) }]
             elems := { entries := [("Kiryu".toList, 1012),
                   ("Luigi".toList, 1011),
                   ("Mario".toList, 11),
                   ("Plankton".toList, 10),
                   ("Patrick".toList, 1),
                   ("SpongeBob".toList, 0)] } }
         last_elem := "Kiryu".toList
         current_value := 1013 } : EnumVisitorClient) ?_).trans ?_
  · rfl
  refine (visitChildrenList_cons_continue _ _ _ _
      ({ node :=
           { name := "MyCoolGame::MyEnum".toList
             attrs := [{ type := LeonAttrType.KeyValue, kv := ("enum".toList, "MyEnum".toList) }]
             elems := { entries := [("Majima".toList, 1013),
                   ("Kiryu".toList, 1012),
                   ("Luigi".toList, 1011),
                   ("Mario".toList, 11),
                   ("Plankton".toList, 10),
                   ("Patrick".toList, 1),
                   ("SpongeBob".toList, 0)] } }
         last_elem := "Majima".toList
         current_value := 1014 } : EnumVisitorClient) ?_).trans ?_
  · rfl
  rfl

/-- The function `RegisterEnum` on an annotated, not yet registered enum whose
traversal ends with the client data `client2`. -/
theorem RegisterEnum_of_visit (enum_nodes : UnorderedMap EnumNode) (cursor : CXCursor)
    (attrs : List LeonAttr) (client2 : EnumVisitorClient)
    (hnew : enum_nodes.find (GetCXCursorName cursor) = none)
    (hattrs : ParseCXCursorAttributes cursor = Except.ok attrs) (hne : attrs ≠ [])
    (hvisit : visitChildrenList enumVisitor cursor.children
      { node := { name := GetCXCursorName cursor, attrs := attrs } } =
        Except.ok (false, client2)) :
    RegisterEnum enum_nodes cursor =
      Except.ok ([], enum_nodes.assign (GetCXCursorName cursor) client2.node) := by
  have hlen : attrs.length ≠ 0 := by
    intro h
    exact hne (List.length_eq_zero.mp h)
  simp only [RegisterEnum, hnew, hattrs, clang_visitChildren]
  rw [if_pos hlen]
  have h2 : visitChildrenList enumVisitor cursor.children
      { node := { name := GetCXCursorName cursor, attrs := attrs, elems := UnorderedMap.empty },
        last_elem := [], current_value := 0 } = Except.ok (false, client2) := hvisit
  rw [h2]

/-- The registration of `MyEnum` in the empty registry. -/
theorem MyEnum_cursor_registered :
    RegisterEnum UnorderedMap.empty MyEnum_cursor =
      Except.ok ([],
        UnorderedMap.empty.assign "MyCoolGame::MyEnum".toList
          { name := "MyCoolGame::MyEnum".toList
            attrs := [{ type := LeonAttrType.KeyValue, kv := ("enum".toList, "MyEnum".toList) }]
            elems := { entries := [("Majima".toList, 1013), ("Kiryu".toList, 1012),
              ("Luigi".toList, 1011), ("Mario".toList, 11), ("Plankton".toList, 10),
              ("Patrick".toList, 1), ("SpongeBob".toList, 0)] } }) :=
  RegisterEnum_of_visit UnorderedMap.empty MyEnum_cursor
    [{ type := LeonAttrType.KeyValue, kv := ("enum".toList, "MyEnum".toList) }] _
    rfl rfl (by decide) MyEnum_cursor_visit

/-- C11, as the code has it: `RegisterEnum` on an annotated enum of the shape
the library presents.  When the name of the enum is a key of the registry the
call returns the name and records nothing.  Otherwise it succeeds and stores a
node in which every enumerator whose initializer evaluates to the `long long`
`value` has the value `value`, and an enumerator without an initializer that
is declared immediately after it has the value `value + 1` taken as a
`long long`: `value + 1` below `LLONG_MAX`, and `LLONG_MIN` after
`LLONG_MAX`. -/
theorem RegisterEnum_initializer_values (enum_nodes : UnorderedMap EnumNode) (cursor : CXCursor)
    (attrs : List LeonAttr)
    (hattrs : ParseCXCursorAttributes cursor = Except.ok attrs) (hne : attrs ≠ [])
    (hwf : WellFormedEnum cursor) :
    (∀ found, enum_nodes.find (GetCXCursorName cursor) = some found →
      RegisterEnum enum_nodes cursor = Except.ok (GetCXCursorName cursor, enum_nodes)) ∧
    (enum_nodes.find (GetCXCursorName cursor) = none →
      ∃ node : EnumNode,
        RegisterEnum enum_nodes cursor =
          Except.ok ([], enum_nodes.assign (GetCXCursorName cursor) node) ∧
        (enum_nodes.assign (GetCXCursorName cursor) node).find (GetCXCursorName cursor) =
          some node ∧
        (∀ enumerator ∈ enumerators cursor, ∀ value,
          initializerValue enumerator = some value →
          isLongLong value ∧ node.elems.find enumerator.spelling = some value) ∧
        (∀ (i : Nat) (previous next : CXCursor) (value : Int),
          (enumerators cursor)[i]? = some previous → (enumerators cursor)[i + 1]? = some next →
          initializerValue previous = some value → hasInitializer next = false →
          node.elems.find next.spelling = some (toLongLong (value + 1)) ∧
          (value < LLONG_MAX → node.elems.find next.spelling = some (value + 1)) ∧
          (value = LLONG_MAX → node.elems.find next.spelling = some LLONG_MIN))) := by
  refine ⟨fun found hfound => RegisterEnum_of_registered enum_nodes cursor found hfound, ?_⟩
  intro hnew
  obtain ⟨client2, h1, hreg, ⟨-, -, -, hchain⟩, hrange⟩ :=
    RegisterEnum_new enum_nodes cursor attrs hnew hattrs hne hwf
  obtain ⟨hnodup, hother, henum⟩ := hwf
  have hvalues : InitializerInvariant (enumerators cursor) client2 := by
    have := enumVisitor_enum_children_initializer cursor.children []
      { node := { name := GetCXCursorName cursor, attrs := attrs } } client2 hother henum
      (by simpa [enumerators] using hnodup) (fun e he => by simp at he) h1
    simpa [enumerators] using this
  refine ⟨client2.node, hreg, UnorderedMap.find_assign_self _ _ _, ?_, ?_⟩
  · intro enumerator hmem value hvalue
    have hfind := hvalues enumerator hmem value hvalue
    exact ⟨hrange.2 _ _ hfind, hfind⟩
  · intro i previous next value hprev hnext hvalue hinit
    rw [List.chain'_iff_get] at hchain
    obtain ⟨hi, hp⟩ := List.getElem?_eq_some.mp hprev
    obtain ⟨hj, hn⟩ := List.getElem?_eq_some.mp hnext
    have := hchain i (by omega)
    simp only [List.get_eq_getElem] at this
    have hp2 := hp
    rw [hp, hn] at this
    obtain ⟨v, hv1, hv2⟩ := this hinit
    have hmem : previous ∈ enumerators cursor := by
      rw [← hp2]; exact List.getElem_mem _
    have hfind := hvalues previous hmem value hvalue
    rw [hfind] at hv1
    cases hv1
    exact ⟨hv2, successor_value_cases _ _ _ (hrange.2 _ _ hfind) hv2⟩

theorem RegisterEnum_initializer_values_witness :
    (ParseCXCursorAttributes MyEnum_cursor =
        Except.ok [{ type := LeonAttrType.KeyValue, kv := ("enum".toList, "MyEnum".toList) }] ∧
      WellFormedEnum MyEnum_cursor ∧
      UnorderedMap.empty.find (GetCXCursorName MyEnum_cursor) = (none : Option EnumNode)) ∧
    RegisterEnum UnorderedMap.empty MyEnum_cursor =
      Except.ok ([],
        UnorderedMap.empty.assign "MyCoolGame::MyEnum".toList
          { name := "MyCoolGame::MyEnum".toList
            attrs := [{ type := LeonAttrType.KeyValue, kv := ("enum".toList, "MyEnum".toList) }]
            elems := { entries := [("Majima".toList, 1013), ("Kiryu".toList, 1012),
              ("Luigi".toList, 1011), ("Mario".toList, 11), ("Plankton".toList, 10),
              ("Patrick".toList, 1), ("SpongeBob".toList, 0)] } }) ∧
    ∃ node : EnumNode,
      RegisterEnum UnorderedMap.empty MyEnum_cursor =
        Except.ok ([], UnorderedMap.empty.assign (GetCXCursorName MyEnum_cursor) node) ∧
      (UnorderedMap.empty.assign (GetCXCursorName MyEnum_cursor) node).find
        (GetCXCursorName MyEnum_cursor) = some node ∧
      (∀ enumerator ∈ enumerators MyEnum_cursor, ∀ value,
        initializerValue enumerator = some value →
        isLongLong value ∧ node.elems.find enumerator.spelling = some value) ∧
      (∀ (i : Nat) (previous next : CXCursor) (value : Int),
        (enumerators MyEnum_cursor)[i]? = some previous →
        (enumerators MyEnum_cursor)[i + 1]? = some next →
        initializerValue previous = some value → hasInitializer next = false →
        node.elems.find next.spelling = some (toLongLong (value + 1)) ∧
        (value < LLONG_MAX → node.elems.find next.spelling = some (value + 1)) ∧
        (value = LLONG_MAX → node.elems.find next.spelling = some LLONG_MIN)) :=
  ⟨⟨rfl, ⟨by decide, by decide, by decide⟩, rfl⟩, MyEnum_cursor_registered,
    (RegisterEnum_initializer_values UnorderedMap.empty MyEnum_cursor
      [{ type := LeonAttrType.KeyValue, kv := ("enum".toList, "MyEnum".toList) }]
      rfl (by decide) ⟨by decide, by decide, by decide⟩).2 rfl⟩

/-- The enum `Huge`: the initializer of `Top` evaluates to `LLONG_MAX`, which is
recorded, and the enumerator `Next`, without an initializer, is recorded with
`LLONG_MIN`, not with `LLONG_MAX + 1`. -/
theorem RegisterEnum_initializer_successor_wraps :
    RegisterEnum UnorderedMap.empty Huge_cursor =
      Except.ok ([],
        UnorderedMap.empty.assign "MyCoolGame::Huge".toList
          { name := "MyCoolGame::Huge".toList
            attrs := [{ type := LeonAttrType.Flag }]
            elems := { entries := [("Next".toList, -9223372036854775808),
              ("Top".toList, 9223372036854775807)] } }) ∧
    (enumerators Huge_cursor).map (fun enumerator =>
        (enumerator.spelling, initializerValue enumerator, hasInitializer enumerator)) =
      [("Top".toList, some 9223372036854775807, true), ("Next".toList, none, false)] ∧
    (-9223372036854775808 : Int) ≠ 9223372036854775807 + 1 :=
  ⟨rfl, rfl, by decide⟩

/-! ## Proofs: the class and function registries -/

theorem RegistriesStep.refl (regs : Registries) : RegistriesStep regs regs :=
  ⟨fun _ _ h => Or.inl h, fun _ _ h => Or.inl h, fun _ _ h => Or.inl h⟩

theorem RegistriesStep.trans {regs regs2 regs3 : Registries}
    (h12 : RegistriesStep regs regs2) (h23 : RegistriesStep regs2 regs3) :
    RegistriesStep regs regs3 := by
  refine ⟨?_, ?_, ?_⟩
  · intro key node h
    rcases h23.1 key node h with h2 | h2
    · exact h12.1 key node h2
    · exact Or.inr h2
  · intro key node h
    rcases h23.2.1 key node h with h2 | h2
    · exact h12.2.1 key node h2
    · exact Or.inr h2
  · intro key node h
    rcases h23.2.2 key node h with h2 | h2
    · exact h12.2.2 key node h2
    · exact Or.inr h2

/-- A step that only writes the type registry. -/
theorem RegistriesStep.type_nodes (regs : Registries) (type_nodes : UnorderedMap TypeNode) :
    RegistriesStep regs { regs with type_nodes := type_nodes } :=
  ⟨fun _ _ h => Or.inl h, fun _ _ h => Or.inl h, fun _ _ h => Or.inl h⟩

/-- The enum visitor does not write the attributes of the node. -/
theorem enumVisitor_attrs (cursor : CXCursor) (client client2 : EnumVisitorClient)
    (result : CXChildVisitResult)
    (h : enumVisitor cursor client = Except.ok (result, client2)) :
    client2.node.attrs = client.node.attrs := by
  unfold enumVisitor at h
  split_ifs at h with hk
  · simp only [Except.ok.injEq, Prod.mk.injEq] at h
    rw [← h.2]
  · cases hev : cursor.evaluate with
    | none =>
      rw [hev] at h
      simp only [Except.ok.injEq, Prod.mk.injEq] at h
      rw [← h.2]
    | some value =>
      rw [hev] at h
      simp only [] at h
      cases hkind : value.kind <;> rw [hkind] at h <;> simp only [] at h <;>
        first
          | (simp only [reduceCtorEq] at h)
          | (simp only [Except.ok.injEq, Prod.mk.injEq] at h; rw [← h.2])

/-- An entry of the enum registry after `RegisterEnum` was there before, or it
has attributes. -/
theorem RegisterEnum_step (enum_nodes enum_nodes2 : UnorderedMap EnumNode) (cursor : CXCursor)
    (name : CppString) (h : RegisterEnum enum_nodes cursor = Except.ok (name, enum_nodes2)) :
    ∀ key node, enum_nodes2.find key = some node →
      enum_nodes.find key = some node ∨ node.attrs ≠ [] := by
  unfold RegisterEnum at h
  simp only [] at h
  cases hfind : enum_nodes.find (GetCXCursorName cursor) with
  | some found =>
    rw [hfind] at h
    simp only [Except.ok.injEq, Prod.mk.injEq] at h
    rw [← h.2]
    exact fun _ _ hn => Or.inl hn
  | none =>
    rw [hfind] at h
    simp only [] at h
    cases hattrs : ParseCXCursorAttributes cursor with
    | error e => rw [hattrs] at h; simp at h
    | ok attrs =>
      rw [hattrs] at h
      simp only [] at h
      by_cases hlen : attrs.length ≠ 0
      · rw [if_pos hlen] at h
        cases hvisit : clang_visitChildren cursor enumVisitor
            { node := { name := GetCXCursorName cursor, attrs := attrs } } with
        | error e => rw [hvisit] at h; simp at h
        | ok client2 =>
          rw [hvisit] at h
          simp only [Except.ok.injEq, Prod.mk.injEq] at h
          rw [← h.2]
          have hattrs2 : client2.node.attrs = attrs := by
            unfold clang_visitChildren at hvisit
            cases hlist : visitChildrenList enumVisitor cursor.children
                { node := { name := GetCXCursorName cursor, attrs := attrs } } with
            | error e => rw [hlist] at hvisit; simp at hvisit
            | ok result =>
              obtain ⟨stopped, client3⟩ := result
              rw [hlist] at hvisit
              simp only [Except.ok.injEq] at hvisit
              rw [← hvisit]
              exact visitChildrenList_preserves enumVisitor
                (fun client => client.node.attrs = attrs)
                (fun c s r s2 hJ hv => (enumVisitor_attrs c s s2 r hv).trans hJ)
                _ _ _ _ rfl hlist
          intro key node hn
          by_cases hkey : key = GetCXCursorName cursor
          · subst hkey
            rw [UnorderedMap.find_assign_self] at hn
            cases hn
            right
            rw [hattrs2]
            intro hnil
            rw [hnil] at hlen
            exact hlen rfl
          · rw [UnorderedMap.find_assign_ne _ _ _ _ hkey] at hn
            exact Or.inl hn
      · rw [if_neg hlen] at h
        simp only [Except.ok.injEq, Prod.mk.injEq] at h
        rw [← h.2]
        exact fun _ _ hn => Or.inl hn
theorem classVisitor.friendTick_node (client : ClassVisitorClient) :
    (classVisitor.friendTick client).node = client.node := by
  unfold classVisitor.friendTick
  split_ifs <;> rfl

theorem appendArg_attrs (methods : List Method) :
    ∀ (index : Nat) (arg : Arg),
      (appendArg methods index arg).map (fun method => method.attrs) =
        methods.map (fun method => method.attrs) := by
  induction methods with
  | nil => intro index arg; rfl
  | cons method methods ih =>
    intro index arg
    cases index with
    | zero => rfl
    | succ index => simp only [appendArg, List.map_cons, ih]

theorem attrs_of_map (methods methods2 : List Method)
    (hmap : methods2.map (fun method => method.attrs) = methods.map (fun method => method.attrs))
    (h : ∀ method ∈ methods, method.attrs ≠ []) :
    ∀ method ∈ methods2, method.attrs ≠ [] := by
  intro method hmem
  have h1 : method.attrs ∈ methods2.map (fun method => method.attrs) :=
    List.mem_map_of_mem _ hmem
  rw [hmap] at h1
  obtain ⟨other, hother, heq⟩ := List.mem_map.mp h1
  rw [← heq]
  exact h other hother

theorem length_ne_zero_ne_nil {α : Type} (attrs : List α) (h : attrs.length ≠ 0) :
    attrs ≠ [] := by
  intro hnil
  rw [hnil] at h
  exact h rfl

/-- The branch of a base specifier keeps the attributes of the client node. -/
theorem classVisitor.base_step (cursor : CXCursor) (client client2 : ClassVisitorClient)
    (regs regs2 : Registries) (result : CXChildVisitResult)
    (hI : ClassNodeAttributed client.node)
    (h : classVisitor.base cursor client regs = Except.ok (result, client2, regs2)) :
    ClassNodeAttributed client2.node ∧ RegistriesStep regs regs2 := by
  unfold classVisitor.base at h
  cases hvis : classVisitor.visibility (clang_getCXXAccessSpecifier cursor)
      "Unexpected access specifier for base specifier" with
  | error e => rw [hvis] at h; simp at h
  | ok visibility =>
    rw [hvis] at h
    simp only [] at h
    split_ifs at h
    simp only [Except.ok.injEq, Prod.mk.injEq] at h
    obtain ⟨-, hclient, hregs⟩ := h
    rw [← hclient, ← hregs]
    exact ⟨hI, RegistriesStep.refl _⟩

/-- The branches of a field and of a variable keep the attributes of the
client node: a member is recorded only with attributes. -/
theorem classVisitor.member_step (member_type : MemberType) (message : String)
    (cursor : CXCursor) (client client2 : ClassVisitorClient)
    (regs regs2 : Registries) (result : CXChildVisitResult)
    (hI : ClassNodeAttributed client.node)
    (h : classVisitor.member member_type message cursor client regs =
      Except.ok (result, client2, regs2)) :
    ClassNodeAttributed client2.node ∧ RegistriesStep regs regs2 := by
  unfold classVisitor.member at h
  simp only [] at h
  cases hattrs : ParseCXCursorAttributes cursor with
  | error e => rw [hattrs] at h; simp at h
  | ok attrs =>
    rw [hattrs] at h
    simp only [] at h
    by_cases hlen : attrs.length ≠ 0
    · rw [if_pos hlen] at h
      cases hvis : classVisitor.visibility (clang_getCXXAccessSpecifier cursor) message with
      | error e => rw [hvis] at h; simp at h
      | ok visibility =>
        rw [hvis] at h
        simp only [] at h
        cases htype : RegisterType regs.type_nodes (clang_getCursorType cursor) with
        | error e => rw [htype] at h; simp at h
        | ok typed =>
          obtain ⟨type, type_nodes⟩ := typed
          rw [htype] at h
          simp only [Except.ok.injEq, Prod.mk.injEq] at h
          obtain ⟨-, hclient, hregs⟩ := h
          rw [← hclient, ← hregs]
          refine ⟨⟨hI.1, ?_, hI.2.2⟩, RegistriesStep.type_nodes _ _⟩
          intro member hmem
          rw [List.mem_append, List.mem_singleton] at hmem
          rcases hmem with hmem | hmem
          · exact hI.2.1 member hmem
          · rw [hmem]
            exact length_ne_zero_ne_nil attrs hlen
    · rw [if_neg hlen] at h
      simp only [Except.ok.injEq, Prod.mk.injEq] at h
      obtain ⟨-, hclient, hregs⟩ := h
      rw [← hclient, ← hregs]
      exact ⟨hI, RegistriesStep.refl _⟩

/-- What `classVisitor.emplaceMethod` returns when it returns. -/
theorem classVisitor.emplaceMethod_eq_ok (cursor : CXCursor) (method : Method)
    (client client2 : ClassVisitorClient) (regs regs2 : Registries)
    (result : CXChildVisitResult)
    (h : classVisitor.emplaceMethod cursor method client regs =
      Except.ok (result, client2, regs2)) :
    ∃ return_type type_nodes,
      RegisterType regs.type_nodes (clang_getCursorResultType cursor) =
        Except.ok (return_type, type_nodes) ∧
      result = CXChildVisitResult.Recurse ∧
      client2 = { client with
        node := { client.node with
          methods := client.node.methods ++ [{ method with return_type := return_type }] }
        current_method := some client.node.methods.length } ∧
      regs2 = { regs with type_nodes := type_nodes } := by
  unfold classVisitor.emplaceMethod at h
  cases htype : RegisterType regs.type_nodes (clang_getCursorResultType cursor) with
  | error e => rw [htype] at h; simp at h
  | ok typed =>
    obtain ⟨return_type, type_nodes⟩ := typed
    rw [htype] at h
    simp only [Except.ok.injEq, Prod.mk.injEq] at h
    exact ⟨return_type, type_nodes, rfl, h.1.symm, h.2.1.symm, h.2.2.symm⟩

theorem classVisitor.emplaceMethod_step (cursor : CXCursor) (method : Method)
    (client client2 : ClassVisitorClient) (regs regs2 : Registries)
    (result : CXChildVisitResult) (hattrs : method.attrs ≠ [])
    (hI : ClassNodeAttributed client.node)
    (h : classVisitor.emplaceMethod cursor method client regs =
      Except.ok (result, client2, regs2)) :
    ClassNodeAttributed client2.node ∧ RegistriesStep regs regs2 := by
  obtain ⟨return_type, type_nodes, -, -, hclient, hregs⟩ :=
    classVisitor.emplaceMethod_eq_ok _ _ _ _ _ _ _ h
  rw [hclient, hregs]
  refine ⟨⟨hI.1, hI.2.1, ?_⟩, RegistriesStep.type_nodes _ _⟩
  intro other hmem
  rw [List.mem_append, List.mem_singleton] at hmem
  rcases hmem with hmem | hmem
  · exact hI.2.2 other hmem
  · rw [hmem]
    exact hattrs

theorem classVisitor.function_step (cursor : CXCursor) (client client2 : ClassVisitorClient)
    (regs regs2 : Registries) (result : CXChildVisitResult)
    (hI : ClassNodeAttributed client.node)
    (h : classVisitor.function cursor client regs = Except.ok (result, client2, regs2)) :
    ClassNodeAttributed client2.node ∧ RegistriesStep regs regs2 := by
  unfold classVisitor.function at h
  simp only [] at h
  cases hattrs : ParseCXCursorAttributes cursor with
  | error e => rw [hattrs] at h; simp at h
  | ok attrs =>
    rw [hattrs] at h
    simp only [] at h
    by_cases hlen : attrs.length ≠ 0
    · rw [if_pos hlen] at h
      cases hvis : classVisitor.visibility (clang_getCXXAccessSpecifier cursor)
          "Unexpected access specifier for function" with
      | error e => rw [hvis] at h; simp at h
      | ok visibility =>
        rw [hvis] at h
        simp only [] at h
        split_ifs at h
        exact classVisitor.emplaceMethod_step _ _ _ _ _ _ _
          (length_ne_zero_ne_nil attrs hlen) hI h
    · rw [if_neg hlen] at h
      simp only [Except.ok.injEq, Prod.mk.injEq] at h
      obtain ⟨-, hclient, hregs⟩ := h
      rw [← hclient, ← hregs]
      exact ⟨hI, RegistriesStep.refl _⟩

theorem classVisitor.method_step (cursor : CXCursor) (client client2 : ClassVisitorClient)
    (regs regs2 : Registries) (result : CXChildVisitResult)
    (hI : ClassNodeAttributed client.node)
    (h : classVisitor.method cursor client regs = Except.ok (result, client2, regs2)) :
    ClassNodeAttributed client2.node ∧ RegistriesStep regs regs2 := by
  unfold classVisitor.method at h
  simp only [] at h
  cases hattrs : ParseCXCursorAttributes cursor with
  | error e => rw [hattrs] at h; simp at h
  | ok attrs =>
    rw [hattrs] at h
    simp only [] at h
    by_cases hlen : attrs.length ≠ 0
    · rw [if_pos hlen] at h
      cases hvis : classVisitor.visibility (clang_getCXXAccessSpecifier cursor)
          "Unexpected access specifier for method" with
      | error e => rw [hvis] at h; simp at h
      | ok visibility =>
        rw [hvis] at h
        simp only [] at h
        cases hstorage : classVisitor.methodType (clang_Cursor_getStorageClass cursor) with
        | error e => rw [hstorage] at h; simp at h
        | ok method_type =>
          rw [hstorage] at h
          simp only [] at h
          exact classVisitor.emplaceMethod_step _ _ _ _ _ _ _
            (length_ne_zero_ne_nil attrs hlen) hI h
    · rw [if_neg hlen] at h
      simp only [Except.ok.injEq, Prod.mk.injEq] at h
      obtain ⟨-, hclient, hregs⟩ := h
      rw [← hclient, ← hregs]
      exact ⟨hI, RegistriesStep.refl _⟩

theorem classVisitor.parameter_step (cursor : CXCursor) (client client2 : ClassVisitorClient)
    (regs regs2 : Registries) (result : CXChildVisitResult)
    (hI : ClassNodeAttributed client.node)
    (h : classVisitor.parameter cursor client regs = Except.ok (result, client2, regs2)) :
    ClassNodeAttributed client2.node ∧ RegistriesStep regs regs2 := by
  unfold classVisitor.parameter at h
  cases hcur : client.current_method with
  | none => rw [hcur] at h; simp at h
  | some index =>
    rw [hcur] at h
    simp only [] at h
    cases htype : RegisterType regs.type_nodes (clang_getCursorType cursor) with
    | error e => rw [htype] at h; simp at h
    | ok typed =>
      obtain ⟨type, type_nodes⟩ := typed
      rw [htype] at h
      simp only [] at h
      cases hattrs : ParseCXCursorAttributes cursor with
      | error e => rw [hattrs] at h; simp at h
      | ok attrs =>
        rw [hattrs] at h
        simp only [Except.ok.injEq, Prod.mk.injEq] at h
        obtain ⟨-, hclient, hregs⟩ := h
        rw [← hclient, ← hregs]
        exact ⟨⟨hI.1, hI.2.1,
          attrs_of_map _ _ (appendArg_attrs _ _ _) hI.2.2⟩, RegistriesStep.type_nodes _ _⟩

/-- One call of the class visitor keeps the attributes of the client node and
makes a step of the registries, when the nested `RegisterClass` does. -/
theorem classVisitor_step
    (registerClass : Registries → Except String (CppString × Registries))
    (hnested : ∀ regs name regs2, registerClass regs = Except.ok (name, regs2) →
      RegistriesStep regs regs2)
    (cursor : CXCursor) (client client2 : ClassVisitorClient)
    (regs regs2 : Registries) (result : CXChildVisitResult)
    (hI : ClassNodeAttributed client.node)
    (h : classVisitor registerClass cursor (client, regs) =
      Except.ok (result, client2, regs2)) :
    ClassNodeAttributed client2.node ∧ RegistriesStep regs regs2 := by
  have hI1 : ClassNodeAttributed (classVisitor.friendTick client).node := by
    rw [classVisitor.friendTick_node]; exact hI
  unfold classVisitor at h
  simp only [] at h
  split_ifs at h
  · exact classVisitor.base_step _ _ _ _ _ _ hI1 h
  · cases hcall : registerClass regs with
    | error e => rw [hcall] at h; simp at h
    | ok returned =>
      obtain ⟨name, regs1⟩ := returned
      rw [hcall] at h
      simp only [Except.ok.injEq, Prod.mk.injEq] at h
      obtain ⟨-, hclient, hregs⟩ := h
      rw [← hclient, ← hregs]
      exact ⟨hI1, hnested _ _ _ hcall⟩
  · cases hcall : RegisterEnum regs.enum_nodes cursor with
    | error e => rw [hcall] at h; simp at h
    | ok returned =>
      obtain ⟨name, enum_nodes⟩ := returned
      rw [hcall] at h
      simp only [Except.ok.injEq, Prod.mk.injEq] at h
      obtain ⟨-, hclient, hregs⟩ := h
      rw [← hclient, ← hregs]
      exact ⟨hI1, RegisterEnum_step _ _ _ _ hcall, fun _ _ hn => Or.inl hn,
        fun _ _ hn => Or.inl hn⟩
  · exact classVisitor.member_step _ _ _ _ _ _ _ _ hI1 h
  · exact classVisitor.member_step _ _ _ _ _ _ _ _ hI1 h
  · exact classVisitor.function_step _ _ _ _ _ _ hI1 h
  · exact classVisitor.method_step _ _ _ _ _ _ hI1 h
  · exact classVisitor.parameter_step _ _ _ _ _ _ hI1 h
  · simp only [Except.ok.injEq, Prod.mk.injEq] at h
    obtain ⟨-, hclient, hregs⟩ := h
    rw [← hclient, ← hregs]
    exact ⟨hI1, RegistriesStep.refl _⟩
  · simp only [Except.ok.injEq, Prod.mk.injEq] at h
    obtain ⟨-, hclient, hregs⟩ := h
    rw [← hclient, ← hregs]
    exact ⟨hI1, RegistriesStep.refl _⟩
/-- What `RegisterClass.run` does on a class that is annotated and not yet
registered: it visits the children with a fresh client and stores the node of
the client, with the abstract flag of its methods. -/
theorem RegisterClass.run_eq_ok
    (visitChildren : ClassVisitorClient × Registries →
      Except String (Bool × ClassVisitorClient × Registries))
    (cursor : CXCursor) (regs regs2 : Registries) (name : CppString)
    (h : RegisterClass.run visitChildren cursor regs = Except.ok (name, regs2)) :
    name = GetCXCursorName cursor ∧
    (regs2 = regs ∧
        ((regs.class_nodes.find (GetCXCursorName cursor)).isSome = true ∨
          ParseCXCursorAttributes cursor = Except.ok []) ∨
      ∃ attrs class_type stopped client regs1,
        regs.class_nodes.find (GetCXCursorName cursor) = none ∧
        ParseCXCursorAttributes cursor = Except.ok attrs ∧ attrs ≠ [] ∧
        (class_type = ClassType.Class ∧ cursor.kind = CXCursorKind.ClassDecl ∨
          class_type = ClassType.Struct ∧ cursor.kind = CXCursorKind.StructDecl) ∧
        visitChildren
          ({ node := { name := GetCXCursorName cursor, attrs := attrs,
                       class_type := class_type } }, regs) =
          Except.ok (stopped, client, regs1) ∧
        regs2 = { regs1 with
          class_nodes := regs1.class_nodes.assign (GetCXCursorName cursor)
            { client.node with
              q_abstract := client.node.methods.any (fun method => method.q_pure) } }) := by
  unfold RegisterClass.run at h
  simp only [] at h
  cases hfind : regs.class_nodes.find (GetCXCursorName cursor) with
  | some found =>
    rw [hfind] at h
    simp only [Except.ok.injEq, Prod.mk.injEq] at h
    exact ⟨h.1.symm, Or.inl ⟨h.2.symm, Or.inl rfl⟩⟩
  | none =>
    rw [hfind] at h
    simp only [] at h
    cases hattrs : ParseCXCursorAttributes cursor with
    | error e => rw [hattrs] at h; simp at h
    | ok attrs =>
      rw [hattrs] at h
      simp only [] at h
      by_cases hlen : attrs.length ≠ 0
      · rw [if_pos hlen] at h
        by_cases hclass : cursor.kind = CXCursorKind.ClassDecl
        · rw [if_pos hclass] at h
          simp only [] at h
          cases hvisit : visitChildren
              ({ node := { name := GetCXCursorName cursor, attrs := attrs,
                           class_type := ClassType.Class } }, regs) with
          | error e => rw [hvisit] at h; simp at h
          | ok visited =>
            obtain ⟨stopped, client, regs1⟩ := visited
            rw [hvisit] at h
            simp only [Except.ok.injEq, Prod.mk.injEq] at h
            exact ⟨h.1.symm, Or.inr ⟨attrs, ClassType.Class, stopped, client, regs1, rfl, rfl,
              length_ne_zero_ne_nil attrs hlen, Or.inl ⟨rfl, hclass⟩, hvisit, h.2.symm⟩⟩
        · rw [if_neg hclass] at h
          by_cases hstruct : cursor.kind = CXCursorKind.StructDecl
          · rw [if_pos hstruct] at h
            simp only [] at h
            cases hvisit : visitChildren
                ({ node := { name := GetCXCursorName cursor, attrs := attrs,
                             class_type := ClassType.Struct } }, regs) with
            | error e => rw [hvisit] at h; simp at h
            | ok visited =>
              obtain ⟨stopped, client, regs1⟩ := visited
              rw [hvisit] at h
              simp only [Except.ok.injEq, Prod.mk.injEq] at h
              exact ⟨h.1.symm, Or.inr ⟨attrs, ClassType.Struct, stopped, client, regs1, rfl, rfl,
                length_ne_zero_ne_nil attrs hlen, Or.inr ⟨rfl, hstruct⟩, hvisit, h.2.symm⟩⟩
          · rw [if_neg hstruct] at h
            simp at h
      · rw [if_neg hlen] at h
        simp only [Except.ok.injEq, Prod.mk.injEq] at h
        have hnil : attrs = [] := List.length_eq_zero.mp (not_not.mp hlen)
        subst hnil
        exact ⟨h.1.symm, Or.inl ⟨h.2.symm, Or.inr rfl⟩⟩

theorem AbstractFlag_any (node : ClassNode) :
    AbstractFlag { node with q_abstract := node.methods.any (fun method => method.q_pure) } := by
  unfold AbstractFlag
  simp only [List.any_eq_true]

/-- The function `RegisterClass.run` makes a step of the registries when the
traversal of the children does. -/
theorem RegisterClass.run_step
    (visitChildren : ClassVisitorClient × Registries →
      Except String (Bool × ClassVisitorClient × Registries))
    (hvisit : ∀ client regs stopped client2 regs2, ClassNodeAttributed client.node →
      visitChildren (client, regs) = Except.ok (stopped, client2, regs2) →
      ClassNodeAttributed client2.node ∧ RegistriesStep regs regs2)
    (cursor : CXCursor) (regs regs2 : Registries) (name : CppString)
    (h : RegisterClass.run visitChildren cursor regs = Except.ok (name, regs2)) :
    RegistriesStep regs regs2 := by
  obtain ⟨-, ⟨hsame, -⟩ | ⟨attrs, class_type, stopped, client, regs1, -, -, hne, -, hv, hregs⟩⟩ :=
    RegisterClass.run_eq_ok _ _ _ _ _ h
  · rw [hsame]; exact RegistriesStep.refl _
  · have hI0 : ClassNodeAttributed
        ({ node := { name := GetCXCursorName cursor, attrs := attrs,
                     class_type := class_type } } : ClassVisitorClient).node :=
      ⟨hne, fun _ hm => by simp at hm, fun _ hm => by simp at hm⟩
    obtain ⟨hI1, hstep⟩ := hvisit _ _ _ _ _ hI0 hv
    refine RegistriesStep.trans hstep ?_
    rw [hregs]
    refine ⟨fun _ _ hn => Or.inl hn, ?_, fun _ _ hn => Or.inl hn⟩
    intro key node hn
    by_cases hkey : key = GetCXCursorName cursor
    · subst hkey
      rw [UnorderedMap.find_assign_self] at hn
      cases hn
      exact Or.inr ⟨hI1, AbstractFlag_any _⟩
    · rw [UnorderedMap.find_assign_ne _ _ _ _ hkey] at hn
      exact Or.inl hn

/-- The traversal of `RegisterClass` keeps the attributes of the client node
and makes a step of the registries. -/
theorem RegisterClass.visitList_step :
    ∀ children client regs stopped client2 regs2, ClassNodeAttributed client.node →
      RegisterClass.visitList children (client, regs) = Except.ok (stopped, client2, regs2) →
      ClassNodeAttributed client2.node ∧ RegistriesStep regs regs2 := by
  refine (CXCursor.tree_induction
    (fun cursor => ∀ client regs stopped client2 regs2, ClassNodeAttributed client.node →
      RegisterClass.visitCursor cursor (client, regs) = Except.ok (stopped, client2, regs2) →
      ClassNodeAttributed client2.node ∧ RegistriesStep regs regs2)
    (fun children => ∀ client regs stopped client2 regs2, ClassNodeAttributed client.node →
      RegisterClass.visitList children (client, regs) = Except.ok (stopped, client2, regs2) →
      ClassNodeAttributed client2.node ∧ RegistriesStep regs regs2)
    ?_ ?_ ?_).2
  · intro kind spelling parents evaluate info children ih client regs stopped client2 regs2 hI h
    simp only [RegisterClass.visitCursor] at h
    cases hv : classVisitor
        (RegisterClass.run (fun inner => RegisterClass.visitList children inner)
          (CXCursor.mk kind spelling parents evaluate info children))
        (CXCursor.mk kind spelling parents evaluate info children) (client, regs) with
    | error e => rw [hv] at h; simp at h
    | ok visited =>
      obtain ⟨answer, client1, regs1⟩ := visited
      obtain ⟨hI1, hstep1⟩ := classVisitor_step _
        (fun r n r2 hr => RegisterClass.run_step _ ih _ r r2 n hr) _ _ _ _ _ _ hI hv
      rw [hv] at h
      cases answer with
      | Break =>
        simp only [Except.ok.injEq, Prod.mk.injEq] at h
        rw [← h.2.1, ← h.2.2]; exact ⟨hI1, hstep1⟩
      | Continue =>
        simp only [Except.ok.injEq, Prod.mk.injEq] at h
        rw [← h.2.1, ← h.2.2]; exact ⟨hI1, hstep1⟩
      | Recurse =>
        obtain ⟨hI2, hstep2⟩ := ih client1 regs1 stopped client2 regs2 hI1 h
        exact ⟨hI2, RegistriesStep.trans hstep1 hstep2⟩
  · intro client regs stopped client2 regs2 hI h
    simp only [RegisterClass.visitList, Except.ok.injEq, Prod.mk.injEq] at h
    rw [← h.2.1, ← h.2.2]; exact ⟨hI, RegistriesStep.refl _⟩
  · intro cursor siblings ihc ihs client regs stopped client2 regs2 hI h
    simp only [RegisterClass.visitList] at h
    cases hv : RegisterClass.visitCursor cursor (client, regs) with
    | error e => rw [hv] at h; simp at h
    | ok visited =>
      obtain ⟨flag, client1, regs1⟩ := visited
      obtain ⟨hI1, hstep1⟩ := ihc client regs flag client1 regs1 hI hv
      rw [hv] at h
      cases flag with
      | true =>
        simp only [Except.ok.injEq, Prod.mk.injEq] at h
        rw [← h.2.1, ← h.2.2]; exact ⟨hI1, hstep1⟩
      | false =>
        obtain ⟨hI2, hstep2⟩ := ihs client1 regs1 stopped client2 regs2 hI1 h
        exact ⟨hI2, RegistriesStep.trans hstep1 hstep2⟩

/-- The function `RegisterClass` makes a step of the registries. -/
theorem RegisterClass_step (regs regs2 : Registries) (cursor : CXCursor) (name : CppString)
    (h : RegisterClass regs cursor = Except.ok (name, regs2)) : RegistriesStep regs regs2 :=
  RegisterClass.run_step _ (RegisterClass.visitList_step cursor.children) cursor regs regs2 name h

/-- The function visitor does not write the attributes of the node. -/
theorem functionVisitor_attrs (cursor : CXCursor)
    (state state2 : FunctionNode × UnorderedMap TypeNode) (result : CXChildVisitResult)
    (h : functionVisitor cursor state = Except.ok (result, state2)) :
    state2.1.attrs = state.1.attrs := by
  unfold functionVisitor at h
  split_ifs at h
  · cases htype : RegisterType state.2 (clang_getCursorType cursor) with
    | error e => rw [htype] at h; simp at h
    | ok typed =>
      obtain ⟨type, type_nodes⟩ := typed
      rw [htype] at h
      simp only [] at h
      cases hattrs : ParseCXCursorAttributes cursor with
      | error e => rw [hattrs] at h; simp at h
      | ok attrs =>
        rw [hattrs] at h
        simp only [Except.ok.injEq, Prod.mk.injEq] at h
        rw [← h.2]
  · simp only [Except.ok.injEq, Prod.mk.injEq] at h
    rw [← h.2]

/-- The function `RegisterFunction` makes a step of the registries. -/
theorem RegisterFunction_step (regs regs2 : Registries) (cursor : CXCursor) (name : CppString)
    (h : RegisterFunction regs cursor = Except.ok (name, regs2)) : RegistriesStep regs regs2 := by
  unfold RegisterFunction at h
  simp only [] at h
  cases hfind : regs.class_nodes.find (GetCXCursorName cursor) with
  | some found =>
    rw [hfind] at h
    simp only [Except.ok.injEq, Prod.mk.injEq] at h
    rw [← h.2]; exact RegistriesStep.refl _
  | none =>
    rw [hfind] at h
    simp only [] at h
    cases hattrs : ParseCXCursorAttributes cursor with
    | error e => rw [hattrs] at h; simp at h
    | ok attrs =>
      rw [hattrs] at h
      simp only [] at h
      by_cases hlen : attrs.length ≠ 0
      · rw [if_pos hlen] at h
        cases htype : RegisterType regs.type_nodes (clang_getCursorResultType cursor) with
        | error e => rw [htype] at h; simp at h
        | ok typed =>
          obtain ⟨return_type, type_nodes⟩ := typed
          rw [htype] at h
          simp only [] at h
          cases hvisit : clang_visitChildren cursor functionVisitor
              ({ name := GetCXCursorName cursor, attrs := attrs, return_type := return_type },
                type_nodes) with
          | error e => rw [hvisit] at h; simp at h
          | ok visited =>
            obtain ⟨node, type_nodes2⟩ := visited
            rw [hvisit] at h
            simp only [Except.ok.injEq, Prod.mk.injEq] at h
            rw [← h.2]
            have hattrs2 : node.attrs = attrs := by
              unfold clang_visitChildren at hvisit
              cases hlist : visitChildrenList functionVisitor cursor.children
                  ({ name := GetCXCursorName cursor, attrs := attrs,
                     return_type := return_type }, type_nodes) with
              | error e => rw [hlist] at hvisit; simp at hvisit
              | ok result =>
                obtain ⟨stopped, state3⟩ := result
                rw [hlist] at hvisit
                simp only [Except.ok.injEq] at hvisit
                have := visitChildrenList_preserves functionVisitor
                  (fun state => state.1.attrs = attrs)
                  (fun c s r s2 hJ hv => (functionVisitor_attrs c s s2 r hv).trans hJ)
                  _ _ _ _ rfl hlist
                rw [hvisit] at this
                exact this
            refine ⟨fun _ _ hn => Or.inl hn, fun _ _ hn => Or.inl hn, ?_⟩
            intro key found hn
            by_cases hkey : key = GetCXCursorName cursor
            · subst hkey
              rw [UnorderedMap.find_assign_self] at hn
              cases hn
              right
              rw [hattrs2]
              exact length_ne_zero_ne_nil attrs hlen
            · rw [UnorderedMap.find_assign_ne _ _ _ _ hkey] at hn
              exact Or.inl hn
      · rw [if_neg hlen] at h
        simp only [Except.ok.injEq, Prod.mk.injEq] at h
        rw [← h.2]; exact RegistriesStep.refl _

/-- One call of the top-level visitor makes a step of the registries. -/
theorem RegisterCall.run_registries_step (regs regs2 : Registries) (call : RegisterCall)
    (h : call.run regs = Except.ok regs2) : RegistriesStep regs regs2 := by
  cases call with
  | registerClass cursor =>
    simp only [RegisterCall.run] at h
    cases hcall : RegisterClass regs cursor with
    | error e => rw [hcall] at h; simp at h
    | ok returned =>
      obtain ⟨name, regs1⟩ := returned
      rw [hcall] at h
      simp only [Except.ok.injEq] at h
      rw [← h]
      exact RegisterClass_step _ _ _ _ hcall
  | registerEnum cursor =>
    simp only [RegisterCall.run] at h
    cases hcall : RegisterEnum regs.enum_nodes cursor with
    | error e => rw [hcall] at h; simp at h
    | ok returned =>
      obtain ⟨name, enum_nodes⟩ := returned
      rw [hcall] at h
      simp only [Except.ok.injEq] at h
      rw [← h]
      exact ⟨RegisterEnum_step _ _ _ _ hcall, fun _ _ hn => Or.inl hn, fun _ _ hn => Or.inl hn⟩
  | registerFunction cursor =>
    simp only [RegisterCall.run] at h
    cases hcall : RegisterFunction regs cursor with
    | error e => rw [hcall] at h; simp at h
    | ok returned =>
      obtain ⟨name, regs1⟩ := returned
      rw [hcall] at h
      simp only [Except.ok.injEq] at h
      rw [← h]
      exact RegisterFunction_step _ _ _ _ hcall

/-- A sequence of calls makes a step of the registries. -/
theorem runCalls_step (calls : List RegisterCall) :
    ∀ regs regs2, runCalls calls regs = Except.ok regs2 → RegistriesStep regs regs2 := by
  induction calls with
  | nil =>
    intro regs regs2 h
    simp only [runCalls, Except.ok.injEq] at h
    rw [← h]; exact RegistriesStep.refl _
  | cons call calls ih =>
    intro regs regs2 h
    simp only [runCalls] at h
    cases hcall : call.run regs with
    | error e => rw [hcall] at h; simp at h
    | ok regs1 =>
      rw [hcall] at h
      exact RegistriesStep.trans (RegisterCall.run_registries_step _ _ _ hcall) (ih _ _ h)

/-- A call on a declaration without attributes leaves the registries as they
are. -/
theorem RegisterCall.run_unannotated (regs : Registries) (call : RegisterCall)
    (h : ParseCXCursorAttributes call.cursor = Except.ok []) :
    call.run regs = Except.ok regs := by
  cases call with
  | registerClass cursor =>
    simp only [RegisterCall.cursor] at h
    simp only [RegisterCall.run, RegisterClass, RegisterClass.run, h]
    cases regs.class_nodes.find (GetCXCursorName cursor) <;> simp
  | registerEnum cursor =>
    simp only [RegisterCall.cursor] at h
    simp only [RegisterCall.run, RegisterEnum, h]
    cases regs.enum_nodes.find (GetCXCursorName cursor) <;> simp
  | registerFunction cursor =>
    simp only [RegisterCall.cursor] at h
    simp only [RegisterCall.run, RegisterFunction, h]
    cases regs.class_nodes.find (GetCXCursorName cursor) <;> simp

/-- C12: after a sequence of `RegisterEnum`, `RegisterClass` and
`RegisterFunction` calls that starts from empty registries, every node of the
enum, class and function registries has a non-empty attribute list, and so has
every recorded member and method of a class; and a call on a declaration whose
attribute list is empty leaves the registries unchanged. -/
theorem runCalls_attributes_present (calls : List RegisterCall) (regs : Registries)
    (h : runCalls calls {} = Except.ok regs) :
    (∀ key node, regs.enum_nodes.find key = some node → node.attrs ≠ []) ∧
    (∀ key node, regs.class_nodes.find key = some node →
      node.attrs ≠ [] ∧ (∀ member ∈ node.members, member.attrs ≠ []) ∧
        (∀ method ∈ node.methods, method.attrs ≠ [])) ∧
    (∀ key node, regs.function_nodes.find key = some node → node.attrs ≠ []) ∧
    (∀ call : RegisterCall, ParseCXCursorAttributes call.cursor = Except.ok [] →
      call.run regs = Except.ok regs) := by
  obtain ⟨henum, hclass, hfunction⟩ := runCalls_step calls {} regs h
  refine ⟨?_, ?_, ?_, fun call hcall => RegisterCall.run_unannotated regs call hcall⟩
  · intro key node hn
    rcases henum key node hn with hold | hnew
    · cases hold
    · exact hnew
  · intro key node hn
    rcases hclass key node hn with hold | hnew
    · cases hold
    · exact hnew.1
  · intro key node hn
    rcases hfunction key node hn with hold | hnew
    · cases hold
    · exact hnew

theorem runCalls_attributes_present_witness :
    runCalls [RegisterCall.registerClass WeirdClass_cursor,
        RegisterCall.registerClass WeirdUnknownClass_cursor,
        RegisterCall.registerEnum AppleEnum_cursor] {} = Except.ok registries_after_calls ∧
    registries_after_calls.class_nodes.find "MyCoolGame::WeirdUnknownClass".toList = none ∧
    (∀ key node, registries_after_calls.enum_nodes.find key = some node → node.attrs ≠ []) ∧
    (∀ key node, registries_after_calls.class_nodes.find key = some node →
      node.attrs ≠ [] ∧ (∀ member ∈ node.members, member.attrs ≠ []) ∧
        (∀ method ∈ node.methods, method.attrs ≠ [])) ∧
    (∀ key node, registries_after_calls.function_nodes.find key = some node →
      node.attrs ≠ []) ∧
    (∀ call : RegisterCall, ParseCXCursorAttributes call.cursor = Except.ok [] →
      call.run registries_after_calls = Except.ok registries_after_calls) :=
  ⟨rfl, rfl,
    runCalls_attributes_present
      [RegisterCall.registerClass WeirdClass_cursor,
        RegisterCall.registerClass WeirdUnknownClass_cursor,
        RegisterCall.registerEnum AppleEnum_cursor] registries_after_calls rfl⟩

/-- C13: a class node that is in the class registry after `RegisterClass` and
was not there before has its abstract flag set exactly when one of its
recorded methods is pure. -/
theorem RegisterClass_abstract_flag (regs regs2 : Registries) (cursor : CXCursor)
    (name : CppString) (h : RegisterClass regs cursor = Except.ok (name, regs2)) :
    ∀ key node, regs2.class_nodes.find key = some node →
      regs.class_nodes.find key = some node ∨
        (node.q_abstract = true ↔ ∃ method ∈ node.methods, method.q_pure = true) := by
  intro key node hn
  rcases (RegisterClass_step regs regs2 cursor name h).2.1 key node hn with hold | hnew
  · exact Or.inl hold
  · exact Or.inr hnew.2

theorem RegisterClass_abstract_flag_witness :
    RegisterClass {} WeirdClass_cursor =
      Except.ok ("MyCoolGame::WeirdClass".toList, registries_WeirdClass) ∧
    ∀ key node, registries_WeirdClass.class_nodes.find key = some node →
      ({} : Registries).class_nodes.find key = some node ∨
        (node.q_abstract = true ↔ ∃ method ∈ node.methods, method.q_pure = true) :=
  ⟨rfl, RegisterClass_abstract_flag {} registries_WeirdClass WeirdClass_cursor
    "MyCoolGame::WeirdClass".toList rfl⟩

theorem classVisitor.visibility_valid (access : CX_CXXAccessSpecifier) (message : String)
    (h : access ≠ CX_CXXAccessSpecifier.CX_CXXInvalidAccessSpecifier) :
    classVisitor.visibility access message = Except.ok (accessVisibility access) := by
  cases access <;> first | rfl | exact absurd rfl h

/-- An exception of the class visitor on a cursor ends the visit of that
cursor. -/
theorem RegisterClass.visitCursor_error (cursor : CXCursor)
    (state : ClassVisitorClient × Registries) (e : String)
    (h : classVisitor
      (RegisterClass.run (fun inner => RegisterClass.visitList cursor.children inner) cursor)
      cursor state = Except.error e) :
    RegisterClass.visitCursor cursor state = Except.error e := by
  cases cursor with
  | mk kind spelling parents evaluate info children =>
    simp only [CXCursor.children] at h
    simp only [RegisterClass.visitCursor, h]

/-- The class visitor on a method cursor runs the method branch. -/
theorem classVisitor_CXXMethod
    (registerClass : Registries → Except String (CppString × Registries))
    (cursor : CXCursor) (client : ClassVisitorClient) (regs : Registries)
    (hkind : cursor.kind = CXCursorKind.CXXMethod) :
    classVisitor registerClass cursor (client, regs) =
      classVisitor.method cursor (classVisitor.friendTick client) regs := by
  unfold classVisitor
  simp [hkind]

/-- The class visitor on a function cursor runs the function branch. -/
theorem classVisitor_FunctionDecl
    (registerClass : Registries → Except String (CppString × Registries))
    (cursor : CXCursor) (client : ClassVisitorClient) (regs : Registries)
    (hkind : cursor.kind = CXCursorKind.FunctionDecl) :
    classVisitor registerClass cursor (client, regs) =
      classVisitor.function cursor (classVisitor.friendTick client) regs := by
  unfold classVisitor
  simp [hkind]

/-- C14: the class visitor on an annotated method cursor with a valid access
specifier, whose result type registers: with storage class none or static the
method is appended with `method_type` `Method` or `Static`, with the `const`,
`virtual` and `pure` flags of the cursor, and the children are visited; with
any other storage class the visitor throws, which ends the visit of the
cursor. -/
theorem classVisitor_method_storage
    (registerClass : Registries → Except String (CppString × Registries))
    (cursor : CXCursor) (client : ClassVisitorClient) (regs : Registries)
    (attrs : List LeonAttr) (return_type : CppString) (type_nodes : UnorderedMap TypeNode)
    (hkind : cursor.kind = CXCursorKind.CXXMethod)
    (hattrs : ParseCXCursorAttributes cursor = Except.ok attrs) (hne : attrs ≠ [])
    (haccess : clang_getCXXAccessSpecifier cursor ≠
      CX_CXXAccessSpecifier.CX_CXXInvalidAccessSpecifier)
    (htype : RegisterType regs.type_nodes (clang_getCursorResultType cursor) =
      Except.ok (return_type, type_nodes)) :
    (∀ method_type,
      (clang_Cursor_getStorageClass cursor = CX_StorageClass.CX_SC_None ∧
          method_type = MethodType.Method) ∨
        (clang_Cursor_getStorageClass cursor = CX_StorageClass.CX_SC_Static ∧
          method_type = MethodType.Static) →
      classVisitor registerClass cursor (client, regs) =
        Except.ok (CXChildVisitResult.Recurse,
          { classVisitor.friendTick client with
            node := { client.node with
              methods := client.node.methods ++
                [{ name := cursor.spelling
                   method_type := method_type
                   q_const := clang_CXXMethod_isConst cursor
                   q_virtual := clang_CXXMethod_isVirtual cursor
                   q_pure := clang_CXXMethod_isPureVirtual cursor
                   attrs := attrs
                   visibility := accessVisibility (clang_getCXXAccessSpecifier cursor)
                   return_type := return_type }] }
            current_method := some client.node.methods.length },
          { regs with type_nodes := type_nodes })) ∧
    (clang_Cursor_getStorageClass cursor ≠ CX_StorageClass.CX_SC_None →
      clang_Cursor_getStorageClass cursor ≠ CX_StorageClass.CX_SC_Static →
      ∃ e, classVisitor registerClass cursor (client, regs) = Except.error e ∧
        RegisterClass.visitCursor cursor (client, regs) = Except.error e) := by
  have hlen : attrs.length ≠ 0 := fun h => hne (List.length_eq_zero.mp h)
  have hvis := classVisitor.visibility_valid (clang_getCXXAccessSpecifier cursor)
    "Unexpected access specifier for method" haccess
  have hnode := classVisitor.friendTick_node client
  have hbranch : ∀ registerClass2 : Registries → Except String (CppString × Registries),
      classVisitor registerClass2 cursor (client, regs) =
      match classVisitor.methodType (clang_Cursor_getStorageClass cursor) with
      | Except.error e => Except.error e
      | Except.ok method_type =>
        classVisitor.emplaceMethod cursor
          { name := cursor.spelling, attrs := attrs,
            visibility := accessVisibility (clang_getCXXAccessSpecifier cursor),
            method_type := method_type,
            q_const := clang_CXXMethod_isConst cursor,
            q_virtual := clang_CXXMethod_isVirtual cursor,
            q_pure := clang_CXXMethod_isPureVirtual cursor }
          (classVisitor.friendTick client) regs := by
    intro registerClass2
    rw [classVisitor_CXXMethod _ _ _ _ hkind]
    unfold classVisitor.method
    simp only [hattrs, if_pos hlen, hvis]
  refine ⟨?_, ?_⟩
  · intro method_type hstorage
    rw [hbranch]
    have hmt : classVisitor.methodType (clang_Cursor_getStorageClass cursor) =
        Except.ok method_type := by
      rcases hstorage with ⟨hs, hm⟩ | ⟨hs, hm⟩ <;> rw [hs, hm] <;> rfl
    rw [hmt]
    simp only [classVisitor.emplaceMethod, htype, hnode]
  · intro hnone hstatic
    have hmt : ∃ e, classVisitor.methodType (clang_Cursor_getStorageClass cursor) =
        Except.error e := by
      cases hs : clang_Cursor_getStorageClass cursor <;>
        first
          | exact ⟨_, rfl⟩
          | exact absurd hs hnone
          | exact absurd hs hstatic
    obtain ⟨e, he⟩ := hmt
    have herr : ∀ registerClass2 : Registries → Except String (CppString × Registries),
        classVisitor registerClass2 cursor (client, regs) = Except.error e := by
      intro registerClass2
      rw [hbranch, he]
    exact ⟨e, herr _, RegisterClass.visitCursor_error _ _ _ (herr _)⟩

theorem classVisitor_method_storage_witness :
    (Static_cursor.kind = CXCursorKind.CXXMethod ∧
      ParseCXCursorAttributes Static_cursor = Except.ok [{ type := LeonAttrType.Flag }] ∧
      clang_getCXXAccessSpecifier Static_cursor = CX_CXXAccessSpecifier.CX_CXXPublic ∧
      clang_Cursor_getStorageClass Static_cursor = CX_StorageClass.CX_SC_Static ∧
      RegisterType ({} : Registries).type_nodes (clang_getCursorResultType Static_cursor) =
        Except.ok ("void".toList, type_nodes_void)) ∧
    classVisitor (fun regs => Except.ok ([], regs)) Static_cursor ({}, {}) =
      Except.ok (CXChildVisitResult.Recurse,
        { node := { methods :=
            [{ name := "Static".toList
               method_type := MethodType.Static
               attrs := [{ type := LeonAttrType.Flag }]
               visibility := Visibility.Public
               return_type := "void".toList }] }
          current_method := some 0 },
        { type_nodes := type_nodes_void }) :=
  ⟨⟨rfl, rfl, rfl, rfl, rfl⟩,
    (classVisitor_method_storage (fun regs => Except.ok ([], regs)) Static_cursor {} {}
      [{ type := LeonAttrType.Flag }] "void".toList type_nodes_void rfl rfl (by decide)
      (by decide) rfl).1 MethodType.Static (Or.inr ⟨rfl, rfl⟩)⟩

/-- C15: the class visitor on an annotated function cursor with a valid access
specifier, whose result type registers: when the friend window is active (the
counter `friend_decl`, set to 2 by a `FriendDecl`, is 2 when the cursor is
visited) the function is appended as a method of type `Friend` and its
children are visited; otherwise the visitor throws "FunctionDecl in class
without FriendDecl", which ends the visit of the cursor.  The class `FriendHost`
with the friend function `Friend` of the test header gets exactly one method,
of type `Friend`, without arguments. -/
theorem classVisitor_function_friend
    (registerClass : Registries → Except String (CppString × Registries))
    (cursor : CXCursor) (client : ClassVisitorClient) (regs : Registries)
    (attrs : List LeonAttr) (return_type : CppString) (type_nodes : UnorderedMap TypeNode)
    (hkind : cursor.kind = CXCursorKind.FunctionDecl)
    (hattrs : ParseCXCursorAttributes cursor = Except.ok attrs) (hne : attrs ≠ [])
    (haccess : clang_getCXXAccessSpecifier cursor ≠
      CX_CXXAccessSpecifier.CX_CXXInvalidAccessSpecifier)
    (htype : RegisterType regs.type_nodes (clang_getCursorResultType cursor) =
      Except.ok (return_type, type_nodes)) :
    (2 ≤ client.friend_decl →
      classVisitor registerClass cursor (client, regs) =
        Except.ok (CXChildVisitResult.Recurse,
          { node := { client.node with
              methods := client.node.methods ++
                [{ name := cursor.spelling
                   method_type := MethodType.Friend
                   attrs := attrs
                   visibility := accessVisibility (clang_getCXXAccessSpecifier cursor)
                   return_type := return_type }] }
            friend_decl := client.friend_decl - 1
            current_method := some client.node.methods.length },
          { regs with type_nodes := type_nodes })) ∧
    (client.friend_decl < 2 →
      classVisitor registerClass cursor (client, regs) =
        Except.error "FunctionDecl in class without FriendDecl" ∧
      RegisterClass.visitCursor cursor (client, regs) =
        Except.error "FunctionDecl in class without FriendDecl") ∧
    RegisterClass {} FriendHost_cursor =
      Except.ok ("MyCoolGame::Component::FriendHost".toList, registries_FriendHost) := by
  have hlen : attrs.length ≠ 0 := fun h => hne (List.length_eq_zero.mp h)
  have hvis := classVisitor.visibility_valid (clang_getCXXAccessSpecifier cursor)
    "Unexpected access specifier for function" haccess
  have hbranch : ∀ registerClass2 : Registries → Except String (CppString × Registries),
      classVisitor registerClass2 cursor (client, regs) =
      if (classVisitor.friendTick client).friend_decl ≠ 0 then
        classVisitor.emplaceMethod cursor
          { name := cursor.spelling, attrs := attrs,
            visibility := accessVisibility (clang_getCXXAccessSpecifier cursor),
            method_type := MethodType.Friend }
          (classVisitor.friendTick client) regs
      else Except.error "FunctionDecl in class without FriendDecl" := by
    intro registerClass2
    rw [classVisitor_FunctionDecl _ _ _ _ hkind]
    unfold classVisitor.function
    simp only [hattrs, if_pos hlen, hvis]
  refine ⟨?_, ?_, rfl⟩
  · intro hwindow
    have htick : classVisitor.friendTick client =
        { client with friend_decl := client.friend_decl - 1 } := by
      unfold classVisitor.friendTick
      rw [if_pos (by omega)]
    rw [hbranch, htick]
    rw [if_pos (show client.friend_decl - 1 ≠ 0 by omega)]
    simp only [classVisitor.emplaceMethod, htype]
  · intro hwindow
    have hzero : (classVisitor.friendTick client).friend_decl = 0 := by
      unfold classVisitor.friendTick
      split_ifs with h0
      · show client.friend_decl - 1 = 0
        omega
      · omega
    have herr : ∀ registerClass2 : Registries → Except String (CppString × Registries),
        classVisitor registerClass2 cursor (client, regs) =
          Except.error "FunctionDecl in class without FriendDecl" := by
      intro registerClass2
      rw [hbranch, if_neg (by rw [hzero]; exact fun h => h rfl)]
    exact ⟨herr _, RegisterClass.visitCursor_error _ _ _ (herr _)⟩

theorem classVisitor_function_friend_witness :
    (Friend_cursor.kind = CXCursorKind.FunctionDecl ∧
      ParseCXCursorAttributes Friend_cursor = Except.ok [{ type := LeonAttrType.Flag }] ∧
      clang_getCXXAccessSpecifier Friend_cursor = CX_CXXAccessSpecifier.CX_CXXPublic ∧
      RegisterType ({} : Registries).type_nodes (clang_getCursorResultType Friend_cursor) =
        Except.ok ("void".toList, type_nodes_void)) ∧
    classVisitor (fun regs => Except.ok ([], regs)) Friend_cursor ({ friend_decl := 2 }, {}) =
      Except.ok (CXChildVisitResult.Recurse,
        { node := { methods :=
            [{ name := "Friend".toList
               method_type := MethodType.Friend
               attrs := [{ type := LeonAttrType.Flag }]
               visibility := Visibility.Public
               return_type := "void".toList }] }
          friend_decl := 1
          current_method := some 0 },
        { type_nodes := type_nodes_void }) ∧
    classVisitor (fun regs => Except.ok ([], regs)) Friend_cursor ({ friend_decl := 0 }, {}) =
      Except.error "FunctionDecl in class without FriendDecl" :=
  ⟨⟨rfl, rfl, rfl, rfl⟩,
    (classVisitor_function_friend (fun regs => Except.ok ([], regs)) Friend_cursor
      { friend_decl := 2 } {} [{ type := LeonAttrType.Flag }] "void".toList type_nodes_void
      rfl rfl (by decide) (by decide) rfl).1 (by decide),
    ((classVisitor_function_friend (fun regs => Except.ok ([], regs)) Friend_cursor
      { friend_decl := 0 } {} [{ type := LeonAttrType.Flag }] "void".toList type_nodes_void
      rfl rfl (by decide) (by decide) rfl).2.1 (by decide)).1⟩

/-- C16: on the class `Outer`, which has no base specifier among its children
and holds the class template `Inner` with the base `WeirdUnknownClass`,
`RegisterClass` records that base as a base of `Outer`: the visitor descends
into the class template. -/
theorem RegisterClass_records_bases_of_nested_template :
    RegisterClass {} Outer_cursor =
      Except.ok ("MyCoolGame::Outer".toList, registries_Outer) ∧
    (registries_Outer.class_nodes.find "MyCoolGame::Outer".toList).map
      (fun node => node.bases) =
        some [{ base_class := "MyCoolGame::WeirdUnknownClass".toList,
                visibility := Visibility.Public }] ∧
    Outer_cursor.children.filter (fun child => child.kind = CXCursorKind.CXXBaseSpecifier)
      = [] :=
  ⟨rfl, by decide, rfl⟩

/-! ## Proofs: the bases of a class -/

theorem classVisitor.base_bases (cursor : CXCursor) (client client2 : ClassVisitorClient)
    (regs regs2 : Registries) (result : CXChildVisitResult)
    (h : classVisitor.base cursor client regs = Except.ok (result, client2, regs2)) :
    result = CXChildVisitResult.Continue ∧
      client2.node.bases = client.node.bases ++ [baseOf cursor] := by
  unfold classVisitor.base at h
  cases haccess : clang_getCXXAccessSpecifier cursor <;> rw [haccess] at h <;>
    simp only [classVisitor.visibility] at h <;>
    first
      | (simp only [reduceCtorEq] at h)
      | (split_ifs at h
         simp only [Except.ok.injEq, Prod.mk.injEq] at h
         obtain ⟨hresult, hclient, -⟩ := h
         rw [← hclient]
         exact ⟨hresult.symm, by simp only [baseOf, haccess, accessVisibility]⟩)

theorem classVisitor.member_bases (member_type : MemberType) (message : String)
    (cursor : CXCursor) (client client2 : ClassVisitorClient)
    (regs regs2 : Registries) (result : CXChildVisitResult)
    (h : classVisitor.member member_type message cursor client regs =
      Except.ok (result, client2, regs2)) :
    result = CXChildVisitResult.Continue ∧ client2.node.bases = client.node.bases := by
  unfold classVisitor.member at h
  simp only [] at h
  cases hattrs : ParseCXCursorAttributes cursor with
  | error e => rw [hattrs] at h; simp at h
  | ok attrs =>
    rw [hattrs] at h
    simp only [] at h
    by_cases hlen : attrs.length ≠ 0
    · rw [if_pos hlen] at h
      cases hvis : classVisitor.visibility (clang_getCXXAccessSpecifier cursor) message with
      | error e => rw [hvis] at h; simp at h
      | ok visibility =>
        rw [hvis] at h
        simp only [] at h
        cases htype : RegisterType regs.type_nodes (clang_getCursorType cursor) with
        | error e => rw [htype] at h; simp at h
        | ok typed =>
          obtain ⟨type, type_nodes⟩ := typed
          rw [htype] at h
          simp only [Except.ok.injEq, Prod.mk.injEq] at h
          obtain ⟨hresult, hclient, -⟩ := h
          rw [← hclient]
          exact ⟨hresult.symm, rfl⟩
    · rw [if_neg hlen] at h
      simp only [Except.ok.injEq, Prod.mk.injEq] at h
      obtain ⟨hresult, hclient, -⟩ := h
      rw [← hclient]
      exact ⟨hresult.symm, rfl⟩

theorem classVisitor.parameter_bases (cursor : CXCursor) (client client2 : ClassVisitorClient)
    (regs regs2 : Registries) (result : CXChildVisitResult)
    (h : classVisitor.parameter cursor client regs = Except.ok (result, client2, regs2)) :
    result = CXChildVisitResult.Continue ∧ client2.node.bases = client.node.bases := by
  unfold classVisitor.parameter at h
  cases hcur : client.current_method with
  | none => rw [hcur] at h; simp at h
  | some index =>
    rw [hcur] at h
    simp only [] at h
    cases htype : RegisterType regs.type_nodes (clang_getCursorType cursor) with
    | error e => rw [htype] at h; simp at h
    | ok typed =>
      obtain ⟨type, type_nodes⟩ := typed
      rw [htype] at h
      simp only [] at h
      cases hattrs : ParseCXCursorAttributes cursor with
      | error e => rw [hattrs] at h; simp at h
      | ok attrs =>
        rw [hattrs] at h
        simp only [Except.ok.injEq, Prod.mk.injEq] at h
        obtain ⟨hresult, hclient, -⟩ := h
        rw [← hclient]
        exact ⟨hresult.symm, rfl⟩

/-- The branches of a function and of a method keep the bases; the children are
visited exactly when the cursor has attributes. -/
theorem classVisitor.function_method_bases (cursor : CXCursor)
    (client client2 : ClassVisitorClient) (regs regs2 : Registries)
    (result : CXChildVisitResult)
    (h : classVisitor.function cursor client regs = Except.ok (result, client2, regs2) ∨
      classVisitor.method cursor client regs = Except.ok (result, client2, regs2)) :
    client2.node.bases = client.node.bases ∧
    ((∃ attr attrs, ParseCXCursorAttributes cursor = Except.ok (attr :: attrs)) ∧
        result = CXChildVisitResult.Recurse ∨
      ParseCXCursorAttributes cursor = Except.ok [] ∧ result = CXChildVisitResult.Continue) := by
  cases hattrs : ParseCXCursorAttributes cursor with
  | error e =>
    rcases h with h | h
    · unfold classVisitor.function at h; rw [hattrs] at h; simp at h
    · unfold classVisitor.method at h; rw [hattrs] at h; simp at h
  | ok attrs =>
    cases attrs with
    | nil =>
      rcases h with h | h
      · unfold classVisitor.function at h
        rw [hattrs] at h
        simp only [List.length_nil, ne_eq, not_true_eq_false, if_false, Except.ok.injEq,
          Prod.mk.injEq] at h
        obtain ⟨hresult, hclient, -⟩ := h
        rw [← hclient]
        exact ⟨rfl, Or.inr ⟨rfl, hresult.symm⟩⟩
      · unfold classVisitor.method at h
        rw [hattrs] at h
        simp only [List.length_nil, ne_eq, not_true_eq_false, if_false, Except.ok.injEq,
          Prod.mk.injEq] at h
        obtain ⟨hresult, hclient, -⟩ := h
        rw [← hclient]
        exact ⟨rfl, Or.inr ⟨rfl, hresult.symm⟩⟩
    | cons attr attrs =>
      have hlen : (attr :: attrs).length ≠ 0 := by simp
      rcases h with h | h
      · unfold classVisitor.function at h
        rw [hattrs] at h
        simp only [] at h
        rw [if_pos hlen] at h
        cases hvis : classVisitor.visibility (clang_getCXXAccessSpecifier cursor)
            "Unexpected access specifier for function" with
        | error e => rw [hvis] at h; simp at h
        | ok visibility =>
          rw [hvis] at h
          simp only [] at h
          split_ifs at h
          obtain ⟨return_type, type_nodes, -, hresult, hclient, -⟩ :=
            classVisitor.emplaceMethod_eq_ok _ _ _ _ _ _ _ h
          rw [hclient]
          exact ⟨rfl, Or.inl ⟨⟨attr, attrs, rfl⟩, hresult⟩⟩
      · unfold classVisitor.method at h
        rw [hattrs] at h
        simp only [] at h
        rw [if_pos hlen] at h
        cases hvis : classVisitor.visibility (clang_getCXXAccessSpecifier cursor)
            "Unexpected access specifier for method" with
        | error e => rw [hvis] at h; simp at h
        | ok visibility =>
          rw [hvis] at h
          simp only [] at h
          cases hstorage : classVisitor.methodType (clang_Cursor_getStorageClass cursor) with
          | error e => rw [hstorage] at h; simp at h
          | ok method_type =>
            rw [hstorage] at h
            simp only [] at h
            obtain ⟨return_type, type_nodes, -, hresult, hclient, -⟩ :=
              classVisitor.emplaceMethod_eq_ok _ _ _ _ _ _ _ h
            rw [hclient]
            exact ⟨rfl, Or.inl ⟨⟨attr, attrs, rfl⟩, hresult⟩⟩

/-- One call of the class visitor: a base specifier is recorded and not
descended into; any other cursor leaves the bases as they are, and the visitor
descends into it exactly when `visitedBaseSpecifiers` does. -/
theorem classVisitor_bases
    (registerClass : Registries → Except String (CppString × Registries))
    (cursor : CXCursor) (client client2 : ClassVisitorClient)
    (regs regs2 : Registries) (result : CXChildVisitResult)
    (h : classVisitor registerClass cursor (client, regs) =
      Except.ok (result, client2, regs2)) :
    (result = CXChildVisitResult.Continue ∧
      client2.node.bases = client.node.bases ++ (visitedBaseSpecifiers cursor).map baseOf) ∨
    (result = CXChildVisitResult.Recurse ∧ client2.node.bases = client.node.bases ∧
      visitedBaseSpecifiers cursor = visitedBaseSpecifiersList cursor.children) := by
  have hnode := classVisitor.friendTick_node client
  cases cursor with
  | mk kind spelling parents evaluate info children =>
    unfold classVisitor at h
    simp only [CXCursor.kind] at h
    by_cases h1 : kind = CXCursorKind.CXXBaseSpecifier
    · rw [if_pos h1] at h
      obtain ⟨hresult, hbases⟩ := classVisitor.base_bases _ _ _ _ _ _ h
      left
      refine ⟨hresult, ?_⟩
      rw [hbases, hnode]
      simp only [visitedBaseSpecifiers, if_pos h1, List.map_cons, List.map_nil]
    · rw [if_neg h1] at h
      by_cases h2 : kind = CXCursorKind.ClassDecl ∨ kind = CXCursorKind.StructDecl
      · rw [if_pos h2] at h
        cases hcall : registerClass regs with
        | error e => rw [hcall] at h; simp at h
        | ok returned =>
          obtain ⟨name, regs1⟩ := returned
          rw [hcall] at h
          simp only [Except.ok.injEq, Prod.mk.injEq] at h
          obtain ⟨hresult, hclient, -⟩ := h
          left
          refine ⟨hresult.symm, ?_⟩
          rw [← hclient, hnode]
          have hskip : kind = CXCursorKind.ClassDecl ∨ kind = CXCursorKind.StructDecl
              ∨ kind = CXCursorKind.EnumDecl ∨ kind = CXCursorKind.FieldDecl
              ∨ kind = CXCursorKind.VarDecl ∨ kind = CXCursorKind.ParmDecl := by
            rcases h2 with h2 | h2
            · exact Or.inl h2
            · exact Or.inr (Or.inl h2)
          simp only [visitedBaseSpecifiers, if_neg h1, if_pos hskip, List.map_nil,
            List.append_nil]
      · rw [if_neg h2] at h
        by_cases h3 : kind = CXCursorKind.EnumDecl
        · rw [if_pos h3] at h
          cases hcall : RegisterEnum regs.enum_nodes
              (CXCursor.mk kind spelling parents evaluate info children) with
          | error e => rw [hcall] at h; simp at h
          | ok returned =>
            obtain ⟨name, enum_nodes⟩ := returned
            rw [hcall] at h
            simp only [Except.ok.injEq, Prod.mk.injEq] at h
            obtain ⟨hresult, hclient, -⟩ := h
            left
            refine ⟨hresult.symm, ?_⟩
            rw [← hclient, hnode]
            have hskip : kind = CXCursorKind.ClassDecl ∨ kind = CXCursorKind.StructDecl
                ∨ kind = CXCursorKind.EnumDecl ∨ kind = CXCursorKind.FieldDecl
                ∨ kind = CXCursorKind.VarDecl ∨ kind = CXCursorKind.ParmDecl :=
              Or.inr (Or.inr (Or.inl h3))
            simp only [visitedBaseSpecifiers, if_neg h1, if_pos hskip, List.map_nil,
              List.append_nil]
        · rw [if_neg h3] at h
          by_cases h4 : kind = CXCursorKind.FieldDecl
          · rw [if_pos h4] at h
            obtain ⟨hresult, hbases⟩ := classVisitor.member_bases _ _ _ _ _ _ _ _ h
            left
            refine ⟨hresult, ?_⟩
            rw [hbases, hnode]
            have hskip : kind = CXCursorKind.ClassDecl ∨ kind = CXCursorKind.StructDecl
                ∨ kind = CXCursorKind.EnumDecl ∨ kind = CXCursorKind.FieldDecl
                ∨ kind = CXCursorKind.VarDecl ∨ kind = CXCursorKind.ParmDecl :=
              Or.inr (Or.inr (Or.inr (Or.inl h4)))
            simp only [visitedBaseSpecifiers, if_neg h1, if_pos hskip, List.map_nil,
              List.append_nil]
          · rw [if_neg h4] at h
            by_cases h5 : kind = CXCursorKind.VarDecl
            · rw [if_pos h5] at h
              obtain ⟨hresult, hbases⟩ := classVisitor.member_bases _ _ _ _ _ _ _ _ h
              left
              refine ⟨hresult, ?_⟩
              rw [hbases, hnode]
              have hskip : kind = CXCursorKind.ClassDecl ∨ kind = CXCursorKind.StructDecl
                  ∨ kind = CXCursorKind.EnumDecl ∨ kind = CXCursorKind.FieldDecl
                  ∨ kind = CXCursorKind.VarDecl ∨ kind = CXCursorKind.ParmDecl :=
                Or.inr (Or.inr (Or.inr (Or.inr (Or.inl h5))))
              simp only [visitedBaseSpecifiers, if_neg h1, if_pos hskip, List.map_nil,
                List.append_nil]
            · rw [if_neg h5] at h
              have hfm : ∀ (hkind : kind = CXCursorKind.FunctionDecl ∨
                  kind = CXCursorKind.CXXMethod)
                  (hcall : classVisitor.function
                      (CXCursor.mk kind spelling parents evaluate info children)
                      (classVisitor.friendTick client) regs =
                        Except.ok (result, client2, regs2) ∨
                    classVisitor.method
                      (CXCursor.mk kind spelling parents evaluate info children)
                      (classVisitor.friendTick client) regs =
                        Except.ok (result, client2, regs2)),
                  (result = CXChildVisitResult.Continue ∧
                    client2.node.bases = client.node.bases ++
                      (visitedBaseSpecifiers
                        (CXCursor.mk kind spelling parents evaluate info children)).map baseOf) ∨
                  (result = CXChildVisitResult.Recurse ∧
                    client2.node.bases = client.node.bases ∧
                    visitedBaseSpecifiers
                        (CXCursor.mk kind spelling parents evaluate info children) =
                      visitedBaseSpecifiersList
                        (CXCursor.mk kind spelling parents evaluate info children).children) := by
                intro hkind hcall
                have hnoskip : ¬(kind = CXCursorKind.ClassDecl ∨ kind = CXCursorKind.StructDecl
                    ∨ kind = CXCursorKind.EnumDecl ∨ kind = CXCursorKind.FieldDecl
                    ∨ kind = CXCursorKind.VarDecl ∨ kind = CXCursorKind.ParmDecl) := by
                  rcases hkind with hkind | hkind <;> rw [hkind] <;> decide
                obtain ⟨hbases, ⟨⟨attr, attrs, hattrs⟩, hresult⟩ | ⟨hattrs, hresult⟩⟩ :=
                  classVisitor.function_method_bases _ _ _ _ _ _ hcall
                · right
                  refine ⟨hresult, by rw [hbases, hnode], ?_⟩
                  simp only [visitedBaseSpecifiers, if_neg h1, if_neg hnoskip, if_pos hkind,
                    hattrs, CXCursor.children]
                · left
                  refine ⟨hresult, ?_⟩
                  rw [hbases, hnode]
                  simp only [visitedBaseSpecifiers, if_neg h1, if_neg hnoskip, if_pos hkind,
                    hattrs, List.map_nil, List.append_nil]
              by_cases h6 : kind = CXCursorKind.FunctionDecl
              · rw [if_pos h6] at h
                exact hfm (Or.inl h6) (Or.inl h)
              · rw [if_neg h6] at h
                by_cases h7 : kind = CXCursorKind.CXXMethod
                · rw [if_pos h7] at h
                  exact hfm (Or.inr h7) (Or.inr h)
                · rw [if_neg h7] at h
                  by_cases h8 : kind = CXCursorKind.ParmDecl
                  · rw [if_pos h8] at h
                    obtain ⟨hresult, hbases⟩ := classVisitor.parameter_bases _ _ _ _ _ _ h
                    left
                    refine ⟨hresult, ?_⟩
                    rw [hbases, hnode]
                    have hskip : kind = CXCursorKind.ClassDecl ∨ kind = CXCursorKind.StructDecl
                        ∨ kind = CXCursorKind.EnumDecl ∨ kind = CXCursorKind.FieldDecl
                        ∨ kind = CXCursorKind.VarDecl ∨ kind = CXCursorKind.ParmDecl :=
                      Or.inr (Or.inr (Or.inr (Or.inr (Or.inr h8))))
                    simp only [visitedBaseSpecifiers, if_neg h1, if_pos hskip, List.map_nil,
                      List.append_nil]
                  · rw [if_neg h8] at h
                    have hnoskip : ¬(kind = CXCursorKind.ClassDecl ∨
                        kind = CXCursorKind.StructDecl
                        ∨ kind = CXCursorKind.EnumDecl ∨ kind = CXCursorKind.FieldDecl
                        ∨ kind = CXCursorKind.VarDecl ∨ kind = CXCursorKind.ParmDecl) := by
                      rintro (hk | hk | hk | hk | hk | hk)
                      · exact h2 (Or.inl hk)
                      · exact h2 (Or.inr hk)
                      · exact h3 hk
                      · exact h4 hk
                      · exact h5 hk
                      · exact h8 hk
                    have hnofm : ¬(kind = CXCursorKind.FunctionDecl ∨
                        kind = CXCursorKind.CXXMethod) := by
                      rintro (hk | hk)
                      · exact h6 hk
                      · exact h7 hk
                    have hvisited : visitedBaseSpecifiers
                        (CXCursor.mk kind spelling parents evaluate info children) =
                        visitedBaseSpecifiersList
                          (CXCursor.mk kind spelling parents evaluate info children).children := by
                      simp only [visitedBaseSpecifiers, if_neg h1, if_neg hnoskip, if_neg hnofm,
                        CXCursor.children]
                    right
                    split_ifs at h <;>
                      (simp only [Except.ok.injEq, Prod.mk.injEq] at h
                       obtain ⟨hresult, hclient, -⟩ := h
                       refine ⟨hresult.symm, ?_, hvisited⟩
                       rw [← hclient]
                       exact congrArg ClassNode.bases hnode)

/-- The traversal of `RegisterClass` is never broken off, and it appends to the
bases of the client node the base of every base specifier that the visitor is
called on, in order. -/
theorem RegisterClass.visitList_bases :
    ∀ children client regs stopped client2 regs2,
      RegisterClass.visitList children (client, regs) = Except.ok (stopped, client2, regs2) →
      stopped = false ∧ client2.node.bases =
        client.node.bases ++ (visitedBaseSpecifiersList children).map baseOf := by
  refine (CXCursor.tree_induction
    (fun cursor => ∀ client regs stopped client2 regs2,
      RegisterClass.visitCursor cursor (client, regs) = Except.ok (stopped, client2, regs2) →
      stopped = false ∧ client2.node.bases =
        client.node.bases ++ (visitedBaseSpecifiers cursor).map baseOf)
    (fun children => ∀ client regs stopped client2 regs2,
      RegisterClass.visitList children (client, regs) = Except.ok (stopped, client2, regs2) →
      stopped = false ∧ client2.node.bases =
        client.node.bases ++ (visitedBaseSpecifiersList children).map baseOf)
    ?_ ?_ ?_).2
  · intro kind spelling parents evaluate info children ih client regs stopped client2 regs2 h
    simp only [RegisterClass.visitCursor] at h
    cases hv : classVisitor
        (RegisterClass.run (fun inner => RegisterClass.visitList children inner)
          (CXCursor.mk kind spelling parents evaluate info children))
        (CXCursor.mk kind spelling parents evaluate info children) (client, regs) with
    | error e => rw [hv] at h; simp at h
    | ok visited =>
      obtain ⟨answer, client1, regs1⟩ := visited
      rw [hv] at h
      rcases classVisitor_bases _ _ _ _ _ _ _ hv with ⟨hanswer, hbases⟩ | ⟨hanswer, hbases, hvis⟩
      · subst hanswer
        simp only [Except.ok.injEq, Prod.mk.injEq] at h
        obtain ⟨hstopped, hclient, -⟩ := h
        rw [← hclient]
        exact ⟨hstopped.symm, hbases⟩
      · subst hanswer
        simp only [] at h
        obtain ⟨hstopped, hbases2⟩ := ih client1 regs1 stopped client2 regs2 h
        refine ⟨hstopped, ?_⟩
        rw [hbases2, hbases, hvis]
        rfl
  · intro client regs stopped client2 regs2 h
    simp only [RegisterClass.visitList, Except.ok.injEq, Prod.mk.injEq] at h
    rw [← h.2.1]
    exact ⟨h.1.symm, by simp [visitedBaseSpecifiersList]⟩
  · intro cursor siblings ihc ihs client regs stopped client2 regs2 h
    simp only [RegisterClass.visitList] at h
    cases hv : RegisterClass.visitCursor cursor (client, regs) with
    | error e => rw [hv] at h; simp at h
    | ok visited =>
      obtain ⟨flag, client1, regs1⟩ := visited
      obtain ⟨hflag, hbases1⟩ := ihc client regs flag client1 regs1 hv
      rw [hv] at h
      subst hflag
      simp only [] at h
      obtain ⟨hstopped, hbases2⟩ := ihs client1 regs1 stopped client2 regs2 h
      refine ⟨hstopped, ?_⟩
      rw [hbases2, hbases1]
      simp [visitedBaseSpecifiersList]

/-- The bases that `RegisterClass` records for an annotated, not yet registered
class: one base per base specifier that the visitor is called on, in order,
with the visibility of its access specifier and the name of the declaration of
its type; the class registry is not consulted for them. -/
theorem RegisterClass_bases (regs regs2 : Registries) (cursor : CXCursor) (name : CppString)
    (attrs : List LeonAttr)
    (hnew : regs.class_nodes.find (GetCXCursorName cursor) = none)
    (hattrs : ParseCXCursorAttributes cursor = Except.ok attrs) (hne : attrs ≠ [])
    (h : RegisterClass regs cursor = Except.ok (name, regs2)) :
    ∃ node, regs2.class_nodes.find (GetCXCursorName cursor) = some node ∧
      node.bases = (visitedBaseSpecifiersList cursor.children).map baseOf := by
  obtain ⟨-, ⟨-, hfound | hempty⟩ |
      ⟨attrs2, class_type, stopped, client, regs1, -, -, -, -, hv, hregs⟩⟩ :=
    RegisterClass.run_eq_ok _ _ _ _ _ h
  · rw [hnew] at hfound
    cases hfound
  · rw [hattrs] at hempty
    simp only [Except.ok.injEq] at hempty
    exact absurd hempty hne
  · refine ⟨_, by rw [hregs]; exact UnorderedMap.find_assign_self _ _ _, ?_⟩
    have := (RegisterClass.visitList_bases _ _ _ _ _ _ hv).2
    simpa using this

/-- When the visitor is called on no base specifier below a child of the class
that is not one itself, the recorded bases are those of the base specifiers
among the children of the class. -/
theorem visitedBaseSpecifiersList_children (children : List CXCursor)
    (h : ∀ child ∈ children, child.kind ≠ CXCursorKind.CXXBaseSpecifier →
      visitedBaseSpecifiers child = []) :
    visitedBaseSpecifiersList children =
      children.filter (fun child => child.kind = CXCursorKind.CXXBaseSpecifier) := by
  induction children with
  | nil => rfl
  | cons child children ih =>
    have ih2 := ih (fun c hc => h c (List.mem_cons_of_mem _ hc))
    by_cases hk : child.kind = CXCursorKind.CXXBaseSpecifier
    · have hself : visitedBaseSpecifiers child = [child] := by
        cases child with
        | mk kind spelling parents evaluate info grandchildren =>
          simp only [CXCursor.kind] at hk
          simp only [visitedBaseSpecifiers, if_pos hk]
      rw [List.filter_cons_of_pos (by simpa using hk)]
      simp only [visitedBaseSpecifiersList, hself, ih2, List.singleton_append]
    · rw [List.filter_cons_of_neg (by simpa using hk)]
      simp only [visitedBaseSpecifiersList, h child (List.mem_cons_self _ _) hk, ih2,
        List.nil_append]

/-- The bases of `AppleComponent`: `WeirdClass` and `WeirdUnknownClass`, both
public, in the order of the declaration; `WeirdUnknownClass`, which has no
annotation, is no key of the class registry. -/
theorem AppleComponent_bases_registered :
    RegisterClass registries_WeirdClass AppleComponent_bases_cursor =
      Except.ok ("MyCoolGame::Component::AppleComponent".toList,
        registries_AppleComponent_bases) ∧
    (registries_AppleComponent_bases.class_nodes.find
      "MyCoolGame::Component::AppleComponent".toList).map (fun node => node.bases) =
        some [{ base_class := "MyCoolGame::WeirdClass".toList,
                visibility := Visibility.Public },
              { base_class := "MyCoolGame::WeirdUnknownClass".toList,
                visibility := Visibility.Public }] ∧
    (registries_AppleComponent_bases.class_nodes.find
      "MyCoolGame::WeirdClass".toList).isSome = true ∧
    registries_AppleComponent_bases.class_nodes.find
      "MyCoolGame::WeirdUnknownClass".toList = none :=
  ⟨rfl, by decide, by decide, by decide⟩

/-! ## Proofs: idempotence, function types and cursor names -/

/-- The function `RegisterType` on a type whose name is a key of the
registry. -/
theorem RegisterType_of_registered (type_nodes : UnorderedMap TypeNode) (cx_type : CXType)
    (key : CppString) (node : TypeNode)
    (hname : GetCXTypeName cx_type = Except.ok key)
    (hfound : type_nodes.find key = some node) :
    RegisterType type_nodes cx_type = Except.ok (key, type_nodes) := by
  obtain ⟨fuel, hfuel⟩ : ∃ fuel, RegisterType.fuel cx_type = fuel + 1 :=
    ⟨RegisterType.fuel cx_type - 1, by unfold RegisterType.fuel; omega⟩
  unfold RegisterType
  rw [hfuel, RegisterType.go_succ]
  unfold RegisterType.body
  rw [hname]
  simp only []
  rw [hfound]
  rfl

/-- The function `RegisterType` on a type that has no name. -/
theorem RegisterType_of_error (type_nodes : UnorderedMap TypeNode) (cx_type : CXType)
    (e : String) (hname : GetCXTypeName cx_type = Except.error e) :
    RegisterType type_nodes cx_type = Except.error e := by
  obtain ⟨fuel, hfuel⟩ : ∃ fuel, RegisterType.fuel cx_type = fuel + 1 :=
    ⟨RegisterType.fuel cx_type - 1, by unfold RegisterType.fuel; omega⟩
  unfold RegisterType
  rw [hfuel, RegisterType.go_succ]
  unfold RegisterType.body
  rw [hname]
  rfl

/-- C21: `RegisterType` on a type whose canonical name is a key of the type
registry returns that key and the registry as it was; so a second call on the
same type returns the key of the first and leaves the registry of the first. -/
theorem RegisterType_idempotent (type_nodes : UnorderedMap TypeNode) (cx_type : CXType)
    (key : CppString) (hname : GetCXTypeName cx_type = Except.ok key) :
    (∀ node, type_nodes.find key = some node →
      RegisterType type_nodes cx_type = Except.ok (key, type_nodes)) ∧
    (∀ key1 type_nodes1, RegisterType type_nodes cx_type = Except.ok (key1, type_nodes1) →
      key1 = key ∧ RegisterType type_nodes1 cx_type = Except.ok (key, type_nodes1)) := by
  refine ⟨fun node hfound => RegisterType_of_registered _ _ _ node hname hfound, ?_⟩
  intro key1 type_nodes1 h
  obtain ⟨hname1, -, hsome, -⟩ := RegisterType.go_spec _ _ _ _ _ (RegisterType_eq_ok _ _ _ _ h)
  rw [hname] at hname1
  simp only [Except.ok.injEq] at hname1
  subst hname1
  obtain ⟨node, hnode⟩ := Option.isSome_iff_exists.mp hsome
  exact ⟨rfl, RegisterType_of_registered _ _ _ node hname hnode⟩

theorem RegisterType_idempotent_witness :
    GetCXTypeName type_const_volatile_int_ptr_const_ref =
      Except.ok "const volatile int *const &".toList ∧
    RegisterType UnorderedMap.empty type_const_volatile_int_ptr_const_ref =
      Except.ok ("const volatile int *const &".toList, registry_after_coretype2) ∧
    RegisterType registry_after_coretype2 type_const_volatile_int_ptr_const_ref =
      Except.ok ("const volatile int *const &".toList, registry_after_coretype2) :=
  ⟨rfl, rfl,
    ((RegisterType_idempotent UnorderedMap.empty type_const_volatile_int_ptr_const_ref
      "const volatile int *const &".toList rfl).2 _ _ rfl).2⟩

/-- C22: when the root of a type has a function-type shape, a positive number
of argument types or a valid result type, `GetCXTypeName` throws "Function
types currently unsupported: " followed by the spelling of the root, and so
does `RegisterType`, on every registry. -/
theorem GetCXTypeName_function_type (cx_type : CXType)
    (h : (GetCXTypeRoot cx_type).data.numArgTypes > 0 ∨
      (GetCXTypeRoot cx_type).data.resultTypeKind ≠ CXTypeKind.Invalid) :
    GetCXTypeName cx_type =
      Except.error ("Function types currently unsupported: " ++
        String.mk (clang_getTypeSpelling (GetCXTypeRoot cx_type))) ∧
    ∀ type_nodes, RegisterType type_nodes cx_type =
      Except.error ("Function types currently unsupported: " ++
        String.mk (clang_getTypeSpelling (GetCXTypeRoot cx_type))) := by
  have hname : GetCXTypeName cx_type =
      Except.error ("Function types currently unsupported: " ++
        String.mk (clang_getTypeSpelling (GetCXTypeRoot cx_type))) := by
    have heq := GetCXTypeName_eq cx_type
    unfold GetCXTypeName.body at heq
    simp only [CheckCXType, if_pos h, Option.some.injEq] at heq
    exact heq
  exact ⟨hname, fun type_nodes => RegisterType_of_error type_nodes cx_type _ hname⟩

theorem GetCXTypeName_function_type_witness :
    (GetCXTypeRoot type_pointer_to_function = type_void_of_int ∧
      (GetCXTypeRoot type_pointer_to_function).data.numArgTypes = 1) ∧
    GetCXTypeName type_pointer_to_function =
      Except.error "Function types currently unsupported: void (int)" ∧
    ∀ type_nodes, RegisterType type_nodes type_pointer_to_function =
      Except.error "Function types currently unsupported: void (int)" :=
  ⟨⟨rfl, rfl⟩, GetCXTypeName_function_type type_pointer_to_function (Or.inl (by decide))⟩

theorem GetCXCursorName.loop_eq (parents : List (CXCursorKind × CppString)) :
    ∀ name : CppString,
      GetCXCursorName.loop parents name =
        qualifiedPrefix (parents.takeWhile
          (fun parent => !(clang_isInvalid parent.1 || clang_isTranslationUnit parent.1)))
          ++ name := by
  induction parents with
  | nil => intro name; rfl
  | cons parent parents ih =>
    intro name
    obtain ⟨kind, spelling⟩ := parent
    simp only [GetCXCursorName.loop]
    by_cases hend : (clang_isInvalid kind || clang_isTranslationUnit kind) = true
    · rw [if_pos hend, List.takeWhile_cons_of_neg
        (by show ¬(!(clang_isInvalid kind || clang_isTranslationUnit kind)) = true
            rw [hend]; decide)]
      rfl
    · have hcont : (clang_isInvalid kind || clang_isTranslationUnit kind) = false :=
        Bool.eq_false_iff.mpr hend
      rw [if_neg hend, List.takeWhile_cons_of_pos
        (by show (!(clang_isInvalid kind || clang_isTranslationUnit kind)) = true
            rw [hcont]; rfl)]
      by_cases hun : clang_isUnexposed kind = true
      · rw [if_pos hun, ih]
        simp only [qualifiedPrefix]
        rw [List.filter_cons_of_neg
          (by show ¬(!clang_isUnexposed kind) = true
              rw [hun]; decide)]
      · have hexposed : clang_isUnexposed kind = false := Bool.eq_false_iff.mpr hun
        rw [if_neg hun, ih]
        simp only [qualifiedPrefix]
        rw [List.filter_cons_of_pos
          (by show (!clang_isUnexposed kind) = true
              rw [hexposed]; rfl)]
        simp only [List.reverse_cons, List.map_append, List.map_cons, List.map_nil,
          List.flatten_append, List.flatten_cons, List.flatten_nil, List.append_nil,
          List.append_assoc]

/-- C25: the name that `GetCXCursorName` returns is the spelling of the cursor
preceded, for each exposed semantic parent up to the translation unit or the
null cursor, outermost first, by the spelling of the parent and `::`; an
unexposed parent contributes nothing.  The class `AppleComponent` of the test
header is named `MyCoolGame::Component::AppleComponent`. -/
theorem GetCXCursorName_qualified :
    (∀ cursor : CXCursor,
      GetCXCursorName cursor =
        qualifiedPrefix (semanticParentChain cursor) ++ cursor.spelling) ∧
    GetCXCursorName AppleComponent_bases_cursor =
      "MyCoolGame::Component::AppleComponent".toList :=
  ⟨fun cursor => GetCXCursorName.loop_eq cursor.semanticParents cursor.spelling, rfl⟩

/-! ## Proofs: template arguments in a canonical name -/

/-- One iteration of the template argument loop on an argument that has a
text. -/
theorem GetCXTypeName.templateLoop_step (cursor : CXCursor) (remaining t : Nat)
    (global_name text : CppString) (h : templateArgumentText cursor t = some text) :
    GetCXTypeName.templateLoop (fun argument => some (GetCXTypeName argument)) cursor
        (remaining + 1) t global_name =
      GetCXTypeName.templateLoop (fun argument => some (GetCXTypeName argument)) cursor
        remaining (t + 1)
        ((if t ≠ 0 then global_name ++ ", ".toList else global_name) ++ text) := by
  unfold templateArgumentText at h
  rw [GetCXTypeName.templateLoop]
  cases hk : clang_Cursor_getTemplateArgumentKind cursor t <;> rw [hk] at h <;>
    simp only [reduceCtorEq, Option.some.injEq] at h
  · cases hn : GetCXTypeName (clang_Cursor_getTemplateArgumentType cursor t) with
    | error e => rw [hn] at h; simp at h
    | ok name =>
      rw [hn] at h
      simp only [Option.some.injEq] at h
      subst h
      rfl
  · subst h; rfl
  · subst h; rfl

/-- The template argument loop from a position after the first: every text is
preceded by a comma and a space. -/
theorem GetCXTypeName.templateLoop_texts (cursor : CXCursor) (texts : List CppString) :
    ∀ (t : Nat) (global_name : CppString), 0 < t →
      (∀ i (h : i < texts.length), templateArgumentText cursor (t + i) = some texts[i]) →
      GetCXTypeName.templateLoop (fun argument => some (GetCXTypeName argument)) cursor
          texts.length t global_name =
        some (Except.ok
          (global_name ++ (texts.map (fun text => ", ".toList ++ text)).flatten)) := by
  induction texts with
  | nil =>
    intro t global_name _ _
    simp [GetCXTypeName.templateLoop]
  | cons text texts ih =>
    intro t global_name ht h
    have h0 := h 0 (by simp)
    simp only [Nat.add_zero, List.getElem_cons_zero] at h0
    rw [List.length_cons, GetCXTypeName.templateLoop_step _ _ _ _ _ h0,
      if_pos (by omega), ih (t + 1) _ (by omega)]
    · simp only [List.map_cons, List.flatten_cons, List.append_assoc]
    · intro i hi
      have := h (i + 1) (by simp; omega)
      simp only [List.getElem_cons_succ] at this
      rw [← this]
      congr 1
      omega

theorem intercalate_cons (sep text : CppString) (texts : List CppString) :
    sep.intercalate (text :: texts) =
      text ++ (texts.map (fun other => sep ++ other)).flatten := by
  induction texts generalizing text with
  | nil => simp [List.intercalate]
  | cons other texts ih =>
    have := ih other
    simp only [List.intercalate] at this ⊢
    simp only [List.intersperse_cons_cons, List.flatten_cons, List.map_cons, this,
      List.append_assoc]

/-- The template argument loop from the first position: the texts separated by
a comma and a space. -/
theorem GetCXTypeName.templateLoop_intercalate (cursor : CXCursor) (texts : List CppString)
    (global_name : CppString)
    (h : ∀ i (h : i < texts.length), templateArgumentText cursor i = some texts[i]) :
    GetCXTypeName.templateLoop (fun argument => some (GetCXTypeName argument)) cursor
        texts.length 0 global_name =
      some (Except.ok (global_name ++ ", ".toList.intercalate texts)) := by
  cases texts with
  | nil => simp [GetCXTypeName.templateLoop, List.intercalate]
  | cons text texts =>
    have h0 := h 0 (by simp)
    simp only [List.getElem_cons_zero] at h0
    rw [List.length_cons, GetCXTypeName.templateLoop_step _ _ _ _ _ h0,
      if_neg (by simp), GetCXTypeName.templateLoop_texts cursor texts 1 _ (by omega)]
    · rw [intercalate_cons, List.append_assoc]
    · intro i hi
      have := h (i + 1) (by simp; omega)
      simp only [List.getElem_cons_succ] at this
      rw [← this]
      congr 1
      omega

/-- The template argument loop throws when an argument still to come has a
kind other than `Type`, `NullPtr` and `Integral`. -/
theorem GetCXTypeName.templateLoop_unsupported (cursor : CXCursor) (remaining : Nat) :
    ∀ (t : Nat) (global_name : CppString),
      (∃ i, i < remaining ∧
        clang_Cursor_getTemplateArgumentKind cursor (t + i) ≠ CXTemplateArgumentKind.Type ∧
        clang_Cursor_getTemplateArgumentKind cursor (t + i) ≠ CXTemplateArgumentKind.NullPtr ∧
        clang_Cursor_getTemplateArgumentKind cursor (t + i)
          ≠ CXTemplateArgumentKind.Integral) →
      ∃ e, GetCXTypeName.templateLoop (fun argument => some (GetCXTypeName argument)) cursor
        remaining t global_name = some (Except.error e) := by
  induction remaining with
  | zero =>
    intro t global_name ⟨i, hi, _⟩
    omega
  | succ remaining ih =>
    intro t global_name ⟨i, hi, h1, h2, h3⟩
    have hlater : ∀ name : CppString, i ≠ 0 →
        ∃ e, GetCXTypeName.templateLoop (fun argument => some (GetCXTypeName argument)) cursor
          remaining (t + 1) name = some (Except.error e) := by
      intro name hne
      apply ih
      refine ⟨i - 1, by omega, ?_⟩
      have hidx : t + 1 + (i - 1) = t + i := by omega
      rw [hidx]
      exact ⟨h1, h2, h3⟩
    have hzero : i = 0 → clang_Cursor_getTemplateArgumentKind cursor t
        = clang_Cursor_getTemplateArgumentKind cursor (t + i) := by
      intro h0; rw [h0, Nat.add_zero]
    rw [GetCXTypeName.templateLoop]
    cases hk : clang_Cursor_getTemplateArgumentKind cursor t <;> simp only []
    all_goals first
      | exact ⟨_, rfl⟩
      | skip
    · by_cases h0 : i = 0
      · exact absurd ((hzero h0).symm.trans hk) h1
      · cases GetCXTypeName (clang_Cursor_getTemplateArgumentType cursor t) with
        | error e => exact ⟨e, rfl⟩
        | ok name => exact hlater _ h0
    · by_cases h0 : i = 0
      · exact absurd ((hzero h0).symm.trans hk) h2
      · exact hlater _ h0
    · by_cases h0 : i = 0
      · exact absurd ((hzero h0).symm.trans hk) h3
      · exact hlater _ h0

/-- The function `GetCXTypeName` from the name of the root: the name between
the left and the right qualifiers when the root has no function-type shape, and
the exception of the name of the root. -/
theorem GetCXTypeName_of_globalName (cx_type : CXType) :
    (∀ global_name,
      GetCXTypeName.globalName (fun argument => some (GetCXTypeName argument))
        (GetCXTypeRoot cx_type) = some (Except.ok global_name) →
      CheckCXType (GetCXTypeRoot cx_type) = Except.ok () →
      GetCXTypeName cx_type = Except.ok
        (leftQualifiers (GetCXTypeRoot cx_type) ++ global_name ++ rightQualifiers cx_type)) ∧
    (∀ e,
      GetCXTypeName.globalName (fun argument => some (GetCXTypeName argument))
        (GetCXTypeRoot cx_type) = some (Except.error e) →
      ∃ e2, GetCXTypeName cx_type = Except.error e2) := by
  have heq := GetCXTypeName_eq cx_type
  simp only [GetCXTypeName.body] at heq
  refine ⟨?_, ?_⟩
  · intro global_name hg hc
    rw [hc] at heq
    simp only [] at heq
    rw [hg] at heq
    simp only [Option.some.injEq] at heq
    rw [heq, lqual_eq, GetCXTypeName.rqualLoop_eq]
    simp
  · intro e hg
    cases hc : CheckCXType (GetCXTypeRoot cx_type) with
    | error e2 =>
      rw [hc] at heq
      simp only [Option.some.injEq] at heq
      exact ⟨e2, heq⟩
    | ok u =>
      rw [hc] at heq
      simp only [] at heq
      rw [hg] at heq
      simp only [Option.some.injEq] at heq
      exact ⟨e, heq⟩

/-- C23: when the declaration of the root of a type reports `n` template
arguments, each with a text (the canonical name of a `Type` argument, `nullptr`
for `NullPtr`, the signed decimal value for `Integral`), the name of the root in
the canonical name is the qualified name of the declaration followed by `<`,
the texts separated by a comma and a space, and `>`; when one of the `n`
arguments has another kind, `GetCXTypeName` throws. -/
theorem GetCXTypeName_template_arguments (cx_type : CXType) (n : Nat)
    (hdecl : clang_isInvalid (clang_getTypeDeclaration (GetCXTypeRoot cx_type)).kind = false)
    (hnum : clang_Cursor_getNumTemplateArguments
      (clang_getTypeDeclaration (GetCXTypeRoot cx_type)) = (n : Int)) :
    (∀ texts : List CppString, texts.length = n →
      (∀ i (h : i < texts.length),
        templateArgumentText (clang_getTypeDeclaration (GetCXTypeRoot cx_type)) i
          = some texts[i]) →
      GetCXTypeName.globalName (fun argument => some (GetCXTypeName argument))
          (GetCXTypeRoot cx_type) =
        some (Except.ok
          (GetCXCursorName (clang_getTypeDeclaration (GetCXTypeRoot cx_type)) ++ ['<'] ++
            ", ".toList.intercalate texts ++ ['>'])) ∧
      (CheckCXType (GetCXTypeRoot cx_type) = Except.ok () →
        GetCXTypeName cx_type = Except.ok
          (leftQualifiers (GetCXTypeRoot cx_type) ++
            (GetCXCursorName (clang_getTypeDeclaration (GetCXTypeRoot cx_type)) ++ ['<'] ++
              ", ".toList.intercalate texts ++ ['>']) ++
            rightQualifiers cx_type))) ∧
    ((∃ i, i < n ∧
        clang_Cursor_getTemplateArgumentKind
          (clang_getTypeDeclaration (GetCXTypeRoot cx_type)) i ≠ CXTemplateArgumentKind.Type ∧
        clang_Cursor_getTemplateArgumentKind
          (clang_getTypeDeclaration (GetCXTypeRoot cx_type)) i
            ≠ CXTemplateArgumentKind.NullPtr ∧
        clang_Cursor_getTemplateArgumentKind
          (clang_getTypeDeclaration (GetCXTypeRoot cx_type)) i
            ≠ CXTemplateArgumentKind.Integral) →
      ∃ e, GetCXTypeName cx_type = Except.error e) := by
  have hvalid : (!clang_isInvalid (clang_getTypeDeclaration (GetCXTypeRoot cx_type)).kind)
      = true := by rw [hdecl]; rfl
  have hnonneg : clang_Cursor_getNumTemplateArguments
      (clang_getTypeDeclaration (GetCXTypeRoot cx_type)) ≥ 0 := by rw [hnum]; omega
  have htoNat : (clang_Cursor_getNumTemplateArguments
      (clang_getTypeDeclaration (GetCXTypeRoot cx_type))).toNat = n := by rw [hnum]; simp
  refine ⟨?_, ?_⟩
  · intro texts hlen htexts
    have hglobal : GetCXTypeName.globalName (fun argument => some (GetCXTypeName argument))
          (GetCXTypeRoot cx_type) =
        some (Except.ok
          (GetCXCursorName (clang_getTypeDeclaration (GetCXTypeRoot cx_type)) ++ ['<'] ++
            ", ".toList.intercalate texts ++ ['>'])) := by
      unfold GetCXTypeName.globalName
      simp only [if_pos hvalid, if_pos hnonneg, htoNat]
      rw [← hlen, GetCXTypeName.templateLoop_intercalate _ texts _ htexts]
    exact ⟨hglobal, fun hc => (GetCXTypeName_of_globalName cx_type).1 _ hglobal hc⟩
  · intro hbad
    obtain ⟨i, hi, hkinds⟩ := hbad
    obtain ⟨e, he⟩ := GetCXTypeName.templateLoop_unsupported
      (clang_getTypeDeclaration (GetCXTypeRoot cx_type)) n 0
      (GetCXCursorName (clang_getTypeDeclaration (GetCXTypeRoot cx_type)) ++ ['<'])
      ⟨i, hi, by simpa using hkinds⟩
    apply (GetCXTypeName_of_globalName cx_type).2 e
    unfold GetCXTypeName.globalName
    simp only [if_pos hvalid, if_pos hnonneg, htoNat]
    rw [he]

theorem GetCXTypeName_template_arguments_witness :
    (clang_isInvalid (clang_getTypeDeclaration
        (GetCXTypeRoot type_Array_int_nullptr_minus4)).kind = false ∧
      clang_Cursor_getNumTemplateArguments
        (clang_getTypeDeclaration (GetCXTypeRoot type_Array_int_nullptr_minus4)) = 3 ∧
      (List.range 3).map (templateArgumentText
        (clang_getTypeDeclaration (GetCXTypeRoot type_Array_int_nullptr_minus4))) =
          [some "int".toList, some "nullptr".toList, some "-4".toList]) ∧
    GetCXTypeName type_Array_int_nullptr_minus4 =
      Except.ok "MyCoolGame::Array<int, nullptr, -4>".toList :=
  ⟨⟨rfl, rfl, by decide⟩,
    ((GetCXTypeName_template_arguments type_Array_int_nullptr_minus4 3 rfl rfl).1
      ["int".toList, "nullptr".toList, "-4".toList] rfl
      (by
        intro i hi
        have hi3 : i < 3 := hi
        interval_cases i <;> rfl)).2 rfl⟩

/-! ## Proofs: the friend window -/

theorem classVisitor.base_friend_decl (cursor : CXCursor) (client client2 : ClassVisitorClient)
    (regs regs2 : Registries) (result : CXChildVisitResult)
    (h : classVisitor.base cursor client regs = Except.ok (result, client2, regs2)) :
    client2.friend_decl = client.friend_decl := by
  unfold classVisitor.base at h
  cases hvis : classVisitor.visibility (clang_getCXXAccessSpecifier cursor)
      "Unexpected access specifier for base specifier" with
  | error e => rw [hvis] at h; simp at h
  | ok visibility =>
    rw [hvis] at h
    simp only [] at h
    split_ifs at h
    simp only [Except.ok.injEq, Prod.mk.injEq] at h
    rw [← h.2.1]

theorem classVisitor.member_friend_decl (member_type : MemberType) (message : String)
    (cursor : CXCursor) (client client2 : ClassVisitorClient)
    (regs regs2 : Registries) (result : CXChildVisitResult)
    (h : classVisitor.member member_type message cursor client regs =
      Except.ok (result, client2, regs2)) :
    client2.friend_decl = client.friend_decl := by
  unfold classVisitor.member at h
  simp only [] at h
  cases hattrs : ParseCXCursorAttributes cursor with
  | error e => rw [hattrs] at h; simp at h
  | ok attrs =>
    rw [hattrs] at h
    simp only [] at h
    by_cases hlen : attrs.length ≠ 0
    · rw [if_pos hlen] at h
      cases hvis : classVisitor.visibility (clang_getCXXAccessSpecifier cursor) message with
      | error e => rw [hvis] at h; simp at h
      | ok visibility =>
        rw [hvis] at h
        simp only [] at h
        cases htype : RegisterType regs.type_nodes (clang_getCursorType cursor) with
        | error e => rw [htype] at h; simp at h
        | ok typed =>
          obtain ⟨type, type_nodes⟩ := typed
          rw [htype] at h
          simp only [Except.ok.injEq, Prod.mk.injEq] at h
          rw [← h.2.1]
    · rw [if_neg hlen] at h
      simp only [Except.ok.injEq, Prod.mk.injEq] at h
      rw [← h.2.1]

theorem classVisitor.function_friend_decl (cursor : CXCursor)
    (client client2 : ClassVisitorClient) (regs regs2 : Registries)
    (result : CXChildVisitResult)
    (h : classVisitor.function cursor client regs = Except.ok (result, client2, regs2)) :
    client2.friend_decl = client.friend_decl := by
  unfold classVisitor.function at h
  simp only [] at h
  cases hattrs : ParseCXCursorAttributes cursor with
  | error e => rw [hattrs] at h; simp at h
  | ok attrs =>
    rw [hattrs] at h
    simp only [] at h
    by_cases hlen : attrs.length ≠ 0
    · rw [if_pos hlen] at h
      cases hvis : classVisitor.visibility (clang_getCXXAccessSpecifier cursor)
          "Unexpected access specifier for function" with
      | error e => rw [hvis] at h; simp at h
      | ok visibility =>
        rw [hvis] at h
        simp only [] at h
        split_ifs at h
        obtain ⟨return_type, type_nodes, -, -, hclient, -⟩ :=
          classVisitor.emplaceMethod_eq_ok _ _ _ _ _ _ _ h
        rw [hclient]
    · rw [if_neg hlen] at h
      simp only [Except.ok.injEq, Prod.mk.injEq] at h
      rw [← h.2.1]

theorem classVisitor.method_friend_decl (cursor : CXCursor)
    (client client2 : ClassVisitorClient) (regs regs2 : Registries)
    (result : CXChildVisitResult)
    (h : classVisitor.method cursor client regs = Except.ok (result, client2, regs2)) :
    client2.friend_decl = client.friend_decl := by
  unfold classVisitor.method at h
  simp only [] at h
  cases hattrs : ParseCXCursorAttributes cursor with
  | error e => rw [hattrs] at h; simp at h
  | ok attrs =>
    rw [hattrs] at h
    simp only [] at h
    by_cases hlen : attrs.length ≠ 0
    · rw [if_pos hlen] at h
      cases hvis : classVisitor.visibility (clang_getCXXAccessSpecifier cursor)
          "Unexpected access specifier for method" with
      | error e => rw [hvis] at h; simp at h
      | ok visibility =>
        rw [hvis] at h
        simp only [] at h
        cases hstorage : classVisitor.methodType (clang_Cursor_getStorageClass cursor) with
        | error e => rw [hstorage] at h; simp at h
        | ok method_type =>
          rw [hstorage] at h
          simp only [] at h
          obtain ⟨return_type, type_nodes, -, -, hclient, -⟩ :=
            classVisitor.emplaceMethod_eq_ok _ _ _ _ _ _ _ h
          rw [hclient]
    · rw [if_neg hlen] at h
      simp only [Except.ok.injEq, Prod.mk.injEq] at h
      rw [← h.2.1]

theorem classVisitor.parameter_friend_decl (cursor : CXCursor)
    (client client2 : ClassVisitorClient) (regs regs2 : Registries)
    (result : CXChildVisitResult)
    (h : classVisitor.parameter cursor client regs = Except.ok (result, client2, regs2)) :
    client2.friend_decl = client.friend_decl := by
  unfold classVisitor.parameter at h
  cases hcur : client.current_method with
  | none => rw [hcur] at h; simp at h
  | some index =>
    rw [hcur] at h
    simp only [] at h
    cases htype : RegisterType regs.type_nodes (clang_getCursorType cursor) with
    | error e => rw [htype] at h; simp at h
    | ok typed =>
      obtain ⟨type, type_nodes⟩ := typed
      rw [htype] at h
      simp only [] at h
      cases hattrs : ParseCXCursorAttributes cursor with
      | error e => rw [hattrs] at h; simp at h
      | ok attrs =>
        rw [hattrs] at h
        simp only [Except.ok.injEq, Prod.mk.injEq] at h
        rw [← h.2.1]

/-- The counter `friend_decl` after one call of the class visitor: 2 after a
`FriendDecl` cursor, and otherwise what the decrement that opens the visitor
left. -/
theorem classVisitor_friend_decl
    (registerClass : Registries → Except String (CppString × Registries))
    (cursor : CXCursor) (client client2 : ClassVisitorClient)
    (regs regs2 : Registries) (result : CXChildVisitResult)
    (h : classVisitor registerClass cursor (client, regs) =
      Except.ok (result, client2, regs2)) :
    client2.friend_decl =
      if cursor.kind = CXCursorKind.FriendDecl then 2
      else (classVisitor.friendTick client).friend_decl := by
  unfold classVisitor at h
  simp only [] at h
  split_ifs at h with h1 h2 h3 h4 h5 h6 h7 h8 h9
  · rw [if_neg (by rw [h1]; decide)]
    exact classVisitor.base_friend_decl _ _ _ _ _ _ h
  · rw [if_neg (by rcases h2 with h2 | h2 <;> rw [h2] <;> decide)]
    cases hcall : registerClass regs with
    | error e => rw [hcall] at h; simp at h
    | ok returned =>
      obtain ⟨name, regs1⟩ := returned
      rw [hcall] at h
      simp only [Except.ok.injEq, Prod.mk.injEq] at h
      rw [← h.2.1]
  · rw [if_neg (by rw [h3]; decide)]
    cases hcall : RegisterEnum regs.enum_nodes cursor with
    | error e => rw [hcall] at h; simp at h
    | ok returned =>
      obtain ⟨name, enum_nodes⟩ := returned
      rw [hcall] at h
      simp only [Except.ok.injEq, Prod.mk.injEq] at h
      rw [← h.2.1]
  · rw [if_neg (by rw [h4]; decide)]
    exact classVisitor.member_friend_decl _ _ _ _ _ _ _ _ h
  · rw [if_neg (by rw [h5]; decide)]
    exact classVisitor.member_friend_decl _ _ _ _ _ _ _ _ h
  · rw [if_neg (by rw [h6]; decide)]
    exact classVisitor.function_friend_decl _ _ _ _ _ _ h
  · rw [if_neg (by rw [h7]; decide)]
    exact classVisitor.method_friend_decl _ _ _ _ _ _ h
  · rw [if_neg (by rw [h8]; decide)]
    exact classVisitor.parameter_friend_decl _ _ _ _ _ _ h
  · rw [if_pos h9]
    simp only [Except.ok.injEq, Prod.mk.injEq] at h
    rw [← h.2.1]
  · rw [if_neg h9]
    simp only [Except.ok.injEq, Prod.mk.injEq] at h
    rw [← h.2.1]

/-- The class visitor on a `FriendDecl` cursor sets the counter to 2 and visits
the children. -/
theorem classVisitor_FriendDecl
    (registerClass : Registries → Except String (CppString × Registries))
    (cursor : CXCursor) (client : ClassVisitorClient) (regs : Registries)
    (hkind : cursor.kind = CXCursorKind.FriendDecl) :
    classVisitor registerClass cursor (client, regs) =
      Except.ok (CXChildVisitResult.Recurse,
        { classVisitor.friendTick client with friend_decl := 2 }, regs) := by
  unfold classVisitor
  simp [hkind]

/-- C26, as the code has it: after a `FriendDecl` cursor is visited the friend
context is active for the next cursor visited and for no other.  The visit of
the `FriendDecl` cursor leaves the counter at 2; a `FunctionDecl` cursor with
attributes and a valid access specifier visited right after it is recorded as
`Friend`; when another cursor, no `FriendDecl`, is visited in between, the
visitor throws "FunctionDecl in class without FriendDecl" on the `FunctionDecl`
cursor. -/
theorem classVisitor_friend_window
    (registerClass : Registries → Except String (CppString × Registries))
    (friend_cursor function_cursor : CXCursor) (client : ClassVisitorClient)
    (regs : Registries) (attrs : List LeonAttr)
    (hfriend : friend_cursor.kind = CXCursorKind.FriendDecl)
    (hkind : function_cursor.kind = CXCursorKind.FunctionDecl)
    (hattrs : ParseCXCursorAttributes function_cursor = Except.ok attrs) (hne : attrs ≠ [])
    (haccess : clang_getCXXAccessSpecifier function_cursor ≠
      CX_CXXAccessSpecifier.CX_CXXInvalidAccessSpecifier) :
    ∃ client1,
      classVisitor registerClass friend_cursor (client, regs) =
        Except.ok (CXChildVisitResult.Recurse, client1, regs) ∧
      client1.friend_decl = 2 ∧ client1.node = client.node ∧
      (∀ return_type type_nodes,
        RegisterType regs.type_nodes (clang_getCursorResultType function_cursor) =
          Except.ok (return_type, type_nodes) →
        classVisitor registerClass function_cursor (client1, regs) =
          Except.ok (CXChildVisitResult.Recurse,
            { node := { client.node with
                methods := client.node.methods ++
                  [{ name := function_cursor.spelling
                     method_type := MethodType.Friend
                     attrs := attrs
                     visibility :=
                       accessVisibility (clang_getCXXAccessSpecifier function_cursor)
                     return_type := return_type }] }
              friend_decl := 1
              current_method := some client.node.methods.length },
            { regs with type_nodes := type_nodes })) ∧
      (∀ (other : CXCursor) (result : CXChildVisitResult) (client2 : ClassVisitorClient)
          (regs2 : Registries),
        other.kind ≠ CXCursorKind.FriendDecl →
        classVisitor registerClass other (client1, regs) =
          Except.ok (result, client2, regs2) →
        classVisitor registerClass function_cursor (client2, regs2) =
          Except.error "FunctionDecl in class without FriendDecl") := by
  have hlen : attrs.length ≠ 0 := fun h => hne (List.length_eq_zero.mp h)
  have hvis := classVisitor.visibility_valid (clang_getCXXAccessSpecifier function_cursor)
    "Unexpected access specifier for function" haccess
  have hbranch : ∀ (state : ClassVisitorClient) (registries : Registries),
      classVisitor registerClass function_cursor (state, registries) =
      if (classVisitor.friendTick state).friend_decl ≠ 0 then
        classVisitor.emplaceMethod function_cursor
          { name := function_cursor.spelling, attrs := attrs,
            visibility := accessVisibility (clang_getCXXAccessSpecifier function_cursor),
            method_type := MethodType.Friend }
          (classVisitor.friendTick state) registries
      else Except.error "FunctionDecl in class without FriendDecl" := by
    intro state registries
    rw [classVisitor_FunctionDecl _ _ _ _ hkind]
    unfold classVisitor.function
    simp only [hattrs, if_pos hlen, hvis]
  refine ⟨{ classVisitor.friendTick client with friend_decl := 2 },
    classVisitor_FriendDecl _ _ _ _ hfriend, rfl, classVisitor.friendTick_node client, ?_, ?_⟩
  · intro return_type type_nodes htype
    rw [hbranch]
    have htick : classVisitor.friendTick
        { classVisitor.friendTick client with friend_decl := 2 } =
        { classVisitor.friendTick client with friend_decl := 1 } := rfl
    rw [htick, if_pos (by show (1 : Nat) ≠ 0; decide)]
    simp only [classVisitor.emplaceMethod, htype, classVisitor.friendTick_node]
  · intro other result client2 regs2 hother hvisit
    have hcount := classVisitor_friend_decl _ _ _ _ _ _ _ hvisit
    rw [if_neg hother] at hcount
    have hone : client2.friend_decl = 1 := hcount
    have hzero : (classVisitor.friendTick client2).friend_decl = 0 := by
      unfold classVisitor.friendTick
      rw [if_pos (by rw [hone]; decide)]
      show client2.friend_decl - 1 = 0
      rw [hone]
    rw [hbranch, if_neg (by rw [hzero]; exact fun h => h rfl)]

theorem classVisitor_friend_window_witness :
    ((CXCursor.mk CXCursorKind.FriendDecl [] [] none {} [Friend_cursor]).kind =
        CXCursorKind.FriendDecl ∧
      Friend_cursor.kind = CXCursorKind.FunctionDecl ∧
      ParseCXCursorAttributes Friend_cursor = Except.ok [{ type := LeonAttrType.Flag }] ∧
      clang_getCXXAccessSpecifier Friend_cursor = CX_CXXAccessSpecifier.CX_CXXPublic) ∧
    RegisterClass {} FriendHost_cursor =
      Except.ok ("MyCoolGame::Component::FriendHost".toList, registries_FriendHost) ∧
    ∃ client1,
      classVisitor (fun regs => Except.ok ([], regs))
          (CXCursor.mk CXCursorKind.FriendDecl [] [] none {} [Friend_cursor]) ({}, {}) =
        Except.ok (CXChildVisitResult.Recurse, client1, {}) ∧
      client1.friend_decl = 2 ∧ client1.node = ({} : ClassVisitorClient).node ∧
      (∀ return_type type_nodes,
        RegisterType ({} : Registries).type_nodes (clang_getCursorResultType Friend_cursor) =
          Except.ok (return_type, type_nodes) →
        classVisitor (fun regs => Except.ok ([], regs)) Friend_cursor (client1, {}) =
          Except.ok (CXChildVisitResult.Recurse,
            { node := { ({} : ClassVisitorClient).node with
                methods := ({} : ClassVisitorClient).node.methods ++
                  [{ name := Friend_cursor.spelling
                     method_type := MethodType.Friend
                     attrs := [{ type := LeonAttrType.Flag }]
                     visibility :=
                       accessVisibility (clang_getCXXAccessSpecifier Friend_cursor)
                     return_type := return_type }] }
              friend_decl := 1
              current_method := some ({} : ClassVisitorClient).node.methods.length },
            { ({} : Registries) with type_nodes := type_nodes })) ∧
      (∀ (other : CXCursor) (result : CXChildVisitResult) (client2 : ClassVisitorClient)
          (regs2 : Registries),
        other.kind ≠ CXCursorKind.FriendDecl →
        classVisitor (fun regs => Except.ok ([], regs)) other (client1, {}) =
          Except.ok (result, client2, regs2) →
        classVisitor (fun regs => Except.ok ([], regs)) Friend_cursor (client2, regs2) =
          Except.error "FunctionDecl in class without FriendDecl") :=
  ⟨⟨rfl, rfl, rfl, rfl⟩, rfl,
    classVisitor_friend_window (fun regs => Except.ok ([], regs))
      (CXCursor.mk CXCursorKind.FriendDecl [] [] none {} [Friend_cursor]) Friend_cursor {} {}
      [{ type := LeonAttrType.Flag }] rfl rfl rfl (by decide) (by decide)⟩

/-- The friend function as the second cursor visited after the `FriendDecl`
cursor: `RegisterClass` throws. -/
theorem friend_window_second_cursor_rejected :
    RegisterClass {} FriendSecond_cursor =
      Except.error "FunctionDecl in class without FriendDecl" := rfl

/-! ## Proofs: the function registry -/

/-- One call of the function visitor: the name, the attributes and the return
type of the node stay; a `ParmDecl` appends one argument with the spelling of
the cursor and is not descended into, every other cursor changes nothing and
is descended into. -/
theorem functionVisitor_spec (cursor : CXCursor)
    (state state2 : FunctionNode × UnorderedMap TypeNode) (result : CXChildVisitResult)
    (h : functionVisitor cursor state = Except.ok (result, state2)) :
    state2.1.name = state.1.name ∧ state2.1.return_type = state.1.return_type ∧
    (cursor.kind = CXCursorKind.ParmDecl → result = CXChildVisitResult.Continue ∧
      state2.1.args.map (fun arg => arg.name) =
        state.1.args.map (fun arg => arg.name) ++ [cursor.spelling]) ∧
    (cursor.kind ≠ CXCursorKind.ParmDecl → result = CXChildVisitResult.Recurse ∧
      state2 = state) := by
  unfold functionVisitor at h
  split_ifs at h with hkind
  · cases htype : RegisterType state.2 (clang_getCursorType cursor) with
    | error e => rw [htype] at h; simp at h
    | ok typed =>
      obtain ⟨type, type_nodes⟩ := typed
      rw [htype] at h
      simp only [] at h
      cases hattrs : ParseCXCursorAttributes cursor with
      | error e => rw [hattrs] at h; simp at h
      | ok attrs =>
        rw [hattrs] at h
        simp only [Except.ok.injEq, Prod.mk.injEq] at h
        rw [← h.2, ← h.1]
        refine ⟨rfl, rfl, fun _ => ⟨rfl, ?_⟩, fun hne => absurd hkind hne⟩
        simp only [List.map_append, List.map_cons, List.map_nil]
  · simp only [Except.ok.injEq, Prod.mk.injEq] at h
    rw [← h.2, ← h.1]
    exact ⟨rfl, rfl, fun hk => absurd hk hkind, fun _ => ⟨rfl, rfl⟩⟩

theorem visitedParmDecls_ParmDecl (cursor : CXCursor)
    (h : cursor.kind = CXCursorKind.ParmDecl) : visitedParmDecls cursor = [cursor] := by
  obtain ⟨kind, spelling, parents, evaluate, info, children⟩ := cursor
  have hk : kind = CXCursorKind.ParmDecl := h
  simp only [visitedParmDecls, if_pos hk]

theorem visitedParmDecls_other (cursor : CXCursor)
    (h : cursor.kind ≠ CXCursorKind.ParmDecl) :
    visitedParmDecls cursor = visitedParmDeclsList cursor.children := by
  obtain ⟨kind, spelling, parents, evaluate, info, children⟩ := cursor
  have hk : ¬kind = CXCursorKind.ParmDecl := h
  simp only [visitedParmDecls, if_neg hk, CXCursor.children]

/-- The traversal of `RegisterFunction` is not broken off, keeps the name and
the return type of the node and appends one argument for each visited
`ParmDecl`, in the order of the visit, named by the spelling of the cursor. -/
theorem functionVisitor_visitChildrenList :
    ∀ children (state state2 : FunctionNode × UnorderedMap TypeNode) (stopped : Bool),
      visitChildrenList functionVisitor children state = Except.ok (stopped, state2) →
      state2.1.name = state.1.name ∧ state2.1.return_type = state.1.return_type ∧
      state2.1.args.map (fun arg => arg.name) =
        state.1.args.map (fun arg => arg.name) ++
          (visitedParmDeclsList children).map (fun parm => parm.spelling) := by
  refine (CXCursor.tree_induction
    (fun cursor => ∀ (state state2 : FunctionNode × UnorderedMap TypeNode) (stopped : Bool),
      visitCursor functionVisitor cursor state = Except.ok (stopped, state2) →
      stopped = false ∧
      state2.1.name = state.1.name ∧ state2.1.return_type = state.1.return_type ∧
      state2.1.args.map (fun arg => arg.name) =
        state.1.args.map (fun arg => arg.name) ++
          (visitedParmDecls cursor).map (fun parm => parm.spelling))
    (fun children => ∀ (state state2 : FunctionNode × UnorderedMap TypeNode) (stopped : Bool),
      visitChildrenList functionVisitor children state = Except.ok (stopped, state2) →
      stopped = false ∧
      state2.1.name = state.1.name ∧ state2.1.return_type = state.1.return_type ∧
      state2.1.args.map (fun arg => arg.name) =
        state.1.args.map (fun arg => arg.name) ++
          (visitedParmDeclsList children).map (fun parm => parm.spelling))
    ?_ ?_ ?_).2 |> fun hall children state state2 stopped h => (hall children state state2 stopped h).2
  · intro kind spelling parents evaluate info children ih state state2 stopped h
    simp only [visitCursor] at h
    cases hv : functionVisitor (CXCursor.mk kind spelling parents evaluate info children)
        state with
    | error e => rw [hv] at h; simp at h
    | ok result =>
      obtain ⟨answer, state1⟩ := result
      obtain ⟨hname, hret, hparm, hother⟩ := functionVisitor_spec _ _ _ _ hv
      rw [hv] at h
      by_cases hkind : kind = CXCursorKind.ParmDecl
      · obtain ⟨hanswer, hargs⟩ := hparm hkind
        subst hanswer
        simp only [Except.ok.injEq, Prod.mk.injEq] at h
        rw [← h.2, ← h.1,
          visitedParmDecls_ParmDecl (CXCursor.mk kind spelling parents evaluate info children) hkind]
        exact ⟨rfl, hname, hret, hargs⟩
      · obtain ⟨hanswer, hstate⟩ := hother hkind
        subst hanswer
        subst hstate
        rw [visitedParmDecls_other (CXCursor.mk kind spelling parents evaluate info children)
          hkind]
        exact ih _ _ _ h
  · intro state state2 stopped h
    simp only [visitChildrenList, Except.ok.injEq, Prod.mk.injEq] at h
    rw [← h.2, ← h.1]
    simp [visitedParmDeclsList]
  · intro cursor siblings ihc ihs state state2 stopped h
    simp only [visitChildrenList] at h
    cases hv : visitCursor functionVisitor cursor state with
    | error e => rw [hv] at h; simp at h
    | ok result =>
      obtain ⟨flag, state1⟩ := result
      obtain ⟨hflag, hname, hret, hargs⟩ := ihc _ _ _ hv
      subst hflag
      rw [hv] at h
      obtain ⟨hstop, hname2, hret2, hargs2⟩ := ihs _ _ _ h
      refine ⟨hstop, hname2.trans hname, hret2.trans hret, ?_⟩
      rw [hargs2, hargs]
      simp only [visitedParmDeclsList, List.map_append, List.append_assoc]

/-- A successful `RegisterFunction` call on a cursor with attributes whose name
is not a key of the class registry stores a node under the name of the cursor:
the node holds that name, the attributes, the key of the registered return
type and one argument for each visited `ParmDecl`, in the order of the visit. -/
theorem RegisterFunction_stores_node (regs regs2 : Registries) (cursor : CXCursor)
    (name : CppString) (attrs : List LeonAttr)
    (h : RegisterFunction regs cursor = Except.ok (name, regs2))
    (hattrs : ParseCXCursorAttributes cursor = Except.ok attrs) (hne : attrs ≠ [])
    (hclass : regs.class_nodes.find (GetCXCursorName cursor) = none) :
    name = GetCXCursorName cursor ∧
    ∃ node return_type type_nodes,
      regs2.function_nodes.find name = some node ∧
      node.name = name ∧ node.attrs = attrs ∧
      RegisterType regs.type_nodes (clang_getCursorResultType cursor) =
        Except.ok (return_type, type_nodes) ∧
      node.return_type = return_type ∧
      node.args.map (fun arg => arg.name) =
        (visitedParmDeclsList cursor.children).map (fun parm => parm.spelling) := by
  unfold RegisterFunction at h
  simp only [] at h
  rw [hclass] at h
  simp only [] at h
  rw [hattrs] at h
  simp only [] at h
  have hlen : attrs.length ≠ 0 := fun h0 => hne (List.length_eq_zero.mp h0)
  rw [if_pos hlen] at h
  cases htype : RegisterType regs.type_nodes (clang_getCursorResultType cursor) with
  | error e => rw [htype] at h; simp at h
  | ok typed =>
    obtain ⟨return_type, type_nodes⟩ := typed
    rw [htype] at h
    simp only [] at h
    cases hvisit : clang_visitChildren cursor functionVisitor
        ({ name := GetCXCursorName cursor, attrs := attrs, return_type := return_type },
          type_nodes) with
    | error e => rw [hvisit] at h; simp at h
    | ok visited =>
      obtain ⟨node, type_nodes2⟩ := visited
      rw [hvisit] at h
      simp only [Except.ok.injEq, Prod.mk.injEq] at h
      unfold clang_visitChildren at hvisit
      cases hlist : visitChildrenList functionVisitor cursor.children
          ({ name := GetCXCursorName cursor, attrs := attrs,
             return_type := return_type }, type_nodes) with
      | error e => rw [hlist] at hvisit; simp at hvisit
      | ok result =>
        obtain ⟨stopped, state3⟩ := result
        rw [hlist] at hvisit
        simp only [Except.ok.injEq] at hvisit
        have hattrs2 := visitChildrenList_preserves functionVisitor
          (fun state => state.1.attrs = attrs)
          (fun c s r s2 hJ hv => (functionVisitor_attrs c s s2 r hv).trans hJ)
          _ _ _ _ rfl hlist
        obtain ⟨hname, hret, hargs⟩ := functionVisitor_visitChildrenList _ _ _ _ hlist
        rw [hvisit] at hattrs2 hname hret hargs
        simp only [List.map_nil, List.nil_append] at hargs
        refine ⟨h.1.symm, node, return_type, type_nodes, ?_, ?_, hattrs2, rfl, hret, hargs⟩
        · rw [← h.2, ← h.1]
          exact UnorderedMap.find_assign_self _ _ _
        · rw [← h.1]; exact hname

/-- The function `Function` of `Tests/General/Source/AppleComponent.h`,
registered into empty registries: one argument, named `inner`, of the type
`const MyCoolGame::Structure::InnerStruct &`. -/
theorem RegisterFunction_Function_cursor :
    ∃ regs1,
      RegisterFunction {} Function_cursor = Except.ok ("MyCoolGame::Function".toList, regs1) ∧
      regs1.function_nodes.find "MyCoolGame::Function".toList = some
        { name := "MyCoolGame::Function".toList
          attrs := [{ type := LeonAttrType.Flag }]
          return_type := "void".toList
          args := [{ type := "const MyCoolGame::Structure::InnerStruct &".toList,
                     name := "inner".toList }] } :=
  ⟨_, rfl, by decide⟩
/-! ## Proofs: registrations under a key that is taken -/

/-- C27: a second `RegisterFunction` call on a function whose key is in the
function registry replaces the stored node: after the declaration `void LEON
Twice(int first)` and the definition `void LEON Twice(int second) { }` the
argument of the stored node is `second`, not `first`. -/
theorem RegisterFunction_replaces_stored_node :
    ∃ regs1 regs2,
      RegisterFunction {} Twice_declaration_cursor =
        Except.ok ("MyCoolGame::Twice".toList, regs1) ∧
      regs1.function_nodes.find "MyCoolGame::Twice".toList = some
        { name := "MyCoolGame::Twice".toList
          attrs := [{ type := LeonAttrType.Flag }]
          return_type := "void".toList
          args := [{ type := "int".toList, name := "first".toList }] } ∧
      RegisterFunction regs1 Twice_definition_cursor =
        Except.ok ("MyCoolGame::Twice".toList, regs2) ∧
      regs2.function_nodes.find "MyCoolGame::Twice".toList = some
        { name := "MyCoolGame::Twice".toList
          attrs := [{ type := LeonAttrType.Flag }]
          return_type := "void".toList
          args := [{ type := "int".toList, name := "second".toList }] } :=
  ⟨_, _, rfl, by decide, rfl, by decide⟩

/-- C24: `RegisterFunction` on the annotated function `Shadow`, called when the
class registry holds the class `Shadow` of the same qualified name, returns
the name and stores nothing: the function registry has no entry for it. -/
theorem RegisterFunction_skips_name_of_class :
    ∃ regs1,
      RegisterClass {} Shadow_class_cursor = Except.ok ("MyCoolGame::Shadow".toList, regs1) ∧
      ParseCXCursorAttributes Shadow_function_cursor =
        Except.ok [{ type := LeonAttrType.Flag }] ∧
      RegisterFunction regs1 Shadow_function_cursor =
        Except.ok ("MyCoolGame::Shadow".toList, regs1) ∧
      regs1.function_nodes.find "MyCoolGame::Shadow".toList = none :=
  ⟨_, rfl, rfl, rfl, rfl⟩

/-- C28: in the class `Widget` the parameter `height` of the constructor, which
follows the method `Resize`, is appended to the arguments of `Resize`. -/
theorem RegisterClass_appends_constructor_parameter :
    ∃ regs1,
      RegisterClass {} Widget_cursor = Except.ok ("MyCoolGame::Widget".toList, regs1) ∧
      (regs1.class_nodes.find "MyCoolGame::Widget".toList).map (fun node => node.methods) =
        some
          [{ name := "Resize".toList
             method_type := MethodType.Method
             attrs := [{ type := LeonAttrType.Flag }]
             visibility := Visibility.Public
             return_type := "void".toList
             args := [{ type := "int".toList, name := "width".toList },
                      { type := "int".toList, name := "height".toList }] }] :=
  ⟨_, rfl, by decide⟩

/-! ## Proofs: the top-level visitor -/

/-- The nested struct and the nested enum of `Plain` are registered when the
registration functions are called on them. -/
theorem Plain_nested_registered :
    (∃ regs, RegisterClass {} Plain_Inner_cursor =
        Except.ok ("MyCoolGame::Plain::Inner".toList, regs) ∧
      (regs.class_nodes.find "MyCoolGame::Plain::Inner".toList).isSome = true) ∧
    (∃ name enum_nodes, RegisterEnum UnorderedMap.empty Plain_Kind_cursor =
        Except.ok (name, enum_nodes) ∧
      (enum_nodes.find "MyCoolGame::Plain::Kind".toList).isSome = true) :=
  ⟨⟨_, rfl, rfl⟩, ⟨_, _, rfl, rfl⟩⟩

/-! ## Proofs: registrations of a key that is taken, classes -/

/-- The function `RegisterClass` on a cursor whose name is a key of the class
registry returns the name and the registries as they were. -/
theorem RegisterClass_of_registered (regs : Registries) (cursor : CXCursor)
    (node : ClassNode) (h : regs.class_nodes.find (GetCXCursorName cursor) = some node) :
    RegisterClass regs cursor = Except.ok (GetCXCursorName cursor, regs) := by
  unfold RegisterClass RegisterClass.run
  simp only [h]

/-! ## Proofs: the attribute table of the bridge -/

theorem c_str_of_not_mem (s : CppString) (h : Char.ofNat 0 ∉ s) : c_str s = s := by
  unfold c_str
  rw [List.takeWhile_eq_self_iff]
  intro c hc
  have hne : c ≠ Char.ofNat 0 := fun heq => h (heq ▸ hc)
  simpa using hne

/-- The loop of `ConstructLuaAttributes` from a table: the lookup of a key
afterwards. -/
theorem ConstructLuaAttributes.loop_find (attrs : List LeonAttr) (key : CppString) :
    ∀ table : UnorderedMap CppString,
      (attrs.foldl
        (fun table i =>
          if i.type = LeonAttrType.KeyValue then table.assign (c_str i.kv.1) (c_str i.kv.2)
          else table) table).find key =
      match (attrs.filter
          (fun i => i.type = LeonAttrType.KeyValue ∧ c_str i.kv.1 = key)).getLast? with
      | some i => some (c_str i.kv.2)
      | none => table.find key := by
  induction attrs with
  | nil => intro table; rfl
  | cons i attrs ih =>
    intro table
    rw [List.foldl_cons, ih]
    by_cases hi : i.type = LeonAttrType.KeyValue ∧ c_str i.kv.1 = key
    · have hfilter : (i :: attrs).filter
          (fun i => decide (i.type = LeonAttrType.KeyValue ∧ c_str i.kv.1 = key)) =
          i :: attrs.filter
            (fun i => decide (i.type = LeonAttrType.KeyValue ∧ c_str i.kv.1 = key)) :=
        List.filter_cons_of_pos (by simpa using hi)
      rw [hfilter, List.getLast?_cons]
      cases hlast : (attrs.filter
          (fun i => decide (i.type = LeonAttrType.KeyValue ∧ c_str i.kv.1 = key))).getLast? with
      | some j => rfl
      | none =>
        simp only [Option.getD_none]
        rw [if_pos hi.1, ← hi.2, UnorderedMap.find_assign_self]
    · have hfilter : (i :: attrs).filter
          (fun i => decide (i.type = LeonAttrType.KeyValue ∧ c_str i.kv.1 = key)) =
          attrs.filter
            (fun i => decide (i.type = LeonAttrType.KeyValue ∧ c_str i.kv.1 = key)) :=
        List.filter_cons_of_neg (by simpa using hi)
      rw [hfilter]
      cases hlast : (attrs.filter
          (fun i => decide (i.type = LeonAttrType.KeyValue ∧ c_str i.kv.1 = key))).getLast? with
      | some j => rfl
      | none =>
        simp only []
        by_cases hty : i.type = LeonAttrType.KeyValue
        · rw [if_pos hty]
          exact UnorderedMap.find_assign_ne _ _ _ _ (fun heq => hi ⟨hty, heq.symm⟩)
        · rw [if_neg hty]

/-- The lookup of a key in the table of `ConstructLuaAttributes`: the value, as
a C string, of the last `KeyValue` attribute whose key, as a C string, is the
key looked up. -/
theorem ConstructLuaAttributes_find (attrs : List LeonAttr) (key : CppString) :
    (ConstructLuaAttributes attrs).find key =
      ((attrs.filter
        (fun i => i.type = LeonAttrType.KeyValue ∧ c_str i.kv.1 = key)).getLast?).map
        (fun i => c_str i.kv.2) := by
  unfold ConstructLuaAttributes
  rw [ConstructLuaAttributes.loop_find]
  cases (attrs.filter
      (fun i => decide (i.type = LeonAttrType.KeyValue ∧ c_str i.kv.1 = key))).getLast? with
  | some i => rfl
  | none => exact UnorderedMap.find_empty key

/-- A list without `KeyValue` attributes gives the empty table. -/
theorem ConstructLuaAttributes_of_flags (attrs : List LeonAttr)
    (h : ∀ i ∈ attrs, i.type ≠ LeonAttrType.KeyValue) :
    ConstructLuaAttributes attrs = UnorderedMap.empty := by
  unfold ConstructLuaAttributes
  generalize (UnorderedMap.empty : UnorderedMap CppString) = table
  induction attrs generalizing table with
  | nil => rfl
  | cons i attrs ih =>
    rw [List.foldl_cons, if_neg (h i (List.mem_cons_self _ _))]
    exact ih (fun j hj => h j (List.mem_cons_of_mem _ hj)) table

/-- C30, as the code has it: the table of `ConstructLuaAttributes` maps a key
to the value, cut before its first zero byte, of the last `KeyValue` attribute
whose key, cut before its first zero byte, is that key; for attributes whose
keys and values hold no zero byte that is the spec's table, key → value with
the later attribute overriding the earlier; and a list without `KeyValue`
attributes gives the empty table. -/
theorem ConstructLuaAttributes_table (attrs : List LeonAttr) :
    (∀ key, (ConstructLuaAttributes attrs).find key =
      ((attrs.filter
        (fun i => i.type = LeonAttrType.KeyValue ∧ c_str i.kv.1 = key)).getLast?).map
        (fun i => c_str i.kv.2)) ∧
    ((∀ i ∈ attrs, Char.ofNat 0 ∉ i.kv.1 ∧ Char.ofNat 0 ∉ i.kv.2) →
      ∀ key, (ConstructLuaAttributes attrs).find key = specAttributeTable attrs key) ∧
    ((∀ i ∈ attrs, i.type ≠ LeonAttrType.KeyValue) →
      ConstructLuaAttributes attrs = UnorderedMap.empty) := by
  refine ⟨ConstructLuaAttributes_find attrs, ?_, ConstructLuaAttributes_of_flags attrs⟩
  intro hzero key
  rw [ConstructLuaAttributes_find]
  unfold specAttributeTable
  have hfilter : attrs.filter
      (fun i => decide (i.type = LeonAttrType.KeyValue ∧ c_str i.kv.1 = key)) =
      attrs.filter (fun i => decide (i.type = LeonAttrType.KeyValue ∧ i.kv.1 = key)) := by
    apply List.filter_congr
    intro i hi
    rw [c_str_of_not_mem _ (hzero i hi).1]
  rw [hfilter]
  cases hlast : (attrs.filter
      (fun i => decide (i.type = LeonAttrType.KeyValue ∧ i.kv.1 = key))).getLast? with
  | none => rfl
  | some i =>
    have hmem : i ∈ attrs :=
      (List.mem_filter.mp (List.mem_of_getLast?_eq_some hlast)).1
    simp only [Option.map_some']
    rw [c_str_of_not_mem _ (hzero i hmem).2]

theorem ConstructLuaAttributes_table_witness :
    (ConstructLuaAttributes
      [{ type := LeonAttrType.KeyValue, kv := ("type".toList, "engine".toList) },
        { type := LeonAttrType.Flag },
        { type := LeonAttrType.KeyValue, kv := ("type".toList, "game".toList) }]).find
        "type".toList = some "game".toList ∧
    ConstructLuaAttributes [{ type := LeonAttrType.Flag }] = UnorderedMap.empty :=
  ⟨((ConstructLuaAttributes_table
      [{ type := LeonAttrType.KeyValue, kv := ("type".toList, "engine".toList) },
        { type := LeonAttrType.Flag },
        { type := LeonAttrType.KeyValue, kv := ("type".toList, "game".toList) }]).2.1
      (by decide) "type".toList).trans (by decide),
    (ConstructLuaAttributes_table [{ type := LeonAttrType.Flag }]).2.2 (by decide)⟩

/-- The attribute parsed from the annotation of `LEON_KV("k\0x", "v")` has the
key `k`, a zero byte, `x`; the table holds the value under the key `k` and has
no entry under the key of the attribute, where the spec's table has one. -/
theorem ConstructLuaAttributes_cuts_key_at_zero :
    ParseAttribute "@leonkv \"k\\0x\" \"v\"".toList =
      Except.ok { type := LeonAttrType.KeyValue,
                  kv := (['k', Char.ofNat 0, 'x'], "v".toList) } ∧
    (ConstructLuaAttributes
      [{ type := LeonAttrType.KeyValue, kv := (['k', Char.ofNat 0, 'x'], "v".toList) }]).find
        ['k', Char.ofNat 0, 'x'] = none ∧
    (ConstructLuaAttributes
      [{ type := LeonAttrType.KeyValue, kv := (['k', Char.ofNat 0, 'x'], "v".toList) }]).find
        "k".toList = some "v".toList ∧
    specAttributeTable
      [{ type := LeonAttrType.KeyValue, kv := (['k', Char.ofNat 0, 'x'], "v".toList) }]
        ['k', Char.ofNat 0, 'x'] = some "v".toList ∧
    specAttributeTable
      [{ type := LeonAttrType.KeyValue, kv := (['k', Char.ofNat 0, 'x'], "v".toList) }]
        "k".toList = none := by
  refine ⟨rfl, by decide, by decide, by decide, by decide⟩

end Parse
end Leon
